import Mathlib

/-!
# tes-scheduler: a shallow embedding of the scheduling core

Source files embedded here:

* `pkg/consts/consts.go`              (the task states, the views, the page sizes)
* `pkg/scheduler/models/task.go`      (TaskInfo, Resources, GPUResource, BioosInfo)
* `pkg/scheduler/cache/task.go`       (data.addTask / updateTask / deleteTask, ListTasks,
  ListScheduledTasks, ListTaskClusterIDs, UpdateTask, isFinished, listTasks, syncTasks,
  clientTaskToTaskInfo)
* `pkg/scheduler/plugin/plugin.go`    (the four plugin interfaces, MinScore, MaxScore)
* `pkg/scheduler/plugin/clustercapacity/cluster_capacity.go` (Filter, Score,
  leastRequestedScore)
* `pkg/scheduler/models/extra_priority.go` (ExtraPriorityInfo, MatchTask)
* `pkg/scheduler/plugin/prioritysort/priority_sort.go` (Less)
* `pkg/utils/limits.go`               (ResourcesMeetLimits)
* `pkg/scheduler/plugin/clusterlimit/cluster_limit.go` (Filter)
* `pkg/scheduler/models/quota.go`     (ResourceQuota, GPUQuota)
* `pkg/scheduler/plugin/resourcequota/resource_quota.go` (GlobalFilter, checkQuota)
* `pkg/scheduler/scheduler.go`        (scheduleTasks, cancelUnscheduledTask, scheduleTask,
  filterAvailableClusters, getClusterWithScores, getMaxScoreClusterID, initPluginsGroup,
  NewScheduler)
* `pkg/scheduler/options.go`, `pkg/scheduler/cache/options.go`,
  `pkg/scheduler/controller/options.go` (NewOptions, Validate)
* `pkg/scheduler/registry.go`         (registry) and the `New` functions of the plugins
* `pkg/scheduler/cache/quota.go`      (getQuota, quotaCacheKey) and
  `pkg/vetesclient/client.go`         (ErrNotFound, the client interface)
* `pkg/scheduler/controller/controller.go` (Init, rescheduleTasks,
  shouldRescheduleClusters, markTasksFailedNotMeetLimits, taskMeetLimits)

Conventions of the embedding:

* Go `int` / `int64` values are `Int`; where the code adds machine integers the sum is
  wrapped to the signed 64-bit range by `wrapInt64`.
* Go `float64` is an arbitrary type `F` carrying the operations that the code uses (`0`,
  `+`, `<`, `≤`, `-`, `*`, `/`, `==` and the conversions of `Float64Conv`) with no laws
  assumed, so every statement proved for all `F` holds for any interpretation of the
  float operations; concrete inputs take `F := ℚ` with values that float64 represents
  exactly. A statement that needs a law says so: it assumes the law as a hypothesis,
  takes the order to be linear (`LinearOrder F`, floats without NaN), or is stated for
  the exact arithmetic of `ℚ`.
* Go maps are association lists without duplicate keys; the order of the entries stands
  for the iteration order, which Go leaves unspecified.
* A nil pointer is `none`; an `error` result is `Option (GoError F)`, `none` being nil.
* The task cache is embedded twice: `data` holds the task values themselves, and
  `heapData` holds, as the Go maps do, pointers into a heap of task entities, so that a
  statement on the identity of an entity can be made; `Represents` relates the two.
* `time.Time` and `time.Duration` are integers counting nanoseconds.
* A loop whose number of rounds the upstream decides (the pagination of `listTasks`)
  takes a bound on the rounds; `none` means that the bound was reached.
* The scheduler runs on a `World` (task cache, calls made so far) inside an `Env` (upstream
  answers, random draws, `sort.Slice`, clock, cluster snapshot); every call that leaves
  the scheduler is recorded as an `Event`.
-/

namespace TesScheduler

/-! ## consts.go -/

def consts.TaskQueued : String := "QUEUED"
def consts.TaskInitializing : String := "INITIALIZING"
def consts.TaskRunning : String := "RUNNING"
def consts.TaskComplete : String := "COMPLETE"
def consts.TaskSystemError : String := "SYSTEM_ERROR"
def consts.TaskExecutorError : String := "EXECUTOR_ERROR"
def consts.TaskCanceling : String := "CANCELING"
def consts.TaskCanceled : String := "CANCELED"
def consts.MinimalView : String := "MINIMAL"
def consts.BasicView : String := "BASIC"
def consts.DefaultPageSize : Int := 256
def consts.MaximumPageSize : Int := 2048

/-! ## Go maps -/

/-- A Go `map[K]V`: an association list without duplicate keys. The order of the entries
is the iteration order, which Go leaves unspecified. -/
abbrev GoMap (K V : Type) := AList (fun _ : K => V)

/-- The values of a map in iteration order (`for _, v := range m`). -/
def GoMap.values {K V : Type} (m : GoMap K V) : List V :=
  m.entries.map (fun e => e.2)

/-- The Go builtin `len(m)`. -/
def GoMap.len {K V : Type} (m : GoMap K V) : Nat :=
  m.entries.length

/-! ## Go values shared by the packages -/

/-- An argument of a `fmt.Errorf` call. -/
inductive FmtArg (F : Type) where
  | int (n : Int)
  | float (x : F)
  | str (s : String)
  | floatMap (m : GoMap String F)

/-- A Go `error` value. The text of a `fmt.Errorf` error is kept as the format string
with its arguments; `wrapf` is a `fmt.Errorf` whose format ends the arguments with one
`%w`; `aggregate` is the result of `utilerrors.NewAggregate` on a non-empty slice;
`external` is an error that comes from outside the embedded code; `sentinel` is the value
of a package-level error variable made by `errors.New`, which Go compares by identity and
which is known here by the name of the variable. -/
inductive GoError (F : Type) where
  | errorf (format : String) (args : List (FmtArg F))
  | wrapf (format : String) (args : List (FmtArg F)) (err : GoError F)
  | aggregate (errs : List (GoError F))
  | external (text : String)
  | sentinel (name : String)

/-- The function `utilerrors.NewAggregate`: nil for an empty slice. -/
def NewAggregate {F : Type} (errs : List (GoError F)) : Option (GoError F) :=
  match errs with
  | [] => none
  | _ :: _ => some (GoError.aggregate errs)

mutual
/-- The function `errors.Is(err, target)` for a target that is the package-level error
variable `target`: the chain of `%w` wraps is followed, and an aggregate matches when one
of its errors does. -/
def errors.Is {F : Type} : GoError F → String → Bool
  | GoError.sentinel name, target => name == target
  | GoError.wrapf _ _ err, target => errors.Is err target
  | GoError.aggregate errs, target => errors.IsAny errs target
  | _, _ => false
/-- Whether `errors.Is` holds for one of the listed errors. -/
def errors.IsAny {F : Type} : List (GoError F) → String → Bool
  | [], _ => false
  | err :: errs, target => errors.Is err target || errors.IsAny errs target
end

/-- The two's complement wrap of Go's `int` and `int64` arithmetic (64 bits). -/
def wrapInt64 (x : Int) : Int :=
  (x + 9223372036854775808) % 18446744073709551616 - 9223372036854775808

/-! ## models/task.go and the cluster model -/

/-- The Go struct `models.GPUResource`; the field `Type` is spelled `Type_`. -/
structure GPUResource (F : Type) where
  Count : F
  Type_ : String
deriving DecidableEq, Repr

/-- The Go struct `models.Resources`. -/
structure Resources (F : Type) where
  CPUCores : Int
  RamGB : F
  DiskGB : F
  GPU : Option (GPUResource F)
deriving DecidableEq, Repr

/-- The Go struct `models.BioosInfo`. -/
structure BioosInfo where
  AccountID : String
  UserID : String
  SubmissionID : String
  RunID : String
deriving DecidableEq, Repr

/-- The Go struct `models.TaskInfo`; a nil `*Resources` / `*BioosInfo` is `none`. -/
structure TaskInfo (F : Type) where
  ID : String
  State : String
  ClusterID : String
  CreationTime : Int
  Resources : Option (Resources F)
  BioosInfo : Option BioosInfo
  PriorityValue : Int
deriving DecidableEq, Repr

/-- Modelled from the spec: the declaration of `models.GPUCapacity` is not among the
sources; section 3 gives `GPUCapacity:{Type→float}` and cache/cluster.go copies the field
`GPU` of the client model, a `map[string]float64`. -/
structure GPUCapacity (F : Type) where
  GPU : GoMap String F

/-- Modelled from the spec: the declaration of `models.Capacity` is not among the sources;
section 3 lists the nullable fields Count, CPUCores, RamGB, DiskGB and GPUCapacity, the
types are those of the client model copied field by field in cache/cluster.go. -/
structure Capacity (F : Type) where
  Count : Option Int
  CPUCores : Option Int
  RamGB : Option F
  DiskGB : Option F
  GPUCapacity : Option (GPUCapacity F)

/-- Modelled from the spec: the declaration of `models.GPULimit` is not among the sources;
section 3 gives `GPULimit:{Type→float}`. -/
structure GPULimit (F : Type) where
  GPU : GoMap String F

/-- Modelled from the spec: the declaration of `models.Limits` is not among the sources;
section 3 lists the nullable per-task caps CPUCores, RamGB and GPULimit. -/
structure Limits (F : Type) where
  CPUCores : Option Int
  RamGB : Option F
  GPULimit : Option (GPULimit F)

/-- Modelled from the spec: the declaration of `models.ClusterInfo` is not among the
sources; section 3 gives ID, HeartbeatTimestamp, optional Capacity and optional Limits,
the fields that cache/cluster.go fills in. -/
structure ClusterInfo (F : Type) where
  ID : String
  HeartbeatTimestamp : Int
  Capacity : Option (Capacity F)
  Limits : Option (Limits F)

/-! ## cache/task.go -/

/-- The Go struct `data` of cache/task.go: the tasks by ID, and for every cluster ID
(the empty one means not scheduled) the set of task IDs, a `map[string]struct{}`. -/
structure data (F : Type) where
  tasks : GoMap String (TaskInfo F)
  clusterIndexer : GoMap String (GoMap String Unit)

/-- The empty data that `NewTaskCache` starts from. -/
def emptyData {F : Type} : data F := { tasks := ∅, clusterIndexer := ∅ }

/-- The statements `delete(d.clusterIndexer[c], id)` followed by
`if len(d.clusterIndexer[c]) == 0 { delete(d.clusterIndexer, c) }`, which occur in this
form in `updateTask` and in `deleteTask`. Reading a missing key gives a nil map, on which
`delete` does nothing and whose length is 0. -/
def indexRemove (clusterIndexer : GoMap String (GoMap String Unit)) (c id : String) :
    GoMap String (GoMap String Unit) :=
  let ci1 := match clusterIndexer.lookup c with
    | none => clusterIndexer
    | some ids => clusterIndexer.insert c (ids.erase id)
  let len := match ci1.lookup c with
    | none => 0
    | some ids => ids.len
  if len = 0 then ci1.erase c else ci1

/-- The statements `if _, ok := d.clusterIndexer[c]; !ok { d.clusterIndexer[c] = make(..) }`
followed by `d.clusterIndexer[c][id] = struct{}{}`, which occur in this form in `addTask`
and in `updateTask`. -/
def indexAdd (clusterIndexer : GoMap String (GoMap String Unit)) (c id : String) :
    GoMap String (GoMap String Unit) :=
  let ci1 := match clusterIndexer.lookup c with
    | none => clusterIndexer.insert c ∅
    | some _ => clusterIndexer
  match ci1.lookup c with
  | none => ci1
  | some ids => ci1.insert c (ids.insert id ())

/-- The method `data.addTask`. -/
def data.addTask {F : Type} (d : data F) (task : TaskInfo F) : data F :=
  { tasks := d.tasks.insert task.ID task
    clusterIndexer := indexAdd d.clusterIndexer task.ClusterID task.ID }

/-- The method `data.updateTask`; a nil `*string` argument is `none`. -/
def data.updateTask {F : Type} (d : data F) (id : String) (state clusterID : Option String) :
    data F :=
  match d.tasks.lookup id with
  | none => d
  | some oldTask =>
    let newTask1 : TaskInfo F :=
      match state with
      | some s => if oldTask.State ≠ s then { oldTask with State := s } else oldTask
      | none => oldTask
    match clusterID with
    | some c =>
      if newTask1.ClusterID ≠ c then
        { tasks := d.tasks.insert id { newTask1 with ClusterID := c }
          clusterIndexer := indexAdd (indexRemove d.clusterIndexer oldTask.ClusterID id) c id }
      else
        { tasks := d.tasks.insert id newTask1
          clusterIndexer := d.clusterIndexer }
    | none =>
      { tasks := d.tasks.insert id newTask1
        clusterIndexer := d.clusterIndexer }

/-- The method `data.deleteTask`. -/
def data.deleteTask {F : Type} (d : data F) (id : String) : data F :=
  match d.tasks.lookup id with
  | none => d
  | some oldTask =>
    { tasks := d.tasks.erase id
      clusterIndexer := indexRemove d.clusterIndexer oldTask.ClusterID id }

/-- The package variable `nonFinishedStates`. -/
def nonFinishedStates : List String :=
  [consts.TaskQueued, consts.TaskInitializing, consts.TaskRunning, consts.TaskCanceling]

/-- The function `isFinished`. -/
def isFinished (state : String) : Bool :=
  !(nonFinishedStates.any (fun nonFinishedState => state == nonFinishedState))

/-- The method `taskCacheImpl.ListTasks` on the cached data. An ID of the bucket that has
no entry in `tasks` would give a nil pointer in the Go slice; such an ID is skipped here
(under the index invariant there is none). -/
def ListTasks {F : Type} (d : data F) (clusterID : String) : List (TaskInfo F) :=
  match d.clusterIndexer.lookup clusterID with
  | none => []
  | some ids =>
    if ids.len = 0 then []
    else ids.keys.filterMap (fun id => d.tasks.lookup id)

/-- The method `taskCacheImpl.ListScheduledTasks` on the cached data. -/
def ListScheduledTasks {F : Type} (d : data F) : List (TaskInfo F) :=
  d.tasks.values.filter (fun task => task.ClusterID ≠ "")

/-- The method `taskCacheImpl.ListTaskClusterIDs` on the cached data. -/
def ListTaskClusterIDs {F : Type} (d : data F) : List String :=
  d.clusterIndexer.keys.filter (fun clusterID => clusterID ≠ "")

/-- Modelled from the spec: the declaration of the client model `TaskLog` is not among the
sources; section 4.4 describes the entry built by `UpdateTask` as `cluster_id` and
`system_logs`. -/
structure TaskLog where
  ClusterID : String
  SystemLogs : List String
deriving DecidableEq, Repr

/-- Modelled from the spec: the declaration of the client model `UpdateTaskRequest` is not
among the sources; section 4.4 gives the upstream call `UpdateTask(id, state, clusterID,
logs)`, the fields that `taskCacheImpl.UpdateTask` fills in. -/
structure UpdateTaskRequest where
  ID : String
  ClusterID : Option String
  State : Option String
  Logs : List TaskLog
deriving DecidableEq, Repr

/-- The constant `schedulerName`. -/
def schedulerName : String := "scheduler"

/-- The request that `taskCacheImpl.UpdateTask` sends upstream. -/
def updateTaskRequest (taskID : String) (state clusterID message : Option String) :
    UpdateTaskRequest :=
  { ID := taskID
    ClusterID := clusterID
    State := state
    Logs := match message with
      | some m => [{ ClusterID := schedulerName, SystemLogs := [m] }]
      | none => [] }

/-- The method `taskCacheImpl.UpdateTask`. `upstream` is the answer of
`vetesClient.UpdateTask` to the request: `some err` for an error, `none` for success. The
result is the returned error and the cached data after the call. -/
def UpdateTask {F : Type} (upstream : UpdateTaskRequest → Option (GoError F)) (d : data F)
    (taskID : String) (state clusterID message : Option String) :
    Option (GoError F) × data F :=
  match upstream (updateTaskRequest taskID state clusterID message) with
  | some err => (some err, d)
  | none =>
    match state with
    | some s =>
      if isFinished s then (none, d.deleteTask taskID)
      else (none, d.updateTask taskID state clusterID)
    | none => (none, d.updateTask taskID state clusterID)

/-! ## plugin/plugin.go and plugin/clustercapacity/cluster_capacity.go -/

/-- The constant `plugin.MaxScore`. -/
def plugin.MaxScore : Int := 100

/-- The constant `plugin.MinScore`. -/
def plugin.MinScore : Int := 0

/-- A value of the cycle state, a `map[string]interface{}`, by its dynamic type. -/
inductive CycleValue (F : Type) where
  | int (n : Int)
  | float64 (x : F)
  | mapStringFloat64 (m : GoMap String F)

/-- The cycle state handed through the plugins of one scheduling attempt. -/
abbrev CycleState (F : Type) := GoMap String (CycleValue F)

namespace clustercapacity

/-- The constant `Name` of the plugin. -/
def Name : String := "ClusterCapacity"

def totalCountKey : String := "totalCount"
def totalCPUCoreKey : String := "totalCPUCore"
def totalRamGBKey : String := "totalRamGB"
def totalDiskGBKey : String := "totalDiskGB"
def totalGPUCountKey : String := "totalGPUCount"
def totalGPUKey : String := "totalGPU"

/-- The six local variables that the first loop of `Filter` accumulates. -/
structure totals (F : Type) where
  totalCount : Int
  totalCPUCores : Int
  totalRamGB : F
  totalDiskGB : F
  totalGPUCount : F
  totalGPU : GoMap String F

/-- The initial values of the accumulators. -/
def totals.init {F : Type} [Zero F] : totals F :=
  { totalCount := 0, totalCPUCores := 0, totalRamGB := 0, totalDiskGB := 0,
    totalGPUCount := 0, totalGPU := ∅ }

/-- The body of the loop `for _, item := range scheduled` of `Filter`; the two `continue`
statements are the `none` branches. Indexing `totalGPU` at a missing key reads 0. -/
def totals.step {F : Type} [Zero F] [Add F] (acc : totals F) (item : TaskInfo F) : totals F :=
  let acc1 := { acc with totalCount := wrapInt64 (acc.totalCount + 1) }
  match item.Resources with
  | none => acc1
  | some res =>
    let acc2 := { acc1 with
      totalCPUCores := wrapInt64 (acc1.totalCPUCores + res.CPUCores)
      totalRamGB := acc1.totalRamGB + res.RamGB
      totalDiskGB := acc1.totalDiskGB + res.DiskGB }
    match res.GPU with
    | none => acc2
    | some gpu =>
      let acc3 := { acc2 with totalGPUCount := acc2.totalGPUCount + gpu.Count }
      if gpu.Type_ ≠ "" then
        { acc3 with totalGPU :=
            acc3.totalGPU.insert gpu.Type_ ((acc3.totalGPU.lookup gpu.Type_).getD 0 + gpu.Count) }
      else acc3

/-- The accumulators after the loop over the tasks assigned to the cluster. -/
def totals.of {F : Type} [Zero F] [Add F] (scheduled : List (TaskInfo F)) : totals F :=
  scheduled.foldl totals.step totals.init

/-- The loop `for _, gpuCount := range cluster.Capacity.GPUCapacity.GPU` that sums the
capacities of all GPU types. -/
def sumGPUCountCapacity {F : Type} [Zero F] [Add F] (g : GPUCapacity F) : F :=
  g.GPU.values.foldl (fun sum gpuCount => sum + gpuCount) 0

/-- The errors appended for the GPU block of `Filter`, in source order. -/
def gpuErrs {F : Type} [Zero F] [Add F] [LT F] [∀ a b : F, Decidable (a < b)]
    (g : GPUCapacity F) (gpu : GPUResource F) (t : totals F) : List (GoError F) :=
  (if sumGPUCountCapacity g < t.totalGPUCount + gpu.Count then
    [GoError.errorf "GPUCount should no more than %.2f, occupied %.2f, claimed %.2f"
      [FmtArg.float (sumGPUCountCapacity g), FmtArg.float t.totalGPUCount,
       FmtArg.float gpu.Count]]
   else []) ++
  (if gpu.Type_ ≠ "" then
    match g.GPU.lookup gpu.Type_ with
    | none => [GoError.errorf "no match GPUType: %s" [FmtArg.str gpu.Type_]]
    | some gpuCountCapacity =>
      if gpuCountCapacity < (t.totalGPU.lookup gpu.Type_).getD 0 + gpu.Count then
        [GoError.errorf "GPUCount should no more than %.2f, occupied %.2f, claimed %.2f"
          [FmtArg.float gpuCountCapacity, FmtArg.float ((t.totalGPU.lookup gpu.Type_).getD 0),
           FmtArg.float gpu.Count]]
      else []
   else [])

/-- The errors appended inside `if task.Resources != nil`, in source order. -/
def resourceErrs {F : Type} [Zero F] [Add F] [LT F] [∀ a b : F, Decidable (a < b)]
    (cap : Capacity F) (res : Resources F) (t : totals F) : List (GoError F) :=
  (match cap.CPUCores with
   | some c =>
     if 0 < res.CPUCores ∧ c < wrapInt64 (t.totalCPUCores + res.CPUCores) then
       [GoError.errorf "CPUCores should no more than %d, occupied %d, claimed %d"
         [FmtArg.int c, FmtArg.int t.totalCPUCores, FmtArg.int res.CPUCores]]
     else []
   | none => []) ++
  (match cap.RamGB with
   | some c =>
     if 0 < res.RamGB ∧ c < t.totalRamGB + res.RamGB then
       [GoError.errorf "RamGB should no more than %.2f, occupied %.2f, claimed %.2f"
         [FmtArg.float c, FmtArg.float t.totalRamGB, FmtArg.float res.RamGB]]
     else []
   | none => []) ++
  (match cap.DiskGB with
   | some c =>
     if 0 < res.DiskGB ∧ c < t.totalDiskGB + res.DiskGB then
       [GoError.errorf "DiskGB should no more than %.2f, occupied %.2f, claimed %.2f"
         [FmtArg.float c, FmtArg.float t.totalDiskGB, FmtArg.float res.DiskGB]]
     else []
   | none => []) ++
  (match cap.GPUCapacity, res.GPU with
   | some g, some gpu => gpuErrs g gpu t
   | _, _ => [])

/-- The slice `errs` of `Filter` when all checks have run. -/
def errs {F : Type} [Zero F] [Add F] [LT F] [∀ a b : F, Decidable (a < b)]
    (cap : Capacity F) (task : TaskInfo F) (t : totals F) : List (GoError F) :=
  (match cap.Count with
   | some c =>
     if c < wrapInt64 (t.totalCount + 1) then
       [GoError.errorf "count should no more than %d, occupied %d"
         [FmtArg.int c, FmtArg.int t.totalCount]]
     else []
   | none => []) ++
  (match task.Resources with
   | some res => resourceErrs cap res t
   | none => [])

/-- The six assignments to the cycle state at the end of a successful `Filter`. -/
def deposit {F : Type} (cycleState : CycleState F) (t : totals F) : CycleState F :=
  let cs1 := cycleState.insert totalCountKey (CycleValue.int t.totalCount)
  let cs2 := cs1.insert totalCPUCoreKey (CycleValue.int t.totalCPUCores)
  let cs3 := cs2.insert totalRamGBKey (CycleValue.float64 t.totalRamGB)
  let cs4 := cs3.insert totalDiskGBKey (CycleValue.float64 t.totalDiskGB)
  let cs5 := cs4.insert totalGPUCountKey (CycleValue.float64 t.totalGPUCount)
  cs5.insert totalGPUKey (CycleValue.mapStringFloat64 t.totalGPU)

/-- The method `impl.Filter` of the ClusterCapacity plugin. `d` is the data of the task
cache that `i.cache.TaskCache.ListTasks` reads. The result is the returned error and the
cycle state after the call. -/
def Filter {F : Type} [Zero F] [Add F] [LT F] [∀ a b : F, Decidable (a < b)]
    (d : data F) (task : TaskInfo F) (cluster : ClusterInfo F) (cycleState : CycleState F) :
    Option (GoError F) × CycleState F :=
  match cluster.Capacity with
  | none => (none, cycleState)
  | some cap =>
    let t := totals.of (ListTasks d cluster.ID)
    match NewAggregate (errs cap task t) with
    | some err => (some err, cycleState)
    | none => (none, deposit cycleState t)

end clustercapacity

/-! ## plugin/clustercapacity/cluster_capacity.go: Score -/

/-- The conversions between Go integers and `float64` values: `float64(n)` for an `int`
or `int64`, and `int64(x)`. -/
class Float64Conv (F : Type) where
  ofInt : Int → F
  toInt64 : F → Int

/-- Exact arithmetic on the rationals, for concrete inputs: `float64(n)` is `n`, and
`int64(x)` discards the fraction (truncation towards zero). The operations of float64
round their result and `int64(x)` is defined by Go only for values within the int64
range, so this instance agrees with float64 at least on inputs for which every
intermediate result is a value that float64 represents exactly and the converted value
is within the int64 range; the statements on `leastRequestedScore` and `Score` for all
inputs are made for an arbitrary `F`. -/
instance ratFloat64Conv : Float64Conv ℚ where
  ofInt n := (n : ℚ)
  toInt64 x := if 0 ≤ x then ⌊x⌋ else ⌈x⌉

namespace clustercapacity

/-- The function `leastRequestedScore`. -/
def leastRequestedScore {F : Type} [Zero F] [Sub F] [Mul F] [Div F] [LT F] [BEq F]
    [∀ a b : F, Decidable (a < b)] [Float64Conv F] (requested capacity : F) : Int :=
  if capacity == 0 then plugin.MinScore
  else if capacity < requested then plugin.MinScore
  else Float64Conv.toInt64
    ((capacity - requested) / capacity * Float64Conv.ofInt plugin.MaxScore)

/-- The type assertion `cycleState[key].(int)`; `none` stands for the panic on a missing
key or on a value of another type. -/
def cycleInt {F : Type} (cycleState : CycleState F) (key : String) : Option Int :=
  match cycleState.lookup key with
  | some (CycleValue.int n) => some n
  | _ => none

/-- The type assertion `cycleState[key].(float64)`. -/
def cycleFloat64 {F : Type} (cycleState : CycleState F) (key : String) : Option F :=
  match cycleState.lookup key with
  | some (CycleValue.float64 x) => some x
  | _ => none

/-- The type assertion `cycleState[key].(map[string]float64)`. -/
def cycleMap {F : Type} (cycleState : CycleState F) (key : String) :
    Option (GoMap String F) :=
  match cycleState.lookup key with
  | some (CycleValue.mapStringFloat64 m) => some m
  | _ => none

/-- The statements `totalScore += score` and `totalItem++` on the pair
`(totalScore, totalItem)`. -/
def addScore (acc : Int × Int) (score : Int) : Int × Int :=
  (wrapInt64 (acc.1 + score), wrapInt64 (acc.2 + 1))

/-- The GPU block of `Score`: the requested argument is the task's count plus the total
read from the cycle state (of all GPUs for a request without type, of the named type
otherwise; a type missing from a map reads 0). -/
def gpuScore {F : Type} [Zero F] [Add F] [Sub F] [Mul F] [Div F] [LT F] [BEq F]
    [∀ a b : F, Decidable (a < b)] [Float64Conv F]
    (g : GPUCapacity F) (gpu : GPUResource F) (cycleState : CycleState F) : Option Int :=
  if gpu.Type_ = "" then
    (cycleFloat64 cycleState totalGPUCountKey).map fun total =>
      leastRequestedScore (gpu.Count + total) (sumGPUCountCapacity g)
  else
    (cycleMap cycleState totalGPUKey).map fun totalGPU =>
      leastRequestedScore (gpu.Count + (totalGPU.lookup gpu.Type_).getD 0)
        ((g.GPU.lookup gpu.Type_).getD 0)

/-- The statements of `Score` inside `if task.Resources != nil`, on the pair
`(totalScore, totalItem)`; `none` stands for a panic. -/
def resourceScores {F : Type} [Zero F] [Add F] [Sub F] [Mul F] [Div F] [LT F] [BEq F]
    [∀ a b : F, Decidable (a < b)] [Float64Conv F]
    (cap : Capacity F) (res : Resources F) (cycleState : CycleState F)
    (acc : Option (Int × Int)) : Option (Int × Int) :=
  let acc1 := match cap.CPUCores with
    | some c =>
      if res.CPUCores > 0 then
        acc.bind fun a => (cycleInt cycleState totalCPUCoreKey).map fun total =>
          addScore a (leastRequestedScore
            (Float64Conv.ofInt (wrapInt64 (res.CPUCores + total)) : F) (Float64Conv.ofInt c))
      else acc
    | none => acc
  let acc2 := match cap.RamGB with
    | some c =>
      if 0 < res.RamGB then
        acc1.bind fun a => (cycleFloat64 cycleState totalRamGBKey).map fun total =>
          addScore a (leastRequestedScore (res.RamGB + total) c)
      else acc1
    | none => acc1
  let acc3 := match cap.DiskGB with
    | some c =>
      if 0 < res.DiskGB then
        acc2.bind fun a => (cycleFloat64 cycleState totalDiskGBKey).map fun total =>
          addScore a (leastRequestedScore (res.DiskGB + total) c)
      else acc2
    | none => acc2
  match cap.GPUCapacity, res.GPU with
  | some g, some gpu =>
    acc3.bind fun a => (gpuScore g gpu cycleState).map fun score => addScore a score
  | _, _ => acc3

/-- The method `impl.Score` of the ClusterCapacity plugin. `none` stands for the panic of
a failed type assertion on the cycle state; the `/` of Go truncates. -/
def Score {F : Type} [Zero F] [Add F] [Sub F] [Mul F] [Div F] [LT F] [BEq F]
    [∀ a b : F, Decidable (a < b)] [Float64Conv F]
    (task : TaskInfo F) (cluster : ClusterInfo F) (cycleState : CycleState F) : Option Int :=
  match cluster.Capacity with
  | none => some plugin.MaxScore
  | some cap =>
    let acc0 : Option (Int × Int) := some (0, 0)
    let acc1 := match cap.Count with
      | some c =>
        acc0.bind fun a => (cycleInt cycleState totalCountKey).map fun total =>
          addScore a (leastRequestedScore
            (Float64Conv.ofInt (wrapInt64 (1 + total)) : F) (Float64Conv.ofInt c))
      | none => acc0
    let acc2 := match task.Resources with
      | some res => resourceScores cap res cycleState acc1
      | none => acc1
    acc2.map fun a => if a.2 = 0 then plugin.MaxScore else Int.tdiv a.1 a.2

end clustercapacity

/-! ## plugin/plugin.go: the plugin interfaces

A plugin method is a function of the data of the task cache (which the stock plugins read
through their cache handle), of its Go arguments and of the cycle state, and returns its
Go result together with the cycle state after the call (the cycle state is a Go map, which
the callee may change). -/

/-- The interface `plugin.SortPlugin`. -/
structure SortPlugin (F : Type) where
  Name : String
  Less : TaskInfo F → TaskInfo F → Bool

/-- The interface `plugin.GlobalFilterPlugin`. -/
structure GlobalFilterPlugin (F : Type) where
  Name : String
  GlobalFilter : data F → TaskInfo F → CycleState F → Option (GoError F) × CycleState F

/-- The interface `plugin.FilterPlugin`. -/
structure FilterPlugin (F : Type) where
  Name : String
  Filter : data F → TaskInfo F → ClusterInfo F → CycleState F →
    Option (GoError F) × CycleState F

/-- The interface `plugin.ScorePlugin`. -/
structure ScorePlugin (F : Type) where
  Name : String
  Score : data F → TaskInfo F → ClusterInfo F → CycleState F → Int × CycleState F

/-! ## scheduler.go: picking the best scored cluster -/

/-- The Go struct `clusterWithScore` of scheduler.go. -/
structure clusterWithScore where
  clusterID : String
  score : Int
deriving DecidableEq, Repr

/-- One iteration of the loop of `getMaxScoreClusterID`: the three consecutive `if`
statements, in source order. `maxItems[0]` is read only after the first `if` has made the
slice non-empty, so the `[]` branches of the two matches are never taken. -/
def maxItemsStep (maxItems : List clusterWithScore) (item : clusterWithScore) :
    List clusterWithScore :=
  let m1 := if maxItems.length = 0 then [item] else maxItems
  let m2 := match m1 with
    | [] => m1
    | h :: _ => if item.score > h.score then [item] else m1
  match m2 with
  | [] => m2
  | h :: _ => if item.score = h.score then m2 ++ [item] else m2

/-- The slice `maxItems` when the loop of `getMaxScoreClusterID` has finished. -/
def maxItemsOf (clusterWithScores : List clusterWithScore) : List clusterWithScore :=
  clusterWithScores.foldl maxItemsStep []

/-- The function `getMaxScoreClusterID`. `rand.Intn(n)` returns some index below `n` and
panics for `n = 0`; the draw `r` is reduced modulo `n`, so letting `r` range over the
naturals covers every outcome of the generator. `none` stands for the panic. -/
def getMaxScoreClusterID (clusterWithScores : List clusterWithScore) (r : Nat) :
    Option String :=
  let maxItems := maxItemsOf clusterWithScores
  if maxItems.length = 0 then none
  else (maxItems.get? (r % maxItems.length)).map (fun maxItem => maxItem.clusterID)

/-! ## scheduler.go: the scheduling tick -/

/-- The Go struct `pluginsGroup`; a nil `sort` is `none`. -/
structure pluginsGroup (F : Type) where
  sort : Option (SortPlugin F)
  globalFilters : List (GlobalFilterPlugin F)
  filters : List (FilterPlugin F)
  scores : List (ScorePlugin F)

/-- The Go struct `Scheduler` without its cache handle: the data of the task cache is part
of the `World`, the cluster snapshot part of the `Env`. -/
structure Scheduler (F : Type) where
  plugins : pluginsGroup F
  clusterNotReadyTimeout : Int

/-- A call that leaves the scheduler: an `UpdateTask` of the task cache with its four
arguments, a `sort.Slice` that applies the `Less` of the named plugin to pairs of the
listed tasks, or a call of the named plugin on a task (and a cluster). -/
inductive Event (F : Type) where
  | UpdateTask (id : String) (state clusterID message : Option String)
  | Less (pluginName : String) (tasks : List (TaskInfo F))
  | GlobalFilter (pluginName : String) (task : TaskInfo F)
  | Filter (pluginName : String) (task : TaskInfo F) (cluster : ClusterInfo F)
  | Score (pluginName : String) (task : TaskInfo F) (cluster : ClusterInfo F)

/-- What surrounds one tick: the answer of the upstream service to the k-th `UpdateTask`
request of the tick, the outcome of the k-th `rand.Intn` draw, the permutation that
`sort.Slice` produces, the wall clock (read as one instant for the whole tick) and the
snapshot returned by `ClusterCache.ListClusters`. -/
structure Env (F : Type) where
  upstream : Nat → UpdateTaskRequest → Option (GoError F)
  intn : Nat → Nat
  sortSlice : (TaskInfo F → TaskInfo F → Bool) → List (TaskInfo F) → List (TaskInfo F)
  now : Int
  clusters : List (ClusterInfo F)

/-- The state a tick runs on: the data of the task cache, the calls made so far (oldest
first), how many upstream updates and random draws have been made, and whether the
goroutine has panicked. -/
structure World (F : Type) where
  data : data F
  events : List (Event F)
  updates : Nat
  draws : Nat
  panicked : Bool

/-- The largest `time.Duration`. -/
def maxDuration : Int := 9223372036854775807

/-- The smallest `time.Duration`. -/
def minDuration : Int := -9223372036854775808

/-- The method `Time.Sub` of the standard library: the difference in nanoseconds,
saturated to the range of `time.Duration`. -/
def timeSub (t u : Int) : Int :=
  max minDuration (min maxDuration (t - u))

/-- The function `time.Since`. -/
def timeSince (now t : Int) : Int :=
  timeSub now t

/-- A call `s.cache.TaskCache.UpdateTask(ctx, id, state, clusterID, message)`: the call is
recorded, the upstream service answers, the task cache is written through. -/
def callUpdateTask {F : Type} (env : Env F) (w : World F) (id : String)
    (state clusterID message : Option String) : Option (GoError F) × World F :=
  let r := UpdateTask (env.upstream w.updates) w.data id state clusterID message
  (r.1, { w with
    data := r.2
    events := w.events ++ [Event.UpdateTask id state clusterID message]
    updates := w.updates + 1 })

/-- The method `cancelUnscheduledTask`; the error is only logged. -/
def cancelUnscheduledTask {F : Type} (env : Env F) (w : World F) (task : TaskInfo F) :
    World F :=
  (callUpdateTask env w task.ID (some consts.TaskCanceled) none none).2

/-- The loop over `s.plugins.globalFilters` at the head of `scheduleTask`: the name of the
first failing plugin with its error (or `none`), the cycle state and the calls made. -/
def runGlobalFilters {F : Type} (d : data F) (task : TaskInfo F) :
    List (GlobalFilterPlugin F) → CycleState F →
    Option (String × GoError F) × CycleState F × List (Event F)
  | [], cycleState => (none, cycleState, [])
  | globalFilter :: rest, cycleState =>
    let r := globalFilter.GlobalFilter d task cycleState
    match r.1 with
    | some err => (some (globalFilter.Name, err), r.2, [Event.GlobalFilter globalFilter.Name task])
    | none =>
      let r' := runGlobalFilters d task rest r.2
      (r'.1, r'.2.1, Event.GlobalFilter globalFilter.Name task :: r'.2.2)

/-- The inner loop of `filterAvailableClusters` over `s.plugins.filters` for one cluster,
left by `break` at the first error: the name of the failing plugin with its error (or
`none` when the cluster is available), the cycle state and the calls made. -/
def runFilters {F : Type} (d : data F) (task : TaskInfo F) (cluster : ClusterInfo F) :
    List (FilterPlugin F) → CycleState F →
    Option (String × GoError F) × CycleState F × List (Event F)
  | [], cycleState => (none, cycleState, [])
  | filter :: rest, cycleState =>
    let r := filter.Filter d task cluster cycleState
    match r.1 with
    | some err => (some (filter.Name, err), r.2, [Event.Filter filter.Name task cluster])
    | none =>
      let r' := runFilters d task cluster rest r.2
      (r'.1, r'.2.1, Event.Filter filter.Name task cluster :: r'.2.2)

/-- The variables of `filterAvailableClusters` while it loops over the clusters. -/
structure filterState (F : Type) where
  availableClusters : List (ClusterInfo F)
  pluginNameWithErrors : GoMap String (List (GoError F))
  cycleState : CycleState F
  events : List (Event F)

/-- The body of the outer loop of `filterAvailableClusters`. -/
def filterStep {F : Type} (filters : List (FilterPlugin F)) (d : data F) (task : TaskInfo F)
    (acc : filterState F) (cluster : ClusterInfo F) : filterState F :=
  let r := runFilters d task cluster filters acc.cycleState
  match r.1 with
  | some (name, err) =>
    { availableClusters := acc.availableClusters
      pluginNameWithErrors := acc.pluginNameWithErrors.insert name
        (((acc.pluginNameWithErrors.lookup name).getD []) ++
          [GoError.wrapf "cluster[%s]: %w" [FmtArg.str cluster.ID] err])
      cycleState := r.2.1
      events := acc.events ++ r.2.2 }
  | none =>
    { availableClusters := acc.availableClusters ++ [cluster]
      pluginNameWithErrors := acc.pluginNameWithErrors
      cycleState := r.2.1
      events := acc.events ++ r.2.2 }

/-- The method `filterAvailableClusters`. -/
def filterAvailableClusters {F : Type} (filters : List (FilterPlugin F)) (d : data F)
    (task : TaskInfo F) (clusters : List (ClusterInfo F)) (cycleState : CycleState F) :
    filterState F :=
  clusters.foldl (filterStep filters d task)
    { availableClusters := [], pluginNameWithErrors := ∅, cycleState := cycleState,
      events := [] }

/-- The inner loop of `getClusterWithScores` over `s.plugins.scores` for one cluster: the
sum of the clamped scores, the cycle state and the calls made. -/
def sumScores {F : Type} (d : data F) (task : TaskInfo F) (cluster : ClusterInfo F) :
    List (ScorePlugin F) → Int → CycleState F → Int × CycleState F × List (Event F)
  | [], valueSum, cycleState => (valueSum, cycleState, [])
  | score :: rest, valueSum, cycleState =>
    let r := score.Score d task cluster cycleState
    let scoreValue1 := if r.1 < plugin.MinScore then plugin.MinScore else r.1
    let scoreValue := if scoreValue1 > plugin.MaxScore then plugin.MaxScore else scoreValue1
    let r' := sumScores d task cluster rest (wrapInt64 (valueSum + scoreValue)) r.2
    (r'.1, r'.2.1, Event.Score score.Name task cluster :: r'.2.2)

/-- The variables of `getClusterWithScores` while it loops over the available clusters. -/
structure scoreState (F : Type) where
  clusterWithScores : List clusterWithScore
  cycleState : CycleState F
  events : List (Event F)

/-- The body of the outer loop of `getClusterWithScores`; the `/` of Go truncates. -/
def scoreStep {F : Type} (scores : List (ScorePlugin F)) (d : data F) (task : TaskInfo F)
    (acc : scoreState F) (cluster : ClusterInfo F) : scoreState F :=
  let r := sumScores d task cluster scores 0 acc.cycleState
  let item : clusterWithScore :=
    if scores.length = 0 then { clusterID := cluster.ID, score := plugin.MaxScore }
    else { clusterID := cluster.ID, score := Int.tdiv r.1 scores.length }
  { clusterWithScores := acc.clusterWithScores ++ [item]
    cycleState := r.2.1
    events := acc.events ++ r.2.2 }

/-- The method `getClusterWithScores`. -/
def getClusterWithScores {F : Type} (scores : List (ScorePlugin F)) (d : data F)
    (task : TaskInfo F) (availableClusters : List (ClusterInfo F))
    (cycleState : CycleState F) : scoreState F :=
  availableClusters.foldl (scoreStep scores d task)
    { clusterWithScores := [], cycleState := cycleState, events := [] }

/-- The method `scheduleTask`. The two `record...` methods only write log lines and are
left out. A failing global filter or an empty list of available clusters ends the
attempt; otherwise the clusters are scored, one of the best is drawn and the assignment
is written through the task cache, whose error is only logged. -/
def scheduleTask {F : Type} (s : Scheduler F) (env : Env F) (w : World F)
    (task : TaskInfo F) (clusters : List (ClusterInfo F)) : World F :=
  let cycleState : CycleState F := ∅
  let g := runGlobalFilters w.data task s.plugins.globalFilters cycleState
  match g.1 with
  | some _ => { w with events := w.events ++ g.2.2 }
  | none =>
    let fr := filterAvailableClusters s.plugins.filters w.data task clusters g.2.1
    if fr.availableClusters.length = 0 then
      { w with events := w.events ++ (g.2.2 ++ fr.events) }
    else
      let sr := getClusterWithScores s.plugins.scores w.data task fr.availableClusters
        fr.cycleState
      let w1 := { w with
        events := w.events ++ (g.2.2 ++ fr.events ++ sr.events)
        draws := w.draws + 1 }
      match getMaxScoreClusterID sr.clusterWithScores (env.intn w.draws) with
      | none => { w1 with panicked := true }
      | some scheduleClusterID =>
        (callUpdateTask env w1 task.ID none (some scheduleClusterID) none).2

/-- The body of the first loop of `scheduleTasks` over `ListTasks("")`: a canceling task
is canceled at once, a task that is not queued is skipped, a queued one is appended to
`toScheduleTasks`. -/
def collectStep {F : Type} (env : Env F) (acc : World F × List (TaskInfo F))
    (task : TaskInfo F) : World F × List (TaskInfo F) :=
  if task.State = consts.TaskCanceling then (cancelUnscheduledTask env acc.1 task, acc.2)
  else if task.State ≠ consts.TaskQueued then acc
  else (acc.1, acc.2 ++ [task])

/-- The second loop of `scheduleTasks`: the clusters whose heartbeat is recent enough. -/
def readyClusters {F : Type} (s : Scheduler F) (env : Env F) : List (ClusterInfo F) :=
  env.clusters.filter (fun cluster =>
    decide (timeSince env.now cluster.HeartbeatTimestamp ≤ s.clusterNotReadyTimeout))

/-- The call `sort.Slice(toScheduleTasks, ...)` whose comparison is the `Less` of the sort
plugin. With fewer than two tasks nothing is compared; with two or more the comparison
is called, which dereferences the plugin: `none` stands for the panic on a nil plugin. -/
def sortTasks {F : Type} (sort : Option (SortPlugin F)) (env : Env F)
    (toScheduleTasks : List (TaskInfo F)) : Option (List (TaskInfo F) × List (Event F)) :=
  if toScheduleTasks.length < 2 then some (toScheduleTasks, [])
  else
    match sort with
    | none => none
    | some p => some (env.sortSlice p.Less toScheduleTasks, [Event.Less p.Name toScheduleTasks])

/-- The method `scheduleTasks`, one tick of the scheduler. -/
def scheduleTasks {F : Type} (s : Scheduler F) (env : Env F) (w : World F) : World F :=
  let tasks := ListTasks w.data ""
  let c := tasks.foldl (collectStep env) (w, [])
  if c.2.length = 0 then c.1
  else if (readyClusters s env).length = 0 then c.1
  else
    match sortTasks s.plugins.sort env c.2 with
    | none => { c.1 with panicked := true }
    | some (sorted, ev) =>
      sorted.foldl
        (fun w' task => if w'.panicked then w' else scheduleTask s env w' task (readyClusters s env))
        { c.1 with events := c.1.events ++ ev }

/-! ## models/extra_priority.go and plugin/prioritysort/priority_sort.go -/

/-- The Go struct `models.ExtraPriorityInfo`. -/
structure ExtraPriorityInfo where
  AccountID : String
  UserID : String
  SubmissionID : String
  RunID : String
  ExtraPriorityValue : Int
deriving DecidableEq, Repr

/-- The method `ExtraPriorityInfo.MatchTask`. The receiver and the task are values here,
so the two nil checks of the first `if` are decided by the types; a task without
`BioosInfo` matches no rule. -/
def ExtraPriorityInfo.MatchTask {F : Type} (e : ExtraPriorityInfo) (task : TaskInfo F) : Bool :=
  match task.BioosInfo with
  | none => false
  | some bioosInfo =>
    if e.AccountID ≠ "" ∧ e.AccountID = bioosInfo.AccountID then
      decide (e.UserID = "" ∨ e.UserID = bioosInfo.UserID)
    else if e.SubmissionID ≠ "" ∧ e.SubmissionID = bioosInfo.SubmissionID then true
    else if e.RunID ≠ "" ∧ e.RunID = bioosInfo.RunID then true
    else false

/-- The method `MatchTask` called through pointers: the first `if` returns false for a nil
receiver and for a nil task; `none` is nil. -/
def ExtraPriorityInfo.MatchTaskPtr {F : Type} (e : Option ExtraPriorityInfo)
    (task : Option (TaskInfo F)) : Bool :=
  match e, task with
  | some e, some task => e.MatchTask task
  | _, _ => false

namespace prioritysort

/-- The constant `Name` of the plugin. -/
def Name : String := "PrioritySort"

/-- The body of the loop of `Less` over the extra priorities: the pair `(valueI, valueJ)`
after one rule. -/
def valuesStep {F : Type} (taskI taskJ : TaskInfo F) (values : Int × Int)
    (ep : ExtraPriorityInfo) : Int × Int :=
  (if ep.MatchTask taskI then wrapInt64 (values.1 + ep.ExtraPriorityValue) else values.1,
   if ep.MatchTask taskJ then wrapInt64 (values.2 + ep.ExtraPriorityValue) else values.2)

/-- The method `impl.Less`. `extraPriorities` is the snapshot that
`ExtraPriorityCache.ListExtraPriorities` returns; `Time.Before` compares the instants. -/
def Less {F : Type} (extraPriorities : List ExtraPriorityInfo) (taskI taskJ : TaskInfo F) :
    Bool :=
  let values := extraPriorities.foldl (valuesStep taskI taskJ)
    (taskI.PriorityValue, taskJ.PriorityValue)
  if values.1 = values.2 then decide (taskI.CreationTime < taskJ.CreationTime)
  else decide (values.1 > values.2)

end prioritysort

/-! ## utils/limits.go and plugin/clusterlimit/cluster_limit.go -/

namespace utils

/-- The errors appended by the GPU block of `ResourcesMeetLimits`. For a request without
a type the loop over the limit map stops at the first entry that is large enough. -/
def gpuLimitErrs {F : Type} [LT F] [LE F] [∀ a b : F, Decidable (a < b)]
    [∀ a b : F, Decidable (a ≤ b)] (gpu : GPUResource F) (gpuLimit : GPULimit F) :
    List (GoError F) :=
  if gpu.Type_ = "" then
    let existProperGPUType := gpuLimit.GPU.values.any (fun gpuCount => decide (gpu.Count ≤ gpuCount))
    if !existProperGPUType then
      [GoError.errorf "GPUCount should less than %+v" [FmtArg.floatMap gpuLimit.GPU]]
    else []
  else
    match gpuLimit.GPU.lookup gpu.Type_ with
    | none => [GoError.errorf "no match GPUType %s" [FmtArg.str gpu.Type_]]
    | some gpuCount =>
      if gpuCount < gpu.Count then
        [GoError.errorf "GPUCount of GPUType %s should no more than %.2f"
          [FmtArg.str gpu.Type_, FmtArg.float gpuCount]]
      else []

/-- The slice `errs` of `ResourcesMeetLimits` for non-nil arguments. -/
def limitErrs {F : Type} [LT F] [LE F] [∀ a b : F, Decidable (a < b)]
    [∀ a b : F, Decidable (a ≤ b)] (resources : Resources F) (limits : Limits F) :
    List (GoError F) :=
  (match limits.CPUCores with
   | some limit =>
     if resources.CPUCores > limit then
       [GoError.errorf "CPUCore should no more than %d" [FmtArg.int limit]]
     else []
   | none => []) ++
  (match limits.RamGB with
   | some limit =>
     if limit < resources.RamGB then
       [GoError.errorf "RamGB should no more than %.2f" [FmtArg.float limit]]
     else []
   | none => []) ++
  (match resources.GPU, limits.GPULimit with
   | some gpu, some gpuLimit => gpuLimitErrs gpu gpuLimit
   | _, _ => [])

/-- The function `ResourcesMeetLimits`; a nil argument is `none`. -/
def ResourcesMeetLimits {F : Type} [LT F] [LE F] [∀ a b : F, Decidable (a < b)]
    [∀ a b : F, Decidable (a ≤ b)] (resources : Option (Resources F))
    (limits : Option (Limits F)) : Option (GoError F) :=
  match resources, limits with
  | some res, some lim => NewAggregate (limitErrs res lim)
  | _, _ => none

end utils

namespace clusterlimit

/-- The constant `Name` of the plugin. -/
def Name : String := "ClusterLimit"

/-- The method `impl.Filter` of the ClusterLimit plugin; it reads neither the task cache
nor the cycle state. -/
def Filter {F : Type} [LT F] [LE F] [∀ a b : F, Decidable (a < b)]
    [∀ a b : F, Decidable (a ≤ b)] (_d : data F) (task : TaskInfo F)
    (cluster : ClusterInfo F) (cycleState : CycleState F) :
    Option (GoError F) × CycleState F :=
  (utils.ResourcesMeetLimits task.Resources cluster.Limits, cycleState)

end clusterlimit

/-! ## models/quota.go, the interface of cache/quota.go and
plugin/resourcequota/resource_quota.go -/

/-- The Go struct `models.GPUQuota`. -/
structure GPUQuota (F : Type) where
  GPU : GoMap String F

/-- The Go struct `models.ResourceQuota`; a nil pointer field is `none`. -/
structure ResourceQuota (F : Type) where
  Count : Option Int
  CPUCores : Option Int
  RamGB : Option F
  DiskGB : Option F
  GPUQuota : Option (GPUQuota F)

/-- The interface `cache.QuotaCache`: the pair (quota, error) that each of its three
methods returns, as a function of the arguments of the call. -/
structure QuotaCache (F : Type) where
  GetGlobalQuota : Option (ResourceQuota F) × Option (GoError F)
  GetAccountQuota : String → Option (ResourceQuota F) × Option (GoError F)
  GetUserQuota : String → String → Option (ResourceQuota F) × Option (GoError F)

namespace resourcequota

/-- The constant `Name` of the plugin. -/
def Name : String := "ResourceQuota"

/-- The body of the loop `for _, scheduled := range scheduledTasks` of `checkQuota` on
its six accumulators (the same six local variables as in `clustercapacity.Filter`); the
three `continue` statements are the branches that return early. Unlike in
`clustercapacity.Filter` the per-type total is also kept for the empty type. -/
def totalsStep {F : Type} [Zero F] [Add F] (filter : TaskInfo F → Bool)
    (acc : clustercapacity.totals F) (scheduled : TaskInfo F) : clustercapacity.totals F :=
  if !filter scheduled then acc
  else
    let acc1 := { acc with totalCount := wrapInt64 (acc.totalCount + 1) }
    match scheduled.Resources with
    | none => acc1
    | some res =>
      let acc2 := { acc1 with
        totalCPUCores := wrapInt64 (acc1.totalCPUCores + res.CPUCores)
        totalRamGB := acc1.totalRamGB + res.RamGB
        totalDiskGB := acc1.totalDiskGB + res.DiskGB }
      match res.GPU with
      | none => acc2
      | some gpu =>
        { acc2 with
          totalGPUCount := acc2.totalGPUCount + gpu.Count
          totalGPU :=
            acc2.totalGPU.insert gpu.Type_ ((acc2.totalGPU.lookup gpu.Type_).getD 0 + gpu.Count) }

/-- The accumulators of `checkQuota` after the loop over the scheduled tasks. -/
def totalsOf {F : Type} [Zero F] [Add F] (filter : TaskInfo F → Bool)
    (scheduledTasks : List (TaskInfo F)) : clustercapacity.totals F :=
  scheduledTasks.foldl (totalsStep filter) clustercapacity.totals.init

/-- The loop `for _, gpuCount := range quota.GPUQuota.GPU` that sums the quotas of all
GPU types. -/
def sumGPUCountQuota {F : Type} [Zero F] [Add F] (g : GPUQuota F) : F :=
  g.GPU.values.foldl (fun sum gpuCount => sum + gpuCount) 0

/-- The errors appended by the GPU block of `checkQuota`: for a request with a type only
the quota of that type is checked, for a request without a type the sum of all quotas. -/
def gpuErrs {F : Type} [Zero F] [Add F] [LT F] [∀ a b : F, Decidable (a < b)]
    (g : GPUQuota F) (gpu : GPUResource F) (t : clustercapacity.totals F) :
    List (GoError F) :=
  if gpu.Type_ ≠ "" then
    match g.GPU.lookup gpu.Type_ with
    | none => [GoError.errorf "no match GPUType: %s" [FmtArg.str gpu.Type_]]
    | some gpuCountQuota =>
      if gpuCountQuota < (t.totalGPU.lookup gpu.Type_).getD 0 + gpu.Count then
        [GoError.errorf "GPUCount no more no more than %.2f, occupied %.2f, claimed %.2f"
          [FmtArg.float gpuCountQuota, FmtArg.float ((t.totalGPU.lookup gpu.Type_).getD 0),
           FmtArg.float gpu.Count]]
      else []
  else
    if sumGPUCountQuota g < t.totalGPUCount + gpu.Count then
      [GoError.errorf "GPUCount should no more than %.2f, occupied %.2f, claimed %.2f"
        [FmtArg.float (sumGPUCountQuota g), FmtArg.float t.totalGPUCount,
         FmtArg.float gpu.Count]]
    else []

/-- The errors appended inside `if task.Resources != nil`, in source order. -/
def resourceErrs {F : Type} [Zero F] [Add F] [LT F] [∀ a b : F, Decidable (a < b)]
    (quota : ResourceQuota F) (res : Resources F) (t : clustercapacity.totals F) :
    List (GoError F) :=
  (match quota.CPUCores with
   | some c =>
     if 0 < res.CPUCores ∧ c < wrapInt64 (t.totalCPUCores + res.CPUCores) then
       [GoError.errorf "CPUCores should no more than %d, occupied %d, claimed %d"
         [FmtArg.int c, FmtArg.int t.totalCPUCores, FmtArg.int res.CPUCores]]
     else []
   | none => []) ++
  (match quota.RamGB with
   | some c =>
     if 0 < res.RamGB ∧ c < t.totalRamGB + res.RamGB then
       [GoError.errorf "RamGB should no more than %.2f, occupied %.2f, claimed %.2f"
         [FmtArg.float c, FmtArg.float t.totalRamGB, FmtArg.float res.RamGB]]
     else []
   | none => []) ++
  (match quota.DiskGB with
   | some c =>
     if 0 < res.DiskGB ∧ c < t.totalDiskGB + res.DiskGB then
       [GoError.errorf "DiskGB should no more than %.2f, occupied %.2f, claimed %.2f"
         [FmtArg.float c, FmtArg.float t.totalDiskGB, FmtArg.float res.DiskGB]]
     else []
   | none => []) ++
  (match quota.GPUQuota, res.GPU with
   | some g, some gpu => gpuErrs g gpu t
   | _, _ => [])

/-- The slice `errs` of `checkQuota` when all checks have run. -/
def errs {F : Type} [Zero F] [Add F] [LT F] [∀ a b : F, Decidable (a < b)]
    (quota : ResourceQuota F) (task : TaskInfo F) (t : clustercapacity.totals F) :
    List (GoError F) :=
  (match quota.Count with
   | some c =>
     if c < wrapInt64 (t.totalCount + 1) then
       [GoError.errorf "count should no more than %d, occupied %d"
         [FmtArg.int c, FmtArg.int t.totalCount]]
     else []
   | none => []) ++
  (match task.Resources with
   | some res => resourceErrs quota res t
   | none => [])

/-- The function `checkQuota`; a nil quota is `none`. -/
def checkQuota {F : Type} [Zero F] [Add F] [LT F] [∀ a b : F, Decidable (a < b)]
    (quota : Option (ResourceQuota F)) (task : TaskInfo F)
    (scheduledTasks : List (TaskInfo F)) (filter : TaskInfo F → Bool) :
    Option (GoError F) :=
  match quota with
  | none => none
  | some q => NewAggregate (errs q task (totalsOf filter scheduledTasks))

/-- The scope predicate of the account level: the closure passed to `checkQuota`. -/
def sameAccount {F : Type} (bioosInfo : BioosInfo) (scheduledTask : TaskInfo F) : Bool :=
  match scheduledTask.BioosInfo with
  | none => false
  | some b => decide (b.AccountID = bioosInfo.AccountID)

/-- The scope predicate of the user level: the closure passed to `checkQuota`. -/
def sameUser {F : Type} (bioosInfo : BioosInfo) (scheduledTask : TaskInfo F) : Bool :=
  match scheduledTask.BioosInfo with
  | none => false
  | some b => decide (b.AccountID = bioosInfo.AccountID ∧ b.UserID = bioosInfo.UserID)

/-- The account block of `GlobalFilter`. -/
def accountCheck {F : Type} [Zero F] [Add F] [LT F] [∀ a b : F, Decidable (a < b)]
    (quotas : QuotaCache F) (task : TaskInfo F) (bioosInfo : BioosInfo)
    (scheduledTasks : List (TaskInfo F)) : Option (GoError F) :=
  if bioosInfo.AccountID ≠ "" then
    match quotas.GetAccountQuota bioosInfo.AccountID with
    | (_, some err) => some err
    | (accountQuota, none) =>
      match accountQuota with
      | some q =>
        match checkQuota (some q) task scheduledTasks (sameAccount bioosInfo) with
        | some err =>
          some (GoError.wrapf "account[%s] quota: %w" [FmtArg.str bioosInfo.AccountID] err)
        | none => none
      | none => none
  else none

/-- The user block of `GlobalFilter`. -/
def userCheck {F : Type} [Zero F] [Add F] [LT F] [∀ a b : F, Decidable (a < b)]
    (quotas : QuotaCache F) (task : TaskInfo F) (bioosInfo : BioosInfo)
    (scheduledTasks : List (TaskInfo F)) : Option (GoError F) :=
  if bioosInfo.AccountID ≠ "" ∧ bioosInfo.UserID ≠ "" then
    match quotas.GetUserQuota bioosInfo.AccountID bioosInfo.UserID with
    | (_, some err) => some err
    | (userQuota, none) =>
      match userQuota with
      | some q =>
        match checkQuota (some q) task scheduledTasks (sameUser bioosInfo) with
        | some err =>
          some (GoError.wrapf "user[%s/%s] quota: %w"
            [FmtArg.str bioosInfo.AccountID, FmtArg.str bioosInfo.UserID] err)
        | none => none
      | none => none
  else none

/-- The method `impl.GlobalFilter` of the ResourceQuota plugin. `quotas` holds the answers
of the quota cache, `d` the data of the task cache that `ListScheduledTasks` reads; the
cycle state is not touched. The checks run in the order global, account, user and the
first error is returned. -/
def GlobalFilter {F : Type} [Zero F] [Add F] [LT F] [∀ a b : F, Decidable (a < b)]
    (quotas : QuotaCache F) (d : data F) (task : TaskInfo F) (cycleState : CycleState F) :
    Option (GoError F) × CycleState F :=
  let scheduledTasks := ListScheduledTasks d
  let result : Option (GoError F) :=
    match quotas.GetGlobalQuota with
    | (_, some err) => some err
    | (globalQuota, none) =>
      let globalErr : Option (GoError F) :=
        match globalQuota with
        | some q =>
          match checkQuota (some q) task scheduledTasks (fun _ => true) with
          | some err => some (GoError.wrapf "global quota: %w" [] err)
          | none => none
        | none => none
      match globalErr with
      | some err => some err
      | none =>
        match task.BioosInfo with
        | none => none
        | some bioosInfo =>
          match accountCheck quotas task bioosInfo scheduledTasks with
          | some err => some err
          | none => userCheck quotas task bioosInfo scheduledTasks
  (result, cycleState)

end resourcequota

/-! ## cache/options.go, controller/options.go and options.go: Validate

A `time.Duration` is an integer counting nanoseconds. The two option structs that
`Options` points to are values here: `Validate` is only called on options built by
`NewOptions`, where both pointers are set. -/

/-- The Go struct `cache.Options`. -/
structure cache.Options where
  SyncPeriod : Int
deriving DecidableEq, Repr

/-- The Go struct `controller.Options`. -/
structure controller.Options where
  Period : Int
  ClusterRescheduleTimeout : Int
deriving DecidableEq, Repr

/-- The Go struct `scheduler.Options`. -/
structure Options where
  Plugins : List String
  SchedulePeriod : Int
  ClusterNotReadyTimeout : Int
  Cache : cache.Options
  Controller : controller.Options
deriving DecidableEq, Repr

/-- The method `Validate` of `cache.Options`: it returns nil. -/
def cache.Options.Validate {F : Type} (_o : cache.Options) : Option (GoError F) :=
  none

/-- The method `Validate` of `controller.Options`. -/
def controller.Options.Validate {F : Type} (o : controller.Options) : Option (GoError F) :=
  if o.ClusterRescheduleTimeout < o.Period then
    some (GoError.errorf "clusterRescheduleTimeout must be greater than period" [])
  else none

/-- The method `Validate` of `scheduler.Options`; an error of the cache options would make
it return nil. -/
def Options.Validate {F : Type} (o : Options) : Option (GoError F) :=
  match (o.Cache.Validate : Option (GoError F)) with
  | some _ => none
  | none =>
    match (o.Controller.Validate : Option (GoError F)) with
    | some err => some err
    | none =>
      if o.Controller.ClusterRescheduleTimeout < o.Cache.SyncPeriod then
        some (GoError.errorf
          "controller cluster rescheduling timeout must be greater than cache sync period" [])
      else if o.SchedulePeriod < o.Cache.SyncPeriod then
        some (GoError.errorf "schedule period must be greater than cache sync period" [])
      else if o.ClusterNotReadyTimeout < o.Cache.SyncPeriod then
        some (GoError.errorf
          "cluster not ready timeout must be greater than cache sync period" [])
      else none

/-- The function `NewOptions` of the scheduler with those of the cache and of the
controller: the default options. -/
def NewOptions : Options :=
  { Plugins := [clustercapacity.Name, clusterlimit.Name, prioritysort.Name, resourcequota.Name]
    SchedulePeriod := 10 * 1000000000
    ClusterNotReadyTimeout := 5 * 60 * 1000000000
    Cache := { SyncPeriod := 10 * 1000000000 }
    Controller := { Period := 10 * 1000000000, ClusterRescheduleTimeout := 20 * 60 * 1000000000 } }

/-! ## cache/cache.go, the `New` functions of the plugins, registry.go and
scheduler.go: initPluginsGroup -/

/-- The Go struct `cache.Cache` as the plugins read it: the answers of the quota cache and
the snapshot that `ExtraPriorityCache.ListExtraPriorities` returns. The data of the task
cache is handed to every plugin call; no plugin reads the cluster cache. -/
structure Cache (F : Type) where
  QuotaCache : QuotaCache F
  ExtraPriorityCache : List ExtraPriorityInfo

/-- A value of the interface `plugin.Plugin` as a factory returns it: its name and, for
each of the four type assertions `p.(plugin.SortPlugin)`, `p.(plugin.GlobalFilterPlugin)`,
`p.(plugin.FilterPlugin)` and `p.(plugin.ScorePlugin)`, the asserted value, or `none` when
the dynamic type lacks the method. -/
structure Plugin (F : Type) where
  Name : String
  sort : Option (SortPlugin F)
  globalFilter : Option (GlobalFilterPlugin F)
  filter : Option (FilterPlugin F)
  score : Option (ScorePlugin F)

/-- The type `plugin.Factory`; the plugin configuration is always nil
(`extractPluginConfig`) and is left out. -/
abbrev Factory (F : Type) := Cache F → Except (GoError F) (Plugin F)

/-- The function `prioritysort.New`: the type `impl` has the methods `Name` and `Less`. -/
def prioritysort.New {F : Type} : Factory F := fun cache =>
  Except.ok
    { Name := prioritysort.Name
      sort := some { Name := prioritysort.Name, Less := prioritysort.Less cache.ExtraPriorityCache }
      globalFilter := none
      filter := none
      score := none }

/-- The function `resourcequota.New`: the type `impl` has the methods `Name` and
`GlobalFilter`. -/
def resourcequota.New {F : Type} [Zero F] [Add F] [LT F] [∀ a b : F, Decidable (a < b)] :
    Factory F := fun cache =>
  Except.ok
    { Name := resourcequota.Name
      sort := none
      globalFilter := some
        { Name := resourcequota.Name, GlobalFilter := resourcequota.GlobalFilter cache.QuotaCache }
      filter := none
      score := none }

/-- The function `clusterlimit.New`: the type `impl` has the methods `Name` and
`Filter`. -/
def clusterlimit.New {F : Type} [LT F] [LE F] [∀ a b : F, Decidable (a < b)]
    [∀ a b : F, Decidable (a ≤ b)] : Factory F := fun _cache =>
  Except.ok
    { Name := clusterlimit.Name
      sort := none
      globalFilter := none
      filter := some { Name := clusterlimit.Name, Filter := clusterlimit.Filter }
      score := none }

/-- The function `clustercapacity.New`: the type `impl` has the methods `Name`, `Filter`
and `Score`. `Score` does not change the cycle state. The interface `ScorePlugin` has no
place for the panic of a failed type assertion in `Score`; the value 0 stands in for it,
and what is proved about this plugin shows `Score` to return a value where it is called. -/
def clustercapacity.New {F : Type} [Zero F] [Add F] [Sub F] [Mul F] [Div F] [LT F] [BEq F]
    [∀ a b : F, Decidable (a < b)] [Float64Conv F] : Factory F := fun _cache =>
  Except.ok
    { Name := clustercapacity.Name
      sort := none
      globalFilter := none
      filter := some { Name := clustercapacity.Name, Filter := clustercapacity.Filter }
      score := some
        { Name := clustercapacity.Name
          Score := fun _d task cluster cycleState =>
            ((clustercapacity.Score task cluster cycleState).getD 0, cycleState) } }

/-- The package variable `registry`, a map with four keys: the factory stored under a
name, or `none` for a name that is not a key. -/
def registry {F : Type} [Zero F] [Add F] [Sub F] [Mul F] [Div F] [LT F] [LE F] [BEq F]
    [∀ a b : F, Decidable (a < b)] [∀ a b : F, Decidable (a ≤ b)] [Float64Conv F]
    (pluginName : String) : Option (Factory F) :=
  if pluginName = prioritysort.Name then some prioritysort.New
  else if pluginName = resourcequota.Name then some resourcequota.New
  else if pluginName = clusterlimit.Name then some clusterlimit.New
  else if pluginName = clustercapacity.Name then some clustercapacity.New
  else none

/-- The four type assertions of `initPluginsGroup` on a plugin: the last sort plugin
replaces the one before, the other capabilities are appended to their lists. -/
def addPlugin {F : Type} (plugins : pluginsGroup F) (p : Plugin F) : pluginsGroup F :=
  { sort := match p.sort with
      | some sort => some sort
      | none => plugins.sort
    globalFilters := match p.globalFilter with
      | some globalFilter => plugins.globalFilters ++ [globalFilter]
      | none => plugins.globalFilters
    filters := match p.filter with
      | some filter => plugins.filters ++ [filter]
      | none => plugins.filters
    scores := match p.score with
      | some score => plugins.scores ++ [score]
      | none => plugins.scores }

/-- The body of the loop of `initPluginsGroup` over `opts.Plugins`. -/
def initPluginsStep {F : Type} [Zero F] [Add F] [Sub F] [Mul F] [Div F] [LT F] [LE F] [BEq F]
    [∀ a b : F, Decidable (a < b)] [∀ a b : F, Decidable (a ≤ b)] [Float64Conv F]
    (cache : Cache F) (plugins : pluginsGroup F) (pluginName : String) :
    Except (GoError F) (pluginsGroup F) :=
  match registry pluginName with
  | none => Except.error (GoError.errorf "invalid plugin name: %s" [FmtArg.str pluginName])
  | some factory =>
    match factory cache with
    | Except.error err =>
      Except.error (GoError.wrapf "failed to init plugin %s: %w" [FmtArg.str pluginName] err)
    | Except.ok p => Except.ok (addPlugin plugins p)

/-- The loop of `initPluginsGroup` from a given group on; it ends at the first error. -/
def initPluginsFrom {F : Type} [Zero F] [Add F] [Sub F] [Mul F] [Div F] [LT F] [LE F] [BEq F]
    [∀ a b : F, Decidable (a < b)] [∀ a b : F, Decidable (a ≤ b)] [Float64Conv F]
    (cache : Cache F) : List String → pluginsGroup F → Except (GoError F) (pluginsGroup F)
  | [], plugins => Except.ok plugins
  | pluginName :: rest, plugins =>
    match initPluginsStep cache plugins pluginName with
    | Except.error err => Except.error err
    | Except.ok plugins1 => initPluginsFrom cache rest plugins1

/-- The function `initPluginsGroup`. -/
def initPluginsGroup {F : Type} [Zero F] [Add F] [Sub F] [Mul F] [Div F] [LT F] [LE F]
    [BEq F] [∀ a b : F, Decidable (a < b)] [∀ a b : F, Decidable (a ≤ b)] [Float64Conv F]
    (opts : Options) (cache : Cache F) : Except (GoError F) (pluginsGroup F) :=
  initPluginsFrom cache opts.Plugins
    { sort := none, globalFilters := [], filters := [], scores := [] }

/-- The function `NewScheduler` once the caches exist: the plugin group is initialised and
the timeout is copied from the options. The creation of the caches, `controller.Init` and
the registration of the cron job are taken to succeed and are left out. -/
def NewScheduler {F : Type} [Zero F] [Add F] [Sub F] [Mul F] [Div F] [LT F] [LE F]
    [BEq F] [∀ a b : F, Decidable (a < b)] [∀ a b : F, Decidable (a ≤ b)] [Float64Conv F]
    (opts : Options) (cache : Cache F) : Except (GoError F) (Scheduler F) :=
  match initPluginsGroup opts cache with
  | Except.error err => Except.error err
  | Except.ok plugins =>
    Except.ok { plugins := plugins, clusterNotReadyTimeout := opts.ClusterNotReadyTimeout }

/-! ## vetesclient/client.go (ErrNotFound) and cache/quota.go: getQuota -/

/-- Modelled from the spec: the declaration of `clientmodels.GetQuotaRequest` is not among
the sources; the three fields are those that `getQuota` sets. -/
structure clientmodels.GetQuotaRequest where
  Global : Bool
  AccountID : String
  UserID : String
deriving DecidableEq, Repr

/-- Modelled from the spec: the declaration of `clientmodels.GPUQuota` is not among the
sources; the field is the one that `clientResourceQuotaToResourceQuotaInfo` reads. -/
structure clientmodels.GPUQuota (F : Type) where
  GPU : GoMap String F

/-- Modelled from the spec: the declaration of `clientmodels.ResourceQuota` is not among
the sources; the fields are those that `clientResourceQuotaToResourceQuotaInfo` reads. -/
structure clientmodels.ResourceQuota (F : Type) where
  Count : Option Int
  CPUCores : Option Int
  RamGB : Option F
  DiskGB : Option F
  GPUQuota : Option (clientmodels.GPUQuota F)

/-- The function `clientResourceQuotaToResourceQuotaInfo`. -/
def clientResourceQuotaToResourceQuotaInfo {F : Type}
    (quota : Option (clientmodels.ResourceQuota F)) : Option (ResourceQuota F) :=
  match quota with
  | none => none
  | some quota =>
    some
      { Count := quota.Count
        CPUCores := quota.CPUCores
        RamGB := quota.RamGB
        DiskGB := quota.DiskGB
        GPUQuota := match quota.GPUQuota with
          | some g => some { GPU := g.GPU }
          | none => none }

/-- The function `quotaCacheKey`; the bytes of the key are kept as a string. -/
def quotaCacheKey (global : Bool) (accountID userID : String) : String :=
  if global then "global" else accountID ++ "/" ++ userID

/-- The library calls of `getQuota` whose outcome the code tests: `json.Marshal` and
`json.Unmarshal` on a resource quota, and whether `freecache.Cache.Set` refuses an entry
(the returned error, `none` when the entry is stored). -/
structure QuotaCodec (F : Type) where
  Marshal : ResourceQuota F → Except (GoError F) String
  Unmarshal : String → Except (GoError F) (ResourceQuota F)
  SetError : String → String → Option (GoError F)

/-- The Go struct `quotaCacheImpl`. `vetesClient` is the answer of `vetesClient.GetQuota`
to a request: an error, or the field `ResourceQuota` of the response. `quotaCache` is the
content of the freecache store that `Get` sees: the bytes stored under a key together
with the expiry in seconds they were stored with; expiry and eviction happen between
calls. -/
structure quotaCacheImpl (F : Type) where
  vetesClient : clientmodels.GetQuotaRequest →
    Except (GoError F) (Option (clientmodels.ResourceQuota F))
  expireSecond : Int
  quotaCache : GoMap String (String × Int)

/-- The deferred function of `getQuota`: a non-nil result is serialised and stored under
the key; a failure of `json.Marshal` or of `Set` is only logged. -/
def storeQuota {F : Type} (codec : QuotaCodec F) (i : quotaCacheImpl F) (key : String)
    (res : Option (ResourceQuota F)) : quotaCacheImpl F :=
  match res with
  | none => i
  | some quota =>
    match codec.Marshal quota with
    | Except.error _ => i
    | Except.ok toCache =>
      match codec.SetError key toCache with
      | some _ => i
      | none => { i with quotaCache := i.quotaCache.insert key (toCache, i.expireSecond) }

/-- The method `quotaCacheImpl.getQuota`: the returned pair (quota, error) and the cache
after the call. A stored entry that unmarshals is returned; otherwise the upstream
service is asked. -/
def getQuota {F : Type} (codec : QuotaCodec F) (i : quotaCacheImpl F) (global : Bool)
    (accountID userID : String) :
    (Option (ResourceQuota F) × Option (GoError F)) × quotaCacheImpl F :=
  let key := quotaCacheKey global accountID userID
  let cached : Option (ResourceQuota F) :=
    match i.quotaCache.lookup key with
    | some cache =>
      match codec.Unmarshal cache.1 with
      | Except.ok res => some res
      | Except.error _ => none
    | none => none
  match cached with
  | some res => ((some res, none), i)
  | none =>
    match i.vetesClient { Global := global, AccountID := accountID, UserID := userID } with
    | Except.error err =>
      if errors.Is err "vetesclient.ErrNotFound" then ((none, none), i)
      else ((none, some err), i)
    | Except.ok resourceQuota =>
      let res := clientResourceQuotaToResourceQuotaInfo resourceQuota
      ((res, none), storeQuota codec i key res)

/-- The method `GetGlobalQuota`. -/
def GetGlobalQuota {F : Type} (codec : QuotaCodec F) (i : quotaCacheImpl F) :
    (Option (ResourceQuota F) × Option (GoError F)) × quotaCacheImpl F :=
  getQuota codec i true "" ""

/-- The method `GetAccountQuota`. -/
def GetAccountQuota {F : Type} (codec : QuotaCodec F) (i : quotaCacheImpl F)
    (accountID : String) :
    (Option (ResourceQuota F) × Option (GoError F)) × quotaCacheImpl F :=
  getQuota codec i false accountID ""

/-- The method `GetUserQuota`. -/
def GetUserQuota {F : Type} (codec : QuotaCodec F) (i : quotaCacheImpl F)
    (accountID userID : String) :
    (Option (ResourceQuota F) × Option (GoError F)) × quotaCacheImpl F :=
  getQuota codec i false accountID userID

/-! ## controller/controller.go -/

/-- The Go struct `Controller` without its cache handle: the data of the task cache is
part of the `World`, the cluster snapshot part of the `Env`. -/
structure Controller where
  clusterRescheduleTimeout : Int

namespace controller

/-- The function `Init`: the `Controller` it builds from the options; the registration of
the two cron jobs is left out. -/
def Init (opts : Options) : Controller :=
  { clusterRescheduleTimeout := opts.ClusterRescheduleTimeout }

/-- The method `rescheduleTask`: a canceling task is canceled, any other task is queued
again without a cluster. The result is the returned error and the world after the call. -/
def rescheduleTask {F : Type} (env : Env F) (w : World F) (task : TaskInfo F) :
    Option (GoError F) × World F :=
  if task.State = consts.TaskCanceling then
    callUpdateTask env w task.ID (some consts.TaskCanceled) none none
  else
    callUpdateTask env w task.ID (some consts.TaskQueued) (some "") none

/-- The first two loops of `rescheduleTasks`: the IDs of the listed clusters whose
heartbeat is older than the timeout, followed by the cluster IDs of the task index that
are not IDs of listed clusters. -/
def shouldRescheduleClusters {F : Type} (c : Controller) (env : Env F)
    (taskClusterIDs : List String) : List String :=
  (env.clusters.filter (fun cluster =>
      decide (timeSince env.now cluster.HeartbeatTimestamp > c.clusterRescheduleTimeout))).map
    (fun cluster => cluster.ID) ++
  taskClusterIDs.filter (fun clusterID =>
    decide (clusterID ∉ env.clusters.map (fun cluster => cluster.ID)))

/-- The body of the inner loop of `rescheduleTasks` over the tasks of one cluster, on the
slice `errs` and the world. -/
def rescheduleStep {F : Type} (env : Env F) (acc : List (GoError F) × World F)
    (task : TaskInfo F) : List (GoError F) × World F :=
  let r := rescheduleTask env acc.2 task
  match r.1 with
  | some err => (acc.1 ++ [err], r.2)
  | none => (acc.1, r.2)

/-- The body of the outer loop of `rescheduleTasks`: the tasks of the cluster are listed
once, then rescheduled one by one. -/
def rescheduleCluster {F : Type} (env : Env F) (acc : List (GoError F) × World F)
    (clusterID : String) : List (GoError F) × World F :=
  (ListTasks acc.2.data clusterID).foldl (rescheduleStep env) acc

/-- The method `rescheduleTasks`. -/
def rescheduleTasks {F : Type} (c : Controller) (env : Env F) (w : World F) :
    Option (GoError F) × World F :=
  let taskClusterIDs := ListTaskClusterIDs w.data
  let r := (shouldRescheduleClusters c env taskClusterIDs).foldl (rescheduleCluster env) ([], w)
  (NewAggregate r.1, r.2)

/-- The loop of `taskMeetLimits` from a given slice `errs` on: `none` when some cluster
accepts the resources of the task (the function returns ""), otherwise the errors of all
clusters. -/
def limitErrors {F : Type} [LT F] [LE F] [∀ a b : F, Decidable (a < b)]
    [∀ a b : F, Decidable (a ≤ b)] (task : TaskInfo F) :
    List (ClusterInfo F) → List (GoError F) → Option (List (GoError F))
  | [], errs => some errs
  | cluster :: rest, errs =>
    match utils.ResourcesMeetLimits task.Resources cluster.Limits with
    | none => none
    | some err =>
      limitErrors task rest (errs ++ [GoError.wrapf "cluster[%s]: %w" [FmtArg.str cluster.ID] err])

/-- The function `taskMeetLimits`. `errorText` is the method `Error` of an error value.
The outer `none` stands for the panic of calling `Error` on the nil aggregate of an empty
slice, which an empty cluster list would give. -/
def taskMeetLimits {F : Type} [LT F] [LE F] [∀ a b : F, Decidable (a < b)]
    [∀ a b : F, Decidable (a ≤ b)] (errorText : GoError F → String) (task : TaskInfo F)
    (clusters : List (ClusterInfo F)) : Option String :=
  match limitErrors task clusters [] with
  | none => some ""
  | some errs =>
    match NewAggregate errs with
    | none => none
    | some aggregate => some (errorText aggregate)

/-- The body of the loop of `markTasksFailedNotMeetLimits` over the unscheduled tasks. -/
def markStep {F : Type} [LT F] [LE F] [∀ a b : F, Decidable (a < b)]
    [∀ a b : F, Decidable (a ≤ b)] (errorText : GoError F → String) (env : Env F)
    (acc : List (GoError F) × World F) (task : TaskInfo F) : List (GoError F) × World F :=
  if acc.2.panicked then acc
  else if task.State ≠ consts.TaskQueued then acc
  else
    match taskMeetLimits errorText task env.clusters with
    | none => (acc.1, { acc.2 with panicked := true })
    | some msg =>
      if msg = "" then acc
      else
        let r := callUpdateTask env acc.2 task.ID (some consts.TaskSystemError) none
          (some ("no cluster limits match task resources: " ++ msg))
        match r.1 with
        | some err => (acc.1 ++ [err], r.2)
        | none => (acc.1, r.2)

/-- The method `markTasksFailedNotMeetLimits`. -/
def markTasksFailedNotMeetLimits {F : Type} [LT F] [LE F] [∀ a b : F, Decidable (a < b)]
    [∀ a b : F, Decidable (a ≤ b)] (errorText : GoError F → String) (env : Env F)
    (w : World F) : Option (GoError F) × World F :=
  let tasks := ListTasks w.data ""
  if env.clusters.length = 0 then (none, w)
  else
    let r := tasks.foldl (markStep errorText env) ([], w)
    (NewAggregate r.1, r.2)

end controller

/-! ## cache/task.go: listTasks, clientTaskToTaskInfo and syncTasks -/

namespace clientmodels

/-- Modelled from the spec: the declaration of the client model `GPUResource` is not among
the sources; the fields are those that `clientTaskResourcesToTaskInfoResources` reads. The
field `Type` is spelled `Type_`. -/
structure GPUResource (F : Type) where
  Count : F
  Type_ : String
deriving DecidableEq, Repr

/-- Modelled from the spec: the declaration of the client model `Resources` is not among
the sources; the fields are those that `clientTaskResourcesToTaskInfoResources` reads. -/
structure Resources (F : Type) where
  CPUCores : Int
  RamGB : F
  DiskGB : F
  GPU : Option (GPUResource F)
deriving DecidableEq, Repr

/-- Modelled from the spec: the declaration of the client model `BioosInfo` is not among
the sources; the fields are those that `clientTaskBioosInfoToTaskInfoBioosInfo` reads. -/
structure BioosInfo where
  AccountID : String
  UserID : String
  SubmissionID : String
  RunID : String
deriving DecidableEq, Repr

/-- Modelled from the spec: the declaration of the client model `Task` is not among the
sources; the fields are those that `clientTaskToTaskInfo` reads, `CreationTime` being the
text handed to `time.Parse`. -/
structure Task (F : Type) where
  ID : String
  State : String
  ClusterID : String
  Resources : Option (Resources F)
  BioosInfo : Option BioosInfo
  PriorityValue : Int
  CreationTime : String
deriving DecidableEq, Repr

/-- Modelled from the spec: the declaration of `ListTasksRequest` is not among the
sources; the fields are those that `listTasks` sets. -/
structure ListTasksRequest where
  State : List String
  View : String
  PageSize : Int
  PageToken : String
deriving DecidableEq, Repr

/-- Modelled from the spec: the declaration of `ListTasksResponse` is not among the
sources; the fields are those that `listTasks` reads. -/
structure ListTasksResponse (F : Type) where
  Tasks : List (Task F)
  NextPageToken : String

/-- Modelled from the spec: the declaration of `GetTaskRequest` is not among the sources;
the fields are those that `syncTasks` sets. -/
structure GetTaskRequest where
  ID : String
  View : String
deriving DecidableEq, Repr

/-- Modelled from the spec: the declaration of `GetTaskResponse` is not among the sources;
the field is the one that `syncTasks` reads, a pointer that may be nil. -/
structure GetTaskResponse (F : Type) where
  Task : Option (Task F)

end clientmodels

/-- The two methods of the interface `vetesclient.Client` that the task resync calls, as
the answers of the upstream service to a request during one resync. -/
structure vetesclient.Client (F : Type) where
  ListTasks : clientmodels.ListTasksRequest → Except (GoError F) (clientmodels.ListTasksResponse F)
  GetTask : clientmodels.GetTaskRequest → Except (GoError F) (clientmodels.GetTaskResponse F)

/-- The Go struct `taskCacheImpl` (the lock is not modelled: a resync holds it from its
first to its last statement). -/
structure taskCacheImpl (F : Type) where
  vetesClient : vetesclient.Client F
  data : data F

/-- The function `clientTaskResourcesToTaskInfoResources`. -/
def clientTaskResourcesToTaskInfoResources {F : Type}
    (taskResources : Option (clientmodels.Resources F)) : Option (Resources F) :=
  match taskResources with
  | none => none
  | some taskResources =>
    some
      { CPUCores := taskResources.CPUCores
        RamGB := taskResources.RamGB
        DiskGB := taskResources.DiskGB
        GPU := match taskResources.GPU with
          | some gpu => some { Count := gpu.Count, Type_ := gpu.Type_ }
          | none => none }

/-- The function `clientTaskBioosInfoToTaskInfoBioosInfo`. -/
def clientTaskBioosInfoToTaskInfoBioosInfo (bioosInfo : Option clientmodels.BioosInfo) :
    Option BioosInfo :=
  match bioosInfo with
  | none => none
  | some bioosInfo =>
    some
      { AccountID := bioosInfo.AccountID
        UserID := bioosInfo.UserID
        SubmissionID := bioosInfo.SubmissionID
        RunID := bioosInfo.RunID }

/-- The function `clientTaskToTaskInfo`. `timeParse` is `time.Parse(time.RFC3339, ·)`: the
time it returns and the error, which is only logged. -/
def clientTaskToTaskInfo {F : Type} (timeParse : String → Int × Option (GoError F))
    (task : Option (clientmodels.Task F)) : Option (TaskInfo F) :=
  match task with
  | none => none
  | some task =>
    some
      { ID := task.ID
        State := task.State
        ClusterID := task.ClusterID
        Resources := clientTaskResourcesToTaskInfoResources task.Resources
        BioosInfo := clientTaskBioosInfoToTaskInfoBioosInfo task.BioosInfo
        PriorityValue := task.PriorityValue
        CreationTime := (timeParse task.CreationTime).1 }

/-- The loop of `taskCacheImpl.listTasks` from a page token on, with the tasks collected
so far. `fuel` bounds the number of pages requested: `none` means that the upstream still
announced a further page after that many requests. -/
def listTasksFrom {F : Type} (client : vetesclient.Client F) (view : String) (pageSize : Int) :
    Nat → String → List (clientmodels.Task F) →
    Option (Except (GoError F) (List (clientmodels.Task F)))
  | 0, _, _ => none
  | fuel + 1, pageToken, res =>
    match client.ListTasks
        { State := nonFinishedStates, View := view, PageSize := pageSize,
          PageToken := pageToken } with
    | Except.error err => some (Except.error err)
    | Except.ok resp =>
      if resp.NextPageToken = "" then some (Except.ok (res ++ resp.Tasks))
      else listTasksFrom client view pageSize fuel resp.NextPageToken (res ++ resp.Tasks)

/-- The method `taskCacheImpl.listTasks`. -/
def listTasks {F : Type} (fuel : Nat) (client : vetesclient.Client F) (view : String)
    (pageSize : Int) : Option (Except (GoError F) (List (clientmodels.Task F))) :=
  listTasksFrom client view pageSize fuel "" []

/-- The loop `for _, task := range tasks` of `taskCacheImpl.syncTasks` on the tasks still
to visit and the `newData` built so far. The result is `none` when `addTask` receives the
nil pointer that `clientTaskToTaskInfo` returns for a response without a task (a nil
dereference), an error when `GetTask` fails, and otherwise the final `newData`. -/
def syncLoop {F : Type} (timeParse : String → Int × Option (GoError F))
    (i : taskCacheImpl F) :
    List (clientmodels.Task F) → data F → Option (Except (GoError F) (data F))
  | [], newData => some (Except.ok newData)
  | task :: rest, newData =>
    match i.data.tasks.lookup task.ID with
    | some oldTask =>
      syncLoop timeParse i rest
        ((newData.addTask oldTask).updateTask task.ID (some task.State) none)
    | none =>
      match i.vetesClient.GetTask { ID := task.ID, View := consts.BasicView } with
      | Except.error err => some (Except.error err)
      | Except.ok gotTask =>
        match clientTaskToTaskInfo timeParse gotTask.Task with
        | none => none
        | some info => syncLoop timeParse i rest (newData.addTask info)

/-- The method `taskCacheImpl.syncTasks`: the returned error and the cache afterwards, or
`none` when the call does not return (see `listTasksFrom` and `syncLoop`). -/
def syncTasks {F : Type} (timeParse : String → Int × Option (GoError F)) (fuel : Nat)
    (i : taskCacheImpl F) : Option (Option (GoError F) × taskCacheImpl F) :=
  match listTasks fuel i.vetesClient consts.MinimalView consts.MaximumPageSize with
  | none => none
  | some (Except.error err) => some (some err, i)
  | some (Except.ok tasks) =>
    match syncLoop timeParse i tasks emptyData with
    | none => none
    | some (Except.error err) => some (some err, i)
    | some (Except.ok newData) => some (none, { vetesClient := i.vetesClient, data := newData })

/-! ## cache/task.go: updateTask and ListTasks on pointers

The maps of the task cache hold pointers to task entities, and `ListTasks` hands these
pointers out. Here the entities live in a heap, a list indexed by address; a pointer is an
address, and `new` allocates the next free one. -/

/-- The Go struct `data` with the task entities in a heap: `tasks` maps an ID to the
address of its entity. -/
structure heapData (F : Type) where
  heap : List (TaskInfo F)
  tasks : GoMap String Nat
  clusterIndexer : GoMap String (GoMap String Unit)

/-- The method `data.updateTask` on the heap. `new(schemodels.TaskInfo)` is the address
`d.heap.length`; the assignments `*newTask = *oldTask`, `newTask.State = *state` and
`newTask.ClusterID = *clusterID` write to this address only, and `d.tasks[id] = newTask`
stores it. `none` stands for the panic of dereferencing a pointer that is not the address
of an entity. -/
def heapData.updateTask {F : Type} (d : heapData F) (id : String)
    (state clusterID : Option String) : Option (heapData F) :=
  match d.tasks.lookup id with
  | none => some d
  | some oldPtr =>
    match d.heap[oldPtr]? with
    | none => none
    | some oldTask =>
      let newPtr := d.heap.length
      let newTask1 : TaskInfo F :=
        match state with
        | some s => if oldTask.State ≠ s then { oldTask with State := s } else oldTask
        | none => oldTask
      match clusterID with
      | some c =>
        if newTask1.ClusterID ≠ c then
          some
            { heap := d.heap ++ [{ newTask1 with ClusterID := c }]
              tasks := d.tasks.insert id newPtr
              clusterIndexer :=
                indexAdd (indexRemove d.clusterIndexer oldTask.ClusterID id) c id }
        else
          some
            { heap := d.heap ++ [newTask1]
              tasks := d.tasks.insert id newPtr
              clusterIndexer := d.clusterIndexer }
      | none =>
        some
          { heap := d.heap ++ [newTask1]
            tasks := d.tasks.insert id newPtr
            clusterIndexer := d.clusterIndexer }

/-- The method `taskCacheImpl.ListTasks` on the heap: the pointers it returns. An ID of
the bucket without an entry in `tasks` would give a nil pointer; it is skipped here. -/
def heapData.ListTasks {F : Type} (d : heapData F) (clusterID : String) : List Nat :=
  match d.clusterIndexer.lookup clusterID with
  | none => []
  | some ids =>
    if ids.len = 0 then []
    else ids.keys.filterMap (fun id => d.tasks.lookup id)

/-! ## Concrete inputs -/

/-- A task running on `cluster-01` with two CPU cores. -/
def overcommitScheduled : TaskInfo ℚ :=
  { ID := "task-0001", State := consts.TaskRunning, ClusterID := "cluster-01",
    CreationTime := 0,
    Resources := some { CPUCores := 2, RamGB := 0, DiskGB := 0, GPU := none },
    BioosInfo := none, PriorityValue := 0 }

/-- A queued candidate that requests no CPU. -/
def overcommitCandidate : TaskInfo ℚ :=
  { ID := "task-0002", State := consts.TaskQueued, ClusterID := "",
    CreationTime := 0,
    Resources := some { CPUCores := 0, RamGB := 0, DiskGB := 0, GPU := none },
    BioosInfo := none, PriorityValue := 0 }

/-- A capacity of one CPU core and nothing else. -/
def overcommitCapacity : Capacity ℚ :=
  { Count := none, CPUCores := some 1, RamGB := none, DiskGB := none, GPUCapacity := none }

/-- A cluster with that capacity. -/
def overcommitCluster : ClusterInfo ℚ :=
  { ID := "cluster-01", HeartbeatTimestamp := 0, Capacity := some overcommitCapacity,
    Limits := none }

/-- A task cache holding both tasks. -/
def overcommitData : data ℚ := (emptyData.addTask overcommitScheduled).addTask overcommitCandidate

/-- The cached task of the `UpdateTask` tests in cache/task_test.go. -/
def runningTask : TaskInfo ℚ :=
  { ID := "task-0001", State := consts.TaskRunning, ClusterID := "cluster-01",
    CreationTime := 0, Resources := none, BioosInfo := none, PriorityValue := 100 }

/-- The cache of those tests: one task, indexed under its cluster. -/
def runningData : data ℚ := emptyData.addTask runningTask

/-- An upstream service that accepts every update. -/
def upstreamOk : UpdateTaskRequest → Option (GoError ℚ) := fun _ => none

/-- An upstream service that fails every update. -/
def upstreamDown : UpdateTaskRequest → Option (GoError ℚ) :=
  fun _ => some (GoError.external "connection refused")

/-- The filter `fakeFilter` of scheduler_test.go: it passes cluster-01, -02 and -03. -/
def fakeFilter : FilterPlugin ℚ :=
  { Name := "fakeFilter"
    Filter := fun _ _ cluster cycleState =>
      if cluster.ID = "cluster-01" ∨ cluster.ID = "cluster-02" ∨ cluster.ID = "cluster-03"
      then (none, cycleState) else (some (GoError.external "xxx"), cycleState) }

/-- The global filter `fakeGlobalFilterPass` of scheduler_test.go. -/
def fakeGlobalFilterPass : GlobalFilterPlugin ℚ :=
  { Name := "fakeGlobalFilterPass"
    GlobalFilter := fun _ _ cycleState => (none, cycleState) }

/-- The score plugin `fakeScore` of scheduler_test.go:
cluster-04 > cluster-01 = cluster-02 > cluster-03. -/
def fakeScore : ScorePlugin ℚ :=
  { Name := "fakeScore"
    Score := fun _ _ cluster cycleState =>
      (if cluster.ID = "cluster-01" then 10
       else if cluster.ID = "cluster-02" then 10
       else if cluster.ID = "cluster-03" then 8
       else if cluster.ID = "cluster-04" then 20
       else 0, cycleState) }

/-- The sort plugin `fakeSort` of scheduler_test.go: task-02 before task-01. -/
def fakeSort : SortPlugin ℚ :=
  { Name := "fakeSort"
    Less := fun a b => decide (a.ID = "task-02" ∧ b.ID = "task-01") }

/-- A cluster that has nothing but an ID and a heartbeat. -/
def bareCluster (id : String) (heartbeat : Int) : ClusterInfo ℚ :=
  { ID := id, HeartbeatTimestamp := heartbeat, Capacity := none, Limits := none }

/-- An unscheduled task that has nothing but an ID and a state. -/
def bareTask (id state : String) : TaskInfo ℚ :=
  { ID := id, State := state, ClusterID := "", CreationTime := 0, Resources := none,
    BioosInfo := none, PriorityValue := 0 }

/-- The scheduler of the case "filter pass, score only one" of `TestSchedulerTask`,
with the sort plugin and the timeout of `TestScheduleTasks`. -/
def testScheduler : Scheduler ℚ :=
  { plugins :=
      { sort := some fakeSort, globalFilters := [fakeGlobalFilterPass],
        filters := [fakeFilter], scores := [fakeScore] }
    clusterNotReadyTimeout := 300000000000 }

/-- The surroundings of `TestScheduleTasks`: every update succeeds, the draw is 0,
`sort.Slice` sorts by insertion, the clock stands at two hours, one cluster has just sent
a heartbeat and the other one an hour ago. -/
def testEnv : Env ℚ :=
  { upstream := fun _ _ => none
    intn := fun _ => 0
    sortSlice := fun less l => l.insertionSort (fun a b => less a b = true)
    now := 7200000000000
    clusters := [bareCluster "cluster-01" 7200000000000,
                 bareCluster "cluster-not-ready" 3600000000000] }

/-- The task cache of `TestScheduleTasks`: two queued tasks and a canceling one. -/
def testData : data ℚ :=
  ((emptyData.addTask (bareTask "task-01" consts.TaskQueued)).addTask
    (bareTask "task-02" consts.TaskQueued)).addTask
    (bareTask "task-canceling" consts.TaskCanceling)

/-- The world at the start of the tick of `TestScheduleTasks`. -/
def testWorld : World ℚ :=
  { data := testData, events := [], updates := 0, draws := 0, panicked := false }

/-- A task of the first seeded scenario: one CPU core, 2 GB of RAM, 10 GB of disk. -/
def smallTask (id clusterID : String) : TaskInfo ℚ :=
  { ID := id, State := consts.TaskRunning, ClusterID := clusterID, CreationTime := 0,
    Resources := some { CPUCores := 1, RamGB := 2, DiskGB := 10, GPU := none },
    BioosInfo := none, PriorityValue := 0 }

/-- The candidate of the first seeded scenario: ten CPU cores, 10 GB of RAM and of disk. -/
def bigCandidate : TaskInfo ℚ :=
  { ID := "task-0003", State := consts.TaskQueued, ClusterID := "", CreationTime := 0,
    Resources := some { CPUCores := 10, RamGB := 10, DiskGB := 10, GPU := none },
    BioosInfo := none, PriorityValue := 0 }

/-- The capacity of the first seeded scenario. -/
def scenarioCapacity : Capacity ℚ :=
  { Count := some 10, CPUCores := some 10, RamGB := some 20, DiskGB := some 100,
    GPUCapacity := none }

/-- The cluster of the first seeded scenario. -/
def scenarioCluster : ClusterInfo ℚ :=
  { ID := "cluster-01", HeartbeatTimestamp := 0, Capacity := some scenarioCapacity,
    Limits := none }

/-- The task cache of the first seeded scenario: two small tasks on the cluster. -/
def scenarioData : data ℚ :=
  (emptyData.addTask (smallTask "task-0001" "cluster-01")).addTask
    (smallTask "task-0002" "cluster-01")

/-- A quota of one CPU core and nothing else. -/
def overcommitQuota : ResourceQuota ℚ :=
  { Count := none, CPUCores := some 1, RamGB := none, DiskGB := none, GPUQuota := none }

/-- The quota `Count: 2` of `TestGlobalFilter`. -/
def countQuota : ResourceQuota ℚ :=
  { Count := some 2, CPUCores := none, RamGB := none, DiskGB := none, GPUQuota := none }

/-- A task of `TestGlobalFilter`: an ID, a cluster and the account and user that own it. -/
def accountTask (id clusterID accountID userID : String) : TaskInfo ℚ :=
  { ID := id, State := consts.TaskQueued, ClusterID := clusterID, CreationTime := 0,
    Resources := none,
    BioosInfo := some { AccountID := accountID, UserID := userID, SubmissionID := "",
                        RunID := "" },
    PriorityValue := 0 }

/-- The quota cache of the account cases of `TestGlobalFilter`: no global and no user
quota, every account has the quota `Count: 2`. -/
def accountQuotas : QuotaCache ℚ :=
  { GetGlobalQuota := (none, none)
    GetAccountQuota := fun _ => (some countQuota, none)
    GetUserQuota := fun _ _ => (none, none) }

/-- The scheduled tasks of the case "account quota enough" of `TestGlobalFilter`. -/
def accountData : data ℚ :=
  (emptyData.addTask (accountTask "task-exist-01" "cluster-01" "account-01" "user-02")).addTask
    (accountTask "task-exist-02" "cluster-01" "account-02" "user-03")

/-- A task of the GPU cases of `TestCheckQuota`: nothing but a GPU request. -/
def gpuTask (id clusterID gpuType : String) (count : ℚ) : TaskInfo ℚ :=
  { ID := id, State := consts.TaskQueued, ClusterID := clusterID, CreationTime := 0,
    Resources := some { CPUCores := 0, RamGB := 0, DiskGB := 0,
                        GPU := some { Count := count, Type_ := gpuType } },
    BioosInfo := none, PriorityValue := 0 }

/-- The GPU quota `{"type1": 5, "type2": 5}` of `TestCheckQuota`. -/
def typedGPUQuota : GPUQuota ℚ :=
  { GPU := (∅ : GoMap String ℚ).insert "type1" 5 |>.insert "type2" 5 }

/-- The quota of the GPU cases of `TestCheckQuota`. -/
def gpuOnlyQuota : ResourceQuota ℚ :=
  { Count := none, CPUCores := none, RamGB := none, DiskGB := none,
    GPUQuota := some typedGPUQuota }

/-- A capacity whose GPU map is non-null and has no entries. -/
def emptyGPUCapacity : Capacity ℚ :=
  { Count := none, CPUCores := none, RamGB := none, DiskGB := none,
    GPUCapacity := some { GPU := ∅ } }

/-- A cluster with that capacity and no limits. -/
def emptyGPUCluster : ClusterInfo ℚ :=
  { ID := "cluster-01", HeartbeatTimestamp := 0, Capacity := some emptyGPUCapacity,
    Limits := none }

/-- The capacity of the GPU cases of `TestFilter`: five GPUs of each of two types. -/
def typedGPUCapacity : Capacity ℚ :=
  { Count := none, CPUCores := none, RamGB := none, DiskGB := none,
    GPUCapacity := some { GPU := (∅ : GoMap String ℚ).insert "type1" 5 |>.insert "type2" 5 } }

/-- The cluster of the GPU cases of `TestFilter`. -/
def typedGPUCluster : ClusterInfo ℚ :=
  { ID := "cluster-01", HeartbeatTimestamp := 0, Capacity := some typedGPUCapacity,
    Limits := none }

/-- The task cache of the case "task with gpu count and type, total count not enough" of
`TestFilter`: one GPU of type1 and nine GPUs without a type are in use. -/
def typedGPUData : data ℚ :=
  (emptyData.addTask (gpuTask "task-exist-01" "cluster-01" "type1" 1)).addTask
    (gpuTask "task-exist-02" "cluster-01" "" 9)

/-- An extra-priority snapshot with one rule: tasks of account-01 gain 100. -/
def accountBoost : List ExtraPriorityInfo :=
  [{ AccountID := "account-01", UserID := "", SubmissionID := "", RunID := "",
     ExtraPriorityValue := 100 }]

/-- A cluster without a capacity, with a limit of four CPU cores and 8 GB of RAM. -/
def limitedCluster : ClusterInfo ℚ :=
  { ID := "cluster-01", HeartbeatTimestamp := 0, Capacity := none,
    Limits := some { CPUCores := some 4, RamGB := some 8, GPULimit := none } }

/-- A task cache in which five GPUs without a type are in use on `cluster-01`. -/
def halfGPUData : data ℚ :=
  emptyData.addTask (gpuTask "task-exist-01" "cluster-01" "" 5)

/-- A candidate that carries a GPU request for zero GPUs. -/
def zeroGPUCandidate : TaskInfo ℚ := gpuTask "task-0000" "" "" 0

/-- Options in which all five durations are ten seconds. -/
def equalOptions : Options :=
  { Plugins := [], SchedulePeriod := 10000000000, ClusterNotReadyTimeout := 10000000000,
    Cache := { SyncPeriod := 10000000000 },
    Controller := { Period := 10000000000, ClusterRescheduleTimeout := 10000000000 } }

/-- A cache without quotas and with the extra-priority rule of `accountBoost`. -/
def testCache : Cache ℚ :=
  { QuotaCache :=
      { GetGlobalQuota := (none, none)
        GetAccountQuota := fun _ => (none, none)
        GetUserQuota := fun _ _ => (none, none) }
    ExtraPriorityCache := accountBoost }

/-- The task of `TestMarkTasksFailedNotMeetLimits`: queued, unscheduled, two CPU cores
and 4 GB of RAM. -/
def limitTask : TaskInfo ℚ :=
  { ID := "task-0000", State := consts.TaskQueued, ClusterID := "", CreationTime := 0,
    Resources := some { CPUCores := 2, RamGB := 4, DiskGB := 0, GPU := none },
    BioosInfo := none, PriorityValue := 0 }

/-- The surroundings of the case "mark" of `TestMarkTasksFailedNotMeetLimits`: one cluster
with a limit of one CPU core, one with a limit of 2 GB of RAM. -/
def markEnv : Env ℚ :=
  { upstream := fun _ _ => none
    intn := fun _ => 0
    sortSlice := fun _ l => l
    now := 0
    clusters :=
      [{ ID := "cluster-01", HeartbeatTimestamp := 0, Capacity := none,
         Limits := some { CPUCores := some 1, RamGB := none, GPULimit := none } },
       { ID := "cluster-02", HeartbeatTimestamp := 0, Capacity := none,
         Limits := some { CPUCores := none, RamGB := some 2, GPULimit := none } }] }

/-- The world of that case: the task cache holds the task. -/
def markWorld : World ℚ :=
  { data := emptyData.addTask limitTask, events := [], updates := 0, draws := 0,
    panicked := false }

/-- An `Error` method under which every error reads "rejected". -/
def rejectedText : GoError ℚ → String := fun _ => "rejected"

/-- A task of `TestRescheduleTask`: an ID, a state and the cluster it is assigned to. -/
def assignedTask (id state clusterID : String) : TaskInfo ℚ :=
  { ID := id, State := state, ClusterID := clusterID, CreationTime := 0, Resources := none,
    BioosInfo := none, PriorityValue := 0 }

/-- The task cache of `TestRescheduleTask`: two tasks on a cluster whose heartbeat is an
hour old, two on a cluster that is no longer listed, one on a cluster that is alive. -/
def rescheduleData : data ℚ :=
  ((((emptyData.addTask (assignedTask "task-01" consts.TaskRunning "cluster-too-old")).addTask
    (assignedTask "task-02" consts.TaskCanceling "cluster-too-old")).addTask
    (assignedTask "task-03" consts.TaskQueued "cluster-deleted")).addTask
    (assignedTask "task-04" consts.TaskCanceling "cluster-deleted")).addTask
    (assignedTask "task-05" consts.TaskRunning "cluster-normal")

/-- The surroundings of `TestRescheduleTask`: the clock stands at two hours, one cluster
has just sent a heartbeat and the other one an hour ago. -/
def rescheduleEnv : Env ℚ :=
  { upstream := fun _ _ => none
    intn := fun _ => 0
    sortSlice := fun _ l => l
    now := 7200000000000
    clusters := [bareCluster "cluster-normal" 7200000000000,
                 bareCluster "cluster-too-old" 3600000000000] }

/-- The world of `TestRescheduleTask`. -/
def rescheduleWorld : World ℚ :=
  { data := rescheduleData, events := [], updates := 0, draws := 0, panicked := false }

/-- The controller of `TestRescheduleTask`: a timeout of twenty minutes. -/
def testController : Controller := { clusterRescheduleTimeout := 1200000000000 }

/-- A second cluster with the capacity of the first seeded scenario and no task. -/
def idleCluster : ClusterInfo ℚ :=
  { ID := "cluster-02", HeartbeatTimestamp := 0, Capacity := some scenarioCapacity,
    Limits := none }

/-- Options that configure the ClusterCapacity plugin alone. -/
def capacityOptions : Options :=
  { Plugins := [clustercapacity.Name]
    SchedulePeriod := NewOptions.SchedulePeriod
    ClusterNotReadyTimeout := NewOptions.ClusterNotReadyTimeout
    Cache := NewOptions.Cache
    Controller := NewOptions.Controller }

/-- The plugins group with ClusterCapacity as the only Filter and the only Score plugin. -/
def capacityPlugins : pluginsGroup ℚ :=
  { sort := none
    globalFilters := []
    filters := [{ Name := clustercapacity.Name, Filter := clustercapacity.Filter }]
    scores := [{ Name := clustercapacity.Name
                 Score := fun _d task cluster cycleState =>
                   ((clustercapacity.Score task cluster cycleState).getD 0, cycleState) }] }

/-- A scheduler with the ClusterCapacity plugin alone. -/
def capacityScheduler : Scheduler ℚ :=
  { plugins := capacityPlugins, clusterNotReadyTimeout := 60000000000 }

/-- Surroundings with the busy and the idle cluster, an upstream that accepts every
update and a random source that always draws 0. -/
def pairEnv : Env ℚ :=
  { upstream := fun _ _ => none
    intn := fun _ => 0
    sortSlice := fun _ l => l
    now := 0
    clusters := [scenarioCluster, idleCluster] }

/-- The world of the first seeded scenario before the scheduling attempt. -/
def pairWorld : World ℚ :=
  { data := scenarioData, events := [], updates := 0, draws := 0, panicked := false }

/-- The scheduler that `NewScheduler` builds from `capacityOptions`: no Sort plugin, the
default timeout of five minutes. -/
def sortlessScheduler : Scheduler ℚ :=
  { plugins := capacityPlugins, clusterNotReadyTimeout := 300000000000 }

/-- Valid options whose reschedule timeout (one minute) is below the not-ready timeout
(ten minutes). -/
def skewedOptions : Options :=
  { Plugins := NewOptions.Plugins
    SchedulePeriod := 10000000000
    ClusterNotReadyTimeout := 600000000000
    Cache := { SyncPeriod := 10000000000 }
    Controller := { Period := 10000000000, ClusterRescheduleTimeout := 60000000000 } }

/-- Surroundings with one cluster whose last heartbeat is five minutes old. -/
def agedEnv : Env ℚ :=
  { upstream := fun _ _ => none
    intn := fun _ => 0
    sortSlice := fun _ l => l
    now := 7200000000000
    clusters := [bareCluster "cluster-01" 6900000000000] }

/-- The filter `fakeFilterFail` of scheduler_test.go: it rejects every cluster. -/
def fakeFilterFail : FilterPlugin ℚ :=
  { Name := "fakeFilterFail"
    Filter := fun _ _ _ cycleState => (some (GoError.external "xxx"), cycleState) }

/-- Surroundings as `testEnv`, with a `sort.Slice` that sorts by insertion: an element is
put before the first one that is not less than it. -/
def sortingEnv : Env ℚ :=
  { upstream := fun _ _ => none
    intn := fun _ => 0
    sortSlice := fun less l => l.insertionSort (fun a b => less b a = false)
    now := 7200000000000
    clusters := [bareCluster "cluster-01" 7200000000000,
                 bareCluster "cluster-not-ready" 3600000000000] }

/-- The scheduler of `TestScheduleTasks` with the PrioritySort plugin over an empty
snapshot of extra priorities. -/
def sortingScheduler : Scheduler ℚ :=
  { plugins :=
      { sort := some { Name := prioritysort.Name, Less := prioritysort.Less [] },
        globalFilters := [fakeGlobalFilterPass], filters := [fakeFilter],
        scores := [fakeScore] }
    clusterNotReadyTimeout := 300000000000 }

/-- The cache `runningData` with its one entity at address 0. -/
def runningHeap : heapData ℚ :=
  { heap := [runningTask]
    tasks := AList.insert runningTask.ID 0 ∅
    clusterIndexer := runningData.clusterIndexer }

/-- A cluster with room for one task. -/
def singleSlotCluster : ClusterInfo ℚ :=
  { ID := "cluster-01", HeartbeatTimestamp := 7200000000000,
    Capacity := some { Count := some 1, CPUCores := none, RamGB := none, DiskGB := none,
                       GPUCapacity := none },
    Limits := none }

/-- A scheduler with the Sort plugin of `TestScheduleTasks` and ClusterCapacity as its
only Filter. -/
def slotScheduler : Scheduler ℚ :=
  { plugins :=
      { sort := some fakeSort, globalFilters := [],
        filters := [{ Name := clustercapacity.Name, Filter := clustercapacity.Filter }],
        scores := [] }
    clusterNotReadyTimeout := 300000000000 }

/-- Surroundings as `testEnv` with the single-slot cluster as the only cluster. -/
def slotEnv : Env ℚ :=
  { upstream := fun _ _ => none
    intn := fun _ => 0
    sortSlice := fun less l => l.insertionSort (fun a b => less a b = true)
    now := 7200000000000
    clusters := [singleSlotCluster] }

/-- A queued task of account-01 whose `PriorityValue` is the largest Go `int`. -/
def maxPriorityTask : TaskInfo ℚ :=
  { ID := "task-max", State := consts.TaskQueued, ClusterID := "", CreationTime := 0,
    Resources := none,
    BioosInfo := some { AccountID := "account-01", UserID := "user-01", SubmissionID := "",
                        RunID := "" },
    PriorityValue := 9223372036854775807 }

/-! ## Invariants and auxiliary notions used in the statements -/

/-- The loop invariant of `getMaxScoreClusterID` over the entries seen so far. -/
def MaxItemsInv (seen maxItems : List clusterWithScore) : Prop :=
  maxItems ≠ [] ∧
  (∀ e ∈ maxItems, e ∈ seen) ∧
  (∀ e ∈ maxItems, ∀ e' ∈ seen, e'.score ≤ e.score)

def InBucket (clusterIndexer : GoMap String (GoMap String Unit)) (c id : String) : Prop :=
  ∃ ids, clusterIndexer.lookup c = some ids ∧ id ∈ ids

def NoEmptyBucket (clusterIndexer : GoMap String (GoMap String Unit)) : Prop :=
  ∀ c ids, clusterIndexer.lookup c = some ids → ids.len ≠ 0

def IndexInv {F : Type} (d : data F) : Prop :=
  (∀ c id, InBucket d.clusterIndexer c id ↔
    ∃ t, d.tasks.lookup id = some t ∧ t.ClusterID = c) ∧
  (∀ id, id ∈ d.tasks → ∃! c, InBucket d.clusterIndexer c id) ∧
  NoEmptyBucket d.clusterIndexer

def KeysMatch {F : Type} (d : data F) : Prop :=
  ∀ id t, d.tasks.lookup id = some t → t.ID = id

def NoFinished {F : Type} (d : data F) : Prop :=
  ∀ id t, d.tasks.lookup id = some t → isFinished t.State = false

/-- The entity `updateTask` stores: the old one with State and ClusterID overwritten by
the values provided. -/
def updatedTask {F : Type} (oldTask : TaskInfo F) (state clusterID : Option String) :
    TaskInfo F :=
  { oldTask with State := state.getD oldTask.State,
                 ClusterID := clusterID.getD oldTask.ClusterID }

namespace clustercapacity

/-- Number of tasks assigned to the cluster, as a Go `int`. -/
def occupiedCount {F : Type} (scheduled : List (TaskInfo F)) : Int :=
  wrapInt64 scheduled.length

/-- Sum of the CPU cores of the assigned tasks that carry resources, as a Go `int`. -/
def occupiedCPUCores {F : Type} (scheduled : List (TaskInfo F)) : Int :=
  wrapInt64 ((scheduled.filterMap (fun item => item.Resources)).map
    (fun res => res.CPUCores)).sum

/-- Sum of the RAM of the assigned tasks that carry resources, added in list order. -/
def occupiedRamGB {F : Type} [Zero F] [Add F] (scheduled : List (TaskInfo F)) : F :=
  ((scheduled.filterMap (fun item => item.Resources)).map
    (fun res => res.RamGB)).foldl (fun a b => a + b) 0

/-- Sum of the disk of the assigned tasks that carry resources, added in list order. -/
def occupiedDiskGB {F : Type} [Zero F] [Add F] (scheduled : List (TaskInfo F)) : F :=
  ((scheduled.filterMap (fun item => item.Resources)).map
    (fun res => res.DiskGB)).foldl (fun a b => a + b) 0

/-- The GPU requests of the assigned tasks. -/
def gpuRequests {F : Type} (scheduled : List (TaskInfo F)) : List (GPUResource F) :=
  (scheduled.filterMap (fun item => item.Resources)).filterMap (fun res => res.GPU)

/-- Sum of the GPU counts of the assigned tasks, added in list order. -/
def occupiedGPUCount {F : Type} [Zero F] [Add F] (scheduled : List (TaskInfo F)) : F :=
  ((gpuRequests scheduled).map (fun gpu => gpu.Count)).foldl (fun a b => a + b) 0

/-- Sum of the GPU counts of the assigned tasks that name the GPU type `ty`. -/
def occupiedGPUOfType {F : Type} [Zero F] [Add F] (scheduled : List (TaskInfo F))
    (ty : String) : F :=
  (((gpuRequests scheduled).filter (fun gpu => gpu.Type_ = ty)).map
    (fun gpu => gpu.Count)).foldl (fun a b => a + b) 0

/-- The GPU capacity rules of `Filter` for a candidate with GPU request `gpu`: the total
rule, and for a named type the per-type rule. -/
def gpuRuleViolated {F : Type} [Zero F] [Add F] [LT F] (g : GPUCapacity F)
    (gpu : GPUResource F) (scheduled : List (TaskInfo F)) : Prop :=
  sumGPUCountCapacity g < occupiedGPUCount scheduled + gpu.Count ∨
  (gpu.Type_ ≠ "" ∧
    (g.GPU.lookup gpu.Type_ = none ∨
     ∃ c, g.GPU.lookup gpu.Type_ = some c ∧
       c < occupiedGPUOfType scheduled gpu.Type_ + gpu.Count))

/-- The condition under which `Filter` rejects, read off the code: every resource
dimension is checked only for a task that carries resources and requests a positive
amount of it. -/
def capacityExceeded {F : Type} [Zero F] [Add F] [LT F] (cap : Capacity F)
    (task : TaskInfo F) (scheduled : List (TaskInfo F)) : Prop :=
  (∃ c, cap.Count = some c ∧ c < wrapInt64 (occupiedCount scheduled + 1)) ∨
  (∃ res, task.Resources = some res ∧
    ((∃ c, cap.CPUCores = some c ∧ 0 < res.CPUCores ∧
        c < wrapInt64 (occupiedCPUCores scheduled + res.CPUCores)) ∨
     (∃ c, cap.RamGB = some c ∧ 0 < res.RamGB ∧
        c < occupiedRamGB scheduled + res.RamGB) ∨
     (∃ c, cap.DiskGB = some c ∧ 0 < res.DiskGB ∧
        c < occupiedDiskGB scheduled + res.DiskGB) ∨
     (∃ g gpu, cap.GPUCapacity = some g ∧ res.GPU = some gpu ∧
        gpuRuleViolated g gpu scheduled)))

/-- The rejection condition in the words of the claim: a non-null capacity dimension is
smaller than the occupied amount plus the requested amount (a task without resources
requests nothing), or a GPU capacity rule is violated. -/
def claimedCapacityExceeded {F : Type} [Zero F] [Add F] [LT F] (cap : Capacity F)
    (task : TaskInfo F) (scheduled : List (TaskInfo F)) : Prop :=
  (∃ c, cap.Count = some c ∧ c < wrapInt64 (occupiedCount scheduled + 1)) ∨
  (∃ c, cap.CPUCores = some c ∧
    c < wrapInt64 (occupiedCPUCores scheduled +
      (task.Resources.map (fun res => res.CPUCores)).getD 0)) ∨
  (∃ c, cap.RamGB = some c ∧
    c < occupiedRamGB scheduled + (task.Resources.map (fun res => res.RamGB)).getD 0) ∨
  (∃ c, cap.DiskGB = some c ∧
    c < occupiedDiskGB scheduled + (task.Resources.map (fun res => res.DiskGB)).getD 0) ∨
  (∃ res g gpu, task.Resources = some res ∧ cap.GPUCapacity = some g ∧ res.GPU = some gpu ∧
    gpuRuleViolated g gpu scheduled)

end clustercapacity

/-- Whether the call is an `UpdateTask` of the task cache. -/
def Event.isUpdateTask {F : Type} : Event F → Bool
  | Event.UpdateTask _ _ _ _ => true
  | _ => false

/-- The tasks that the call hands to a plugin (none for an `UpdateTask`). -/
def Event.tasks {F : Type} : Event F → List (TaskInfo F)
  | Event.UpdateTask _ _ _ _ => []
  | Event.Less _ tasks => tasks
  | Event.GlobalFilter _ task => [task]
  | Event.Filter _ task _ => [task]
  | Event.Score _ task _ => [task]

/-- All calls of the list are plugin calls on the one task `task`. -/
def PluginCallsOn {F : Type} (task : TaskInfo F) (events : List (Event F)) : Prop :=
  ∀ e ∈ events, e.isUpdateTask = false ∧ ∀ t ∈ e.tasks, t = task

/-- The `UpdateTask` calls by which the first loop of `scheduleTasks` cancels the
canceling tasks of the list, in list order. -/
def cancelEvents {F : Type} (tasks : List (TaskInfo F)) : List (Event F) :=
  (tasks.filter (fun task => decide (task.State = consts.TaskCanceling))).map
    (fun task => Event.UpdateTask task.ID (some consts.TaskCanceled) none none)

/-- The queued tasks of the list, the slice `toScheduleTasks` of `scheduleTasks`. -/
def queuedTasks {F : Type} (tasks : List (TaskInfo F)) : List (TaskInfo F) :=
  tasks.filter (fun task => decide (task.State = consts.TaskQueued))

/-- Every call of the list is a plugin call on tasks of `tasks`, or the assignment of a
task of `tasks` to a cluster of `clusters`. -/
def ScheduleCalls {F : Type} (tasks : List (TaskInfo F)) (clusters : List (ClusterInfo F))
    (events : List (Event F)) : Prop :=
  ∀ e ∈ events,
    (e.isUpdateTask = false ∧ ∀ t ∈ e.tasks, t ∈ tasks) ∨
    (∃ t ∈ tasks, ∃ c ∈ clusters, e = Event.UpdateTask t.ID none (some c.ID) none)

/-- The effective priority of a task under a snapshot of extra priorities: its
`PriorityValue` plus the boosts of the matching rules, added in list order as Go `int`. -/
def effectivePriority {F : Type} (extraPriorities : List ExtraPriorityInfo)
    (task : TaskInfo F) : Int :=
  extraPriorities.foldl
    (fun value ep => if ep.MatchTask task then wrapInt64 (value + ep.ExtraPriorityValue)
      else value)
    task.PriorityValue

namespace utils

/-- The per-task limits in the words of the claim: the CPU limit is null or the CPU
request is at most it; the RAM limit is null or the RAM request is at most it; and when
the task has a GPU request and the GPU limit is non-null, a request without a type finds
some entry of the limit map that is at least the requested count, and a request with a
type finds its type in the map with a value that is at least the requested count. -/
def MeetsLimits {F : Type} [LE F] (res : Resources F) (lim : Limits F) : Prop :=
  (∀ limit, lim.CPUCores = some limit → res.CPUCores ≤ limit) ∧
  (∀ limit, lim.RamGB = some limit → res.RamGB ≤ limit) ∧
  (∀ gpu gpuLimit, res.GPU = some gpu → lim.GPULimit = some gpuLimit →
    (gpu.Type_ = "" → ∃ ty gpuCount, gpuLimit.GPU.lookup ty = some gpuCount ∧
      gpu.Count ≤ gpuCount) ∧
    (gpu.Type_ ≠ "" → ∃ gpuCount, gpuLimit.GPU.lookup gpu.Type_ = some gpuCount ∧
      gpu.Count ≤ gpuCount))

end utils

/-- A plugin score clamped to the range from `plugin.MinScore` to `plugin.MaxScore`. -/
def clampScore (value : Int) : Int :=
  max 0 (min 100 value)

/-- The clamped values that the Score plugins return for one cluster, each plugin being
called on the cycle state that its predecessor left. -/
def clampedValues {F : Type} (d : data F) (task : TaskInfo F) (cluster : ClusterInfo F) :
    List (ScorePlugin F) → CycleState F → List Int
  | [], _ => []
  | score :: rest, cycleState =>
    clampScore (score.Score d task cluster cycleState).1 ::
      clampedValues d task cluster rest (score.Score d task cluster cycleState).2

/-- The combined score of one cluster: 100 without Score plugins, otherwise the integer
quotient of the sum of the clamped plugin values by the number of plugins. -/
def combinedScore {F : Type} (scores : List (ScorePlugin F)) (d : data F)
    (task : TaskInfo F) (cluster : ClusterInfo F) (cycleState : CycleState F) : Int :=
  if scores.length = 0 then 100
  else (clampedValues d task cluster scores cycleState).sum / scores.length

/-- One entry per cluster, in order, each scored on the cycle state that the scoring of
the clusters before it has left. -/
def scoredFrom {F : Type} (scores : List (ScorePlugin F)) (d : data F) (task : TaskInfo F) :
    List (ClusterInfo F) → CycleState F → List clusterWithScore
  | [], _ => []
  | cluster :: rest, cycleState =>
    { clusterID := cluster.ID, score := combinedScore scores d task cluster cycleState } ::
      scoredFrom scores d task rest (sumScores d task cluster scores 0 cycleState).2.1

namespace resourcequota

/-- The GPU quota rule of `checkQuota` for a candidate with GPU request `gpu` over the
in-scope scheduled tasks: a request with a type is checked against the quota of that
type only, a request without a type against the sum of all quotas. -/
def gpuRuleViolated {F : Type} [Zero F] [Add F] [LT F] (g : GPUQuota F)
    (gpu : GPUResource F) (inScope : List (TaskInfo F)) : Prop :=
  (gpu.Type_ ≠ "" ∧
    (g.GPU.lookup gpu.Type_ = none ∨
     ∃ c, g.GPU.lookup gpu.Type_ = some c ∧
       c < clustercapacity.occupiedGPUOfType inScope gpu.Type_ + gpu.Count)) ∨
  (gpu.Type_ = "" ∧
    sumGPUCountQuota g < clustercapacity.occupiedGPUCount inScope + gpu.Count)

/-- The condition under which `checkQuota` rejects, read off the code: every resource
dimension is checked only for a task that carries resources and requests a positive
amount of it. -/
def quotaExceeded {F : Type} [Zero F] [Add F] [LT F] (quota : ResourceQuota F)
    (task : TaskInfo F) (inScope : List (TaskInfo F)) : Prop :=
  (∃ c, quota.Count = some c ∧ c < wrapInt64 (clustercapacity.occupiedCount inScope + 1)) ∨
  (∃ res, task.Resources = some res ∧
    ((∃ c, quota.CPUCores = some c ∧ 0 < res.CPUCores ∧
        c < wrapInt64 (clustercapacity.occupiedCPUCores inScope + res.CPUCores)) ∨
     (∃ c, quota.RamGB = some c ∧ 0 < res.RamGB ∧
        c < clustercapacity.occupiedRamGB inScope + res.RamGB) ∨
     (∃ c, quota.DiskGB = some c ∧ 0 < res.DiskGB ∧
        c < clustercapacity.occupiedDiskGB inScope + res.DiskGB) ∨
     (∃ g gpu, quota.GPUQuota = some g ∧ res.GPU = some gpu ∧
        gpuRuleViolated g gpu inScope)))

/-- The rejection condition in the words of the claim: a non-null quota dimension is
smaller than the in-scope total plus the candidate's request (a task without resources
requests nothing), or the GPU quota rule is violated. -/
def claimedQuotaExceeded {F : Type} [Zero F] [Add F] [LT F] (quota : ResourceQuota F)
    (task : TaskInfo F) (inScope : List (TaskInfo F)) : Prop :=
  (∃ c, quota.Count = some c ∧ c < wrapInt64 (clustercapacity.occupiedCount inScope + 1)) ∨
  (∃ c, quota.CPUCores = some c ∧
    c < wrapInt64 (clustercapacity.occupiedCPUCores inScope +
      (task.Resources.map (fun res => res.CPUCores)).getD 0)) ∨
  (∃ c, quota.RamGB = some c ∧
    c < clustercapacity.occupiedRamGB inScope +
      (task.Resources.map (fun res => res.RamGB)).getD 0) ∨
  (∃ c, quota.DiskGB = some c ∧
    c < clustercapacity.occupiedDiskGB inScope +
      (task.Resources.map (fun res => res.DiskGB)).getD 0) ∨
  (∃ res g gpu, task.Resources = some res ∧ quota.GPUQuota = some g ∧ res.GPU = some gpu ∧
    gpuRuleViolated g gpu inScope)

/-- The accumulators of `checkQuota` and of `clustercapacity.Filter` agree: all totals are
equal and the per-type totals are equal for every non-empty type. -/
def TotalsAgree {F : Type} (t t' : clustercapacity.totals F) : Prop :=
  t.totalCount = t'.totalCount ∧ t.totalCPUCores = t'.totalCPUCores ∧
  t.totalRamGB = t'.totalRamGB ∧ t.totalDiskGB = t'.totalDiskGB ∧
  t.totalGPUCount = t'.totalGPUCount ∧
  ∀ ty, ty ≠ "" → t.totalGPU.lookup ty = t'.totalGPU.lookup ty

end resourcequota

/-- The same task with its GPU request removed. -/
def TaskInfo.withoutGPU {F : Type} (task : TaskInfo F) : TaskInfo F :=
  { task with Resources := task.Resources.map (fun res => { res with GPU := none }) }

namespace clustercapacity

/-- The cycle state holds the totals `t` under the six keys of the plugin, each with the
dynamic type that `Filter` stores. -/
def HoldsTotals {F : Type} (cycleState : CycleState F) (t : totals F) : Prop :=
  cycleInt cycleState totalCountKey = some t.totalCount ∧
  cycleInt cycleState totalCPUCoreKey = some t.totalCPUCores ∧
  cycleFloat64 cycleState totalRamGBKey = some t.totalRamGB ∧
  cycleFloat64 cycleState totalDiskGBKey = some t.totalDiskGB ∧
  cycleFloat64 cycleState totalGPUCountKey = some t.totalGPUCount ∧
  cycleMap cycleState totalGPUKey = some t.totalGPU

/-- The score of the Count dimension, evaluated when the Count capacity is non-null: the
least-requested score of the occupied count plus one. -/
def countDimension {F : Type} [Zero F] [Sub F] [Mul F] [Div F] [LT F] [BEq F]
    [∀ a b : F, Decidable (a < b)] [Float64Conv F] (cap : Capacity F) (t : totals F) :
    Option Int :=
  cap.Count.map fun c =>
    leastRequestedScore (Float64Conv.ofInt (wrapInt64 (1 + t.totalCount)) : F)
      (Float64Conv.ofInt c)

/-- The score of the CPU dimension, evaluated when the CPU capacity is non-null and the
task requests a positive number of cores. -/
def cpuDimension {F : Type} [Zero F] [Sub F] [Mul F] [Div F] [LT F] [BEq F]
    [∀ a b : F, Decidable (a < b)] [Float64Conv F] (cap : Capacity F) (res : Resources F)
    (t : totals F) : Option Int :=
  cap.CPUCores.bind fun c =>
    if res.CPUCores > 0 then
      some (leastRequestedScore
        (Float64Conv.ofInt (wrapInt64 (res.CPUCores + t.totalCPUCores)) : F)
        (Float64Conv.ofInt c))
    else none

/-- The score of the RAM dimension, evaluated when the RAM capacity is non-null and the
task requests a positive amount. -/
def ramDimension {F : Type} [Zero F] [Add F] [Sub F] [Mul F] [Div F] [LT F] [BEq F]
    [∀ a b : F, Decidable (a < b)] [Float64Conv F] (cap : Capacity F) (res : Resources F)
    (t : totals F) : Option Int :=
  cap.RamGB.bind fun c =>
    if 0 < res.RamGB then some (leastRequestedScore (res.RamGB + t.totalRamGB) c) else none

/-- The score of the disk dimension, evaluated when the disk capacity is non-null and the
task requests a positive amount. -/
def diskDimension {F : Type} [Zero F] [Add F] [Sub F] [Mul F] [Div F] [LT F] [BEq F]
    [∀ a b : F, Decidable (a < b)] [Float64Conv F] (cap : Capacity F) (res : Resources F)
    (t : totals F) : Option Int :=
  cap.DiskGB.bind fun c =>
    if 0 < res.DiskGB then some (leastRequestedScore (res.DiskGB + t.totalDiskGB) c) else none

/-- The least-requested score of a GPU request: against the sum of all capacities for a
request without a type, against the capacity of the named type otherwise. -/
def gpuRequestScore {F : Type} [Zero F] [Add F] [Sub F] [Mul F] [Div F] [LT F] [BEq F]
    [∀ a b : F, Decidable (a < b)] [Float64Conv F] (g : GPUCapacity F) (gpu : GPUResource F)
    (t : totals F) : Int :=
  if gpu.Type_ = "" then
    leastRequestedScore (gpu.Count + t.totalGPUCount) (sumGPUCountCapacity g)
  else
    leastRequestedScore (gpu.Count + (t.totalGPU.lookup gpu.Type_).getD 0)
      ((g.GPU.lookup gpu.Type_).getD 0)

/-- The score of the GPU dimension as the code evaluates it: whenever the GPU capacity is
non-null and the task carries a GPU request, whatever the requested count. -/
def gpuDimension {F : Type} [Zero F] [Add F] [Sub F] [Mul F] [Div F] [LT F] [BEq F]
    [∀ a b : F, Decidable (a < b)] [Float64Conv F] (cap : Capacity F) (res : Resources F)
    (t : totals F) : Option Int :=
  cap.GPUCapacity.bind fun g => res.GPU.map fun gpu => gpuRequestScore g gpu t

/-- The score of the GPU dimension in the words of the claim: evaluated when the GPU
capacity is non-null and the requested GPU count is positive. -/
def claimedGPUDimension {F : Type} [Zero F] [Add F] [Sub F] [Mul F] [Div F] [LT F] [BEq F]
    [∀ a b : F, Decidable (a < b)] [Float64Conv F] (cap : Capacity F) (res : Resources F)
    (t : totals F) : Option Int :=
  cap.GPUCapacity.bind fun g => res.GPU.bind fun gpu =>
    if 0 < gpu.Count then some (gpuRequestScore g gpu t) else none

/-- The scores of the dimensions that `Score` evaluates, in the order Count, CPU, RAM,
disk, GPU; a task without resources has the Count dimension only. -/
def dimensionScores {F : Type} [Zero F] [Add F] [Sub F] [Mul F] [Div F] [LT F] [BEq F]
    [∀ a b : F, Decidable (a < b)] [Float64Conv F] (cap : Capacity F) (task : TaskInfo F)
    (t : totals F) : List Int :=
  (countDimension cap t ::
    (match task.Resources with
     | some res => [cpuDimension cap res t, ramDimension cap res t, diskDimension cap res t,
                    gpuDimension cap res t]
     | none => [])).reduceOption

/-- The scores of the dimensions in the words of the claim: as `dimensionScores`, with the
GPU dimension evaluated only for a positive requested count. -/
def claimedDimensionScores {F : Type} [Zero F] [Add F] [Sub F] [Mul F] [Div F] [LT F]
    [BEq F] [∀ a b : F, Decidable (a < b)] [Float64Conv F] (cap : Capacity F)
    (task : TaskInfo F) (t : totals F) : List Int :=
  (countDimension cap t ::
    (match task.Resources with
     | some res => [cpuDimension cap res t, ramDimension cap res t, diskDimension cap res t,
                    claimedGPUDimension cap res t]
     | none => [])).reduceOption

/-- The integer-truncated arithmetic mean of a list of scores; 100 for the empty list. -/
def truncatedMean (scores : List Int) : Int :=
  if scores.length = 0 then 100 else Int.tdiv scores.sum scores.length

end clustercapacity

/-- The boosts of the rules of the snapshot that match the task, in the order of the
snapshot. -/
def matchingBoosts {F : Type} (extraPriorities : List ExtraPriorityInfo) (task : TaskInfo F) :
    List Int :=
  (extraPriorities.filter (fun ep => ep.MatchTask task)).map (fun ep => ep.ExtraPriorityValue)

/-- The priority of the task plus the boosts of any initial part of the snapshot fits a
Go `int`: no addition of `Less` wraps. -/
def BoostsFit {F : Type} (extraPriorities : List ExtraPriorityInfo) (task : TaskInfo F) :
    Prop :=
  ∀ k : Nat,
    -9223372036854775808 ≤
      task.PriorityValue + (matchingBoosts (extraPriorities.take k) task).sum ∧
    task.PriorityValue + (matchingBoosts (extraPriorities.take k) task).sum <
      9223372036854775808

/-- The four constraints that `Options.Validate` checks. -/
def Options.Valid (o : Options) : Prop :=
  o.Controller.ClusterRescheduleTimeout ≥ o.Controller.Period ∧
  o.SchedulePeriod ≥ o.Cache.SyncPeriod ∧
  o.ClusterNotReadyTimeout ≥ o.Cache.SyncPeriod ∧
  o.Controller.ClusterRescheduleTimeout ≥ o.Cache.SyncPeriod

/-- The four names that are keys of `registry`. -/
def registeredNames : List String :=
  [prioritysort.Name, resourcequota.Name, clusterlimit.Name, clustercapacity.Name]

/-- The plugins that the factories registered under the configured names return, one per
configured occurrence and in configuration order. -/
def configuredPlugins {F : Type} [Zero F] [Add F] [Sub F] [Mul F] [Div F] [LT F] [LE F]
    [BEq F] [∀ a b : F, Decidable (a < b)] [∀ a b : F, Decidable (a ≤ b)] [Float64Conv F]
    (cache : Cache F) (names : List String) : List (Plugin F) :=
  names.filterMap (fun pluginName =>
    (registry pluginName).bind (fun factory => (factory cache).toOption))

namespace controller

/-- The update by which `rescheduleTask` reschedules a task: a canceling task is set to
CANCELED with its cluster unchanged, any other task is set to QUEUED with the empty
cluster; no message in either case. -/
def rescheduleEvent {F : Type} (task : TaskInfo F) : Event F :=
  if task.State = consts.TaskCanceling then
    Event.UpdateTask task.ID (some consts.TaskCanceled) none none
  else Event.UpdateTask task.ID (some consts.TaskQueued) (some "") none

/-- The cache `d'` arises from `d` by updates of tasks with the listed IDs, each of which
removes the task or leaves it without a cluster: the invariants carry over, the entries of
other IDs are unchanged and every task of `d'` that has a cluster is an unchanged task of
`d`. -/
def Shrinks {F : Type} (d d' : data F) (ids : List String) : Prop :=
  (IndexInv d → IndexInv d') ∧ (KeysMatch d → KeysMatch d') ∧
  (∀ id, id ∉ ids → d'.tasks.lookup id = d.tasks.lookup id) ∧
  (∀ id t, d'.tasks.lookup id = some t → t.ClusterID ≠ "" → d.tasks.lookup id = some t)

/-- Every listed cluster rejects the resources of the task: `ResourcesMeetLimits` returns
an error for the limits of each of them. -/
def rejectedEverywhere {F : Type} [LT F] [LE F] [∀ a b : F, Decidable (a < b)]
    [∀ a b : F, Decidable (a ≤ b)] (task : TaskInfo F) (clusters : List (ClusterInfo F)) :
    Bool :=
  clusters.all (fun cluster =>
    (utils.ResourcesMeetLimits task.Resources cluster.Limits).isSome)

/-- The errors of the clusters that reject the resources of the task, each wrapped with
the ID of its cluster. -/
def clusterErrors {F : Type} [LT F] [LE F] [∀ a b : F, Decidable (a < b)]
    [∀ a b : F, Decidable (a ≤ b)] (task : TaskInfo F) (clusters : List (ClusterInfo F)) :
    List (GoError F) :=
  clusters.filterMap (fun cluster =>
    (utils.ResourcesMeetLimits task.Resources cluster.Limits).map
      (fun err => GoError.wrapf "cluster[%s]: %w" [FmtArg.str cluster.ID] err))

/-- The update by which `markTasksFailedNotMeetLimits` fails a task: the state
SYSTEM_ERROR, the cluster unchanged and a message that lists the reason of each
cluster. -/
def failEvent {F : Type} [LT F] [LE F] [∀ a b : F, Decidable (a < b)]
    [∀ a b : F, Decidable (a ≤ b)] (errorText : GoError F → String)
    (clusters : List (ClusterInfo F)) (task : TaskInfo F) : Event F :=
  Event.UpdateTask task.ID (some consts.TaskSystemError) none
    (some ("no cluster limits match task resources: " ++
      errorText (GoError.aggregate (clusterErrors task clusters))))

/-- The tasks that `markTasksFailedNotMeetLimits` fails: the queued ones among the listed
tasks that every cluster of a non-empty cluster list rejects. -/
def tasksToFail {F : Type} [LT F] [LE F] [∀ a b : F, Decidable (a < b)]
    [∀ a b : F, Decidable (a ≤ b)] (clusters : List (ClusterInfo F))
    (tasks : List (TaskInfo F)) : List (TaskInfo F) :=
  tasks.filter (fun task =>
    decide (task.State = consts.TaskQueued) && !clusters.isEmpty &&
      rejectedEverywhere task clusters)

end controller

/-- Every filter of the list, called in list order on the cycle state that the filters
before it have left, returns no error for the cluster. -/
def acceptsAll {F : Type} (d : data F) (task : TaskInfo F) (cluster : ClusterInfo F) :
    List (FilterPlugin F) → CycleState F → Prop
  | [], _ => True
  | filter :: rest, cycleState =>
    (filter.Filter d task cluster cycleState).1 = none ∧
      acceptsAll d task cluster rest (filter.Filter d task cluster cycleState).2

/-- The cycle state after the filters of the list have been called in list order. -/
def stateAfter {F : Type} (d : data F) (task : TaskInfo F) (cluster : ClusterInfo F) :
    List (FilterPlugin F) → CycleState F → CycleState F
  | [], cycleState => cycleState
  | filter :: rest, cycleState =>
    stateAfter d task cluster rest (filter.Filter d task cluster cycleState).2

/-- The clusters in input order, each with the cycle state on which its filters start:
the one that the filter calls for the clusters before it have left. -/
def clusterStates {F : Type} (filters : List (FilterPlugin F)) (d : data F)
    (task : TaskInfo F) : List (ClusterInfo F) → CycleState F →
    List (ClusterInfo F × CycleState F)
  | [], _ => []
  | cluster :: rest, cycleState =>
    (cluster, cycleState) ::
      clusterStates filters d task rest (runFilters d task cluster filters cycleState).2.1

/-- The reason recorded under the plugin name `name` for a cluster whose filters start on
the given cycle state: the error of the first failing filter wrapped with the cluster ID,
when that filter has this name. -/
def reasonUnder {F : Type} (filters : List (FilterPlugin F)) (d : data F)
    (task : TaskInfo F) (name : String) (v : ClusterInfo F × CycleState F) :
    Option (GoError F) :=
  match (runFilters d task v.1 filters v.2).1 with
  | some (failed, err) =>
    if failed = name then some (GoError.wrapf "cluster[%s]: %w" [FmtArg.str v.1.ID] err)
    else none
  | none => none

/-- The cycle state holds the six totals under their keys, each with the dynamic type that
`Score` asserts. -/
def clustercapacity.HasTotals {F : Type} (cycleState : CycleState F) : Prop :=
  ∃ t : clustercapacity.totals F, clustercapacity.HoldsTotals cycleState t

/-- The Score calls of the inner loop of `getClusterWithScores` for one cluster: the name
of the plugin, the cluster and the cycle state handed over, in call order. -/
def pluginScoreCalls {F : Type} (d : data F) (task : TaskInfo F) (cluster : ClusterInfo F) :
    List (ScorePlugin F) → CycleState F → List (String × ClusterInfo F × CycleState F)
  | [], _ => []
  | score :: rest, cycleState =>
    (score.Name, cluster, cycleState) ::
      pluginScoreCalls d task cluster rest (score.Score d task cluster cycleState).2

/-- The Score calls of `getClusterWithScores`, in call order. -/
def scoreCalls {F : Type} (scores : List (ScorePlugin F)) (d : data F) (task : TaskInfo F) :
    List (ClusterInfo F) → CycleState F → List (String × ClusterInfo F × CycleState F)
  | [], _ => []
  | cluster :: rest, cycleState =>
    pluginScoreCalls d task cluster scores cycleState ++
      scoreCalls scores d task rest (sumScores d task cluster scores 0 cycleState).2.1

/-- The requirement of package sort on a strict comparison `less`: it is irreflexive and
describes a transitive ordering (when `less a b` and `less b c` hold, so does `less a c`;
when neither holds, neither does `less a c`). -/
def StrictWeakOrder {T : Type} (less : T → T → Bool) : Prop :=
  (∀ a, less a a = false) ∧
  (∀ a b c, less a b = true → less b c = true → less a c = true) ∧
  (∀ a b c, less a b = false → less b c = false → less a c = false)

/-- The world in which the loop over `toScheduleTasks` of `scheduleTasks` starts: the
canceling unscheduled tasks have been canceled and, for two or more candidates, the
comparison of the Sort plugin has been handed to `sort.Slice`. -/
def loopStart {F : Type} (s : Scheduler F) (env : Env F) (w : World F) : World F :=
  let collected := (ListTasks w.data "").foldl (collectStep env) (w, [])
  { collected.1 with
    events := collected.1.events ++
      (match sortTasks s.plugins.sort env collected.2 with
       | some (_, ev) => ev
       | none => []) }

/-- The heap-level data represents the value-level data: the same cluster index, every
cached ID points to an allocated entity, and dereferencing the pointer of an ID gives the
task that the value-level map holds for it. -/
def Represents {F : Type} (hd : heapData F) (d : data F) : Prop :=
  hd.clusterIndexer = d.clusterIndexer ∧
  (∀ id p, hd.tasks.lookup id = some p → p < hd.heap.length) ∧
  (∀ id, (hd.tasks.lookup id).bind (fun p => hd.heap[p]?) = d.tasks.lookup id)

/-- The sum of the CPU cores of the listed tasks that carry resources, as an integer
without wrap-around. -/
def clustercapacity.cpuSum {F : Type} (scheduled : List (TaskInfo F)) : Int :=
  ((scheduled.filterMap (fun item => item.Resources)).map (fun res => res.CPUCores)).sum

/-- The sum of the entries of a map from GPU types to numbers: the values of all entries,
added one after the other in iteration order, starting from 0. -/
def sumOfEntries {F : Type} [Zero F] [Add F] (m : GoMap String F) : F :=
  (m.entries.map (fun e => e.2)).foldl (fun a b => a + b) 0

/-! ## Theorems: getMaxScoreClusterID -/

theorem maxItemsStep_inv_first (item : clusterWithScore) :
    MaxItemsInv [item] (maxItemsStep [] item) := by
  simp [maxItemsStep, MaxItemsInv]

theorem maxItemsStep_inv (seen maxItems : List clusterWithScore) (item : clusterWithScore)
    (h : MaxItemsInv seen maxItems) :
    MaxItemsInv (seen ++ [item]) (maxItemsStep maxItems item) := by
  obtain ⟨hne, hmem, hmax⟩ := h
  cases maxItems with
  | nil => exact absurd rfl hne
  | cons hd tl =>
    have hhd : ∀ e ∈ hd :: tl, e.score = hd.score := by
      intro e he
      have h1 := hmax e he hd (hmem hd (List.mem_cons_self _ _))
      have h2 := hmax hd (List.mem_cons_self _ _) e (hmem e he)
      omega
    by_cases hgt : item.score > hd.score
    · have hstep : maxItemsStep (hd :: tl) item = [item, item] := by
        simp [maxItemsStep, hgt]
      rw [hstep]
      refine ⟨by simp, ?_, ?_⟩
      · intro e he
        simp at he
        simp [he]
      · intro e he e' he'
        simp at he
        subst he
        rcases List.mem_append.mp he' with h' | h'
        · have := hmax hd (List.mem_cons_self _ _) e' h'
          omega
        · simp at h'
          subst h'
          exact le_refl _
    · by_cases heq : item.score = hd.score
      · have hstep : maxItemsStep (hd :: tl) item = hd :: tl ++ [item] := by
          simp [maxItemsStep, hgt, heq]
        rw [hstep]
        refine ⟨by simp, ?_, ?_⟩
        · intro e he
          rcases List.mem_append.mp he with h' | h'
          · exact List.mem_append_left _ (hmem e h')
          · exact List.mem_append_right _ h'
        · intro e he e' he'
          have hes : e.score = hd.score := by
            rcases List.mem_append.mp he with h' | h'
            · exact hhd e h'
            · simp at h'
              subst h'
              exact heq
          rcases List.mem_append.mp he' with h' | h'
          · have := hmax hd (List.mem_cons_self _ _) e' h'
            omega
          · simp at h'
            subst h'
            omega
      · have hstep : maxItemsStep (hd :: tl) item = hd :: tl := by
          simp [maxItemsStep, hgt, heq]
        rw [hstep]
        refine ⟨by simp, ?_, ?_⟩
        · intro e he
          exact List.mem_append_left _ (hmem e he)
        · intro e he e' he'
          rcases List.mem_append.mp he' with h' | h'
          · exact hmax e he e' h'
          · simp at h'
            subst h'
            have := hhd e he
            omega

theorem maxItems_foldl_inv (rest seen maxItems : List clusterWithScore)
    (h : MaxItemsInv seen maxItems) :
    MaxItemsInv (seen ++ rest) (rest.foldl maxItemsStep maxItems) := by
  induction rest generalizing seen maxItems with
  | nil => simpa using h
  | cons item rest ih =>
    have := ih (seen ++ [item]) (maxItemsStep maxItems item) (maxItemsStep_inv _ _ _ h)
    simpa using this

theorem maxItemsOf_inv (item : clusterWithScore) (rest : List clusterWithScore) :
    MaxItemsInv (item :: rest) (maxItemsOf (item :: rest)) := by
  have := maxItems_foldl_inv rest [item] (maxItemsStep [] item) (maxItemsStep_inv_first item)
  simpa [maxItemsOf] using this

theorem getMaxScoreClusterID_mem_max (clusterWithScores : List clusterWithScore) (r : Nat)
    (hne : clusterWithScores ≠ []) :
    ∃ e ∈ clusterWithScores,
      getMaxScoreClusterID clusterWithScores r = some e.clusterID ∧
      ∀ e' ∈ clusterWithScores, e'.score ≤ e.score := by
  cases clusterWithScores with
  | nil => exact absurd rfl hne
  | cons item rest =>
    obtain ⟨hne', hmem, hmax⟩ := maxItemsOf_inv item rest
    have hlen : 0 < (maxItemsOf (item :: rest)).length := List.length_pos.mpr hne'
    have hidx : r % (maxItemsOf (item :: rest)).length < (maxItemsOf (item :: rest)).length :=
      Nat.mod_lt _ hlen
    refine ⟨(maxItemsOf (item :: rest)).get ⟨_, hidx⟩, hmem _ (List.get_mem _ _ _), ?_,
      hmax _ (List.get_mem _ _ _)⟩
    unfold getMaxScoreClusterID
    simp only [Nat.ne_of_gt hlen, if_false, List.get?_eq_get hidx, Option.map_some']

/-- C2: for a non-empty list of scored clusters and any random draw, `getMaxScoreClusterID`
returns the ID of an entry of the list whose score is the maximum score of the list. -/
theorem getMaxScoreClusterID_is_max (clusterWithScores : List clusterWithScore) (r : Nat)
    (hne : clusterWithScores ≠ []) :
    ∃ e ∈ clusterWithScores,
      getMaxScoreClusterID clusterWithScores r = some e.clusterID ∧
      ∀ e' ∈ clusterWithScores, e'.score ≤ e.score :=
  getMaxScoreClusterID_mem_max clusterWithScores r hne

theorem getMaxScoreClusterID_is_max_witness :
    ∃ e ∈ [clusterWithScore.mk "cluster-01" 10, clusterWithScore.mk "cluster-04" 20],
      getMaxScoreClusterID
        [clusterWithScore.mk "cluster-01" 10, clusterWithScore.mk "cluster-04" 20] 7
        = some e.clusterID ∧
      ∀ e' ∈ [clusterWithScore.mk "cluster-01" 10, clusterWithScore.mk "cluster-04" 20],
        e'.score ≤ e.score :=
  getMaxScoreClusterID_is_max _ 7 (by simp)

theorem maxItemsStep_head_twice (maxItems : List clusterWithScore) (item : clusterWithScore)
    (h : maxItems = [] ∨ ∃ e rest, maxItems = e :: e :: rest) :
    ∃ e rest, maxItemsStep maxItems item = e :: e :: rest := by
  rcases h with h | ⟨e, rest, h⟩
  · subst h
    exact ⟨item, [], by simp [maxItemsStep]⟩
  · subst h
    by_cases hgt : item.score > e.score
    · exact ⟨item, [], by simp [maxItemsStep, hgt]⟩
    · by_cases heq : item.score = e.score
      · exact ⟨e, rest ++ [item], by simp [maxItemsStep, hgt, heq]⟩
      · exact ⟨e, rest, by simp [maxItemsStep, hgt, heq]⟩

theorem maxItems_foldl_head_twice (l maxItems : List clusterWithScore)
    (h : ∃ e rest, maxItems = e :: e :: rest) :
    ∃ e rest, l.foldl maxItemsStep maxItems = e :: e :: rest := by
  induction l generalizing maxItems with
  | nil => exact h
  | cons item l ih => exact ih _ (maxItemsStep_head_twice maxItems item (Or.inr h))

/-- C3: on two clusters with equal scores the candidate list of `getMaxScoreClusterID`
holds the first one twice, so it is drawn for two of every three outcomes; and on every
non-empty input the candidate list starts with the same entry twice. -/
theorem maxItemsOf_first_twice :
    maxItemsOf [clusterWithScore.mk "cluster-01" 10, clusterWithScore.mk "cluster-02" 10]
      = [clusterWithScore.mk "cluster-01" 10, clusterWithScore.mk "cluster-01" 10,
         clusterWithScore.mk "cluster-02" 10] ∧
    getMaxScoreClusterID
      [clusterWithScore.mk "cluster-01" 10, clusterWithScore.mk "cluster-02" 10] 0
      = some "cluster-01" ∧
    getMaxScoreClusterID
      [clusterWithScore.mk "cluster-01" 10, clusterWithScore.mk "cluster-02" 10] 1
      = some "cluster-01" ∧
    getMaxScoreClusterID
      [clusterWithScore.mk "cluster-01" 10, clusterWithScore.mk "cluster-02" 10] 2
      = some "cluster-02" ∧
    ∀ item rest, ∃ e tail, maxItemsOf (item :: rest) = e :: e :: tail := by
  refine ⟨by decide, by decide, by decide, by decide, ?_⟩
  intro item rest
  exact maxItems_foldl_head_twice rest (maxItemsStep [] item)
    (maxItemsStep_head_twice [] item (Or.inl rfl))

/-! ## Theorems: the task cache -/

theorem GoMap.len_ne_zero_iff {K V : Type} (m : GoMap K V) : m.len ≠ 0 ↔ ∃ k, k ∈ m := by
  obtain ⟨entries, nd⟩ := m
  cases entries with
  | nil => simp [GoMap.len, AList.mem_keys, AList.keys]
  | cons e rest =>
    simp only [GoMap.len, List.length_cons, ne_eq, Nat.succ_ne_zero, not_false_eq_true, true_iff]
    exact ⟨e.1, by simp [AList.mem_keys, AList.keys]⟩

theorem inBucket_indexAdd (ci : GoMap String (GoMap String Unit)) (c id c' id' : String) :
    InBucket (indexAdd ci c id) c' id' ↔ (c' = c ∧ id' = id) ∨ InBucket ci c' id' := by
  unfold indexAdd InBucket
  by_cases hc : c' = c
  · subst hc
    cases h : ci.lookup c' with
    | none => simp [AList.lookup_insert, AList.mem_keys, AList.keys_singleton]
    | some ids => simp [h, AList.lookup_insert, AList.mem_insert]
  · cases h : ci.lookup c with
    | none => simp [AList.lookup_insert, AList.lookup_insert_ne hc, hc]
    | some ids => simp [h, AList.lookup_insert_ne hc, hc]

theorem inBucket_indexRemove (ci : GoMap String (GoMap String Unit)) (c id c' id' : String) :
    InBucket (indexRemove ci c id) c' id' ↔ InBucket ci c' id' ∧ ¬(c' = c ∧ id' = id) := by
  unfold indexRemove InBucket
  by_cases hc : c' = c
  · subst hc
    cases h : ci.lookup c' with
    | none => simp [h]
    | some ids =>
      simp only [h, AList.lookup_insert]
      by_cases hl : GoMap.len (AList.erase id ids) = 0
      · have hno : ∀ k, k ∉ AList.erase id ids := by
          intro k hk
          exact (GoMap.len_ne_zero_iff _).mpr ⟨k, hk⟩ hl
        simp only [hl, if_true, AList.lookup_erase]
        constructor
        · rintro ⟨_, h', _⟩; cases h'
        · rintro ⟨⟨ids', h1, h2⟩, h3⟩
          simp at h1; subst h1
          exact absurd (AList.mem_erase.mpr ⟨by simpa using h3, h2⟩) (hno id')
      · simp only [hl, if_false, AList.lookup_insert]
        simp [AList.mem_erase]
        tauto
  · cases h : ci.lookup c with
    | none =>
      simp [h, AList.lookup_erase_ne hc, hc]
    | some ids =>
      simp only [h, AList.lookup_insert]
      by_cases hl : GoMap.len (AList.erase id ids) = 0
      · simp [hl, AList.lookup_erase_ne hc, AList.lookup_insert_ne hc, hc]
      · simp [hl, AList.lookup_insert_ne hc, hc]

theorem noEmptyBucket_indexAdd (ci : GoMap String (GoMap String Unit)) (c id : String)
    (h : NoEmptyBucket ci) : NoEmptyBucket (indexAdd ci c id) := by
  intro c' ids' hl
  by_cases hc : c' = c
  · subst hc
    rw [GoMap.len_ne_zero_iff]
    obtain ⟨ids, h1, h2⟩ := (inBucket_indexAdd ci c' id c' id).mpr (Or.inl ⟨rfl, rfl⟩)
    rw [hl] at h1
    cases h1
    exact ⟨id, h2⟩
  · apply h c'
    unfold indexAdd at hl
    cases h' : ci.lookup c with
    | none => simpa [h', AList.lookup_insert, AList.lookup_insert_ne hc] using hl
    | some ids => simpa [h', AList.lookup_insert_ne hc] using hl

theorem noEmptyBucket_indexRemove (ci : GoMap String (GoMap String Unit)) (c id : String)
    (h : NoEmptyBucket ci) : NoEmptyBucket (indexRemove ci c id) := by
  intro c' ids' hl
  unfold indexRemove at hl
  by_cases hc : c' = c
  · subst hc
    cases h' : ci.lookup c' with
    | none => simp [h', AList.lookup_erase] at hl
    | some ids =>
      simp only [h', AList.lookup_insert] at hl
      by_cases hlen : GoMap.len (AList.erase id ids) = 0
      · simp [hlen, AList.lookup_erase] at hl
      · simp [hlen, AList.lookup_insert] at hl
        subst hl
        exact hlen
  · apply h c'
    cases h' : ci.lookup c with
    | none => simpa [h', AList.lookup_erase_ne hc] using hl
    | some ids =>
      simp only [h', AList.lookup_insert] at hl
      by_cases hlen : GoMap.len (AList.erase id ids) = 0
      · simpa [hlen, AList.lookup_erase_ne hc, AList.lookup_insert_ne hc] using hl
      · simpa [hlen, AList.lookup_insert_ne hc] using hl

theorem indexInv_of_core {F : Type} (d : data F)
    (h1 : ∀ c id, InBucket d.clusterIndexer c id ↔
      ∃ t, d.tasks.lookup id = some t ∧ t.ClusterID = c)
    (h3 : NoEmptyBucket d.clusterIndexer) : IndexInv d := by
  refine ⟨h1, ?_, h3⟩
  intro id hid
  cases hl : d.tasks.lookup id with
  | none => exact absurd hid (AList.lookup_eq_none.mp hl)
  | some t =>
    refine ⟨t.ClusterID, (h1 _ _).mpr ⟨t, hl, rfl⟩, ?_⟩
    intro c hc
    obtain ⟨t', ht', hc'⟩ := (h1 _ _).mp hc
    rw [hl] at ht'
    cases ht'
    exact hc'.symm

theorem indexInv_replace {F : Type} (d : data F) (h : IndexInv d) (id : String)
    (oldTask newTask : TaskInfo F) (hl : d.tasks.lookup id = some oldTask)
    (hc : newTask.ClusterID = oldTask.ClusterID) :
    IndexInv { tasks := d.tasks.insert id newTask, clusterIndexer := d.clusterIndexer } := by
  obtain ⟨h1, _, h3⟩ := h
  refine indexInv_of_core _ ?_ h3
  intro c id'
  rw [h1]
  by_cases hid : id' = id
  · subst hid
    simp [AList.lookup_insert, hl, hc]
  · simp [AList.lookup_insert_ne hid]

theorem indexInv_move {F : Type} (d : data F) (h : IndexInv d) (id c : String)
    (oldTask newTask : TaskInfo F) (hl : d.tasks.lookup id = some oldTask)
    (hc : newTask.ClusterID = c) :
    IndexInv { tasks := d.tasks.insert id newTask,
               clusterIndexer := indexAdd (indexRemove d.clusterIndexer oldTask.ClusterID id) c id } := by
  obtain ⟨h1, _, h3⟩ := h
  refine indexInv_of_core _ ?_ (noEmptyBucket_indexAdd _ _ _ (noEmptyBucket_indexRemove _ _ _ h3))
  intro c' id'
  simp only [inBucket_indexAdd, inBucket_indexRemove, h1]
  by_cases hid : id' = id
  · subst hid
    simp only [AList.lookup_insert, hl, Option.some.injEq, exists_eq_left', and_true, hc]
    constructor
    · rintro (h' | ⟨h', h''⟩)
      · exact h'.symm
      · exact absurd h'.symm h''
    · intro h'
      exact Or.inl h'.symm
  · simp [AList.lookup_insert_ne hid, hid]

theorem indexInv_updateTask {F : Type} (d : data F) (h : IndexInv d) (id : String)
    (state clusterID : Option String) : IndexInv (d.updateTask id state clusterID) := by
  unfold data.updateTask
  cases hl : d.tasks.lookup id with
  | none => exact h
  | some oldTask =>
    have hnew : ∀ newTask1 : TaskInfo F,
        newTask1 = (match state with
          | some s => if oldTask.State ≠ s then { oldTask with State := s } else oldTask
          | none => oldTask) → newTask1.ClusterID = oldTask.ClusterID := by
      intro n hn
      subst hn
      cases state with
      | none => rfl
      | some s => by_cases hs : oldTask.State = s <;> simp [hs]
    simp only
    cases clusterID with
    | none => exact indexInv_replace d h id oldTask _ hl (hnew _ rfl)
    | some c =>
      simp only
      split
      · exact indexInv_move d h id c oldTask _ hl rfl
      · exact indexInv_replace d h id oldTask _ hl (hnew _ rfl)

theorem indexInv_deleteTask {F : Type} (d : data F) (h : IndexInv d) (id : String) :
    IndexInv (d.deleteTask id) := by
  unfold data.deleteTask
  cases hl : d.tasks.lookup id with
  | none => exact h
  | some oldTask =>
    obtain ⟨h1, _, h3⟩ := h
    refine indexInv_of_core _ ?_ (noEmptyBucket_indexRemove _ _ _ h3)
    intro c' id'
    simp only [inBucket_indexRemove, h1]
    by_cases hid : id' = id
    · subst hid
      simp only [AList.lookup_erase, hl, Option.some.injEq, exists_eq_left', and_true]
      constructor
      · rintro ⟨h', h''⟩
        exact absurd h'.symm h''
      · rintro ⟨_, h', _⟩
        cases h'
    · simp [AList.lookup_erase_ne hid, hid]

theorem indexInv_addTask {F : Type} (d : data F) (h : IndexInv d) (task : TaskInfo F)
    (hnew : task.ID ∉ d.tasks) : IndexInv (d.addTask task) := by
  unfold data.addTask
  obtain ⟨h1, _, h3⟩ := h
  refine indexInv_of_core _ ?_ (noEmptyBucket_indexAdd _ _ _ h3)
  intro c' id'
  simp only [inBucket_indexAdd, h1]
  have hnone : d.tasks.lookup task.ID = none := AList.lookup_eq_none.mpr hnew
  by_cases hid : id' = task.ID
  · subst hid
    simp only [AList.lookup_insert, hnone, Option.some.injEq, exists_eq_left', and_true]
    constructor
    · rintro (h' | ⟨_, h', _⟩)
      · exact h'.symm
      · cases h'
    · intro h'
      exact Or.inl h'.symm
  · simp [AList.lookup_insert_ne hid, hid]

theorem indexInv_empty {F : Type} : IndexInv (emptyData : data F) := by
  refine indexInv_of_core _ ?_ ?_
  · intro c id
    simp [InBucket, emptyData, AList.lookup_empty]
  · intro c ids hl
    simp [emptyData, AList.lookup_empty] at hl

theorem mem_ListTasks {F : Type} (d : data F) (c : String) (t : TaskInfo F) :
    t ∈ ListTasks d c ↔ ∃ id, InBucket d.clusterIndexer c id ∧ d.tasks.lookup id = some t := by
  unfold ListTasks InBucket
  cases hl : d.clusterIndexer.lookup c with
  | none => simp
  | some ids =>
    by_cases hlen : GoMap.len ids = 0
    · have hno : ∀ k, k ∉ ids := fun k hk => (GoMap.len_ne_zero_iff ids).mpr ⟨k, hk⟩ hlen
      simp only [hlen, if_true, List.not_mem_nil, false_iff]
      rintro ⟨id, ⟨ids', h1, h2⟩, _⟩
      cases h1
      exact hno id h2
    · simp only [hlen, if_false, List.mem_filterMap, Option.some.injEq, exists_eq_left']
      simp only [AList.mem_keys]

theorem mem_ListScheduledTasks {F : Type} (d : data F) (t : TaskInfo F) :
    t ∈ ListScheduledTasks d ↔ ∃ id, d.tasks.lookup id = some t ∧ t.ClusterID ≠ "" := by
  unfold ListScheduledTasks GoMap.values
  simp only [List.mem_filter, List.mem_map, decide_eq_true_eq]
  constructor
  · rintro ⟨⟨e, he, rfl⟩, hc⟩
    refine ⟨e.1, ?_, hc⟩
    exact AList.mem_lookup_iff.mpr he
  · rintro ⟨id, hl, hc⟩
    exact ⟨⟨⟨id, t⟩, AList.mem_lookup_iff.mp hl, rfl⟩, hc⟩

theorem lookup_updateTask_ne {F : Type} (d : data F) (id id' : String)
    (state clusterID : Option String) (hne : id' ≠ id) :
    (d.updateTask id state clusterID).tasks.lookup id' = d.tasks.lookup id' := by
  unfold data.updateTask
  cases hl : d.tasks.lookup id with
  | none => rfl
  | some oldTask =>
    simp only
    cases clusterID with
    | none => simp [AList.lookup_insert_ne hne]
    | some c =>
      simp only
      split <;> simp [AList.lookup_insert_ne hne]

theorem lookup_updateTask_self {F : Type} (d : data F) (id : String)
    (state clusterID : Option String) :
    (d.updateTask id state clusterID).tasks.lookup id =
      (d.tasks.lookup id).map (fun oldTask => updatedTask oldTask state clusterID) := by
  unfold data.updateTask updatedTask
  cases hl : d.tasks.lookup id with
  | none => simp [hl]
  | some oldTask =>
    simp only [Option.map_some']
    cases state with
    | none =>
      cases clusterID with
      | none => simp [AList.lookup_insert]
      | some c =>
        simp only
        split
        · simp [AList.lookup_insert]
        · rename_i hc
          simp only [ne_eq, not_not] at hc
          simp [AList.lookup_insert, ← hc]
    | some s =>
      have hs : (if oldTask.State ≠ s then { oldTask with State := s } else oldTask)
          = { oldTask with State := s } := by
        by_cases h : oldTask.State = s
        · simp [h]
          cases oldTask
          simp_all
        · simp [h]
      simp only [hs]
      cases clusterID with
      | none => simp [AList.lookup_insert]
      | some c =>
        simp only
        split
        · simp [AList.lookup_insert]
        · rename_i hc
          simp only [ne_eq, not_not] at hc
          simp [AList.lookup_insert, ← hc]

theorem lookup_deleteTask {F : Type} (d : data F) (id id' : String) :
    (d.deleteTask id).tasks.lookup id' = if id' = id then none else d.tasks.lookup id' := by
  unfold data.deleteTask
  cases hl : d.tasks.lookup id with
  | none =>
    by_cases h : id' = id
    · subst h; simp [hl]
    · simp [h]
  | some oldTask =>
    by_cases h : id' = id
    · subst h; simp [AList.lookup_erase]
    · simp [h, AList.lookup_erase_ne h]

theorem keysMatch_updateTask {F : Type} (d : data F) (h : KeysMatch d) (id : String)
    (state clusterID : Option String) : KeysMatch (d.updateTask id state clusterID) := by
  intro id' t hl
  by_cases hid : id' = id
  · subst hid
    rw [lookup_updateTask_self] at hl
    cases ho : d.tasks.lookup id' with
    | none => simp [ho] at hl
    | some oldTask =>
      simp [ho, updatedTask] at hl
      subst hl
      exact h id' oldTask ho
  · rw [lookup_updateTask_ne _ _ _ _ _ hid] at hl
    exact h _ _ hl

theorem keysMatch_deleteTask {F : Type} (d : data F) (h : KeysMatch d) (id : String) :
    KeysMatch (d.deleteTask id) := by
  intro id' t hl
  rw [lookup_deleteTask] at hl
  by_cases hid : id' = id
  · simp [hid] at hl
  · simp [hid] at hl
    exact h _ _ hl

theorem keysMatch_addTask {F : Type} (d : data F) (h : KeysMatch d) (task : TaskInfo F) :
    KeysMatch (d.addTask task) := by
  intro id' t hl
  unfold data.addTask at hl
  by_cases hid : id' = task.ID
  · subst hid
    simp [AList.lookup_insert] at hl
    subst hl
    rfl
  · simp [AList.lookup_insert_ne hid] at hl
    exact h _ _ hl

theorem UpdateTask_ok_data {F : Type} (upstream : UpdateTaskRequest → Option (GoError F))
    (d : data F) (taskID : String) (state clusterID message : Option String)
    (hok : (UpdateTask upstream d taskID state clusterID message).1 = none) :
    (UpdateTask upstream d taskID state clusterID message).2 =
      if (∃ s, state = some s ∧ isFinished s = true) then d.deleteTask taskID
      else d.updateTask taskID state clusterID := by
  unfold UpdateTask at hok ⊢
  cases hu : upstream (updateTaskRequest taskID state clusterID message) with
  | some err => simp [hu] at hok
  | none =>
    cases state with
    | none => simp
    | some s => by_cases hf : isFinished s = true <;> simp [hf]

theorem not_inBucket_deleteTask {F : Type} (d : data F) (h : IndexInv d) (id c : String) :
    ¬ InBucket (d.deleteTask id).clusterIndexer c id := by
  intro hb
  obtain ⟨t, hl, _⟩ := ((indexInv_deleteTask d h id).1 c id).mp hb
  rw [lookup_deleteTask] at hl
  simp at hl

theorem not_inBucket_indexRemove (ci : GoMap String (GoMap String Unit)) (c id : String) :
    ¬ InBucket (indexRemove ci c id) c id := by
  rw [inBucket_indexRemove]
  rintro ⟨_, h⟩
  exact h ⟨rfl, rfl⟩

/-- C6: after a successful `TaskCache.UpdateTask` on a cache that holds no finished task,
the cache still holds no finished task. When the state is set and finished, the task is
no longer in the tasks map nor in the bucket of its cluster, hence, under the index
invariant, in no bucket of the cluster index; otherwise the task is cached exactly when
it was before and its stored state is the old one or the given non-finished one. -/
theorem UpdateTask_keeps_no_finished {F : Type} (upstream : UpdateTaskRequest → Option (GoError F))
    (d : data F) (taskID : String) (state clusterID message : Option String)
    (hnofin : NoFinished d)
    (hok : (UpdateTask upstream d taskID state clusterID message).1 = none) :
    NoFinished (UpdateTask upstream d taskID state clusterID message).2 ∧
    ((∃ s, state = some s ∧ isFinished s = true) →
      taskID ∉ (UpdateTask upstream d taskID state clusterID message).2.tasks ∧
      (∀ oldTask, d.tasks.lookup taskID = some oldTask →
        ¬ InBucket (UpdateTask upstream d taskID state clusterID message).2.clusterIndexer
          oldTask.ClusterID taskID) ∧
      (IndexInv d → ∀ c,
        ¬ InBucket (UpdateTask upstream d taskID state clusterID message).2.clusterIndexer
          c taskID)) ∧
    (¬ (∃ s, state = some s ∧ isFinished s = true) →
      (taskID ∈ (UpdateTask upstream d taskID state clusterID message).2.tasks ↔
        taskID ∈ d.tasks) ∧
      ∀ oldTask newTask, d.tasks.lookup taskID = some oldTask →
        (UpdateTask upstream d taskID state clusterID message).2.tasks.lookup taskID
          = some newTask →
        newTask.State = oldTask.State ∨
          (state = some newTask.State ∧ isFinished newTask.State = false)) := by
  rw [UpdateTask_ok_data upstream d taskID state clusterID message hok]
  by_cases hfin : ∃ s, state = some s ∧ isFinished s = true
  · simp only [hfin, if_true, not_true_eq_false, false_implies, and_true, true_implies]
    refine ⟨?_, ?_, ?_, ?_⟩
    · intro id t hl
      rw [lookup_deleteTask] at hl
      by_cases hid : id = taskID
      · simp [hid] at hl
      · simp only [hid, if_false] at hl
        exact hnofin id t hl
    · apply AList.lookup_eq_none.mp
      rw [lookup_deleteTask]
      simp
    · intro oldTask hold
      unfold data.deleteTask
      simp only [hold]
      exact not_inBucket_indexRemove _ _ _
    · intro hinv c
      exact not_inBucket_deleteTask d hinv taskID c
  · simp only [hfin, if_false, false_implies, true_and, not_false_eq_true, true_implies]
    have hstate : ∀ oldTask : TaskInfo F, isFinished oldTask.State = false →
        isFinished (updatedTask oldTask state clusterID).State = false := by
      intro oldTask ho
      cases state with
      | none => simpa [updatedTask] using ho
      | some s =>
        simp only [updatedTask, Option.getD_some]
        cases hs : isFinished s with
        | false => rfl
        | true => exact absurd ⟨s, rfl, hs⟩ hfin
    refine ⟨?_, ?_, ?_⟩
    · intro id t hl
      by_cases hid : id = taskID
      · subst hid
        rw [lookup_updateTask_self] at hl
        cases ho : d.tasks.lookup id with
        | none => simp [ho] at hl
        | some oldTask =>
          simp only [ho, Option.map_some', Option.some.injEq] at hl
          subst hl
          exact hstate oldTask (hnofin id oldTask ho)
      · rw [lookup_updateTask_ne _ _ _ _ _ hid] at hl
        exact hnofin id t hl
    · rw [← AList.lookup_isSome, ← AList.lookup_isSome, lookup_updateTask_self]
      cases d.tasks.lookup taskID <;> simp
    · intro oldTask newTask ho hn
      rw [lookup_updateTask_self, ho] at hn
      simp only [Option.map_some', Option.some.injEq] at hn
      subst hn
      cases state with
      | none => left; simp [updatedTask]
      | some s =>
        right
        refine ⟨by simp [updatedTask], ?_⟩
        simp only [updatedTask, Option.getD_some]
        cases hs : isFinished s with
        | false => rfl
        | true => exact absurd ⟨s, rfl, hs⟩ hfin

/-- C8: when the upstream `UpdateTask` call returns an error, `TaskCache.UpdateTask`
returns that error and leaves the tasks map and the cluster index as they were. -/
theorem UpdateTask_upstream_error {F : Type} (upstream : UpdateTaskRequest → Option (GoError F))
    (d : data F) (taskID : String) (state clusterID message : Option String) (err : GoError F)
    (herr : upstream (updateTaskRequest taskID state clusterID message) = some err) :
    (UpdateTask upstream d taskID state clusterID message).1 = some err ∧
    (UpdateTask upstream d taskID state clusterID message).2.tasks = d.tasks ∧
    (UpdateTask upstream d taskID state clusterID message).2.clusterIndexer
      = d.clusterIndexer := by
  unfold UpdateTask
  simp [herr]

/-- C7: for a cached task `id`, after a successful `UpdateTask(id, S, C, no message)` on a
cache that satisfies the index invariant and whose keys are the task IDs, `ListTasks(C)`
contains `id` exactly when `S` is not finished; when `S` is finished neither any
`ListTasks(c)` nor `ListScheduledTasks()` contains `id`. -/
theorem UpdateTask_then_ListTasks {F : Type} (upstream : UpdateTaskRequest → Option (GoError F))
    (d : data F) (id S C : String)
    (hinv : IndexInv d) (hkeys : KeysMatch d) (hid : id ∈ d.tasks)
    (hok : (UpdateTask upstream d id (some S) (some C) none).1 = none) :
    ((∃ t ∈ ListTasks (UpdateTask upstream d id (some S) (some C) none).2 C, t.ID = id)
      ↔ isFinished S = false) ∧
    (isFinished S = true →
      (∀ c, ¬ ∃ t ∈ ListTasks (UpdateTask upstream d id (some S) (some C) none).2 c,
        t.ID = id) ∧
      ¬ ∃ t ∈ ListScheduledTasks (UpdateTask upstream d id (some S) (some C) none).2,
        t.ID = id) := by
  rw [UpdateTask_ok_data upstream d id (some S) (some C) none hok]
  obtain ⟨oldTask, hold⟩ : ∃ oldTask, d.tasks.lookup id = some oldTask := by
    cases h : d.tasks.lookup id with
    | none => exact absurd hid (AList.lookup_eq_none.mp h)
    | some t => exact ⟨t, rfl⟩
  by_cases hfin : isFinished S = true
  · have hex : ∃ s, some S = some s ∧ isFinished s = true := ⟨S, rfl, hfin⟩
    simp only [hex, if_true, hfin, Bool.true_eq_false, iff_false, true_implies]
    have hk := keysMatch_deleteTask d hkeys id
    have hnone : ∀ id' t, (d.deleteTask id).tasks.lookup id' = some t → t.ID ≠ id := by
      intro id' t hl hc
      have := hk id' t hl
      rw [hc] at this
      subst this
      rw [lookup_deleteTask] at hl
      simp at hl
    have hlist : ∀ c, ¬ ∃ t ∈ ListTasks (d.deleteTask id) c, t.ID = id := by
      rintro c ⟨t, ht, htid⟩
      obtain ⟨id', _, hl⟩ := (mem_ListTasks _ _ _).mp ht
      exact hnone id' t hl htid
    refine ⟨hlist C, hlist, ?_⟩
    rintro ⟨t, ht, htid⟩
    obtain ⟨id', hl, _⟩ := (mem_ListScheduledTasks _ _).mp ht
    exact hnone id' t hl htid
  · have hex : ¬ ∃ s, some S = some s ∧ isFinished s = true := by
      rintro ⟨s, hs, hf⟩
      cases hs
      exact hfin hf
    simp only [Bool.not_eq_true] at hfin
    simp only [hex, if_false, hfin, Bool.false_eq_true, false_implies, and_true, iff_true]
    have hl : (d.updateTask id (some S) (some C)).tasks.lookup id
        = some (updatedTask oldTask (some S) (some C)) := by
      rw [lookup_updateTask_self, hold]; rfl
    refine ⟨updatedTask oldTask (some S) (some C), ?_, ?_⟩
    · rw [mem_ListTasks]
      refine ⟨id, ?_, hl⟩
      exact ((indexInv_updateTask d hinv id (some S) (some C)).1 C id).mpr
        ⟨_, hl, by simp [updatedTask]⟩
    · simpa [updatedTask] using hkeys id oldTask hold

theorem keysMatch_empty {F : Type} : KeysMatch (emptyData : data F) := by
  intro id t hl
  simp [emptyData, AList.lookup_empty] at hl

theorem noFinished_empty {F : Type} : NoFinished (emptyData : data F) := by
  intro id t hl
  simp [emptyData, AList.lookup_empty] at hl

theorem noFinished_addTask {F : Type} (d : data F) (h : NoFinished d) (task : TaskInfo F)
    (ht : isFinished task.State = false) : NoFinished (d.addTask task) := by
  intro id t hl
  unfold data.addTask at hl
  by_cases hid : id = task.ID
  · subst hid
    simp [AList.lookup_insert] at hl
    subst hl
    exact ht
  · simp [AList.lookup_insert_ne hid] at hl
    exact h _ _ hl

theorem runningData_indexInv : IndexInv runningData :=
  indexInv_addTask emptyData indexInv_empty runningTask (AList.not_mem_empty _)

theorem runningData_keysMatch : KeysMatch runningData :=
  keysMatch_addTask emptyData keysMatch_empty runningTask

theorem runningData_noFinished : NoFinished runningData :=
  noFinished_addTask emptyData noFinished_empty runningTask (by decide)

/-- C5: the index invariant of the task cache is preserved by `data.updateTask` and
`data.deleteTask` for all arguments, and by `data.addTask` for every task whose ID is not
yet cached. -/
theorem indexInv_preserved {F : Type} (d : data F) (h : IndexInv d) :
    (∀ id state clusterID, IndexInv (d.updateTask id state clusterID)) ∧
    (∀ id, IndexInv (d.deleteTask id)) ∧
    (∀ task : TaskInfo F, task.ID ∉ d.tasks → IndexInv (d.addTask task)) :=
  ⟨fun id state clusterID => indexInv_updateTask d h id state clusterID,
   fun id => indexInv_deleteTask d h id,
   fun task hnew => indexInv_addTask d h task hnew⟩

theorem indexInv_preserved_witness :
    IndexInv runningData ∧
    (∀ id state clusterID, IndexInv (runningData.updateTask id state clusterID)) ∧
    (∀ id, IndexInv (runningData.deleteTask id)) ∧
    (∀ task : TaskInfo ℚ, task.ID ∉ runningData.tasks → IndexInv (runningData.addTask task)) :=
  ⟨runningData_indexInv, indexInv_preserved runningData runningData_indexInv⟩

theorem UpdateTask_keeps_no_finished_witness :
    NoFinished runningData ∧
    (UpdateTask upstreamOk runningData "task-0001" (some consts.TaskCanceled) none
      (some "message")).1 = none ∧
    NoFinished (UpdateTask upstreamOk runningData "task-0001" (some consts.TaskCanceled) none
      (some "message")).2 ∧
    "task-0001" ∉ (UpdateTask upstreamOk runningData "task-0001" (some consts.TaskCanceled)
      none (some "message")).2.tasks ∧
    ∀ c, ¬ InBucket (UpdateTask upstreamOk runningData "task-0001"
      (some consts.TaskCanceled) none (some "message")).2.clusterIndexer c "task-0001" :=
  have h := UpdateTask_keeps_no_finished upstreamOk runningData "task-0001"
    (some consts.TaskCanceled) none (some "message") runningData_noFinished rfl
  ⟨runningData_noFinished, rfl, h.1,
    (h.2.1 ⟨consts.TaskCanceled, rfl, by decide⟩).1,
    (h.2.1 ⟨consts.TaskCanceled, rfl, by decide⟩).2.2 runningData_indexInv⟩

theorem UpdateTask_then_ListTasks_witness :
    IndexInv runningData ∧ KeysMatch runningData ∧ "task-0001" ∈ runningData.tasks ∧
    (UpdateTask upstreamOk runningData "task-0001" (some consts.TaskQueued)
      (some "cluster-02") none).1 = none ∧
    ((∃ t ∈ ListTasks (UpdateTask upstreamOk runningData "task-0001"
        (some consts.TaskQueued) (some "cluster-02") none).2 "cluster-02",
        t.ID = "task-0001") ↔ isFinished consts.TaskQueued = false) :=
  ⟨runningData_indexInv, runningData_keysMatch, by decide, rfl,
    (UpdateTask_then_ListTasks upstreamOk runningData "task-0001" consts.TaskQueued
      "cluster-02" runningData_indexInv runningData_keysMatch (by decide) rfl).1⟩

theorem UpdateTask_upstream_error_witness :
    upstreamDown (updateTaskRequest "task-0001" (some consts.TaskQueued) (some "") none)
      = some (GoError.external "connection refused") ∧
    (UpdateTask upstreamDown runningData "task-0001" (some consts.TaskQueued) (some "")
      none).1 = some (GoError.external "connection refused") ∧
    (UpdateTask upstreamDown runningData "task-0001" (some consts.TaskQueued) (some "")
      none).2.tasks = runningData.tasks ∧
    (UpdateTask upstreamDown runningData "task-0001" (some consts.TaskQueued) (some "")
      none).2.clusterIndexer = runningData.clusterIndexer :=
  ⟨rfl, UpdateTask_upstream_error upstreamDown runningData "task-0001"
    (some consts.TaskQueued) (some "") none (GoError.external "connection refused") rfl⟩

/-- Adding a task under an ID that is already cached leaves the old bucket entry behind:
the restriction of the invariant's preservation by `addTask` to new IDs is needed. -/
theorem addTask_cached_breaks_indexInv :
    ¬ IndexInv (runningData.addTask { runningTask with ClusterID := "cluster-02" }) := by
  intro h
  have hb : InBucket (runningData.addTask { runningTask with ClusterID := "cluster-02" }).clusterIndexer
      "cluster-01" "task-0001" := by
    refine ⟨AList.insert "task-0001" () ∅, by rfl, by decide⟩
  obtain ⟨t, hl, hc⟩ := (h.1 "cluster-01" "task-0001").mp hb
  have hl' : (runningData.addTask { runningTask with ClusterID := "cluster-02" }).tasks.lookup
      "task-0001" = some { runningTask with ClusterID := "cluster-02" } := by rfl
  rw [hl'] at hl
  cases hl
  exact absurd hc (by decide)

/-! ## Theorems: ClusterCapacity.Filter -/

theorem wrapInt64_add_left (a b : Int) : wrapInt64 (wrapInt64 a + b) = wrapInt64 (a + b) := by
  unfold wrapInt64
  omega

theorem wrapInt64_of_range (a : Int) (h1 : -9223372036854775808 ≤ a)
    (h2 : a < 9223372036854775808) : wrapInt64 a = a := by
  unfold wrapInt64
  omega

theorem foldl_add_eq_sum {F : Type} [Zero F] [Add F] (h0 : ∀ a : F, 0 + a = a)
    (h1 : ∀ a : F, a + 0 = a) (hassoc : ∀ a b c : F, a + b + c = a + (b + c))
    (l : List F) : l.foldl (fun a b => a + b) 0 = l.sum := by
  have key : ∀ (l : List F) (acc : F), l.foldl (fun a b => a + b) acc = acc + l.sum := by
    intro l
    induction l with
    | nil => intro acc; simp [h1]
    | cons x rest ih =>
      intro acc
      rw [List.foldl_cons, ih, List.sum_cons, hassoc]
  rw [key, h0]

namespace clustercapacity

theorem foldl_totalCount {F : Type} [Zero F] [Add F] (l : List (TaskInfo F)) (acc : totals F)
    (a : Int) (h : acc.totalCount = wrapInt64 a) :
    (l.foldl totals.step acc).totalCount = wrapInt64 (a + l.length) := by
  induction l generalizing acc a with
  | nil => simpa using h
  | cons item rest ih =>
    have hstep : (totals.step acc item).totalCount = wrapInt64 (a + 1) := by
      unfold totals.step
      rw [← wrapInt64_add_left a 1, ← h]
      dsimp only
      repeat' split
      all_goals rfl
    have := ih (totals.step acc item) (a + 1) hstep
    simp only [List.foldl_cons, List.length_cons, Nat.cast_add, Nat.cast_one]
    rw [this]
    congr 1
    omega

theorem foldl_totalCPUCores {F : Type} [Zero F] [Add F] (l : List (TaskInfo F))
    (acc : totals F) (a : Int) (h : acc.totalCPUCores = wrapInt64 a) :
    (l.foldl totals.step acc).totalCPUCores =
      wrapInt64 (a + ((l.filterMap (fun item => item.Resources)).map
        (fun res => res.CPUCores)).sum) := by
  induction l generalizing acc a with
  | nil => simpa using h
  | cons item rest ih =>
    cases hr : item.Resources with
    | none =>
      have hstep : (totals.step acc item).totalCPUCores = wrapInt64 a := by
        unfold totals.step
        simp [hr, h]
      have := ih (totals.step acc item) a hstep
      simp only [List.foldl_cons, List.filterMap_cons, hr]
      exact this
    | some res =>
      have hstep : (totals.step acc item).totalCPUCores = wrapInt64 (a + res.CPUCores) := by
        unfold totals.step
        rw [← wrapInt64_add_left a, ← h]
        simp only [hr]
        repeat' split
        all_goals rfl
      have := ih (totals.step acc item) (a + res.CPUCores) hstep
      simp only [List.foldl_cons, List.filterMap_cons, hr, List.map_cons, List.sum_cons]
      rw [this]
      congr 1
      omega

theorem foldl_totalRamGB {F : Type} [Zero F] [Add F] (l : List (TaskInfo F)) (acc : totals F) :
    (l.foldl totals.step acc).totalRamGB =
      ((l.filterMap (fun item => item.Resources)).map (fun res => res.RamGB)).foldl
        (fun a b => a + b) acc.totalRamGB := by
  induction l generalizing acc with
  | nil => rfl
  | cons item rest ih =>
    simp only [List.foldl_cons, List.filterMap_cons]
    rw [ih]
    cases hr : item.Resources with
    | none => simp [totals.step, hr]
    | some res =>
      simp only [List.map_cons, List.foldl_cons]
      congr 1
      unfold totals.step
      simp only [hr]
      repeat' split
      all_goals rfl

theorem foldl_totalDiskGB {F : Type} [Zero F] [Add F] (l : List (TaskInfo F)) (acc : totals F) :
    (l.foldl totals.step acc).totalDiskGB =
      ((l.filterMap (fun item => item.Resources)).map (fun res => res.DiskGB)).foldl
        (fun a b => a + b) acc.totalDiskGB := by
  induction l generalizing acc with
  | nil => rfl
  | cons item rest ih =>
    simp only [List.foldl_cons, List.filterMap_cons]
    rw [ih]
    cases hr : item.Resources with
    | none => simp [totals.step, hr]
    | some res =>
      simp only [List.map_cons, List.foldl_cons]
      congr 1
      unfold totals.step
      simp only [hr]
      repeat' split
      all_goals rfl

theorem foldl_totalGPUCount {F : Type} [Zero F] [Add F] (l : List (TaskInfo F))
    (acc : totals F) :
    (l.foldl totals.step acc).totalGPUCount =
      ((gpuRequests l).map (fun gpu => gpu.Count)).foldl (fun a b => a + b)
        acc.totalGPUCount := by
  induction l generalizing acc with
  | nil => rfl
  | cons item rest ih =>
    simp only [List.foldl_cons, gpuRequests, List.filterMap_cons]
    rw [ih]
    cases hr : item.Resources with
    | none => simp [totals.step, hr, gpuRequests]
    | some res =>
      cases hg : res.GPU with
      | none => simp [totals.step, hr, hg, gpuRequests]
      | some gpu =>
        simp only [List.filterMap_cons, hg, List.map_cons, List.foldl_cons, gpuRequests]
        congr 1
        unfold totals.step
        simp only [hr, hg]
        split <;> rfl

theorem foldl_totalGPU {F : Type} [Zero F] [Add F] (l : List (TaskInfo F)) (acc : totals F)
    (ty : String) (hty : ty ≠ "") :
    ((l.foldl totals.step acc).totalGPU.lookup ty).getD 0 =
      (((gpuRequests l).filter (fun gpu => gpu.Type_ = ty)).map
        (fun gpu => gpu.Count)).foldl (fun a b => a + b)
        ((acc.totalGPU.lookup ty).getD 0) := by
  induction l generalizing acc with
  | nil => rfl
  | cons item rest ih =>
    simp only [List.foldl_cons, gpuRequests, List.filterMap_cons]
    rw [ih]
    cases hr : item.Resources with
    | none => simp [totals.step, hr, gpuRequests]
    | some res =>
      cases hg : res.GPU with
      | none => simp [totals.step, hr, hg, gpuRequests]
      | some gpu =>
        simp only [List.filterMap_cons, hg, gpuRequests]
        by_cases hgt : gpu.Type_ = ty
        · have hne : gpu.Type_ ≠ "" := by rw [hgt]; exact hty
          simp only [List.filter_cons, hgt, decide_True, if_true, List.map_cons,
            List.foldl_cons]
          congr 1
          unfold totals.step
          simp only [hr, hg, hne, ne_eq, not_false_eq_true, if_true]
          rw [hgt, AList.lookup_insert]
          rfl
        · simp only [List.filter_cons, hgt, decide_False, Bool.false_eq_true, if_false]
          congr 2
          unfold totals.step
          simp only [hr, hg]
          split
          · simp only
            rw [AList.lookup_insert_ne (Ne.symm hgt)]
          · rfl

theorem totals_of_eq {F : Type} [Zero F] [Add F] (scheduled : List (TaskInfo F)) :
    (totals.of scheduled).totalCount = occupiedCount scheduled ∧
    (totals.of scheduled).totalCPUCores = occupiedCPUCores scheduled ∧
    (totals.of scheduled).totalRamGB = occupiedRamGB scheduled ∧
    (totals.of scheduled).totalDiskGB = occupiedDiskGB scheduled ∧
    (totals.of scheduled).totalGPUCount = occupiedGPUCount scheduled ∧
    ∀ ty, ty ≠ "" →
      ((totals.of scheduled).totalGPU.lookup ty).getD 0 = occupiedGPUOfType scheduled ty := by
  refine ⟨?_, ?_, ?_, ?_, ?_, ?_⟩
  · have := foldl_totalCount scheduled (totals.init : totals F) 0 rfl
    simpa [totals.of, occupiedCount] using this
  · have := foldl_totalCPUCores scheduled (totals.init : totals F) 0 rfl
    simpa [totals.of, occupiedCPUCores] using this
  · exact foldl_totalRamGB scheduled totals.init
  · exact foldl_totalDiskGB scheduled totals.init
  · exact foldl_totalGPUCount scheduled totals.init
  · intro ty hty
    have := foldl_totalGPU scheduled (totals.init : totals F) ty hty
    simpa [totals.of, occupiedGPUOfType, totals.init] using this

theorem gpuErrs_ne_nil_iff {F : Type} [Zero F] [Add F] [LT F] [∀ a b : F, Decidable (a < b)]
    (g : GPUCapacity F) (gpu : GPUResource F) (scheduled : List (TaskInfo F)) :
    gpuErrs g gpu (totals.of scheduled) ≠ [] ↔ gpuRuleViolated g gpu scheduled := by
  obtain ⟨_, _, _, _, h5, h6⟩ := totals_of_eq scheduled
  unfold gpuErrs gpuRuleViolated
  rw [h5]
  by_cases hty : gpu.Type_ = ""
  · simp [hty]
  · rw [h6 gpu.Type_ hty]
    cases hl : g.GPU.lookup gpu.Type_ with
    | none => simp [hty]
    | some c =>
      simp only [hty, ne_eq, not_false_eq_true, if_true, List.append_eq_nil, not_and_or,
        reduceCtorEq, false_or, Option.some.injEq, exists_eq_left', true_and]
      refine or_congr ?_ ?_
      · by_cases h : sumGPUCountCapacity g < occupiedGPUCount scheduled + gpu.Count <;> simp [h]
      · by_cases h : c < occupiedGPUOfType scheduled gpu.Type_ + gpu.Count <;> simp [h]

theorem resourceErrs_ne_nil_iff {F : Type} [Zero F] [Add F] [LT F]
    [∀ a b : F, Decidable (a < b)]
    (cap : Capacity F) (res : Resources F) (scheduled : List (TaskInfo F)) :
    resourceErrs cap res (totals.of scheduled) ≠ [] ↔
      ((∃ c, cap.CPUCores = some c ∧ 0 < res.CPUCores ∧
          c < wrapInt64 (occupiedCPUCores scheduled + res.CPUCores)) ∨
       (∃ c, cap.RamGB = some c ∧ 0 < res.RamGB ∧
          c < occupiedRamGB scheduled + res.RamGB) ∨
       (∃ c, cap.DiskGB = some c ∧ 0 < res.DiskGB ∧
          c < occupiedDiskGB scheduled + res.DiskGB) ∨
       (∃ g gpu, cap.GPUCapacity = some g ∧ res.GPU = some gpu ∧
          gpuRuleViolated g gpu scheduled)) := by
  obtain ⟨_, h2, h3, h4, _, _⟩ := totals_of_eq scheduled
  have hg := fun g gpu => gpuErrs_ne_nil_iff g gpu scheduled
  unfold resourceErrs
  rw [h2, h3, h4]
  simp only [ne_eq, List.append_eq_nil, not_and_or, or_assoc]
  refine or_congr ?_ (or_congr ?_ (or_congr ?_ ?_))
  · cases cap.CPUCores with
    | none => simp
    | some c => simp
  · cases cap.RamGB with
    | none => simp
    | some c => simp
  · cases cap.DiskGB with
    | none => simp
    | some c => simp
  · cases cap.GPUCapacity with
    | none => simp
    | some g =>
      cases res.GPU with
      | none => simp
      | some gpu => simpa using hg g gpu

theorem errs_ne_nil_iff {F : Type} [Zero F] [Add F] [LT F] [∀ a b : F, Decidable (a < b)]
    (cap : Capacity F) (task : TaskInfo F) (scheduled : List (TaskInfo F)) :
    errs cap task (totals.of scheduled) ≠ [] ↔ capacityExceeded cap task scheduled := by
  obtain ⟨h1, _, _, _, _, _⟩ := totals_of_eq scheduled
  have hr := fun res => resourceErrs_ne_nil_iff cap res scheduled
  unfold errs capacityExceeded
  rw [h1]
  simp only [ne_eq, List.append_eq_nil, not_and_or]
  refine or_congr ?_ ?_
  · cases cap.Count with
    | none => simp
    | some c => simp
  · cases task.Resources with
    | none => simp
    | some res => simpa using hr res

/-- The verdict of `Filter` on a cluster with a capacity: it returns an error exactly when
`capacityExceeded` holds for the tasks already assigned to the cluster. -/
theorem Filter_isSome_iff {F : Type} [Zero F] [Add F] [LT F] [∀ a b : F, Decidable (a < b)]
    (d : data F) (task : TaskInfo F) (cluster : ClusterInfo F) (cycleState : CycleState F)
    (cap : Capacity F) (hc : cluster.Capacity = some cap) :
    (Filter d task cluster cycleState).1.isSome = true ↔
      capacityExceeded cap task (ListTasks d cluster.ID) := by
  unfold Filter
  rw [hc]
  have key := errs_ne_nil_iff cap task (ListTasks d cluster.ID)
  rw [← key]
  cases he : errs cap task (totals.of (ListTasks d cluster.ID)) with
  | nil => simp [NewAggregate, he]
  | cons e es => simp [NewAggregate, he]

/-- With a null capacity `Filter` accepts. -/
theorem Filter_no_capacity {F : Type} [Zero F] [Add F] [LT F] [∀ a b : F, Decidable (a < b)]
    (d : data F) (task : TaskInfo F) (cluster : ClusterInfo F) (cycleState : CycleState F)
    (hc : cluster.Capacity = none) : (Filter d task cluster cycleState).1 = none := by
  unfold Filter
  rw [hc]

/-- C10 (amended): `ClusterCapacity.Filter` returns an error exactly when the cluster has a
capacity and `capacityExceeded` holds for the tasks already assigned to the cluster; with
a null capacity it always accepts. -/
theorem Filter_rejects_iff {F : Type} [Zero F] [Add F] [LT F] [∀ a b : F, Decidable (a < b)]
    (d : data F) (task : TaskInfo F) (cluster : ClusterInfo F) (cycleState : CycleState F) :
    ((Filter d task cluster cycleState).1.isSome = true ↔
      ∃ cap, cluster.Capacity = some cap ∧
        capacityExceeded cap task (ListTasks d cluster.ID)) ∧
    (cluster.Capacity = none → (Filter d task cluster cycleState).1.isSome = false) := by
  refine ⟨?_, fun hc => by rw [Filter_no_capacity d task cluster cycleState hc]; rfl⟩
  cases hc : cluster.Capacity with
  | none =>
    rw [Filter_no_capacity d task cluster cycleState hc]
    simp
  | some cap =>
    rw [Filter_isSome_iff d task cluster cycleState cap hc]
    simp

/-- C10 (counterexample): with one CPU core of capacity, two cores occupied and a candidate
that requests no CPU, the capacity is below occupied plus requested, yet `Filter` accepts:
rejection is not equivalent to the condition of the claim. -/
theorem Filter_accepts_claimed_exceeded :
    claimedCapacityExceeded overcommitCapacity overcommitCandidate
      (ListTasks overcommitData overcommitCluster.ID) ∧
    (Filter overcommitData overcommitCandidate overcommitCluster ∅).1.isSome = false ∧
    ¬ ((Filter overcommitData overcommitCandidate overcommitCluster ∅).1.isSome = true ↔
      claimedCapacityExceeded overcommitCapacity overcommitCandidate
        (ListTasks overcommitData overcommitCluster.ID)) := by
  have h1 : claimedCapacityExceeded overcommitCapacity overcommitCandidate
      (ListTasks overcommitData overcommitCluster.ID) := by
    right; left
    exact ⟨1, rfl, by decide⟩
  have h2 : (Filter overcommitData overcommitCandidate overcommitCluster ∅).1.isSome = false := by
    decide
  refine ⟨h1, h2, ?_⟩
  intro h
  have := h.mpr h1
  rw [h2] at this
  cases this

theorem Filter_rejects_iff_witness :
    (Filter scenarioData bigCandidate scenarioCluster ∅).1.isSome = true :=
  (Filter_rejects_iff scenarioData bigCandidate scenarioCluster ∅).1.mpr
    ⟨scenarioCapacity, rfl, Or.inr ⟨_, rfl, Or.inl ⟨10, rfl, by decide, by decide⟩⟩⟩

/-- The tasks of the first seeded scenario as `ListTasks` returns them. -/
theorem scenario_list : ListTasks scenarioData "cluster-01" =
    [smallTask "task-0002" "cluster-01", smallTask "task-0001" "cluster-01"] := by decide

/-- The first seeded scenario, second half: the small candidate is accepted. -/
theorem Filter_accepts_small :
    (Filter scenarioData (smallTask "task-0003" "") scenarioCluster ∅).1.isSome = false := by
  have h := Filter_isSome_iff scenarioData (smallTask "task-0003" "") scenarioCluster ∅
    scenarioCapacity rfl
  cases hs : (Filter scenarioData (smallTask "task-0003" "") scenarioCluster ∅).1.isSome with
  | false => rfl
  | true =>
    exfalso
    have hex := h.mp hs
    rw [show scenarioCluster.ID = "cluster-01" from rfl, scenario_list] at hex
    unfold capacityExceeded at hex
    simp [scenarioCapacity, smallTask, occupiedCount, occupiedCPUCores, occupiedRamGB,
      occupiedDiskGB, wrapInt64] at hex
    norm_num at hex

end clustercapacity

/-! ## Theorems: the scheduler -/

theorem pluginCallsOn_nil {F : Type} (task : TaskInfo F) : PluginCallsOn task [] := by
  intro e he
  cases he

theorem pluginCallsOn_append {F : Type} (task : TaskInfo F) (a b : List (Event F))
    (ha : PluginCallsOn task a) (hb : PluginCallsOn task b) : PluginCallsOn task (a ++ b) := by
  intro e he
  rcases List.mem_append.mp he with h | h
  · exact ha e h
  · exact hb e h

theorem pluginCallsOn_cons {F : Type} (task : TaskInfo F) (e : Event F) (b : List (Event F))
    (he : e.isUpdateTask = false ∧ ∀ t ∈ e.tasks, t = task) (hb : PluginCallsOn task b) :
    PluginCallsOn task (e :: b) := by
  intro e' he'
  rcases List.mem_cons.mp he' with h | h
  · subst h; exact he
  · exact hb e' h

theorem pluginCallsOn_filter {F : Type} (task : TaskInfo F) (a : List (Event F))
    (ha : PluginCallsOn task a) : a.filter Event.isUpdateTask = [] := by
  rw [List.filter_eq_nil_iff]
  intro e he
  simp [(ha e he).1]

theorem runGlobalFilters_cons_some {F : Type} (d : data F) (task : TaskInfo F)
    (gf : GlobalFilterPlugin F) (rest : List (GlobalFilterPlugin F)) (cs : CycleState F)
    (err : GoError F) (h : (gf.GlobalFilter d task cs).1 = some err) :
    runGlobalFilters d task (gf :: rest) cs =
      (some (gf.Name, err), (gf.GlobalFilter d task cs).2,
        [Event.GlobalFilter gf.Name task]) := by
  simp [runGlobalFilters, h]

theorem runGlobalFilters_cons_none {F : Type} (d : data F) (task : TaskInfo F)
    (gf : GlobalFilterPlugin F) (rest : List (GlobalFilterPlugin F)) (cs : CycleState F)
    (h : (gf.GlobalFilter d task cs).1 = none) :
    runGlobalFilters d task (gf :: rest) cs =
      ((runGlobalFilters d task rest (gf.GlobalFilter d task cs).2).1,
       (runGlobalFilters d task rest (gf.GlobalFilter d task cs).2).2.1,
       Event.GlobalFilter gf.Name task ::
         (runGlobalFilters d task rest (gf.GlobalFilter d task cs).2).2.2) := by
  simp [runGlobalFilters, h]

theorem runFilters_cons_some {F : Type} (d : data F) (task : TaskInfo F)
    (cluster : ClusterInfo F) (f : FilterPlugin F) (rest : List (FilterPlugin F))
    (cs : CycleState F) (err : GoError F) (h : (f.Filter d task cluster cs).1 = some err) :
    runFilters d task cluster (f :: rest) cs =
      (some (f.Name, err), (f.Filter d task cluster cs).2,
        [Event.Filter f.Name task cluster]) := by
  simp [runFilters, h]

theorem runFilters_cons_none {F : Type} (d : data F) (task : TaskInfo F)
    (cluster : ClusterInfo F) (f : FilterPlugin F) (rest : List (FilterPlugin F))
    (cs : CycleState F) (h : (f.Filter d task cluster cs).1 = none) :
    runFilters d task cluster (f :: rest) cs =
      ((runFilters d task cluster rest (f.Filter d task cluster cs).2).1,
       (runFilters d task cluster rest (f.Filter d task cluster cs).2).2.1,
       Event.Filter f.Name task cluster ::
         (runFilters d task cluster rest (f.Filter d task cluster cs).2).2.2) := by
  simp [runFilters, h]

theorem runGlobalFilters_events {F : Type} (d : data F) (task : TaskInfo F)
    (gfs : List (GlobalFilterPlugin F)) (cs : CycleState F) :
    PluginCallsOn task (runGlobalFilters d task gfs cs).2.2 := by
  induction gfs generalizing cs with
  | nil => exact pluginCallsOn_nil task
  | cons gf rest ih =>
    cases h : (gf.GlobalFilter d task cs).1 with
    | some err =>
      rw [runGlobalFilters_cons_some d task gf rest cs err h]
      refine pluginCallsOn_cons task _ _ ?_ (pluginCallsOn_nil task)
      exact ⟨rfl, by simp [Event.tasks]⟩
    | none =>
      rw [runGlobalFilters_cons_none d task gf rest cs h]
      refine pluginCallsOn_cons task _ _ ?_ (ih _)
      exact ⟨rfl, by simp [Event.tasks]⟩

theorem runFilters_events {F : Type} (d : data F) (task : TaskInfo F) (cluster : ClusterInfo F)
    (fs : List (FilterPlugin F)) (cs : CycleState F) :
    PluginCallsOn task (runFilters d task cluster fs cs).2.2 := by
  induction fs generalizing cs with
  | nil => exact pluginCallsOn_nil task
  | cons f rest ih =>
    cases h : (f.Filter d task cluster cs).1 with
    | some err =>
      rw [runFilters_cons_some d task cluster f rest cs err h]
      refine pluginCallsOn_cons task _ _ ?_ (pluginCallsOn_nil task)
      exact ⟨rfl, by simp [Event.tasks]⟩
    | none =>
      rw [runFilters_cons_none d task cluster f rest cs h]
      refine pluginCallsOn_cons task _ _ ?_ (ih _)
      exact ⟨rfl, by simp [Event.tasks]⟩

theorem sumScores_events {F : Type} (d : data F) (task : TaskInfo F) (cluster : ClusterInfo F)
    (scores : List (ScorePlugin F)) (valueSum : Int) (cs : CycleState F) :
    PluginCallsOn task (sumScores d task cluster scores valueSum cs).2.2 := by
  induction scores generalizing valueSum cs with
  | nil => exact pluginCallsOn_nil task
  | cons sc rest ih =>
    unfold sumScores
    refine pluginCallsOn_cons task _ _ ?_ (ih _ _)
    exact ⟨rfl, by simp [Event.tasks]⟩

/-- A cluster is accepted by the filters when every one of them returns no error for it. -/
theorem runFilters_accept_iff {F : Type} (d : data F) (task : TaskInfo F)
    (cluster : ClusterInfo F) (fs : List (FilterPlugin F)) (cs cs0 : CycleState F)
    (hF : ∀ f ∈ fs, ∀ c a b, (f.Filter d task c a).1 = none ↔ (f.Filter d task c b).1 = none) :
    (runFilters d task cluster fs cs).1 = none ↔
      ∀ f ∈ fs, (f.Filter d task cluster cs0).1 = none := by
  induction fs generalizing cs with
  | nil => simp [runFilters]
  | cons f rest ih =>
    have hrest : ∀ f ∈ rest, ∀ c a b,
        (f.Filter d task c a).1 = none ↔ (f.Filter d task c b).1 = none :=
      fun f' hf' => hF f' (List.mem_cons_of_mem _ hf')
    have hf := hF f (List.mem_cons_self _ _) cluster cs cs0
    cases h : (f.Filter d task cluster cs).1 with
    | some err =>
      rw [runFilters_cons_some d task cluster f rest cs err h]
      simp only [List.mem_cons, forall_eq_or_imp, reduceCtorEq, false_iff, not_and]
      intro h0
      rw [← hf, h] at h0
      cases h0
    | none =>
      rw [runFilters_cons_none d task cluster f rest cs h]
      simp only [List.mem_cons, forall_eq_or_imp]
      rw [ih _ hrest]
      constructor
      · intro h'
        exact ⟨hf.mp h, h'⟩
      · intro h'
        exact h'.2

theorem runGlobalFilters_accept_iff {F : Type} (d : data F) (task : TaskInfo F)
    (gfs : List (GlobalFilterPlugin F)) (cs cs0 : CycleState F)
    (hG : ∀ gf ∈ gfs, ∀ a b,
      (gf.GlobalFilter d task a).1 = none ↔ (gf.GlobalFilter d task b).1 = none) :
    (runGlobalFilters d task gfs cs).1 = none ↔
      ∀ gf ∈ gfs, (gf.GlobalFilter d task cs0).1 = none := by
  induction gfs generalizing cs with
  | nil => simp [runGlobalFilters]
  | cons gf rest ih =>
    have hrest : ∀ gf ∈ rest, ∀ a b,
        (gf.GlobalFilter d task a).1 = none ↔ (gf.GlobalFilter d task b).1 = none :=
      fun g' hg' => hG g' (List.mem_cons_of_mem _ hg')
    have hg := hG gf (List.mem_cons_self _ _) cs cs0
    cases h : (gf.GlobalFilter d task cs).1 with
    | some err =>
      rw [runGlobalFilters_cons_some d task gf rest cs err h]
      simp only [List.mem_cons, forall_eq_or_imp, reduceCtorEq, false_iff, not_and]
      intro h0
      rw [← hg, h] at h0
      cases h0
    | none =>
      rw [runGlobalFilters_cons_none d task gf rest cs h]
      simp only [List.mem_cons, forall_eq_or_imp]
      rw [ih _ hrest]
      constructor
      · intro h'
        exact ⟨hg.mp h, h'⟩
      · intro h'
        exact h'.2

theorem filterStep_events {F : Type} (fs : List (FilterPlugin F)) (d : data F)
    (task : TaskInfo F) (acc : filterState F) (c : ClusterInfo F) :
    (filterStep fs d task acc c).events = acc.events ++ (runFilters d task c fs acc.cycleState).2.2 := by
  unfold filterStep
  cases h : (runFilters d task c fs acc.cycleState).1 with
  | none => simp [h]
  | some p => simp [h]

theorem filterStep_available {F : Type} (fs : List (FilterPlugin F)) (d : data F)
    (task : TaskInfo F) (acc : filterState F) (c c' : ClusterInfo F) :
    c' ∈ (filterStep fs d task acc c).availableClusters ↔
      c' ∈ acc.availableClusters ∨
        (c' = c ∧ (runFilters d task c fs acc.cycleState).1 = none) := by
  unfold filterStep
  cases h : (runFilters d task c fs acc.cycleState).1 with
  | none => simp [h]
  | some p => simp [h]

theorem filterFold_events {F : Type} (fs : List (FilterPlugin F)) (d : data F)
    (task : TaskInfo F) (clusters : List (ClusterInfo F)) (acc : filterState F) :
    ∃ E, (clusters.foldl (filterStep fs d task) acc).events = acc.events ++ E ∧
      PluginCallsOn task E := by
  induction clusters generalizing acc with
  | nil => exact ⟨[], by simp, pluginCallsOn_nil task⟩
  | cons c rest ih =>
    obtain ⟨E, hE, hP⟩ := ih (filterStep fs d task acc c)
    refine ⟨(runFilters d task c fs acc.cycleState).2.2 ++ E, ?_, ?_⟩
    · simp only [List.foldl_cons]
      rw [hE, filterStep_events, List.append_assoc]
    · exact pluginCallsOn_append task _ _ (runFilters_events d task c fs acc.cycleState) hP

theorem filterFold_available_sub {F : Type} (fs : List (FilterPlugin F)) (d : data F)
    (task : TaskInfo F) (clusters : List (ClusterInfo F)) (acc : filterState F)
    (c' : ClusterInfo F)
    (h : c' ∈ (clusters.foldl (filterStep fs d task) acc).availableClusters) :
    c' ∈ acc.availableClusters ∨
      (c' ∈ clusters ∧ ∃ cs, (runFilters d task c' fs cs).1 = none) := by
  induction clusters generalizing acc with
  | nil => exact Or.inl h
  | cons c rest ih =>
    simp only [List.foldl_cons] at h
    rcases ih _ h with h' | ⟨h', hrun⟩
    · rcases (filterStep_available fs d task acc c c').mp h' with h'' | ⟨h'', hrun⟩
      · exact Or.inl h''
      · subst h''
        exact Or.inr ⟨List.mem_cons_self _ _, acc.cycleState, hrun⟩
    · exact Or.inr ⟨List.mem_cons_of_mem _ h', hrun⟩

theorem filterFold_available_iff {F : Type} (fs : List (FilterPlugin F)) (d : data F)
    (task : TaskInfo F) (clusters : List (ClusterInfo F)) (acc : filterState F)
    (cs0 : CycleState F) (c' : ClusterInfo F)
    (hF : ∀ f ∈ fs, ∀ c a b, (f.Filter d task c a).1 = none ↔ (f.Filter d task c b).1 = none) :
    c' ∈ (clusters.foldl (filterStep fs d task) acc).availableClusters ↔
      c' ∈ acc.availableClusters ∨
        (c' ∈ clusters ∧ ∀ f ∈ fs, (f.Filter d task c' cs0).1 = none) := by
  induction clusters generalizing acc with
  | nil => simp
  | cons c rest ih =>
    simp only [List.foldl_cons]
    rw [ih, filterStep_available, runFilters_accept_iff d task c fs acc.cycleState cs0 hF]
    simp only [List.mem_cons]
    constructor
    · rintro ((h | ⟨h1, h2⟩) | ⟨h1, h2⟩)
      · exact Or.inl h
      · subst h1
        exact Or.inr ⟨Or.inl rfl, h2⟩
      · exact Or.inr ⟨Or.inr h1, h2⟩
    · rintro (h | ⟨h1 | h1, h2⟩)
      · exact Or.inl (Or.inl h)
      · subst h1
        exact Or.inl (Or.inr ⟨rfl, h2⟩)
      · exact Or.inr ⟨h1, h2⟩

theorem scoreFold_spec {F : Type} (scores : List (ScorePlugin F)) (d : data F)
    (task : TaskInfo F) (clusters : List (ClusterInfo F)) (acc : scoreState F) :
    (∃ E, (clusters.foldl (scoreStep scores d task) acc).events = acc.events ++ E ∧
      PluginCallsOn task E) ∧
    (clusters.foldl (scoreStep scores d task) acc).clusterWithScores.map
        (fun e => e.clusterID) =
      acc.clusterWithScores.map (fun e => e.clusterID) ++ clusters.map (fun c => c.ID) := by
  induction clusters generalizing acc with
  | nil => exact ⟨⟨[], by simp, pluginCallsOn_nil task⟩, by simp⟩
  | cons c rest ih =>
    obtain ⟨⟨E, hE, hP⟩, hids⟩ := ih (scoreStep scores d task acc c)
    have hev : (scoreStep scores d task acc c).events =
        acc.events ++ (sumScores d task c scores 0 acc.cycleState).2.2 := rfl
    have hid : (scoreStep scores d task acc c).clusterWithScores.map (fun e => e.clusterID) =
        acc.clusterWithScores.map (fun e => e.clusterID) ++ [c.ID] := by
      unfold scoreStep
      by_cases hl : scores.length = 0 <;> simp [hl]
    refine ⟨⟨(sumScores d task c scores 0 acc.cycleState).2.2 ++ E, ?_, ?_⟩, ?_⟩
    · simp only [List.foldl_cons]
      rw [hE, hev, List.append_assoc]
    · exact pluginCallsOn_append task _ _ (sumScores_events d task c scores 0 acc.cycleState) hP
    · simp only [List.foldl_cons]
      rw [hids, hid]
      simp

theorem filterAvailableClusters_events {F : Type} (fs : List (FilterPlugin F)) (d : data F)
    (task : TaskInfo F) (clusters : List (ClusterInfo F)) (cs : CycleState F) :
    PluginCallsOn task (filterAvailableClusters fs d task clusters cs).events := by
  obtain ⟨E, hE, hP⟩ := filterFold_events fs d task clusters
    { availableClusters := [], pluginNameWithErrors := ∅, cycleState := cs, events := [] }
  unfold filterAvailableClusters
  rw [hE]
  simpa using hP

theorem getClusterWithScores_spec {F : Type} (scores : List (ScorePlugin F)) (d : data F)
    (task : TaskInfo F) (available : List (ClusterInfo F)) (cs : CycleState F) :
    PluginCallsOn task (getClusterWithScores scores d task available cs).events ∧
    (getClusterWithScores scores d task available cs).clusterWithScores.map
      (fun e => e.clusterID) = available.map (fun c => c.ID) := by
  obtain ⟨⟨E, hE, hP⟩, hids⟩ := scoreFold_spec scores d task available
    { clusterWithScores := [], cycleState := cs, events := [] }
  unfold getClusterWithScores
  refine ⟨?_, ?_⟩
  · rw [hE]
    simpa using hP
  · rw [hids]
    simp

theorem callUpdateTask_events {F : Type} (env : Env F) (w : World F) (id : String)
    (state clusterID message : Option String) :
    (callUpdateTask env w id state clusterID message).2.events =
      w.events ++ [Event.UpdateTask id state clusterID message] := rfl

/-- The calls of one `scheduleTask`: plugin calls on the task, followed by one assignment
to an available cluster exactly when the global filters pass and a cluster is available. -/
theorem scheduleTask_spec {F : Type} (s : Scheduler F) (env : Env F) (w : World F)
    (task : TaskInfo F) (clusters : List (ClusterInfo F)) :
    ∃ P, PluginCallsOn task P ∧
      (((runGlobalFilters w.data task s.plugins.globalFilters ∅).1 = none ∧
        (filterAvailableClusters s.plugins.filters w.data task clusters
          (runGlobalFilters w.data task s.plugins.globalFilters ∅).2.1).availableClusters ≠ []) →
        ∃ c ∈ (filterAvailableClusters s.plugins.filters w.data task clusters
            (runGlobalFilters w.data task s.plugins.globalFilters ∅).2.1).availableClusters,
          (scheduleTask s env w task clusters).events =
            w.events ++ P ++ [Event.UpdateTask task.ID none (some c.ID) none]) ∧
      (¬ ((runGlobalFilters w.data task s.plugins.globalFilters ∅).1 = none ∧
        (filterAvailableClusters s.plugins.filters w.data task clusters
          (runGlobalFilters w.data task s.plugins.globalFilters ∅).2.1).availableClusters ≠ []) →
        (scheduleTask s env w task clusters).events = w.events ++ P) := by
  have hgP := runGlobalFilters_events w.data task s.plugins.globalFilters ∅
  unfold scheduleTask
  cases hg : (runGlobalFilters w.data task s.plugins.globalFilters ∅).1 with
  | some p =>
    refine ⟨_, hgP, ?_, ?_⟩
    · rintro ⟨h, _⟩
      cases h
    · intro _
      simp [hg]
  | none =>
    have hfP := filterAvailableClusters_events s.plugins.filters w.data task clusters
      (runGlobalFilters w.data task s.plugins.globalFilters ∅).2.1
    by_cases hlen : (filterAvailableClusters s.plugins.filters w.data task clusters
        (runGlobalFilters w.data task s.plugins.globalFilters ∅).2.1).availableClusters.length = 0
    · have hnil := List.length_eq_zero.mp hlen
      refine ⟨_, pluginCallsOn_append task _ _ hgP hfP, ?_, ?_⟩
      · rintro ⟨_, h⟩
        exact absurd hnil h
      · intro _
        simp [hg, hlen]
    · have hne : (filterAvailableClusters s.plugins.filters w.data task clusters
          (runGlobalFilters w.data task s.plugins.globalFilters ∅).2.1).availableClusters ≠ [] :=
        fun h => hlen (by rw [h]; rfl)
      obtain ⟨hsP, hids⟩ := getClusterWithScores_spec s.plugins.scores w.data task
        (filterAvailableClusters s.plugins.filters w.data task clusters
          (runGlobalFilters w.data task s.plugins.globalFilters ∅).2.1).availableClusters
        (filterAvailableClusters s.plugins.filters w.data task clusters
          (runGlobalFilters w.data task s.plugins.globalFilters ∅).2.1).cycleState
      have hcne : (getClusterWithScores s.plugins.scores w.data task
          (filterAvailableClusters s.plugins.filters w.data task clusters
            (runGlobalFilters w.data task s.plugins.globalFilters ∅).2.1).availableClusters
          (filterAvailableClusters s.plugins.filters w.data task clusters
            (runGlobalFilters w.data task s.plugins.globalFilters ∅).2.1).cycleState).clusterWithScores
            ≠ [] := by
        intro h
        rw [h] at hids
        simp at hids
        exact hne hids
      obtain ⟨e, he, hmax, _⟩ := getMaxScoreClusterID_mem_max _ (env.intn w.draws) hcne
      have hid : e.clusterID ∈ (filterAvailableClusters s.plugins.filters w.data task clusters
          (runGlobalFilters w.data task s.plugins.globalFilters ∅).2.1).availableClusters.map
            (fun c => c.ID) := by
        rw [← hids]
        exact List.mem_map.mpr ⟨e, he, rfl⟩
      obtain ⟨c, hc, hcid⟩ := List.mem_map.mp hid
      refine ⟨_, pluginCallsOn_append task _ _ (pluginCallsOn_append task _ _ hgP hfP) hsP,
        ?_, ?_⟩
      · intro _
        refine ⟨c, hc, ?_⟩
        simp only [hg, hlen, if_false, hmax, callUpdateTask_events, hcid]
      · intro h
        exact absurd ⟨rfl, hne⟩ h

theorem collect_spec {F : Type} (env : Env F) (tasks : List (TaskInfo F))
    (acc : World F × List (TaskInfo F)) :
    (tasks.foldl (collectStep env) acc).1.events = acc.1.events ++ cancelEvents tasks ∧
    (tasks.foldl (collectStep env) acc).2 = acc.2 ++ queuedTasks tasks := by
  induction tasks generalizing acc with
  | nil => simp [cancelEvents, queuedTasks]
  | cons task rest ih =>
    simp only [List.foldl_cons]
    obtain ⟨h1, h2⟩ := ih (collectStep env acc task)
    rw [h1, h2]
    unfold collectStep
    by_cases hc : task.State = consts.TaskCanceling
    · have hq : task.State ≠ consts.TaskQueued := by
        rw [hc]; decide
      simp [hc, hq, cancelEvents, queuedTasks, cancelUnscheduledTask, callUpdateTask_events,
        show consts.TaskCanceling ≠ consts.TaskQueued by decide]
    · by_cases hq : task.State = consts.TaskQueued
      · simp [hc, hq, cancelEvents, queuedTasks,
          show consts.TaskQueued ≠ consts.TaskCanceling by decide]
      · simp [hc, hq, cancelEvents, queuedTasks]

theorem scheduleCalls_nil {F : Type} (tasks : List (TaskInfo F))
    (clusters : List (ClusterInfo F)) : ScheduleCalls tasks clusters [] := by
  intro e he
  cases he

theorem scheduleCalls_append {F : Type} (tasks : List (TaskInfo F))
    (clusters : List (ClusterInfo F)) (a b : List (Event F))
    (ha : ScheduleCalls tasks clusters a) (hb : ScheduleCalls tasks clusters b) :
    ScheduleCalls tasks clusters (a ++ b) := by
  intro e he
  rcases List.mem_append.mp he with h | h
  · exact ha e h
  · exact hb e h

theorem scheduleCalls_mono {F : Type} (tasks tasks' : List (TaskInfo F))
    (clusters clusters' : List (ClusterInfo F)) (a : List (Event F))
    (ht : ∀ t ∈ tasks, t ∈ tasks') (hc : ∀ c ∈ clusters, c ∈ clusters')
    (ha : ScheduleCalls tasks clusters a) : ScheduleCalls tasks' clusters' a := by
  intro e he
  rcases ha e he with ⟨h1, h2⟩ | ⟨t, ht', c, hc', h⟩
  · exact Or.inl ⟨h1, fun t h => ht t (h2 t h)⟩
  · exact Or.inr ⟨t, ht t ht', c, hc c hc', h⟩

theorem scheduleTask_calls {F : Type} (s : Scheduler F) (env : Env F) (w : World F)
    (task : TaskInfo F) (clusters : List (ClusterInfo F)) :
    ∃ E, (scheduleTask s env w task clusters).events = w.events ++ E ∧
      ScheduleCalls [task] clusters E := by
  obtain ⟨P, hP, h1, h2⟩ := scheduleTask_spec s env w task clusters
  have hPc : ScheduleCalls [task] clusters P := by
    intro e he
    exact Or.inl ⟨(hP e he).1, fun t ht => by simp [(hP e he).2 t ht]⟩
  by_cases hcond : (runGlobalFilters w.data task s.plugins.globalFilters ∅).1 = none ∧
      (filterAvailableClusters s.plugins.filters w.data task clusters
        (runGlobalFilters w.data task s.plugins.globalFilters ∅).2.1).availableClusters ≠ []
  · obtain ⟨c, hc, hev⟩ := h1 hcond
    refine ⟨P ++ [Event.UpdateTask task.ID none (some c.ID) none], ?_, ?_⟩
    · rw [hev, List.append_assoc]
    · refine scheduleCalls_append _ _ _ _ hPc ?_
      intro e he
      simp only [List.mem_singleton] at he
      subst he
      refine Or.inr ⟨task, by simp, c, ?_, rfl⟩
      rcases filterFold_available_sub s.plugins.filters w.data task clusters _ c hc with h | h
      · cases h
      · exact h.1
  · exact ⟨P, h2 hcond, hPc⟩

theorem scheduleLoop_calls {F : Type} (s : Scheduler F) (env : Env F)
    (clusters : List (ClusterInfo F)) (sorted : List (TaskInfo F)) (w : World F) :
    ∃ E, (sorted.foldl
        (fun w' task => if w'.panicked then w' else scheduleTask s env w' task clusters)
        w).events = w.events ++ E ∧
      ScheduleCalls sorted clusters E := by
  induction sorted generalizing w with
  | nil => exact ⟨[], by simp, scheduleCalls_nil _ _⟩
  | cons task rest ih =>
    simp only [List.foldl_cons]
    obtain ⟨E, hE, hS⟩ := ih (if w.panicked then w else scheduleTask s env w task clusters)
    have hS' : ScheduleCalls (task :: rest) clusters E :=
      scheduleCalls_mono _ _ _ _ _ (fun t ht => List.mem_cons_of_mem _ ht) (fun c hc => hc) hS
    by_cases hp : w.panicked = true
    · simp only [hp, if_true] at hE ⊢
      exact ⟨E, hE, hS'⟩
    · simp only [hp, Bool.false_eq_true, if_false] at hE ⊢
      obtain ⟨E1, hE1, hS1⟩ := scheduleTask_calls s env w task clusters
      refine ⟨E1 ++ E, ?_, ?_⟩
      · rw [hE, hE1, List.append_assoc]
      · refine scheduleCalls_append _ _ _ _ ?_ hS'
        exact scheduleCalls_mono _ _ _ _ _ (fun t ht => by simp at ht; simp [ht])
          (fun c hc => hc) hS1

/-- The calls of one tick: first the cancellations of the canceling unscheduled tasks,
then plugin calls on, and assignments of, the tasks that `sort.Slice` returns (queued
unscheduled tasks when `sort.Slice` returns what it was given) to ready clusters. -/
theorem scheduleTasks_calls {F : Type} (s : Scheduler F) (env : Env F) (w : World F) :
    ∃ T E, (scheduleTasks s env w).events =
        w.events ++ cancelEvents (ListTasks w.data "") ++ E ∧
      ScheduleCalls T (readyClusters s env) E ∧
      ((∀ less l, ∀ t ∈ env.sortSlice less l, t ∈ l) →
        ∀ t ∈ T, t ∈ queuedTasks (ListTasks w.data "")) := by
  obtain ⟨hc1, hc2⟩ := collect_spec env (ListTasks w.data "") (w, [])
  simp only [List.nil_append] at hc2
  unfold scheduleTasks
  simp only []
  by_cases hlen : ((ListTasks w.data "").foldl (collectStep env) (w, [])).2.length = 0
  · exact ⟨[], [], by simp [hlen, hc1], scheduleCalls_nil _ _, fun _ t ht => by cases ht⟩
  · by_cases hready : (readyClusters s env).length = 0
    · exact ⟨[], [], by simp [hlen, hready, hc1], scheduleCalls_nil _ _,
        fun _ t ht => by cases ht⟩
    · simp only [hlen, hready, if_false]
      cases hs : sortTasks s.plugins.sort env
          ((ListTasks w.data "").foldl (collectStep env) (w, [])).2 with
      | none =>
        exact ⟨[], [], by simp [hc1], scheduleCalls_nil _ _, fun _ t ht => by cases ht⟩
      | some p =>
        obtain ⟨sorted, ev⟩ := p
        simp only []
        have hsorted : ((∀ less l, ∀ t ∈ env.sortSlice less l, t ∈ l) →
              ∀ t ∈ sorted, t ∈ queuedTasks (ListTasks w.data "")) ∧
            ScheduleCalls (queuedTasks (ListTasks w.data "")) (readyClusters s env) ev := by
          unfold sortTasks at hs
          rw [hc2] at hs
          by_cases h2 : (queuedTasks (ListTasks w.data "")).length < 2
          · simp only [h2, if_true, Option.some.injEq, Prod.mk.injEq] at hs
            obtain ⟨h1, h3⟩ := hs
            subst h1; subst h3
            exact ⟨fun _ t ht => ht, scheduleCalls_nil _ _⟩
          · simp only [h2, if_false] at hs
            cases hp : s.plugins.sort with
            | none => simp [hp] at hs
            | some pl =>
              simp only [hp, Option.some.injEq, Prod.mk.injEq] at hs
              obtain ⟨h1, h3⟩ := hs
              subst h1; subst h3
              refine ⟨fun hsort t ht => hsort _ _ t ht, ?_⟩
              intro e he
              simp only [List.mem_singleton] at he
              subst he
              exact Or.inl ⟨rfl, fun t ht => ht⟩
        obtain ⟨E, hE, hS⟩ := scheduleLoop_calls s env (readyClusters s env) sorted
          { ((ListTasks w.data "").foldl (collectStep env) (w, [])).1 with
            events := ((ListTasks w.data "").foldl (collectStep env) (w, [])).1.events ++ ev }
        refine ⟨queuedTasks (ListTasks w.data "") ++ sorted, ev ++ E, ?_, ?_, ?_⟩
        · rw [hE]
          simp only [hc1, List.append_assoc]
        · exact scheduleCalls_append _ _ _ _
            (scheduleCalls_mono _ _ _ _ _ (fun t ht => List.mem_append_left _ ht)
              (fun c hc => hc) hsorted.2)
            (scheduleCalls_mono _ _ _ _ _ (fun t ht => List.mem_append_right _ ht)
              (fun c hc => hc) hS)
        · intro hsort t ht
          rcases List.mem_append.mp ht with h | h
          · exact h
          · exact hsorted.1 hsort t h

theorem mem_cancelEvents {F : Type} (tasks : List (TaskInfo F)) (e : Event F) :
    e ∈ cancelEvents tasks ↔
      ∃ t ∈ tasks, t.State = consts.TaskCanceling ∧
        e = Event.UpdateTask t.ID (some consts.TaskCanceled) none none := by
  unfold cancelEvents
  simp only [List.mem_map, List.mem_filter, decide_eq_true_eq]
  constructor
  · rintro ⟨t, ⟨h1, h2⟩, h3⟩
    exact ⟨t, h1, h2, h3.symm⟩
  · rintro ⟨t, h1, h2, h3⟩
    exact ⟨t, ⟨h1, h2⟩, h3.symm⟩

theorem mem_queuedTasks {F : Type} (tasks : List (TaskInfo F)) (t : TaskInfo F) :
    t ∈ queuedTasks tasks ↔ t ∈ tasks ∧ t.State = consts.TaskQueued := by
  simp [queuedTasks]

theorem mem_readyClusters {F : Type} (s : Scheduler F) (env : Env F) (c : ClusterInfo F) :
    c ∈ readyClusters s env ↔
      c ∈ env.clusters ∧
        timeSince env.now c.HeartbeatTimestamp ≤ s.clusterNotReadyTimeout := by
  simp [readyClusters]

theorem timeSince_exact (now t timeout : Int) (h : timeSince now t ≤ timeout)
    (hlt : timeout < maxDuration) : now - t ≤ timeout := by
  unfold timeSince timeSub at h
  unfold maxDuration at hlt
  unfold minDuration maxDuration at h
  omega

/-- C4: every cluster ID that a tick of `scheduleTasks` writes by an assignment
`UpdateTask` is the ID of an entry of the cluster snapshot whose heartbeat age
`time.Since(HeartbeatTimestamp)` is at most `clusterNotReadyTimeout` (and the exact
difference now minus heartbeat is at most the timeout whenever the timeout is not the
largest duration, where `time.Since` saturates); when no cluster is ready the tick issues
no assignment. -/
theorem scheduleTasks_assigns_ready {F : Type} (s : Scheduler F) (env : Env F) (w : World F) :
    ∃ E, (scheduleTasks s env w).events = w.events ++ E ∧
      (∀ id state clusterID message,
        Event.UpdateTask id state (some clusterID) message ∈ E →
        ∃ c ∈ env.clusters, c.ID = clusterID ∧
          timeSince env.now c.HeartbeatTimestamp ≤ s.clusterNotReadyTimeout ∧
          (s.clusterNotReadyTimeout < maxDuration →
            env.now - c.HeartbeatTimestamp ≤ s.clusterNotReadyTimeout)) ∧
      ((∀ c ∈ env.clusters,
          ¬ timeSince env.now c.HeartbeatTimestamp ≤ s.clusterNotReadyTimeout) →
        ∀ id state clusterID message,
          Event.UpdateTask id state (some clusterID) message ∉ E) := by
  obtain ⟨T, E, hE, hS, _⟩ := scheduleTasks_calls s env w
  have key : ∀ id state clusterID message,
      Event.UpdateTask id state (some clusterID) message ∈
        cancelEvents (ListTasks w.data "") ++ E →
      ∃ c ∈ env.clusters, c.ID = clusterID ∧
        timeSince env.now c.HeartbeatTimestamp ≤ s.clusterNotReadyTimeout := by
    intro id state clusterID message hmem
    rcases List.mem_append.mp hmem with h | h
    · obtain ⟨t, _, _, ht⟩ := (mem_cancelEvents _ _).mp h
      cases ht
    · rcases hS _ h with ⟨h1, _⟩ | ⟨t, _, c, hc, he⟩
      · cases h1
      · cases he
        obtain ⟨hc1, hc2⟩ := (mem_readyClusters s env c).mp hc
        exact ⟨c, hc1, rfl, hc2⟩
  refine ⟨cancelEvents (ListTasks w.data "") ++ E, by rw [hE, List.append_assoc], ?_, ?_⟩
  · intro id state clusterID message hmem
    obtain ⟨c, hc, hid, hage⟩ := key id state clusterID message hmem
    exact ⟨c, hc, hid, hage, timeSince_exact _ _ _ hage⟩
  · intro hnone id state clusterID message hmem
    obtain ⟨c, hc, _, hage⟩ := key id state clusterID message hmem
    exact hnone c hc hage

/-- The calls of the tick of `TestScheduleTasks`: the canceling task is canceled, then
task-02 and task-01 are assigned, in this order, to the one ready cluster. -/
theorem scheduleTasks_test_trace :
    (scheduleTasks testScheduler testEnv testWorld).events =
      [Event.UpdateTask "task-canceling" (some consts.TaskCanceled) none none,
       Event.Less "fakeSort"
         [bareTask "task-02" consts.TaskQueued, bareTask "task-01" consts.TaskQueued],
       Event.GlobalFilter "fakeGlobalFilterPass" (bareTask "task-02" consts.TaskQueued),
       Event.Filter "fakeFilter" (bareTask "task-02" consts.TaskQueued)
         (bareCluster "cluster-01" 7200000000000),
       Event.Score "fakeScore" (bareTask "task-02" consts.TaskQueued)
         (bareCluster "cluster-01" 7200000000000),
       Event.UpdateTask "task-02" none (some "cluster-01") none,
       Event.GlobalFilter "fakeGlobalFilterPass" (bareTask "task-01" consts.TaskQueued),
       Event.Filter "fakeFilter" (bareTask "task-01" consts.TaskQueued)
         (bareCluster "cluster-01" 7200000000000),
       Event.Score "fakeScore" (bareTask "task-01" consts.TaskQueued)
         (bareCluster "cluster-01" 7200000000000),
       Event.UpdateTask "task-01" none (some "cluster-01") none] := by
  rfl

theorem scheduleTasks_assigns_ready_witness :
    ∃ E, (scheduleTasks testScheduler testEnv testWorld).events = testWorld.events ++ E ∧
      Event.UpdateTask "task-02" none (some "cluster-01") none ∈ E ∧
      (∀ id state clusterID message,
        Event.UpdateTask id state (some clusterID) message ∈ E →
        ∃ c ∈ testEnv.clusters, c.ID = clusterID ∧
          timeSince testEnv.now c.HeartbeatTimestamp ≤ testScheduler.clusterNotReadyTimeout) :=
  match scheduleTasks_assigns_ready testScheduler testEnv testWorld with
  | ⟨E, hE, h1, _⟩ =>
    ⟨E, hE,
      by
        have h := hE
        rw [scheduleTasks_test_trace] at h
        simp only [testWorld, List.nil_append] at h
        rw [← h]
        simp,
      fun id state clusterID message hmem =>
        match h1 id state clusterID message hmem with
        | ⟨c, hc, hid, hage, _⟩ => ⟨c, hc, hid, hage⟩⟩

/-- C1: `scheduleTask` issues either no `UpdateTask` or the single call
`UpdateTask(task.ID, nil, clusterID, nil)`, and then all global filters, run in order, have
returned no error and the cluster written is a cluster of the list for which all filters,
run in order, have returned no error. When the verdicts of the configured global filters
and filters do not depend on the cycle state, the call is issued if every global filter
accepts the task and some cluster of the list is accepted by every filter (the cluster
written is then such a cluster), and no `UpdateTask` is issued otherwise. -/
theorem scheduleTask_assigns_iff {F : Type} (s : Scheduler F) (env : Env F) (w : World F)
    (task : TaskInfo F) (clusters : List (ClusterInfo F)) :
    ∃ E, (scheduleTask s env w task clusters).events = w.events ++ E ∧
      (E.filter Event.isUpdateTask = [] ∨
        ∃ c ∈ clusters, ∃ cs,
          (runGlobalFilters w.data task s.plugins.globalFilters ∅).1 = none ∧
          (runFilters w.data task c s.plugins.filters cs).1 = none ∧
          E.filter Event.isUpdateTask =
            [Event.UpdateTask task.ID none (some c.ID) none]) ∧
      ((∀ gf ∈ s.plugins.globalFilters, ∀ a b,
          (gf.GlobalFilter w.data task a).1 = none ↔
            (gf.GlobalFilter w.data task b).1 = none) →
       (∀ f ∈ s.plugins.filters, ∀ c a b,
          (f.Filter w.data task c a).1 = none ↔ (f.Filter w.data task c b).1 = none) →
       (((∀ gf ∈ s.plugins.globalFilters, (gf.GlobalFilter w.data task ∅).1 = none) ∧
          (∃ c ∈ clusters, ∀ f ∈ s.plugins.filters, (f.Filter w.data task c ∅).1 = none)) →
          ∃ c ∈ clusters, (∀ f ∈ s.plugins.filters, (f.Filter w.data task c ∅).1 = none) ∧
            E.filter Event.isUpdateTask =
              [Event.UpdateTask task.ID none (some c.ID) none]) ∧
        (¬ ((∀ gf ∈ s.plugins.globalFilters, (gf.GlobalFilter w.data task ∅).1 = none) ∧
          (∃ c ∈ clusters, ∀ f ∈ s.plugins.filters, (f.Filter w.data task c ∅).1 = none)) →
          E.filter Event.isUpdateTask = [])) := by
  obtain ⟨P, hP, h1, h2⟩ := scheduleTask_spec s env w task clusters
  have hPf := pluginCallsOn_filter task P hP
  by_cases hrun : (runGlobalFilters w.data task s.plugins.globalFilters ∅).1 = none ∧
      (filterAvailableClusters s.plugins.filters w.data task clusters
        (runGlobalFilters w.data task s.plugins.globalFilters ∅).2.1).availableClusters ≠ []
  · obtain ⟨c, hcav, hev⟩ := h1 hrun
    have hfilt : (P ++ [Event.UpdateTask task.ID none (some c.ID) none]).filter
        Event.isUpdateTask = [Event.UpdateTask task.ID none (some c.ID) none] := by
      rw [List.filter_append, hPf]
      rfl
    refine ⟨P ++ [Event.UpdateTask task.ID none (some c.ID) none], ?_, ?_, ?_⟩
    · rw [hev, List.append_assoc]
    · right
      rcases filterFold_available_sub s.plugins.filters w.data task clusters _ c hcav
        with h | ⟨hc, cs, hcs⟩
      · cases h
      · exact ⟨c, hc, cs, hrun.1, hcs, hfilt⟩
    · intro hG hF
      have hav := filterFold_available_iff s.plugins.filters w.data task clusters
        { availableClusters := [], pluginNameWithErrors := ∅,
          cycleState := (runGlobalFilters w.data task s.plugins.globalFilters ∅).2.1,
          events := [] } ∅ c hF
      have hc : c ∈ clusters ∧ ∀ f ∈ s.plugins.filters, (f.Filter w.data task c ∅).1 = none := by
        rcases hav.mp hcav with h | h
        · cases h
        · exact h
      refine ⟨fun _ => ⟨c, hc.1, hc.2, hfilt⟩, fun hn => ?_⟩
      exfalso
      apply hn
      exact ⟨(runGlobalFilters_accept_iff w.data task s.plugins.globalFilters ∅ ∅ hG).mp hrun.1,
        c, hc.1, hc.2⟩
  · refine ⟨P, h2 hrun, Or.inl hPf, ?_⟩
    intro hG hF
    refine ⟨fun hacc => ?_, fun _ => hPf⟩
    exfalso
    apply hrun
    obtain ⟨hg, c, hc1, hc2⟩ := hacc
    refine ⟨(runGlobalFilters_accept_iff w.data task s.plugins.globalFilters ∅ ∅ hG).mpr hg, ?_⟩
    intro hnil
    have hav := filterFold_available_iff s.plugins.filters w.data task clusters
      { availableClusters := [], pluginNameWithErrors := ∅,
        cycleState := (runGlobalFilters w.data task s.plugins.globalFilters ∅).2.1,
        events := [] } ∅ c hF
    have hmem := hav.mpr (Or.inr ⟨hc1, hc2⟩)
    unfold filterAvailableClusters at hnil
    rw [hnil] at hmem
    cases hmem

theorem listTasks_ID_inj {F : Type} (d : data F) (hkeys : KeysMatch d) (c : String)
    (t t' : TaskInfo F) (ht : t ∈ ListTasks d c) (ht' : t' ∈ ListTasks d c)
    (hid : t.ID = t'.ID) : t = t' := by
  obtain ⟨id, _, hl⟩ := (mem_ListTasks d c t).mp ht
  obtain ⟨id', _, hl'⟩ := (mem_ListTasks d c t').mp ht'
  have h1 := hkeys id t hl
  have h2 := hkeys id' t' hl'
  have : id = id' := by rw [← h1, ← h2, hid]
  subst this
  rw [hl] at hl'
  cases hl'
  rfl

/-- C9: in a tick of `scheduleTasks` on a cache whose keys are the task IDs, with a
`sort.Slice` that permutes its input, every unscheduled task in state CANCELING receives
`UpdateTask(id, CANCELED, nil, nil)`, receives no other update (so it is not assigned a
cluster) and is passed to no plugin, whatever the clusters are; an unscheduled task whose
state is neither QUEUED nor CANCELING receives no update and is passed to no plugin. -/
theorem scheduleTasks_canceling {F : Type} (s : Scheduler F) (env : Env F) (w : World F)
    (hkeys : KeysMatch w.data)
    (hsort : ∀ less l, (env.sortSlice less l).Perm l) :
    ∃ E, (scheduleTasks s env w).events = w.events ++ E ∧
      (∀ t ∈ ListTasks w.data "", t.State = consts.TaskCanceling →
        Event.UpdateTask t.ID (some consts.TaskCanceled) none none ∈ E ∧
        (∀ state clusterID message, Event.UpdateTask t.ID state clusterID message ∈ E →
          state = some consts.TaskCanceled ∧ clusterID = none ∧ message = none) ∧
        (∀ e ∈ E, t ∉ e.tasks)) ∧
      (∀ t ∈ ListTasks w.data "", t.State ≠ consts.TaskQueued →
        t.State ≠ consts.TaskCanceling →
        (∀ state clusterID message, Event.UpdateTask t.ID state clusterID message ∉ E) ∧
        (∀ e ∈ E, t ∉ e.tasks)) := by
  obtain ⟨T, E, hE, hS, hT⟩ := scheduleTasks_calls s env w
  have hTq : ∀ t ∈ T, t ∈ ListTasks w.data "" ∧ t.State = consts.TaskQueued := fun t ht =>
    (mem_queuedTasks _ t).mp (hT (fun less l t ht => (hsort less l).subset ht) t ht)
  -- the tasks handed to plugins are queued
  have hplug : ∀ t ∈ ListTasks w.data "", t.State ≠ consts.TaskQueued →
      ∀ e ∈ cancelEvents (ListTasks w.data "") ++ E, t ∉ e.tasks := by
    intro t _ hq e he hmem
    rcases List.mem_append.mp he with h | h
    · obtain ⟨t', _, _, ht'⟩ := (mem_cancelEvents _ _).mp h
      subst ht'
      simp [Event.tasks] at hmem
    · rcases hS e h with ⟨_, h2⟩ | ⟨_, _, _, _, he'⟩
      · exact hq (hTq t (h2 t hmem)).2
      · subst he'
        simp [Event.tasks] at hmem
  -- the updates of the tick, by the task they are for
  have hupd : ∀ t ∈ ListTasks w.data "", ∀ state clusterID message,
      Event.UpdateTask t.ID state clusterID message ∈
        cancelEvents (ListTasks w.data "") ++ E →
      (t.State = consts.TaskCanceling ∧ state = some consts.TaskCanceled ∧
        clusterID = none ∧ message = none) ∨ t.State = consts.TaskQueued := by
    intro t ht state clusterID message he
    rcases List.mem_append.mp he with h | h
    · obtain ⟨t', ht', hc', he'⟩ := (mem_cancelEvents _ _).mp h
      simp only [Event.UpdateTask.injEq] at he'
      obtain ⟨hid, hst, hcl, hmsg⟩ := he'
      have := listTasks_ID_inj w.data hkeys "" t t' ht ht' hid
      subst this
      exact Or.inl ⟨hc', hst, hcl, hmsg⟩
    · rcases hS _ h with ⟨h1, _⟩ | ⟨t', ht', c, _, he'⟩
      · cases h1
      · simp only [Event.UpdateTask.injEq] at he'
        have := listTasks_ID_inj w.data hkeys "" t t' ht (hTq t' ht').1 he'.1
        subst this
        exact Or.inr (hTq t ht').2
  refine ⟨cancelEvents (ListTasks w.data "") ++ E, by rw [hE, List.append_assoc], ?_, ?_⟩
  · intro t ht hc
    have hq : t.State ≠ consts.TaskQueued := by rw [hc]; decide
    refine ⟨?_, ?_, hplug t ht hq⟩
    · exact List.mem_append_left _ ((mem_cancelEvents _ _).mpr ⟨t, ht, hc, rfl⟩)
    · intro state clusterID message he
      rcases hupd t ht state clusterID message he with ⟨_, h⟩ | h
      · exact h
      · exact absurd h hq
  · intro t ht hq hc
    refine ⟨?_, hplug t ht hq⟩
    intro state clusterID message he
    rcases hupd t ht state clusterID message he with ⟨h, _⟩ | h
    · exact hc h
    · exact hq h

theorem scheduleTask_assigns_iff_witness :
    (∀ gf ∈ testScheduler.plugins.globalFilters, ∀ a b,
      (gf.GlobalFilter testWorld.data (bareTask "task-0000" consts.TaskQueued) a).1 = none ↔
      (gf.GlobalFilter testWorld.data (bareTask "task-0000" consts.TaskQueued) b).1 = none) ∧
    (∀ f ∈ testScheduler.plugins.filters, ∀ c a b,
      (f.Filter testWorld.data (bareTask "task-0000" consts.TaskQueued) c a).1 = none ↔
      (f.Filter testWorld.data (bareTask "task-0000" consts.TaskQueued) c b).1 = none) ∧
    ((∀ gf ∈ testScheduler.plugins.globalFilters,
        (gf.GlobalFilter testWorld.data (bareTask "task-0000" consts.TaskQueued) ∅).1
          = none) ∧
      (∃ c ∈ [bareCluster "cluster-01" 0, bareCluster "cluster-03" 0,
          bareCluster "cluster-04" 0],
        ∀ f ∈ testScheduler.plugins.filters,
          (f.Filter testWorld.data (bareTask "task-0000" consts.TaskQueued) c ∅).1
            = none)) ∧
    ∃ E, (scheduleTask testScheduler testEnv testWorld (bareTask "task-0000" consts.TaskQueued)
        [bareCluster "cluster-01" 0, bareCluster "cluster-03" 0,
         bareCluster "cluster-04" 0]).events = testWorld.events ++ E ∧
      ∃ c ∈ [bareCluster "cluster-01" 0, bareCluster "cluster-03" 0,
          bareCluster "cluster-04" 0],
        (∀ f ∈ testScheduler.plugins.filters,
          (f.Filter testWorld.data (bareTask "task-0000" consts.TaskQueued) c ∅).1
            = none) ∧
        E.filter Event.isUpdateTask =
          [Event.UpdateTask (bareTask "task-0000" consts.TaskQueued).ID none (some c.ID)
            none] :=
  have hG : ∀ gf ∈ testScheduler.plugins.globalFilters, ∀ a b,
      (gf.GlobalFilter testWorld.data (bareTask "task-0000" consts.TaskQueued) a).1 = none ↔
      (gf.GlobalFilter testWorld.data (bareTask "task-0000" consts.TaskQueued) b).1 = none := by
    simp [testScheduler, fakeGlobalFilterPass]
  have hF : ∀ f ∈ testScheduler.plugins.filters, ∀ c a b,
      (f.Filter testWorld.data (bareTask "task-0000" consts.TaskQueued) c a).1 = none ↔
      (f.Filter testWorld.data (bareTask "task-0000" consts.TaskQueued) c b).1 = none := by
    intro f hf c a b
    simp only [testScheduler, List.mem_singleton] at hf
    subst hf
    simp only [fakeFilter]
    split <;> simp
  have hacc : (∀ gf ∈ testScheduler.plugins.globalFilters,
        (gf.GlobalFilter testWorld.data (bareTask "task-0000" consts.TaskQueued) ∅).1
          = none) ∧
      (∃ c ∈ [bareCluster "cluster-01" 0, bareCluster "cluster-03" 0,
          bareCluster "cluster-04" 0],
        ∀ f ∈ testScheduler.plugins.filters,
          (f.Filter testWorld.data (bareTask "task-0000" consts.TaskQueued) c ∅).1
            = none) := by
    refine ⟨by simp [testScheduler, fakeGlobalFilterPass], bareCluster "cluster-01" 0,
      by simp, ?_⟩
    simp [testScheduler, fakeFilter, bareCluster]
  match scheduleTask_assigns_iff testScheduler testEnv testWorld
    (bareTask "task-0000" consts.TaskQueued)
    [bareCluster "cluster-01" 0, bareCluster "cluster-03" 0, bareCluster "cluster-04" 0] with
  | ⟨E, hE, _, h⟩ => ⟨hG, hF, hacc, E, hE, (h hG hF).1 hacc⟩

theorem testData_keysMatch : KeysMatch testData :=
  keysMatch_addTask _ (keysMatch_addTask _ (keysMatch_addTask _ keysMatch_empty _) _) _

theorem scheduleTasks_canceling_witness :
    KeysMatch testWorld.data ∧
    (∀ less l, (testEnv.sortSlice less l).Perm l) ∧
    ∃ E, (scheduleTasks testScheduler testEnv testWorld).events = testWorld.events ++ E ∧
      (∀ t ∈ ListTasks testWorld.data "", t.State = consts.TaskCanceling →
        Event.UpdateTask t.ID (some consts.TaskCanceled) none none ∈ E ∧
        (∀ state clusterID message, Event.UpdateTask t.ID state clusterID message ∈ E →
          state = some consts.TaskCanceled ∧ clusterID = none ∧ message = none) ∧
        (∀ e ∈ E, t ∉ e.tasks)) ∧
      (∀ t ∈ ListTasks testWorld.data "", t.State ≠ consts.TaskQueued →
        t.State ≠ consts.TaskCanceling →
        (∀ state clusterID message, Event.UpdateTask t.ID state clusterID message ∉ E) ∧
        (∀ e ∈ E, t ∉ e.tasks)) :=
  have hs : ∀ less l, (testEnv.sortSlice less l).Perm l :=
    fun less l => List.perm_insertionSort (fun a b => less a b = true) l
  ⟨testData_keysMatch, hs,
    scheduleTasks_canceling testScheduler testEnv testWorld testData_keysMatch hs⟩

/-! ## Theorems: PrioritySort -/

namespace prioritysort

theorem foldl_valuesStep {F : Type} (eps : List ExtraPriorityInfo) (taskI taskJ : TaskInfo F)
    (values : Int × Int) :
    eps.foldl (valuesStep taskI taskJ) values =
      (eps.foldl (fun value ep =>
          if ep.MatchTask taskI then wrapInt64 (value + ep.ExtraPriorityValue) else value)
        values.1,
       eps.foldl (fun value ep =>
          if ep.MatchTask taskJ then wrapInt64 (value + ep.ExtraPriorityValue) else value)
        values.2) := by
  induction eps generalizing values with
  | nil => rfl
  | cons ep rest ih =>
    simp only [List.foldl_cons]
    rw [ih]
    rfl

/-- `Less` compares the effective priorities, the higher one first, and on a tie the
creation times, the earlier one first. -/
theorem Less_iff {F : Type} (eps : List ExtraPriorityInfo) (a b : TaskInfo F) :
    Less eps a b = true ↔
      effectivePriority eps a > effectivePriority eps b ∨
      (effectivePriority eps a = effectivePriority eps b ∧
        a.CreationTime < b.CreationTime) := by
  unfold Less
  rw [foldl_valuesStep]
  simp only [effectivePriority]
  split
  · rename_i h
    simp only [decide_eq_true_eq]
    constructor
    · intro ht
      exact Or.inr ⟨h, ht⟩
    · rintro (hgt | ⟨_, ht⟩)
      · omega
      · exact ht
  · rename_i h
    simp only [decide_eq_true_eq]
    constructor
    · intro hgt
      exact Or.inl hgt
    · rintro (hgt | ⟨heq, _⟩)
      · exact hgt
      · exact absurd heq h

theorem Less_strict_order {F : Type} (eps : List ExtraPriorityInfo) :
    (∀ a : TaskInfo F, Less eps a a = false) ∧
    (∀ a b : TaskInfo F, Less eps a b = true → Less eps b a = false) ∧
    (∀ a b c : TaskInfo F, Less eps a b = true → Less eps b c = true → Less eps a c = true) ∧
    (∀ a b : TaskInfo F,
      (effectivePriority eps a, a.CreationTime) ≠ (effectivePriority eps b, b.CreationTime) →
      (Less eps a b = true ∧ Less eps b a = false) ∨
      (Less eps a b = false ∧ Less eps b a = true)) := by
  have hf : ∀ a b : TaskInfo F, Less eps a b = false ↔ ¬ (Less eps a b = true) := by
    intro a b
    cases Less eps a b <;> simp
  refine ⟨?_, ?_, ?_, ?_⟩
  · intro a
    rw [hf, Less_iff]
    omega
  · intro a b h
    rw [hf, Less_iff]
    rw [Less_iff] at h
    omega
  · intro a b c h1 h2
    rw [Less_iff] at h1 h2 ⊢
    omega
  · intro a b hne
    have hne' : effectivePriority eps a ≠ effectivePriority eps b ∨
        a.CreationTime ≠ b.CreationTime := by
      by_contra hcon
      push_neg at hcon
      exact hne (by rw [hcon.1, hcon.2])
    rw [hf, hf, Less_iff, Less_iff]
    omega

end prioritysort

namespace prioritysort

/-- C20: for a fixed snapshot of extra priorities `Less` is irreflexive, asymmetric and
transitive on all tasks, and for any two tasks whose pairs (effective priority, creation
time) differ exactly one of `Less a b` and `Less b a` holds. -/
theorem Less_strict_total {F : Type} (eps : List ExtraPriorityInfo) :
    (∀ a : TaskInfo F, Less eps a a = false) ∧
    (∀ a b : TaskInfo F, Less eps a b = true → Less eps b a = false) ∧
    (∀ a b c : TaskInfo F, Less eps a b = true → Less eps b c = true → Less eps a c = true) ∧
    (∀ a b : TaskInfo F,
      (effectivePriority eps a, a.CreationTime) ≠ (effectivePriority eps b, b.CreationTime) →
      (Less eps a b = true ∧ Less eps b a = false) ∨
      (Less eps a b = false ∧ Less eps b a = true)) :=
  Less_strict_order eps

theorem Less_strict_total_witness :
    (Less accountBoost (accountTask "task-01" "" "account-01" "user-01")
        (bareTask "task-02" consts.TaskQueued) = true ∧
      Less accountBoost (bareTask "task-02" consts.TaskQueued)
        (accountTask "task-01" "" "account-01" "user-01") = false) ∨
    (Less accountBoost (accountTask "task-01" "" "account-01" "user-01")
        (bareTask "task-02" consts.TaskQueued) = false ∧
      Less accountBoost (bareTask "task-02" consts.TaskQueued)
        (accountTask "task-01" "" "account-01" "user-01") = true) :=
  (Less_strict_total accountBoost).2.2.2 (accountTask "task-01" "" "account-01" "user-01")
    (bareTask "task-02" consts.TaskQueued) (by decide)

end prioritysort

/-! ## Theorems: ResourcesMeetLimits and ClusterLimit -/

theorem GoMap.mem_values_iff {K V : Type} [DecidableEq K] (m : GoMap K V) (v : V) :
    v ∈ m.values ↔ ∃ k, m.lookup k = some v := by
  unfold GoMap.values
  simp only [List.mem_map]
  constructor
  · rintro ⟨e, he, rfl⟩
    exact ⟨e.1, AList.mem_lookup_iff.mpr he⟩
  · rintro ⟨k, hk⟩
    exact ⟨⟨k, v⟩, AList.mem_lookup_iff.mp hk, rfl⟩

namespace utils

theorem gpuLimitErrs_eq_nil_iff {F : Type} [LinearOrder F] [∀ a b : F, Decidable (a < b)]
    [∀ a b : F, Decidable (a ≤ b)] (gpu : GPUResource F) (gpuLimit : GPULimit F) :
    gpuLimitErrs gpu gpuLimit = [] ↔
      (gpu.Type_ = "" → ∃ ty gpuCount, gpuLimit.GPU.lookup ty = some gpuCount ∧
        gpu.Count ≤ gpuCount) ∧
      (gpu.Type_ ≠ "" → ∃ gpuCount, gpuLimit.GPU.lookup gpu.Type_ = some gpuCount ∧
        gpu.Count ≤ gpuCount) := by
  unfold gpuLimitErrs
  by_cases hty : gpu.Type_ = ""
  · simp only [hty, if_true, ne_eq, not_true_eq_false, false_implies, and_true, true_implies]
    by_cases hany : gpuLimit.GPU.values.any (fun gpuCount => decide (gpu.Count ≤ gpuCount)) = true
    · simp only [hany, Bool.not_true, Bool.false_eq_true, if_false, true_iff]
      obtain ⟨v, hv, hle⟩ := List.any_eq_true.mp hany
      obtain ⟨k, hk⟩ := (GoMap.mem_values_iff _ _).mp hv
      exact ⟨k, v, hk, by simpa using hle⟩
    · simp only [hany, Bool.not_false, if_true, reduceCtorEq, false_iff]
      rintro ⟨k, v, hk, hle⟩
      apply hany
      exact List.any_eq_true.mpr ⟨v, (GoMap.mem_values_iff _ _).mpr ⟨k, hk⟩, by simpa using hle⟩
  · simp only [hty, if_false, false_implies, true_and, ne_eq, not_false_eq_true, true_implies]
    cases hl : gpuLimit.GPU.lookup gpu.Type_ with
    | none => simp
    | some gpuCount =>
      simp only [Option.some.injEq, exists_eq_left']
      by_cases h : gpuCount < gpu.Count
      · simp [h]
      · simp only [h, if_false, true_iff]
        exact not_lt.mp h

theorem limitErrs_eq_nil_iff {F : Type} [LinearOrder F] [∀ a b : F, Decidable (a < b)]
    [∀ a b : F, Decidable (a ≤ b)] (res : Resources F) (lim : Limits F) :
    limitErrs res lim = [] ↔ MeetsLimits res lim := by
  unfold limitErrs MeetsLimits
  simp only [List.append_eq_nil, and_assoc]
  refine and_congr ?_ (and_congr ?_ ?_)
  · cases lim.CPUCores with
    | none => simp
    | some limit =>
      simp only [Option.some.injEq, forall_eq']
      by_cases h : res.CPUCores > limit
      · simp only [h, if_true, reduceCtorEq, false_iff]
        omega
      · simp only [h, if_false, true_iff]
        omega
  · cases lim.RamGB with
    | none => simp
    | some limit =>
      simp only [Option.some.injEq, forall_eq']
      by_cases h : limit < res.RamGB
      · simp [h]
      · simp only [h, if_false, true_iff]
        exact not_lt.mp h
  · cases res.GPU with
    | none => simp
    | some gpu =>
      cases lim.GPULimit with
      | none => simp
      | some gpuLimit =>
        rw [gpuLimitErrs_eq_nil_iff]
        constructor
        · intro h gpu' gpuLimit' h1 h2
          cases h1
          cases h2
          exact h
        · intro h
          exact h gpu gpuLimit rfl rfl

theorem ResourcesMeetLimits_eq_none_iff {F : Type} [LinearOrder F]
    [∀ a b : F, Decidable (a < b)] [∀ a b : F, Decidable (a ≤ b)]
    (resources : Option (Resources F)) (limits : Option (Limits F)) :
    ResourcesMeetLimits resources limits = none ↔
      resources = none ∨ limits = none ∨
      ∃ res lim, resources = some res ∧ limits = some lim ∧ MeetsLimits res lim := by
  unfold ResourcesMeetLimits
  cases resources with
  | none => simp
  | some res =>
    cases limits with
    | none => simp
    | some lim =>
      simp only [reduceCtorEq, Option.some.injEq, false_or, exists_and_left, exists_eq_left']
      rw [← limitErrs_eq_nil_iff]
      cases limitErrs res lim with
      | nil => simp [NewAggregate]
      | cons e es => simp [NewAggregate]

theorem ResourcesMeetLimits_DiskGB {F : Type} [LT F] [LE F] [∀ a b : F, Decidable (a < b)]
    [∀ a b : F, Decidable (a ≤ b)] (res : Resources F) (limits : Option (Limits F))
    (diskGB : F) :
    ResourcesMeetLimits (some { res with DiskGB := diskGB }) limits =
      ResourcesMeetLimits (some res) limits := by
  cases limits with
  | none => rfl
  | some lim => rfl

end utils

/-- C11: `ResourcesMeetLimits` returns no error exactly when the resources are nil, or the
limits are nil, or `MeetsLimits` holds: the CPU limit is null or CPUCores is at most the
limit, the RAM limit is null or RamGB is at most the limit, and the GPU request is absent,
or the GPU limit is null, or a request without a type finds some entry of the limit map
that is at least the requested count, or a request with a type finds its type in the map
with a value that is at least the requested count. `ClusterLimit.Filter` returns that
result for the resources of the task and the limits of the cluster, whatever the task
cache and the cycle state hold, and the result does not depend on DiskGB. The order of
float64 is taken to be linear (no NaN). -/
theorem ResourcesMeetLimits_iff {F : Type} [LinearOrder F]
    [∀ a b : F, Decidable (a < b)] [∀ a b : F, Decidable (a ≤ b)]
    (resources : Option (Resources F)) (limits : Option (Limits F)) :
    (utils.ResourcesMeetLimits resources limits = none ↔
      resources = none ∨ limits = none ∨
      ∃ res lim, resources = some res ∧ limits = some lim ∧ utils.MeetsLimits res lim) ∧
    (∀ (d : data F) (task : TaskInfo F) (cluster : ClusterInfo F) (cycleState : CycleState F),
      task.Resources = resources → cluster.Limits = limits →
      (clusterlimit.Filter d task cluster cycleState).1 =
        utils.ResourcesMeetLimits resources limits ∧
      (clusterlimit.Filter d task cluster cycleState).2 = cycleState) ∧
    (∀ (d d' : data F) (task : TaskInfo F) (cluster : ClusterInfo F)
        (cycleState cycleState' : CycleState F),
      (clusterlimit.Filter d task cluster cycleState).1 =
        (clusterlimit.Filter d' task cluster cycleState').1) ∧
    (∀ (res : Resources F) (diskGB : F),
      utils.ResourcesMeetLimits (some { res with DiskGB := diskGB }) limits =
        utils.ResourcesMeetLimits (some res) limits) := by
  refine ⟨utils.ResourcesMeetLimits_eq_none_iff resources limits, ?_, ?_, ?_⟩
  · intro d task cluster cycleState hr hl
    unfold clusterlimit.Filter
    rw [hr, hl]
    exact ⟨rfl, rfl⟩
  · intro d d' task cluster cycleState cycleState'
    rfl
  · intro res diskGB
    exact utils.ResourcesMeetLimits_DiskGB res limits diskGB

theorem ResourcesMeetLimits_iff_witness :
    (clusterlimit.Filter scenarioData (smallTask "task-0003" "") limitedCluster ∅).1 = none := by
  have h := ResourcesMeetLimits_iff (smallTask "task-0003" "").Resources limitedCluster.Limits
  rw [(h.2.1 scenarioData (smallTask "task-0003" "") limitedCluster ∅ rfl rfl).1, h.1]
  refine Or.inr (Or.inr ⟨_, _, rfl, rfl, ?_, ?_, ?_⟩)
  · intro limit hl
    cases hl
    decide
  · intro limit hl
    cases hl
    norm_num [smallTask]
  · intro gpu gpuLimit hg
    cases hg

/-! ## Theorems: leastRequestedScore and ClusterCapacity.Score -/

namespace clustercapacity

theorem leastRequestedScore_zero_cases (requested capacity : ℚ)
    (h : capacity = 0 ∨ requested > capacity) : leastRequestedScore requested capacity = 0 := by
  unfold leastRequestedScore
  rcases h with h | h
  · simp [h, plugin.MinScore]
  · by_cases hc : capacity = 0
    · simp [hc, plugin.MinScore]
    · simp [hc, h, plugin.MinScore]

theorem leastRequestedScore_formula (requested capacity : ℚ)
    (h : ¬ (capacity = 0 ∨ requested > capacity)) :
    leastRequestedScore requested capacity =
      (if 0 ≤ (capacity - requested) / capacity * 100
       then ⌊(capacity - requested) / capacity * 100⌋
       else ⌈(capacity - requested) / capacity * 100⌉) := by
  push_neg at h
  unfold leastRequestedScore
  have h2 : ¬ capacity < requested := not_lt.mpr h.2
  simp only [beq_iff_eq, h.1, if_false, h2, Float64Conv.toInt64, Float64Conv.ofInt,
    plugin.MaxScore]
  norm_num

theorem leastRequestedScore_range (requested capacity : ℚ) (hreq : 0 ≤ requested) :
    0 ≤ leastRequestedScore requested capacity ∧
      leastRequestedScore requested capacity ≤ 100 := by
  by_cases h : capacity = 0 ∨ requested > capacity
  · rw [leastRequestedScore_zero_cases requested capacity h]
    omega
  · rw [leastRequestedScore_formula requested capacity h]
    push_neg at h
    have hcap : 0 < capacity := lt_of_le_of_ne (le_trans hreq h.2) (Ne.symm h.1)
    have h0 : 0 ≤ (capacity - requested) / capacity * 100 := by
      apply mul_nonneg
      · exact div_nonneg (sub_nonneg.mpr h.2) (le_of_lt hcap)
      · norm_num
    have h1 : (capacity - requested) / capacity * 100 ≤ 100 := by
      have : (capacity - requested) / capacity ≤ 1 := by
        rw [div_le_one hcap]
        linarith
      linarith
    simp only [h0, if_true]
    constructor
    · exact Int.floor_nonneg.mpr h0
    · have := Int.floor_le ((capacity - requested) / capacity * 100)
      have h2 : ((⌊(capacity - requested) / capacity * 100⌋ : Int) : ℚ) ≤ 100 := le_trans this h1
      exact_mod_cast h2

theorem rat_div_range (capacity x : ℚ) (h0 : 0 ≤ x) (h1 : x ≤ capacity) (hc : 0 < capacity) :
    0 ≤ x / capacity ∧ x / capacity ≤ (Float64Conv.ofInt 1 : ℚ) := by
  refine ⟨div_nonneg h0 (le_of_lt hc), ?_⟩
  show x / capacity ≤ ((1 : Int) : ℚ)
  rw [Int.cast_one, div_le_one hc]
  exact h1

theorem rat_mul_range (y : ℚ) (h0 : 0 ≤ y) (h1 : y ≤ (Float64Conv.ofInt 1 : ℚ)) :
    0 ≤ y * (Float64Conv.ofInt 100 : ℚ) ∧
      y * (Float64Conv.ofInt 100 : ℚ) ≤ (Float64Conv.ofInt 100 : ℚ) := by
  have h1' : y ≤ 1 := by
    have : y ≤ ((1 : Int) : ℚ) := h1
    simpa using this
  show 0 ≤ y * ((100 : Int) : ℚ) ∧ y * ((100 : Int) : ℚ) ≤ ((100 : Int) : ℚ)
  push_cast
  constructor <;> nlinarith

theorem rat_toInt64_range (z : ℚ) (h0 : 0 ≤ z) (h1 : z ≤ (Float64Conv.ofInt 100 : ℚ)) :
    0 ≤ (Float64Conv.toInt64 z : Int) ∧ (Float64Conv.toInt64 z : Int) ≤ 100 := by
  have h1' : z ≤ 100 := by
    have : z ≤ ((100 : Int) : ℚ) := h1
    simpa using this
  show 0 ≤ (if 0 ≤ z then ⌊z⌋ else ⌈z⌉) ∧ (if 0 ≤ z then ⌊z⌋ else ⌈z⌉) ≤ 100
  rw [if_pos h0]
  refine ⟨Int.floor_nonneg.mpr h0, ?_⟩
  have h2 : ((⌊z⌋ : Int) : ℚ) ≤ 100 := le_trans (Int.floor_le z) h1'
  exact_mod_cast h2

/-- C17 (amended): `leastRequestedScore` is 0 when the capacity is 0 or the requested
value exceeds the capacity, and otherwise the float64 expression
(capacity − requested) / capacity × float64(100), evaluated with the operations of float64,
converted by `int64`. For a requested value that is not negative the result lies between
0 and 100 whenever the three operations and the conversion keep the order on the
operands at hand: the difference of the capacity and a smaller non-negative value lies
between 0 and the capacity, the quotient by a positive capacity of a non-negative value
below it lies between 0 and 1, the product of such a quotient with 100 lies between 0 and
100, and the conversion of such a product lies between 0 and 100. The order of float64
is taken to be linear (no NaN). -/
theorem leastRequestedScore_spec {F : Type} [Zero F] [Sub F] [Mul F] [Div F]
    [LinearOrder F] [BEq F] [LawfulBEq F] [∀ a b : F, Decidable (a < b)] [Float64Conv F]
    (requested capacity : F) :
    ((capacity = 0 ∨ requested > capacity) → leastRequestedScore requested capacity = 0) ∧
    (¬ (capacity = 0 ∨ requested > capacity) →
      leastRequestedScore requested capacity =
        Float64Conv.toInt64 ((capacity - requested) / capacity * Float64Conv.ofInt 100)) ∧
    (0 ≤ requested →
      (requested ≤ capacity →
        0 ≤ capacity - requested ∧ capacity - requested ≤ capacity) →
      (∀ x : F, 0 ≤ x → x ≤ capacity → 0 < capacity →
        0 ≤ x / capacity ∧ x / capacity ≤ Float64Conv.ofInt 1) →
      (∀ y : F, 0 ≤ y → y ≤ Float64Conv.ofInt 1 →
        0 ≤ y * Float64Conv.ofInt 100 ∧
          y * Float64Conv.ofInt 100 ≤ (Float64Conv.ofInt 100 : F)) →
      (∀ z : F, 0 ≤ z → z ≤ Float64Conv.ofInt 100 →
        0 ≤ (Float64Conv.toInt64 z : Int) ∧ (Float64Conv.toInt64 z : Int) ≤ 100) →
      0 ≤ leastRequestedScore requested capacity ∧
        leastRequestedScore requested capacity ≤ 100) := by
  have hguard : (capacity == 0) = true ∨ capacity < requested →
      leastRequestedScore requested capacity = 0 := by
    intro h
    unfold leastRequestedScore
    rcases h with h | h
    · rw [if_pos h]
      rfl
    · by_cases hc : (capacity == 0) = true
      · rw [if_pos hc]
        rfl
      · rw [if_neg hc, if_pos h]
        rfl
  have hvalue : ¬ (capacity == 0) = true → ¬ capacity < requested →
      leastRequestedScore requested capacity =
        Float64Conv.toInt64 ((capacity - requested) / capacity * Float64Conv.ofInt 100) := by
    intro h0 h1
    unfold leastRequestedScore
    rw [if_neg h0, if_neg h1]
    rfl
  refine ⟨?_, ?_, ?_⟩
  · rintro (h | h)
    · exact hguard (Or.inl (beq_iff_eq.mpr h))
    · exact hguard (Or.inr h)
  · intro h
    push_neg at h
    exact hvalue (fun hb => h.1 (beq_iff_eq.mp hb)) (not_lt.mpr h.2)
  · intro hreq hsub hdiv hmul hconv
    by_cases h : capacity = 0 ∨ requested > capacity
    · rw [hguard (h.imp (fun h => beq_iff_eq.mpr h) (fun h => h))]
      omega
    · push_neg at h
      rw [hvalue (fun hb => h.1 (beq_iff_eq.mp hb)) (not_lt.mpr h.2)]
      have hcap : 0 < capacity := lt_of_le_of_ne (le_trans hreq h.2) (Ne.symm h.1)
      obtain ⟨s0, s1⟩ := hsub h.2
      obtain ⟨d0, d1⟩ := hdiv _ s0 s1 hcap
      obtain ⟨m0, m1⟩ := hmul _ d0 d1
      exact hconv _ m0 m1

theorem leastRequestedScore_spec_witness :
    leastRequestedScore (5 : ℚ) 10 = 50 ∧
    0 ≤ leastRequestedScore (5 : ℚ) 10 ∧ leastRequestedScore (5 : ℚ) 10 ≤ 100 :=
  ⟨((leastRequestedScore_spec (5 : ℚ) 10).2.1 (by norm_num)).trans
    (by norm_num [Float64Conv.toInt64, Float64Conv.ofInt]),
   (leastRequestedScore_spec (5 : ℚ) 10).2.2 (by norm_num) (fun _ => by norm_num)
    (fun x h0 h1 hc => rat_div_range 10 x h0 h1 hc) rat_mul_range rat_toInt64_range⟩

/-- C17 (counterexample): for the requested value −10 and the capacity 10 the result of
`leastRequestedScore` is 200, which is not between 0 and 100. The operands and the
intermediate results 20, 2 and 200 are integers that float64 represents exactly. -/
theorem leastRequestedScore_negative_request :
    leastRequestedScore (-10 : ℚ) 10 = 200 ∧
    ¬ (0 ≤ leastRequestedScore (-10 : ℚ) 10 ∧ leastRequestedScore (-10 : ℚ) 10 ≤ 100) := by
  have h : leastRequestedScore (-10 : ℚ) 10 = 200 := by
    rw [leastRequestedScore_formula _ _ (by norm_num)]
    norm_num
  rw [h]
  exact ⟨rfl, by omega⟩

end clustercapacity

/-! ## Theorems: getClusterWithScores -/

theorem clampScore_range (value : Int) : 0 ≤ clampScore value ∧ clampScore value ≤ 100 := by
  unfold clampScore
  omega

theorem clampedValues_length {F : Type} (d : data F) (task : TaskInfo F)
    (cluster : ClusterInfo F) (scores : List (ScorePlugin F)) (cs : CycleState F) :
    (clampedValues d task cluster scores cs).length = scores.length := by
  induction scores generalizing cs with
  | nil => rfl
  | cons sc rest ih => simp [clampedValues, ih]

theorem clampedValues_sum_range {F : Type} (d : data F) (task : TaskInfo F)
    (cluster : ClusterInfo F) (scores : List (ScorePlugin F)) (cs : CycleState F) :
    0 ≤ (clampedValues d task cluster scores cs).sum ∧
      (clampedValues d task cluster scores cs).sum ≤ 100 * (scores.length : Int) := by
  induction scores generalizing cs with
  | nil => simp [clampedValues]
  | cons sc rest ih =>
    have h1 := clampScore_range (sc.Score d task cluster cs).1
    have h2 := ih (sc.Score d task cluster cs).2
    simp only [clampedValues, List.sum_cons, List.length_cons, Nat.cast_add, Nat.cast_one]
    omega

theorem sumScores_value {F : Type} (d : data F) (task : TaskInfo F) (cluster : ClusterInfo F)
    (scores : List (ScorePlugin F)) (valueSum : Int) (cs : CycleState F)
    (h0 : 0 ≤ valueSum)
    (hlen : valueSum + 100 * (scores.length : Int) < 9223372036854775808) :
    (sumScores d task cluster scores valueSum cs).1 =
      valueSum + (clampedValues d task cluster scores cs).sum := by
  induction scores generalizing valueSum cs with
  | nil => simp [sumScores, clampedValues]
  | cons sc rest ih =>
    have hc := clampScore_range (sc.Score d task cluster cs).1
    have hclamp : (if (if (sc.Score d task cluster cs).1 < plugin.MinScore then plugin.MinScore
          else (sc.Score d task cluster cs).1) > plugin.MaxScore then plugin.MaxScore
        else (if (sc.Score d task cluster cs).1 < plugin.MinScore then plugin.MinScore
          else (sc.Score d task cluster cs).1)) = clampScore (sc.Score d task cluster cs).1 := by
      unfold clampScore plugin.MinScore plugin.MaxScore
      split <;> split <;> omega
    simp only [List.length_cons, Nat.cast_add, Nat.cast_one] at hlen
    unfold sumScores
    simp only [hclamp, clampedValues, List.sum_cons]
    have hw : wrapInt64 (valueSum + clampScore (sc.Score d task cluster cs).1) =
        valueSum + clampScore (sc.Score d task cluster cs).1 :=
      wrapInt64_of_range _ (by omega) (by omega)
    rw [hw, ih _ _ (by omega) (by omega)]
    omega

theorem scoreStep_item {F : Type} (scores : List (ScorePlugin F)) (d : data F)
    (task : TaskInfo F) (acc : scoreState F) (cluster : ClusterInfo F)
    (hlen : 100 * (scores.length : Int) < 9223372036854775808) :
    (scoreStep scores d task acc cluster).clusterWithScores =
      acc.clusterWithScores ++
        [{ clusterID := cluster.ID,
           score := combinedScore scores d task cluster acc.cycleState }] ∧
    (scoreStep scores d task acc cluster).cycleState =
      (sumScores d task cluster scores 0 acc.cycleState).2.1 := by
  refine ⟨?_, rfl⟩
  unfold scoreStep combinedScore
  by_cases hl : scores.length = 0
  · simp [hl, plugin.MaxScore]
  · have hs := sumScores_value d task cluster scores 0 acc.cycleState (le_refl 0) (by omega)
    have hr := clampedValues_sum_range d task cluster scores acc.cycleState
    simp only [hl, if_false, hs, zero_add]
    rw [Int.tdiv_eq_ediv hr.1 (Int.ofNat_nonneg _)]

theorem scoreFold_eq {F : Type} (scores : List (ScorePlugin F)) (d : data F)
    (task : TaskInfo F) (clusters : List (ClusterInfo F)) (acc : scoreState F)
    (hlen : 100 * (scores.length : Int) < 9223372036854775808) :
    (clusters.foldl (scoreStep scores d task) acc).clusterWithScores =
      acc.clusterWithScores ++ scoredFrom scores d task clusters acc.cycleState := by
  induction clusters generalizing acc with
  | nil => simp [scoredFrom]
  | cons c rest ih =>
    obtain ⟨h1, h2⟩ := scoreStep_item scores d task acc c hlen
    simp only [List.foldl_cons]
    rw [ih, h1, h2]
    simp [scoredFrom]

theorem combinedScore_range {F : Type} (scores : List (ScorePlugin F)) (d : data F)
    (task : TaskInfo F) (cluster : ClusterInfo F) (cs : CycleState F) :
    0 ≤ combinedScore scores d task cluster cs ∧
      combinedScore scores d task cluster cs ≤ 100 := by
  unfold combinedScore
  by_cases hl : scores.length = 0
  · simp [hl]
  · have hr := clampedValues_sum_range d task cluster scores cs
    have hpos : (0 : Int) < scores.length := by omega
    simp only [hl, if_false]
    constructor
    · exact Int.ediv_nonneg hr.1 (le_of_lt hpos)
    · apply Int.ediv_le_of_le_mul hpos
      omega

theorem scoredFrom_spec {F : Type} (scores : List (ScorePlugin F)) (d : data F)
    (task : TaskInfo F) (clusters : List (ClusterInfo F)) (cs : CycleState F) :
    (scoredFrom scores d task clusters cs).map (fun e => e.clusterID) =
      clusters.map (fun c => c.ID) ∧
    ∀ e ∈ scoredFrom scores d task clusters cs, 0 ≤ e.score ∧ e.score ≤ 100 := by
  induction clusters generalizing cs with
  | nil => simp [scoredFrom]
  | cons c rest ih =>
    obtain ⟨h1, h2⟩ := ih (sumScores d task c scores 0 cs).2.1
    refine ⟨by simp [scoredFrom, h1], ?_⟩
    intro e he
    simp only [scoredFrom, List.mem_cons] at he
    rcases he with he | he
    · subst he
      exact combinedScore_range scores d task c cs
    · exact h2 e he

theorem scoredFrom_no_plugins {F : Type} (d : data F) (task : TaskInfo F)
    (clusters : List (ClusterInfo F)) (cs : CycleState F) :
    ∀ e ∈ scoredFrom [] d task clusters cs, e.score = 100 := by
  induction clusters generalizing cs with
  | nil => simp [scoredFrom]
  | cons c rest ih =>
    intro e he
    simp only [scoredFrom, List.mem_cons] at he
    rcases he with he | he
    · subst he
      rfl
    · exact ih _ e he

/-- C19: `getClusterWithScores` yields one entry per available cluster in the same order;
the score of an entry is `combinedScore`: 100 when no Score plugin is configured and
otherwise the integer quotient of the sum over the Score plugins of the value clamped to
[0, 100] by the number of Score plugins, each plugin being called on the cycle state left
by the calls before it; every score lies between 0 and 100. The number of Score plugins
is such that the sum fits a Go int64. -/
theorem getClusterWithScores_scores {F : Type} (scores : List (ScorePlugin F)) (d : data F)
    (task : TaskInfo F) (availableClusters : List (ClusterInfo F)) (cycleState : CycleState F)
    (hlen : 100 * (scores.length : Int) < 9223372036854775808) :
    (getClusterWithScores scores d task availableClusters cycleState).clusterWithScores =
      scoredFrom scores d task availableClusters cycleState ∧
    (getClusterWithScores scores d task availableClusters cycleState).clusterWithScores.map
      (fun e => e.clusterID) = availableClusters.map (fun c => c.ID) ∧
    (∀ e ∈ (getClusterWithScores scores d task availableClusters cycleState).clusterWithScores,
      0 ≤ e.score ∧ e.score ≤ 100) ∧
    (scores = [] →
      ∀ e ∈ (getClusterWithScores scores d task availableClusters cycleState).clusterWithScores,
        e.score = 100) := by
  have key : (getClusterWithScores scores d task availableClusters cycleState).clusterWithScores =
      scoredFrom scores d task availableClusters cycleState := by
    unfold getClusterWithScores
    rw [scoreFold_eq scores d task availableClusters _ hlen]
    rfl
  obtain ⟨h1, h2⟩ := scoredFrom_spec scores d task availableClusters cycleState
  rw [key]
  refine ⟨rfl, h1, h2, ?_⟩
  intro hs
  subst hs
  exact scoredFrom_no_plugins d task availableClusters cycleState

theorem getClusterWithScores_scores_witness :
    (getClusterWithScores [fakeScore] testData (bareTask "task-01" consts.TaskQueued)
      [bareCluster "cluster-01" 0, bareCluster "cluster-04" 0] ∅).clusterWithScores.map
      (fun e => e.clusterID) = ["cluster-01", "cluster-04"] :=
  (getClusterWithScores_scores [fakeScore] testData (bareTask "task-01" consts.TaskQueued)
    [bareCluster "cluster-01" 0, bareCluster "cluster-04" 0] ∅ (by decide)).2.1

/-! ## Theorems: ResourceQuota -/

namespace resourcequota

theorem totalsStep_skip {F : Type} [Zero F] [Add F] (f : TaskInfo F → Bool)
    (acc : clustercapacity.totals F) (item : TaskInfo F) (h : f item = false) :
    totalsStep f acc item = acc := by
  simp [totalsStep, h]

theorem totalsStep_agree {F : Type} [Zero F] [Add F] (f : TaskInfo F → Bool)
    (acc acc' : clustercapacity.totals F) (item : TaskInfo F) (h : f item = true)
    (hR : TotalsAgree acc acc') :
    TotalsAgree (totalsStep f acc item) (clustercapacity.totals.step acc' item) := by
  obtain ⟨h1, h2, h3, h4, h5, h6⟩ := hR
  unfold totalsStep clustercapacity.totals.step
  simp only [h, Bool.not_true, Bool.false_eq_true, if_false]
  cases hr : item.Resources with
  | none =>
    dsimp only
    exact ⟨by rw [h1], h2, h3, h4, h5, h6⟩
  | some res =>
    dsimp only
    cases hg : res.GPU with
    | none =>
      dsimp only
      exact ⟨by rw [h1], by rw [h2], by rw [h3], by rw [h4], h5, h6⟩
    | some gpu =>
      dsimp only
      by_cases hty : gpu.Type_ = ""
      · simp only [hty, ne_eq, not_true_eq_false, if_false]
        refine ⟨by rw [h1], by rw [h2], by rw [h3], by rw [h4], by rw [h5], ?_⟩
        intro ty hne
        rw [AList.lookup_insert_ne hne]
        exact h6 ty hne
      · simp only [hty, ne_eq, not_false_eq_true, if_true]
        refine ⟨by rw [h1], by rw [h2], by rw [h3], by rw [h4], by rw [h5], ?_⟩
        intro ty hne
        by_cases heq : ty = gpu.Type_
        · subst heq
          simp only [AList.lookup_insert, h6 _ hty]
        · rw [AList.lookup_insert_ne heq, AList.lookup_insert_ne heq]
          exact h6 ty hne

theorem totalsFold_agree {F : Type} [Zero F] [Add F] (f : TaskInfo F → Bool)
    (l : List (TaskInfo F)) (acc acc' : clustercapacity.totals F) (hR : TotalsAgree acc acc') :
    TotalsAgree (l.foldl (totalsStep f) acc)
      ((l.filter f).foldl clustercapacity.totals.step acc') := by
  induction l generalizing acc acc' with
  | nil => exact hR
  | cons item rest ih =>
    by_cases h : f item = true
    · simp only [List.foldl_cons, List.filter_cons, h, if_true]
      exact ih _ _ (totalsStep_agree f acc acc' item h hR)
    · simp only [Bool.not_eq_true] at h
      simp only [List.foldl_cons, List.filter_cons, h, Bool.false_eq_true, if_false]
      rw [totalsStep_skip f acc item h]
      exact ih _ _ hR

/-- The accumulators of `checkQuota` are the totals over the in-scope scheduled tasks. -/
theorem totalsOf_eq {F : Type} [Zero F] [Add F] (f : TaskInfo F → Bool)
    (scheduledTasks : List (TaskInfo F)) :
    (totalsOf f scheduledTasks).totalCount =
      clustercapacity.occupiedCount (scheduledTasks.filter f) ∧
    (totalsOf f scheduledTasks).totalCPUCores =
      clustercapacity.occupiedCPUCores (scheduledTasks.filter f) ∧
    (totalsOf f scheduledTasks).totalRamGB =
      clustercapacity.occupiedRamGB (scheduledTasks.filter f) ∧
    (totalsOf f scheduledTasks).totalDiskGB =
      clustercapacity.occupiedDiskGB (scheduledTasks.filter f) ∧
    (totalsOf f scheduledTasks).totalGPUCount =
      clustercapacity.occupiedGPUCount (scheduledTasks.filter f) ∧
    ∀ ty, ty ≠ "" →
      ((totalsOf f scheduledTasks).totalGPU.lookup ty).getD 0 =
        clustercapacity.occupiedGPUOfType (scheduledTasks.filter f) ty := by
  have hR := totalsFold_agree f scheduledTasks clustercapacity.totals.init
    clustercapacity.totals.init ⟨rfl, rfl, rfl, rfl, rfl, fun _ _ => rfl⟩
  obtain ⟨h1, h2, h3, h4, h5, h6⟩ := hR
  obtain ⟨e1, e2, e3, e4, e5, e6⟩ := clustercapacity.totals_of_eq (scheduledTasks.filter f)
  unfold totalsOf
  unfold clustercapacity.totals.of at e1 e2 e3 e4 e5 e6
  refine ⟨by rw [h1, e1], by rw [h2, e2], by rw [h3, e3], by rw [h4, e4], by rw [h5, e5], ?_⟩
  intro ty hty
  rw [h6 ty hty, e6 ty hty]

theorem quotaGPUErrs_ne_nil_iff {F : Type} [Zero F] [Add F] [LT F] [∀ a b : F, Decidable (a < b)]
    (g : GPUQuota F) (gpu : GPUResource F) (f : TaskInfo F → Bool)
    (scheduledTasks : List (TaskInfo F)) :
    gpuErrs g gpu (totalsOf f scheduledTasks) ≠ [] ↔
      gpuRuleViolated g gpu (scheduledTasks.filter f) := by
  obtain ⟨_, _, _, _, h5, h6⟩ := totalsOf_eq f scheduledTasks
  unfold gpuErrs gpuRuleViolated
  by_cases hty : gpu.Type_ = ""
  · rw [h5]
    simp only [hty, ne_eq, not_true_eq_false, if_false, false_and, true_and, false_or]
    by_cases h : sumGPUCountQuota g <
        clustercapacity.occupiedGPUCount (scheduledTasks.filter f) + gpu.Count <;> simp [h]
  · rw [h6 gpu.Type_ hty]
    simp only [hty, ne_eq, not_false_eq_true, if_true, true_and, false_and, or_false]
    cases hl : g.GPU.lookup gpu.Type_ with
    | none => simp
    | some c =>
      simp only [reduceCtorEq, Option.some.injEq, exists_eq_left', false_or]
      by_cases h : c < clustercapacity.occupiedGPUOfType (scheduledTasks.filter f) gpu.Type_ +
          gpu.Count <;> simp [h]

theorem quotaResourceErrs_ne_nil_iff {F : Type} [Zero F] [Add F] [LT F]
    [∀ a b : F, Decidable (a < b)]
    (quota : ResourceQuota F) (res : Resources F) (f : TaskInfo F → Bool)
    (scheduledTasks : List (TaskInfo F)) :
    resourceErrs quota res (totalsOf f scheduledTasks) ≠ [] ↔
      ((∃ c, quota.CPUCores = some c ∧ 0 < res.CPUCores ∧
          c < wrapInt64 (clustercapacity.occupiedCPUCores (scheduledTasks.filter f) +
            res.CPUCores)) ∨
       (∃ c, quota.RamGB = some c ∧ 0 < res.RamGB ∧
          c < clustercapacity.occupiedRamGB (scheduledTasks.filter f) + res.RamGB) ∨
       (∃ c, quota.DiskGB = some c ∧ 0 < res.DiskGB ∧
          c < clustercapacity.occupiedDiskGB (scheduledTasks.filter f) + res.DiskGB) ∨
       (∃ g gpu, quota.GPUQuota = some g ∧ res.GPU = some gpu ∧
          gpuRuleViolated g gpu (scheduledTasks.filter f))) := by
  obtain ⟨_, h2, h3, h4, _, _⟩ := totalsOf_eq f scheduledTasks
  have hg := fun g gpu => quotaGPUErrs_ne_nil_iff g gpu f scheduledTasks
  unfold resourceErrs
  rw [h2, h3, h4]
  simp only [ne_eq, List.append_eq_nil, not_and_or, or_assoc]
  refine or_congr ?_ (or_congr ?_ (or_congr ?_ ?_))
  · cases quota.CPUCores with
    | none => simp
    | some c => simp
  · cases quota.RamGB with
    | none => simp
    | some c => simp
  · cases quota.DiskGB with
    | none => simp
    | some c => simp
  · cases quota.GPUQuota with
    | none => simp
    | some g =>
      cases res.GPU with
      | none => simp
      | some gpu => simpa using hg g gpu

theorem quotaErrs_ne_nil_iff {F : Type} [Zero F] [Add F] [LT F] [∀ a b : F, Decidable (a < b)]
    (quota : ResourceQuota F) (task : TaskInfo F) (f : TaskInfo F → Bool)
    (scheduledTasks : List (TaskInfo F)) :
    errs quota task (totalsOf f scheduledTasks) ≠ [] ↔
      quotaExceeded quota task (scheduledTasks.filter f) := by
  obtain ⟨h1, _, _, _, _, _⟩ := totalsOf_eq f scheduledTasks
  have hr := fun res => quotaResourceErrs_ne_nil_iff quota res f scheduledTasks
  unfold errs quotaExceeded
  rw [h1]
  simp only [ne_eq, List.append_eq_nil, not_and_or]
  refine or_congr ?_ ?_
  · cases quota.Count with
    | none => simp
    | some c => simp
  · cases task.Resources with
    | none => simp
    | some res => simpa using hr res

theorem checkQuota_rejects_iff {F : Type} [Zero F] [Add F] [LT F]
    [∀ a b : F, Decidable (a < b)]
    (quota : ResourceQuota F) (task : TaskInfo F) (scheduledTasks : List (TaskInfo F))
    (f : TaskInfo F → Bool) :
    (checkQuota (some quota) task scheduledTasks f).isSome = true ↔
      quotaExceeded quota task (scheduledTasks.filter f) := by
  rw [← quotaErrs_ne_nil_iff]
  unfold checkQuota
  cases he : errs quota task (totalsOf f scheduledTasks) with
  | nil => simp [NewAggregate, he]
  | cons e es => simp [NewAggregate, he]

theorem checkQuota_count_full {F : Type} [Zero F] [Add F] [LT F]
    [∀ a b : F, Decidable (a < b)]
    (quota : ResourceQuota F) (task : TaskInfo F) (scheduledTasks : List (TaskInfo F))
    (f : TaskInfo F → Bool) (n : Int) (hcount : quota.Count = some n)
    (hfull : n ≤ ((scheduledTasks.filter f).length : Int))
    (hlen : ((scheduledTasks.filter f).length : Int) < 9223372036854775807) :
    (checkQuota (some quota) task scheduledTasks f).isSome = true := by
  rw [checkQuota_rejects_iff]
  left
  refine ⟨n, hcount, ?_⟩
  unfold clustercapacity.occupiedCount
  have hnn : (0 : Int) ≤ ((scheduledTasks.filter f).length : Int) := Int.ofNat_nonneg _
  rw [wrapInt64_of_range ((scheduledTasks.filter f).length : Int) (by omega) (by omega),
    wrapInt64_of_range _ (by omega) (by omega)]
  omega

end resourcequota

namespace resourcequota

theorem checkQuota_none {F : Type} [Zero F] [Add F] [LT F] [∀ a b : F, Decidable (a < b)]
    (task : TaskInfo F) (scheduledTasks : List (TaskInfo F)) (f : TaskInfo F → Bool) :
    checkQuota none task scheduledTasks f = none := rfl

theorem accountCheck_eq_none_iff {F : Type} [Zero F] [Add F] [LT F]
    [∀ a b : F, Decidable (a < b)]
    (quotas : QuotaCache F) (task : TaskInfo F) (b : BioosInfo)
    (scheduledTasks : List (TaskInfo F))
    (haccount : (quotas.GetAccountQuota b.AccountID).2 = none) :
    accountCheck quotas task b scheduledTasks = none ↔
      (b.AccountID ≠ "" →
        checkQuota (quotas.GetAccountQuota b.AccountID).1 task scheduledTasks
          (sameAccount b) = none) := by
  unfold accountCheck
  by_cases ha : b.AccountID = ""
  · simp [ha]
  · simp only [ne_eq, ha, not_false_eq_true, if_true, true_implies]
    rcases hq : quotas.GetAccountQuota b.AccountID with ⟨q, e⟩
    rw [hq] at haccount
    simp only at haccount
    subst haccount
    cases q with
    | none => simp [checkQuota_none]
    | some q =>
      simp only
      cases hc : checkQuota (some q) task scheduledTasks (sameAccount b) with
      | none => simp
      | some err => simp

theorem userCheck_eq_none_iff {F : Type} [Zero F] [Add F] [LT F]
    [∀ a b : F, Decidable (a < b)]
    (quotas : QuotaCache F) (task : TaskInfo F) (b : BioosInfo)
    (scheduledTasks : List (TaskInfo F))
    (huser : (quotas.GetUserQuota b.AccountID b.UserID).2 = none) :
    userCheck quotas task b scheduledTasks = none ↔
      (b.AccountID ≠ "" → b.UserID ≠ "" →
        checkQuota (quotas.GetUserQuota b.AccountID b.UserID).1 task scheduledTasks
          (sameUser b) = none) := by
  unfold userCheck
  by_cases ha : b.AccountID ≠ "" ∧ b.UserID ≠ ""
  · simp only [ha, and_self, if_true, ne_eq, not_false_eq_true, true_implies]
    rcases hq : quotas.GetUserQuota b.AccountID b.UserID with ⟨q, e⟩
    rw [hq] at huser
    simp only at huser
    subst huser
    cases q with
    | none => simp [checkQuota_none]
    | some q =>
      simp only
      cases hc : checkQuota (some q) task scheduledTasks (sameUser b) with
      | none => simp
      | some err => simp
  · simp only [ha, if_false, true_iff]
    intro h1 h2
    exact absurd ⟨h1, h2⟩ ha

theorem GlobalFilter_eq_none_iff {F : Type} [Zero F] [Add F] [LT F]
    [∀ a b : F, Decidable (a < b)]
    (quotas : QuotaCache F) (d : data F) (task : TaskInfo F) (cycleState : CycleState F)
    (hglobal : quotas.GetGlobalQuota.2 = none)
    (haccount : ∀ a, (quotas.GetAccountQuota a).2 = none)
    (huser : ∀ a u, (quotas.GetUserQuota a u).2 = none) :
    (GlobalFilter quotas d task cycleState).1 = none ↔
      (checkQuota quotas.GetGlobalQuota.1 task (ListScheduledTasks d) (fun _ => true) = none ∧
       (∀ b, task.BioosInfo = some b → b.AccountID ≠ "" →
          checkQuota (quotas.GetAccountQuota b.AccountID).1 task (ListScheduledTasks d)
            (sameAccount b) = none) ∧
       (∀ b, task.BioosInfo = some b → b.AccountID ≠ "" → b.UserID ≠ "" →
          checkQuota (quotas.GetUserQuota b.AccountID b.UserID).1 task (ListScheduledTasks d)
            (sameUser b) = none)) := by
  unfold GlobalFilter
  rcases hq : quotas.GetGlobalQuota with ⟨q, e⟩
  rw [hq] at hglobal
  simp only at hglobal
  subst hglobal
  simp only
  have tail : (match task.BioosInfo with
      | none => none
      | some bioosInfo =>
        match accountCheck quotas task bioosInfo (ListScheduledTasks d) with
        | some err => some err
        | none => userCheck quotas task bioosInfo (ListScheduledTasks d)) = none ↔
      ((∀ b, task.BioosInfo = some b → b.AccountID ≠ "" →
          checkQuota (quotas.GetAccountQuota b.AccountID).1 task (ListScheduledTasks d)
            (sameAccount b) = none) ∧
       (∀ b, task.BioosInfo = some b → b.AccountID ≠ "" → b.UserID ≠ "" →
          checkQuota (quotas.GetUserQuota b.AccountID b.UserID).1 task (ListScheduledTasks d)
            (sameUser b) = none)) := by
    cases hb : task.BioosInfo with
    | none => simp
    | some b =>
      simp only [Option.some.injEq, forall_eq']
      rw [← accountCheck_eq_none_iff quotas task b (ListScheduledTasks d) (haccount _),
        ← userCheck_eq_none_iff quotas task b (ListScheduledTasks d) (huser _ _)]
      cases ha : accountCheck quotas task b (ListScheduledTasks d) with
      | none => simp
      | some err => simp
  cases q with
  | none => simpa [checkQuota_none] using tail
  | some q =>
    simp only
    cases hc : checkQuota (some q) task (ListScheduledTasks d) (fun _ => true) with
    | none => simpa using tail
    | some err => simp

theorem sameAccount_iff {F : Type} (b : BioosInfo) (t : TaskInfo F) :
    sameAccount b t = true ↔ ∃ b', t.BioosInfo = some b' ∧ b'.AccountID = b.AccountID := by
  unfold sameAccount
  cases t.BioosInfo with
  | none => simp
  | some b' => simp

theorem sameUser_iff {F : Type} (b : BioosInfo) (t : TaskInfo F) :
    sameUser b t = true ↔
      ∃ b', t.BioosInfo = some b' ∧ b'.AccountID = b.AccountID ∧ b'.UserID = b.UserID := by
  unfold sameUser
  cases t.BioosInfo with
  | none => simp
  | some b' => simp

end resourcequota

namespace resourcequota

theorem quotaExceeded_split {F : Type} [Zero F] [Add F] [LT F]
    (quota : ResourceQuota F) (g : GPUQuota F) (task : TaskInfo F) (res : Resources F)
    (gpu : GPUResource F) (inScope : List (TaskInfo F))
    (hq : quota.GPUQuota = some g) (hr : task.Resources = some res) (hg : res.GPU = some gpu) :
    quotaExceeded quota task inScope ↔
      quotaExceeded { quota with GPUQuota := none } task inScope ∨
      gpuRuleViolated g gpu inScope := by
  unfold quotaExceeded
  simp only [hq, hr, hg, Option.some.injEq, exists_eq_left', reduceCtorEq, false_and,
    exists_false, or_false, exists_and_left]
  constructor
  · rintro (h | h | h | h | h)
    · exact Or.inl (Or.inl h)
    · exact Or.inl (Or.inr (Or.inl h))
    · exact Or.inl (Or.inr (Or.inr (Or.inl h)))
    · exact Or.inl (Or.inr (Or.inr (Or.inr h)))
    · exact Or.inr h
  · rintro ((h | h | h | h) | h)
    · exact Or.inl h
    · exact Or.inr (Or.inl h)
    · exact Or.inr (Or.inr (Or.inl h))
    · exact Or.inr (Or.inr (Or.inr (Or.inl h)))
    · exact Or.inr (Or.inr (Or.inr (Or.inr h)))

theorem checkQuota_typed_congr {F : Type} [Zero F] [Add F] [LT F]
    [∀ a b : F, Decidable (a < b)]
    (quota : ResourceQuota F) (task : TaskInfo F) (res : Resources F) (gpu : GPUResource F)
    (hr : task.Resources = some res) (hg : res.GPU = some gpu) (hty : gpu.Type_ ≠ "")
    (l1 l2 : List (TaskInfo F)) (f1 f2 : TaskInfo F → Bool)
    (hcount : clustercapacity.occupiedCount (l1.filter f1) =
      clustercapacity.occupiedCount (l2.filter f2))
    (hcpu : clustercapacity.occupiedCPUCores (l1.filter f1) =
      clustercapacity.occupiedCPUCores (l2.filter f2))
    (hram : clustercapacity.occupiedRamGB (l1.filter f1) =
      clustercapacity.occupiedRamGB (l2.filter f2))
    (hdisk : clustercapacity.occupiedDiskGB (l1.filter f1) =
      clustercapacity.occupiedDiskGB (l2.filter f2))
    (htype : clustercapacity.occupiedGPUOfType (l1.filter f1) gpu.Type_ =
      clustercapacity.occupiedGPUOfType (l2.filter f2) gpu.Type_) :
    checkQuota (some quota) task l1 f1 = checkQuota (some quota) task l2 f2 := by
  obtain ⟨a1, a2, a3, a4, _, a6⟩ := totalsOf_eq f1 l1
  obtain ⟨b1, b2, b3, b4, _, b6⟩ := totalsOf_eq f2 l2
  have e1 : (totalsOf f1 l1).totalCount = (totalsOf f2 l2).totalCount := by
    rw [a1, b1, hcount]
  have e2 : (totalsOf f1 l1).totalCPUCores = (totalsOf f2 l2).totalCPUCores := by
    rw [a2, b2, hcpu]
  have e3 : (totalsOf f1 l1).totalRamGB = (totalsOf f2 l2).totalRamGB := by
    rw [a3, b3, hram]
  have e4 : (totalsOf f1 l1).totalDiskGB = (totalsOf f2 l2).totalDiskGB := by
    rw [a4, b4, hdisk]
  have e6 : ((totalsOf f1 l1).totalGPU.lookup gpu.Type_).getD 0 =
      ((totalsOf f2 l2).totalGPU.lookup gpu.Type_).getD 0 := by
    rw [a6 _ hty, b6 _ hty, htype]
  unfold checkQuota errs
  simp only [hr]
  unfold resourceErrs
  simp only [hg]
  cases quota.GPUQuota with
  | none => simp only [e1, e2, e3, e4]
  | some g =>
    simp only
    unfold gpuErrs
    rw [if_pos hty, if_pos hty, e1, e2, e3, e4, e6]

end resourcequota

namespace resourcequota

/-- C12: when the quota lookups return no error, `GlobalFilter` accepts exactly when
`checkQuota` passes at every applicable level: the global quota over all scheduled tasks,
the account quota (only for a non-empty AccountID) over the scheduled tasks with the same
AccountID, the user quota (only for non-empty AccountID and UserID) over the scheduled
tasks with the same AccountID and UserID; a null quota passes, a task without BioosInfo
is checked against the global quota only, and the cycle state is returned unchanged. -/
theorem GlobalFilter_accepts_iff {F : Type} [Zero F] [Add F] [LT F]
    [∀ a b : F, Decidable (a < b)]
    (quotas : QuotaCache F) (d : data F) (task : TaskInfo F) (cycleState : CycleState F)
    (hglobal : quotas.GetGlobalQuota.2 = none)
    (haccount : ∀ a, (quotas.GetAccountQuota a).2 = none)
    (huser : ∀ a u, (quotas.GetUserQuota a u).2 = none) :
    ((GlobalFilter quotas d task cycleState).1 = none ↔
      (checkQuota quotas.GetGlobalQuota.1 task (ListScheduledTasks d) (fun _ => true) = none ∧
       (∀ b, task.BioosInfo = some b → b.AccountID ≠ "" →
          checkQuota (quotas.GetAccountQuota b.AccountID).1 task (ListScheduledTasks d)
            (sameAccount b) = none) ∧
       (∀ b, task.BioosInfo = some b → b.AccountID ≠ "" → b.UserID ≠ "" →
          checkQuota (quotas.GetUserQuota b.AccountID b.UserID).1 task (ListScheduledTasks d)
            (sameUser b) = none))) ∧
    (∀ (b : BioosInfo) (t : TaskInfo F), sameAccount b t = true ↔
      ∃ b', t.BioosInfo = some b' ∧ b'.AccountID = b.AccountID) ∧
    (∀ (b : BioosInfo) (t : TaskInfo F), sameUser b t = true ↔
      ∃ b', t.BioosInfo = some b' ∧ b'.AccountID = b.AccountID ∧ b'.UserID = b.UserID) ∧
    (∀ (q : Option (ResourceQuota F)) (f : TaskInfo F → Bool), q = none →
      checkQuota q task (ListScheduledTasks d) f = none) ∧
    (task.BioosInfo = none →
      ((GlobalFilter quotas d task cycleState).1 = none ↔
        checkQuota quotas.GetGlobalQuota.1 task (ListScheduledTasks d) (fun _ => true) =
          none)) ∧
    (GlobalFilter quotas d task cycleState).2 = cycleState := by
  have key := GlobalFilter_eq_none_iff quotas d task cycleState hglobal haccount huser
  refine ⟨key, sameAccount_iff, sameUser_iff, ?_, ?_, rfl⟩
  · intro q f hq
    rw [hq]
    rfl
  · intro hb
    rw [key]
    simp [hb]

theorem GlobalFilter_accepts_iff_witness :
    (GlobalFilter accountQuotas accountData
      (accountTask "task-0000" "" "account-01" "user-01") ∅).1 = none :=
  (GlobalFilter_accepts_iff accountQuotas accountData
    (accountTask "task-0000" "" "account-01" "user-01") ∅ rfl (fun _ => rfl)
    (fun _ _ => rfl)).1.mpr
    ⟨rfl, fun b hb _ => by cases hb; rfl, fun b hb _ _ => by cases hb; rfl⟩

/-- C13 (amended): `checkQuota` with a non-null quota rejects exactly when
`quotaExceeded` holds for the in-scope scheduled tasks, where the CPU, RAM, disk and GPU
dimensions are checked only for a task that carries resources and requests a positive
amount; with `Count = n` and at least `n` in-scope scheduled tasks (fewer than the largest
Go int) every candidate is rejected. -/
theorem checkQuota_exceeded {F : Type} [Zero F] [Add F] [LT F]
    [∀ a b : F, Decidable (a < b)]
    (quota : ResourceQuota F) (task : TaskInfo F) (scheduledTasks : List (TaskInfo F))
    (f : TaskInfo F → Bool) :
    ((checkQuota (some quota) task scheduledTasks f).isSome = true ↔
      quotaExceeded quota task (scheduledTasks.filter f)) ∧
    (∀ n : Int, quota.Count = some n →
      n ≤ ((scheduledTasks.filter f).length : Int) →
      ((scheduledTasks.filter f).length : Int) < 9223372036854775807 →
      (checkQuota (some quota) task scheduledTasks f).isSome = true) :=
  ⟨checkQuota_rejects_iff quota task scheduledTasks f,
   fun n h1 h2 h3 => checkQuota_count_full quota task scheduledTasks f n h1 h2 h3⟩

theorem checkQuota_exceeded_witness :
    (checkQuota (some countQuota) (bareTask "task-0000" consts.TaskQueued)
      [bareTask "task-exist-01" consts.TaskQueued, bareTask "task-exist-02" consts.TaskQueued]
      (fun _ => true)).isSome = true :=
  (checkQuota_exceeded countQuota (bareTask "task-0000" consts.TaskQueued)
    [bareTask "task-exist-01" consts.TaskQueued, bareTask "task-exist-02" consts.TaskQueued]
    (fun _ => true)).2 2 rfl (by decide) (by decide)

/-- C13 (counterexample): with a quota of one CPU core, two cores occupied in scope and a
candidate that requests no CPU, the quota is below the in-scope total plus the request,
yet `checkQuota` accepts: rejection is not equivalent to the condition of the claim. -/
theorem checkQuota_accepts_claimed_exceeded :
    claimedQuotaExceeded overcommitQuota overcommitCandidate
      ([overcommitScheduled].filter (fun _ => true)) ∧
    (checkQuota (some overcommitQuota) overcommitCandidate [overcommitScheduled]
      (fun _ => true)).isSome = false ∧
    ¬ ((checkQuota (some overcommitQuota) overcommitCandidate [overcommitScheduled]
        (fun _ => true)).isSome = true ↔
      claimedQuotaExceeded overcommitQuota overcommitCandidate
        ([overcommitScheduled].filter (fun _ => true))) := by
  have h1 : claimedQuotaExceeded overcommitQuota overcommitCandidate
      ([overcommitScheduled].filter (fun _ => true)) := by
    right; left
    exact ⟨1, rfl, by decide⟩
  have h2 : (checkQuota (some overcommitQuota) overcommitCandidate [overcommitScheduled]
      (fun _ => true)).isSome = false := by
    decide
  refine ⟨h1, h2, ?_⟩
  intro h
  have := h.mpr h1
  rw [h2] at this
  cases this

/-- C16: for a candidate with GPU request `gpu` and a non-null GPU quota `g`, `checkQuota`
rejects exactly when another dimension is exceeded or the GPU rule is violated, where for
a request naming type T the rule is: T is absent from the quota map or quota[T] is below
the GPU count of the in-scope tasks naming T plus the requested count, and for a request
without a type: the sum of all quota entries (the values of all entries of the quota map,
added in iteration order) is below the total in-scope GPU count plus the requested count.
For a typed request two lists of scheduled tasks that agree on the tally for T and on the
count, CPU, RAM and disk totals give the same result. Under the laws of exact addition
the sum of all quota entries is the sum of the list of quotas. -/
theorem checkQuota_gpu_verdict {F : Type} [Zero F] [Add F] [LT F]
    [∀ a b : F, Decidable (a < b)]
    (quota : ResourceQuota F) (g : GPUQuota F) (task : TaskInfo F) (res : Resources F)
    (gpu : GPUResource F)
    (hq : quota.GPUQuota = some g) (hr : task.Resources = some res) (hg : res.GPU = some gpu) :
    (gpu.Type_ ≠ "" → ∀ (l : List (TaskInfo F)) (f : TaskInfo F → Bool),
      ((checkQuota (some quota) task l f).isSome = true ↔
        quotaExceeded { quota with GPUQuota := none } task (l.filter f) ∨
        g.GPU.lookup gpu.Type_ = none ∨
        ∃ c, g.GPU.lookup gpu.Type_ = some c ∧
          c < clustercapacity.occupiedGPUOfType (l.filter f) gpu.Type_ + gpu.Count)) ∧
    (gpu.Type_ ≠ "" → ∀ (l1 l2 : List (TaskInfo F)) (f1 f2 : TaskInfo F → Bool),
      clustercapacity.occupiedCount (l1.filter f1) =
        clustercapacity.occupiedCount (l2.filter f2) →
      clustercapacity.occupiedCPUCores (l1.filter f1) =
        clustercapacity.occupiedCPUCores (l2.filter f2) →
      clustercapacity.occupiedRamGB (l1.filter f1) =
        clustercapacity.occupiedRamGB (l2.filter f2) →
      clustercapacity.occupiedDiskGB (l1.filter f1) =
        clustercapacity.occupiedDiskGB (l2.filter f2) →
      clustercapacity.occupiedGPUOfType (l1.filter f1) gpu.Type_ =
        clustercapacity.occupiedGPUOfType (l2.filter f2) gpu.Type_ →
      checkQuota (some quota) task l1 f1 = checkQuota (some quota) task l2 f2) ∧
    (gpu.Type_ = "" → ∀ (l : List (TaskInfo F)) (f : TaskInfo F → Bool),
      ((checkQuota (some quota) task l f).isSome = true ↔
        quotaExceeded { quota with GPUQuota := none } task (l.filter f) ∨
        sumOfEntries g.GPU < clustercapacity.occupiedGPUCount (l.filter f) + gpu.Count)) ∧
    ((∀ a : F, 0 + a = a) → (∀ a : F, a + 0 = a) →
      (∀ a b c : F, a + b + c = a + (b + c)) →
      sumOfEntries g.GPU = (g.GPU.entries.map (fun e => e.2)).sum) := by
  have hsum : sumGPUCountQuota g = sumOfEntries g.GPU := rfl
  refine ⟨?_, ?_, ?_, fun h0 h1 hassoc => foldl_add_eq_sum h0 h1 hassoc _⟩
  · intro hty l f
    rw [checkQuota_rejects_iff, quotaExceeded_split quota g task res gpu _ hq hr hg]
    unfold gpuRuleViolated
    simp [hty]
  · intro hty l1 l2 f1 f2 h1 h2 h3 h4 h5
    exact checkQuota_typed_congr quota task res gpu hr hg hty l1 l2 f1 f2 h1 h2 h3 h4 h5
  · intro hty l f
    rw [checkQuota_rejects_iff, quotaExceeded_split quota g task res gpu _ hq hr hg]
    unfold gpuRuleViolated
    rw [hsum]
    simp [hty]

theorem typedGPUQuota_entries :
    (typedGPUQuota.GPU.entries.map (fun e => e.2)) = [5, 5] := rfl

theorem quotaScope_requests :
    clustercapacity.gpuRequests
      ([gpuTask "task-exist-01" "cluster-01" "type1" 1].filter (fun _ => true)) =
      [{ Count := 1, Type_ := "type1" }] := rfl

theorem checkQuota_gpu_verdict_witness :
    (checkQuota (some gpuOnlyQuota) (gpuTask "task-0000" "" "type1" 1)
      [gpuTask "task-exist-01" "cluster-01" "type1" 1, gpuTask "task-exist-02" "cluster-01" "" 9]
      (fun _ => true)) =
    (checkQuota (some gpuOnlyQuota) (gpuTask "task-0000" "" "type1" 1)
      [gpuTask "task-exist-01" "cluster-01" "type1" 1, gpuTask "task-exist-02" "cluster-01" "" 1]
      (fun _ => true)) ∧
    ¬ ((checkQuota (some gpuOnlyQuota) (gpuTask "task-0000" "" "" 8)
      [gpuTask "task-exist-01" "cluster-01" "type1" 1] (fun _ => true)).isSome = true) ∧
    (checkQuota (some gpuOnlyQuota) (gpuTask "task-0000" "" "" 10)
      [gpuTask "task-exist-01" "cluster-01" "type1" 1] (fun _ => true)).isSome = true :=
  ⟨(checkQuota_gpu_verdict gpuOnlyQuota typedGPUQuota (gpuTask "task-0000" "" "type1" 1)
    _ _ rfl rfl rfl).2.1 (by decide) _ _ _ _ rfl rfl
    (by simp [clustercapacity.occupiedRamGB, gpuTask])
    (by simp [clustercapacity.occupiedDiskGB, gpuTask])
    (by simp [clustercapacity.occupiedGPUOfType, clustercapacity.gpuRequests, gpuTask]),
   fun h => by
    rcases ((checkQuota_gpu_verdict gpuOnlyQuota typedGPUQuota (gpuTask "task-0000" "" "" 8)
      _ _ rfl rfl rfl).2.2.1 rfl _ _).mp h with hq | hs
    · revert hq
      unfold quotaExceeded
      simp [gpuOnlyQuota, gpuTask]
    · revert hs
      unfold sumOfEntries clustercapacity.occupiedGPUCount
      rw [typedGPUQuota_entries, quotaScope_requests]
      norm_num [gpuTask],
   ((checkQuota_gpu_verdict gpuOnlyQuota typedGPUQuota (gpuTask "task-0000" "" "" 10)
      _ _ rfl rfl rfl).2.2.1 rfl _ _).mpr (Or.inr (by
      unfold sumOfEntries clustercapacity.occupiedGPUCount
      rw [typedGPUQuota_entries, quotaScope_requests]
      norm_num [gpuTask]))⟩

end resourcequota

/-! ## Theorems: GPU maps in ClusterCapacity, ResourceQuota and ClusterLimit -/

theorem NewAggregate_isSome {F : Type} (errs : List (GoError F)) :
    (NewAggregate errs).isSome = true ↔ errs ≠ [] := by
  cases errs with
  | nil => simp [NewAggregate]
  | cons e es => simp [NewAggregate]

theorem GoMap.values_empty {K V : Type} : GoMap.values (∅ : GoMap K V) = [] := rfl

theorem GoMap.lookup_empty {V : Type} (k : String) :
    AList.lookup k (∅ : GoMap String V) = none := rfl

namespace clustercapacity

theorem sumGPUCountCapacity_empty {F : Type} [Zero F] [Add F] (g : GPUCapacity F)
    (h : g.GPU = ∅) : sumGPUCountCapacity g = 0 := by
  unfold sumGPUCountCapacity
  rw [h, GoMap.values_empty]
  rfl

theorem Filter_empty_gpu_map {F : Type} [Zero F] [Add F] [LT F] [∀ a b : F, Decidable (a < b)]
    (hadd : ∀ a b : F, ¬ a < 0 → 0 < b → 0 < a + b)
    (d : data F) (task : TaskInfo F) (cluster : ClusterInfo F) (cycleState : CycleState F)
    (cap : Capacity F) (g : GPUCapacity F) (res : Resources F) (gpu : GPUResource F)
    (hc : cluster.Capacity = some cap) (hcg : cap.GPUCapacity = some g) (hempty : g.GPU = ∅)
    (hr : task.Resources = some res) (hg : res.GPU = some gpu) (hpos : 0 < gpu.Count)
    (hocc : ¬ occupiedGPUCount (ListTasks d cluster.ID) < 0) :
    (Filter d task cluster cycleState).1.isSome = true := by
  rw [Filter_isSome_iff d task cluster cycleState cap hc]
  refine Or.inr ⟨res, hr, Or.inr (Or.inr (Or.inr ⟨g, gpu, hcg, hg, Or.inl ?_⟩))⟩
  rw [sumGPUCountCapacity_empty g hempty]
  exact hadd _ _ hocc hpos

theorem errs_withoutGPU {F : Type} [Zero F] [Add F] [LT F] [∀ a b : F, Decidable (a < b)]
    (cap : Capacity F) (task : TaskInfo F) (t : totals F) (hcg : cap.GPUCapacity = none) :
    errs cap task t = errs cap task.withoutGPU t := by
  unfold errs TaskInfo.withoutGPU
  cases task.Resources with
  | none => rfl
  | some res =>
    simp only [Option.map_some']
    unfold resourceErrs
    simp only [hcg]

theorem Filter_null_gpu {F : Type} [Zero F] [Add F] [LT F] [∀ a b : F, Decidable (a < b)]
    (d : data F) (task : TaskInfo F) (cluster : ClusterInfo F) (cycleState : CycleState F)
    (hcg : ∀ cap, cluster.Capacity = some cap → cap.GPUCapacity = none) :
    Filter d task cluster cycleState = Filter d task.withoutGPU cluster cycleState := by
  unfold Filter
  cases hc : cluster.Capacity with
  | none => rfl
  | some cap =>
    simp only
    rw [errs_withoutGPU cap task _ (hcg cap hc)]

end clustercapacity

namespace resourcequota

theorem sumGPUCountQuota_empty {F : Type} [Zero F] [Add F] (g : GPUQuota F)
    (h : g.GPU = ∅) : sumGPUCountQuota g = 0 := by
  unfold sumGPUCountQuota
  rw [h, GoMap.values_empty]
  rfl

theorem checkQuota_empty_gpu_map {F : Type} [Zero F] [Add F] [LT F]
    [∀ a b : F, Decidable (a < b)]
    (hadd : ∀ a b : F, ¬ a < 0 → 0 < b → 0 < a + b)
    (quota : ResourceQuota F) (g : GPUQuota F) (task : TaskInfo F) (res : Resources F)
    (gpu : GPUResource F) (scheduledTasks : List (TaskInfo F)) (f : TaskInfo F → Bool)
    (hq : quota.GPUQuota = some g) (hempty : g.GPU = ∅)
    (hr : task.Resources = some res) (hg : res.GPU = some gpu) (hpos : 0 < gpu.Count)
    (hocc : ¬ clustercapacity.occupiedGPUCount (scheduledTasks.filter f) < 0) :
    (checkQuota (some quota) task scheduledTasks f).isSome = true := by
  rw [checkQuota_rejects_iff]
  refine Or.inr ⟨res, hr, Or.inr (Or.inr (Or.inr ⟨g, gpu, hq, hg, ?_⟩))⟩
  by_cases hty : gpu.Type_ = ""
  · refine Or.inr ⟨hty, ?_⟩
    rw [sumGPUCountQuota_empty g hempty]
    exact hadd _ _ hocc hpos
  · refine Or.inl ⟨hty, Or.inl ?_⟩
    rw [hempty]
    rfl

theorem checkQuota_null_gpu {F : Type} [Zero F] [Add F] [LT F] [∀ a b : F, Decidable (a < b)]
    (quota : Option (ResourceQuota F)) (task : TaskInfo F) (scheduledTasks : List (TaskInfo F))
    (f : TaskInfo F → Bool) (hq : ∀ q, quota = some q → q.GPUQuota = none) :
    checkQuota quota task scheduledTasks f =
      checkQuota quota task.withoutGPU scheduledTasks f := by
  cases quota with
  | none => rfl
  | some q =>
    have hn := hq q rfl
    unfold checkQuota errs TaskInfo.withoutGPU
    cases task.Resources with
    | none => rfl
    | some res =>
      simp only [Option.map_some']
      unfold resourceErrs
      simp only [hn]

end resourcequota

namespace utils

theorem ResourcesMeetLimits_empty_gpu_map {F : Type} [LT F] [LE F]
    [∀ a b : F, Decidable (a < b)] [∀ a b : F, Decidable (a ≤ b)]
    (res : Resources F) (gpu : GPUResource F) (lim : Limits F) (gl : GPULimit F)
    (hg : res.GPU = some gpu) (hl : lim.GPULimit = some gl) (hempty : gl.GPU = ∅) :
    (ResourcesMeetLimits (some res) (some lim)).isSome = true := by
  unfold ResourcesMeetLimits
  simp only
  rw [NewAggregate_isSome]
  unfold limitErrs
  simp only [hg, hl, ne_eq, List.append_eq_nil, not_and_or]
  right
  unfold gpuLimitErrs
  by_cases hty : gpu.Type_ = ""
  · simp [hty, hempty, GoMap.values_empty]
  · simp [hty, hempty, GoMap.lookup_empty]

theorem ResourcesMeetLimits_null_gpu {F : Type} [LT F] [LE F]
    [∀ a b : F, Decidable (a < b)] [∀ a b : F, Decidable (a ≤ b)]
    (task : TaskInfo F) (limits : Option (Limits F))
    (hl : ∀ lim, limits = some lim → lim.GPULimit = none) :
    ResourcesMeetLimits task.Resources limits =
      ResourcesMeetLimits task.withoutGPU.Resources limits := by
  unfold TaskInfo.withoutGPU
  cases limits with
  | none =>
    cases task.Resources with
    | none => rfl
    | some res => rfl
  | some lim =>
    have hn := hl lim rfl
    cases task.Resources with
    | none => rfl
    | some res =>
      simp only [Option.map_some']
      unfold ResourcesMeetLimits limitErrs
      simp only [hn]
      cases res.GPU with
      | none => rfl
      | some gpu => rfl

end utils

/-- C14: for a task whose GPU request is present with a positive count, and occupied GPU
totals that are not negative, a non-null GPU map without entries makes
`clustercapacity.Filter`, `checkQuota` and `ResourcesMeetLimits` each return an error;
with a null GPUCapacity, GPUQuota or GPULimit each of them returns what it returns for
the same task without its GPU request. The only fact about float64 that is used is that
the sum of a non-negative and a positive number is positive. -/
theorem empty_gpu_map_rejects {F : Type} [Zero F] [Add F] [LT F] [LE F]
    [∀ a b : F, Decidable (a < b)] [∀ a b : F, Decidable (a ≤ b)]
    (task : TaskInfo F) (res : Resources F) (gpu : GPUResource F)
    (hadd : ∀ a b : F, ¬ a < 0 → 0 < b → 0 < a + b)
    (hr : task.Resources = some res) (hg : res.GPU = some gpu) (hpos : 0 < gpu.Count) :
    (∀ (d : data F) (cluster : ClusterInfo F) (cycleState : CycleState F) (cap : Capacity F)
        (g : GPUCapacity F),
      cluster.Capacity = some cap → cap.GPUCapacity = some g → g.GPU = ∅ →
      ¬ clustercapacity.occupiedGPUCount (ListTasks d cluster.ID) < 0 →
      (clustercapacity.Filter d task cluster cycleState).1.isSome = true) ∧
    (∀ (quota : ResourceQuota F) (g : GPUQuota F) (scheduledTasks : List (TaskInfo F))
        (f : TaskInfo F → Bool),
      quota.GPUQuota = some g → g.GPU = ∅ →
      ¬ clustercapacity.occupiedGPUCount (scheduledTasks.filter f) < 0 →
      (resourcequota.checkQuota (some quota) task scheduledTasks f).isSome = true) ∧
    (∀ (lim : Limits F) (gl : GPULimit F),
      lim.GPULimit = some gl → gl.GPU = ∅ →
      (utils.ResourcesMeetLimits task.Resources (some lim)).isSome = true) ∧
    (∀ (d : data F) (cluster : ClusterInfo F) (cycleState : CycleState F),
      (∀ cap, cluster.Capacity = some cap → cap.GPUCapacity = none) →
      clustercapacity.Filter d task cluster cycleState =
        clustercapacity.Filter d task.withoutGPU cluster cycleState) ∧
    (∀ (quota : Option (ResourceQuota F)) (scheduledTasks : List (TaskInfo F))
        (f : TaskInfo F → Bool),
      (∀ q, quota = some q → q.GPUQuota = none) →
      resourcequota.checkQuota quota task scheduledTasks f =
        resourcequota.checkQuota quota task.withoutGPU scheduledTasks f) ∧
    (∀ (limits : Option (Limits F)),
      (∀ lim, limits = some lim → lim.GPULimit = none) →
      utils.ResourcesMeetLimits task.Resources limits =
        utils.ResourcesMeetLimits task.withoutGPU.Resources limits) := by
  refine ⟨?_, ?_, ?_, ?_, ?_, ?_⟩
  · intro d cluster cycleState cap g hc hcg hempty hocc
    exact clustercapacity.Filter_empty_gpu_map hadd d task cluster cycleState cap g res gpu
      hc hcg hempty hr hg hpos hocc
  · intro quota g scheduledTasks f hq hempty hocc
    exact resourcequota.checkQuota_empty_gpu_map hadd quota g task res gpu scheduledTasks f
      hq hempty hr hg hpos hocc
  · intro lim gl hl hempty
    rw [hr]
    exact utils.ResourcesMeetLimits_empty_gpu_map res gpu lim gl hg hl hempty
  · intro d cluster cycleState hcg
    exact clustercapacity.Filter_null_gpu d task cluster cycleState hcg
  · intro quota scheduledTasks f hq
    exact resourcequota.checkQuota_null_gpu quota task scheduledTasks f hq
  · intro limits hl
    exact utils.ResourcesMeetLimits_null_gpu task limits hl

theorem empty_gpu_map_rejects_witness :
    (clustercapacity.Filter emptyData (gpuTask "task-0000" "" "type1" 1) emptyGPUCluster
      ∅).1.isSome = true :=
  (empty_gpu_map_rejects (gpuTask "task-0000" "" "type1" 1) _ _
    (fun _ _ ha hb => add_pos_of_nonneg_of_pos (not_lt.mp ha) hb) rfl rfl
    (by norm_num [gpuTask])).1 emptyData emptyGPUCluster ∅ emptyGPUCapacity _ rfl rfl rfl
    (lt_irrefl (0 : ℚ))

namespace clustercapacity

theorem capacityExceeded_split {F : Type} [Zero F] [Add F] [LT F]
    (cap : Capacity F) (g : GPUCapacity F) (task : TaskInfo F) (res : Resources F)
    (gpu : GPUResource F) (scheduled : List (TaskInfo F))
    (hcg : cap.GPUCapacity = some g) (hr : task.Resources = some res)
    (hg : res.GPU = some gpu) :
    capacityExceeded cap task scheduled ↔
      capacityExceeded { cap with GPUCapacity := none } task scheduled ∨
      gpuRuleViolated g gpu scheduled := by
  unfold capacityExceeded
  simp only [hcg, hr, hg, Option.some.injEq, exists_eq_left', reduceCtorEq, false_and,
    exists_false, or_false, exists_and_left]
  constructor
  · rintro (h | h | h | h | h)
    · exact Or.inl (Or.inl h)
    · exact Or.inl (Or.inr (Or.inl h))
    · exact Or.inl (Or.inr (Or.inr (Or.inl h)))
    · exact Or.inl (Or.inr (Or.inr (Or.inr h)))
    · exact Or.inr h
  · rintro ((h | h | h | h) | h)
    · exact Or.inl h
    · exact Or.inr (Or.inl h)
    · exact Or.inr (Or.inr (Or.inl h))
    · exact Or.inr (Or.inr (Or.inr (Or.inl h)))
    · exact Or.inr (Or.inr (Or.inr (Or.inr h)))

theorem not_gpuRuleViolated_iff {F : Type} [Zero F] [Add F] [LinearOrder F]
    (g : GPUCapacity F) (gpu : GPUResource F) (scheduled : List (TaskInfo F)) :
    ¬ gpuRuleViolated g gpu scheduled ↔
      (occupiedGPUCount scheduled + gpu.Count ≤ sumGPUCountCapacity g ∧
       (gpu.Type_ ≠ "" → ∃ c, g.GPU.lookup gpu.Type_ = some c ∧
          occupiedGPUOfType scheduled gpu.Type_ + gpu.Count ≤ c)) := by
  unfold gpuRuleViolated
  rw [not_or, not_lt]
  refine and_congr Iff.rfl ?_
  by_cases hty : gpu.Type_ = ""
  · simp [hty]
  · simp only [ne_eq, hty, not_false_eq_true, true_and, true_implies]
    cases g.GPU.lookup gpu.Type_ with
    | none => simp
    | some c => simp

theorem Filter_eq_none_iff_not_isSome {F : Type} (o : Option (GoError F)) :
    o = none ↔ ¬ o.isSome = true := by
  cases o with
  | none => simp
  | some e => simp

/-- C15: for a candidate with a GPU request on a cluster with a non-null GPUCapacity,
`Filter` accepts exactly when no other dimension is exceeded and (a) the sum of all
per-type capacities (the values of all entries of the capacity map, added in iteration
order) is at least the total GPU count of the tasks assigned to the cluster plus the
requested count and (b) if the candidate names a GPU type, that type is in the capacity
map with a capacity that is at least the GPU count of the assigned tasks naming that type
plus the requested count; so a request is rejected when the total pool is exhausted,
whatever its type. Under the laws of exact addition the sum of (a) is the sum of the list
of capacities. The order of float64 is taken to be linear (no NaN). -/
theorem Filter_gpu_accepts_iff {F : Type} [Zero F] [Add F] [LinearOrder F]
    [∀ a b : F, Decidable (a < b)]
    (d : data F) (task : TaskInfo F) (cluster : ClusterInfo F) (cycleState : CycleState F)
    (cap : Capacity F) (g : GPUCapacity F) (res : Resources F) (gpu : GPUResource F)
    (hc : cluster.Capacity = some cap) (hcg : cap.GPUCapacity = some g)
    (hr : task.Resources = some res) (hg : res.GPU = some gpu) :
    ((Filter d task cluster cycleState).1 = none ↔
      (¬ capacityExceeded { cap with GPUCapacity := none } task (ListTasks d cluster.ID) ∧
       occupiedGPUCount (ListTasks d cluster.ID) + gpu.Count ≤ sumOfEntries g.GPU ∧
       (gpu.Type_ ≠ "" → ∃ c, g.GPU.lookup gpu.Type_ = some c ∧
          occupiedGPUOfType (ListTasks d cluster.ID) gpu.Type_ + gpu.Count ≤ c))) ∧
    (sumOfEntries g.GPU < occupiedGPUCount (ListTasks d cluster.ID) + gpu.Count →
      (Filter d task cluster cycleState).1.isSome = true) ∧
    ((∀ a : F, 0 + a = a) → (∀ a : F, a + 0 = a) →
      (∀ a b c : F, a + b + c = a + (b + c)) →
      sumOfEntries g.GPU = (g.GPU.entries.map (fun e => e.2)).sum) := by
  have hsum : sumGPUCountCapacity g = sumOfEntries g.GPU := rfl
  have key := Filter_isSome_iff d task cluster cycleState cap hc
  rw [capacityExceeded_split cap g task res gpu _ hcg hr hg] at key
  refine ⟨?_, fun h => key.mpr (Or.inr (Or.inl ?_)), fun h0 h1 hassoc =>
    foldl_add_eq_sum h0 h1 hassoc _⟩
  · rw [Filter_eq_none_iff_not_isSome, key, not_or, not_gpuRuleViolated_iff, hsum]
  · rw [hsum]
    exact h

theorem typedGPU_list : ListTasks typedGPUData "cluster-01" =
    [gpuTask "task-exist-02" "cluster-01" "" 9, gpuTask "task-exist-01" "cluster-01" "type1" 1] := by
  decide

theorem typedGPU_requests : gpuRequests (ListTasks typedGPUData "cluster-01") =
    [{ Count := 9, Type_ := "" }, { Count := 1, Type_ := "type1" }] := by
  rw [typedGPU_list]
  rfl

theorem typedGPU_values :
    GoMap.values ((∅ : GoMap String ℚ).insert "type1" 5 |>.insert "type2" 5) = [5, 5] := rfl

theorem typedGPU_entries :
    ((((∅ : GoMap String ℚ).insert "type1" 5 |>.insert "type2" 5).entries).map
      (fun e => e.2)) = [5, 5] := rfl

theorem Filter_gpu_accepts_iff_witness :
    (Filter emptyData (gpuTask "task-0000" "" "" 8) typedGPUCluster ∅).1 = none ∧
    occupiedGPUOfType (ListTasks typedGPUData typedGPUCluster.ID) "type1" + 1 ≤ (5 : ℚ) ∧
    (Filter typedGPUData (gpuTask "task-0000" "" "type1" 1) typedGPUCluster ∅).1.isSome = true :=
  ⟨(Filter_gpu_accepts_iff emptyData (gpuTask "task-0000" "" "" 8) typedGPUCluster ∅
      typedGPUCapacity _ _ _ rfl rfl rfl rfl).1.mpr
      ⟨by
        unfold capacityExceeded
        simp [typedGPUCapacity, gpuTask],
       by
        unfold occupiedGPUCount sumOfEntries
        rw [show ListTasks emptyData typedGPUCluster.ID = [] from rfl, typedGPU_entries]
        norm_num [gpuRequests, gpuTask],
       fun h => absurd rfl h⟩,
   by
    unfold occupiedGPUOfType
    rw [show typedGPUCluster.ID = "cluster-01" from rfl, typedGPU_requests,
      show List.filter (fun gpu : GPUResource ℚ => decide (gpu.Type_ = "type1"))
        [{ Count := 9, Type_ := "" }, { Count := 1, Type_ := "type1" }] =
        [{ Count := 1, Type_ := "type1" }] from rfl]
    norm_num,
   (Filter_gpu_accepts_iff typedGPUData (gpuTask "task-0000" "" "type1" 1) typedGPUCluster ∅
    typedGPUCapacity _ _ _ rfl rfl rfl rfl).2.1 (by
      unfold occupiedGPUCount sumOfEntries
      rw [show typedGPUCluster.ID = "cluster-01" from rfl, typedGPU_requests, typedGPU_entries]
      norm_num [gpuTask])⟩

end clustercapacity

/-! ## Theorems: ClusterCapacity.Score -/

namespace clustercapacity

theorem deposit_holds {F : Type} (cycleState : CycleState F) (t : totals F) :
    HoldsTotals (deposit cycleState t) t := by
  unfold HoldsTotals deposit cycleInt cycleFloat64 cycleMap
  refine ⟨?_, ?_, ?_, ?_, ?_, ?_⟩ <;>
    simp [AList.lookup_insert, AList.lookup_insert_ne, totalCountKey, totalCPUCoreKey,
      totalRamGBKey, totalDiskGBKey, totalGPUCountKey, totalGPUKey]

theorem gpuScore_holds {F : Type} [Zero F] [Add F] [Sub F] [Mul F] [Div F] [LT F] [BEq F]
    [∀ a b : F, Decidable (a < b)] [Float64Conv F]
    (g : GPUCapacity F) (gpu : GPUResource F) (cycleState : CycleState F) (t : totals F)
    (h : HoldsTotals cycleState t) :
    gpuScore g gpu cycleState = some (gpuRequestScore g gpu t) := by
  obtain ⟨_, _, _, _, h5, h6⟩ := h
  unfold gpuScore gpuRequestScore
  by_cases hty : gpu.Type_ = ""
  · simp [hty, h5]
  · simp [hty, h6]

theorem resourceScores_holds {F : Type} [Zero F] [Add F] [Sub F] [Mul F] [Div F] [LT F]
    [BEq F] [∀ a b : F, Decidable (a < b)] [Float64Conv F]
    (cap : Capacity F) (res : Resources F) (cycleState : CycleState F) (t : totals F)
    (h : HoldsTotals cycleState t) (a : Int × Int) :
    resourceScores cap res cycleState (some a) =
      some (([cpuDimension cap res t, ramDimension cap res t, diskDimension cap res t,
        gpuDimension cap res t].reduceOption).foldl addScore a) := by
  have hgpu := fun g gpu => gpuScore_holds g gpu cycleState t h
  obtain ⟨_, h2, h3, h4, _, _⟩ := h
  unfold resourceScores cpuDimension ramDimension diskDimension gpuDimension
  simp only [h2, h3, h4, hgpu]
  cases cap.CPUCores <;> cases cap.RamGB <;> cases cap.DiskGB <;> cases cap.GPUCapacity <;>
    cases res.GPU <;> simp [List.reduceOption] <;> split_ifs <;> simp

theorem Score_holds {F : Type} [Zero F] [Add F] [Sub F] [Mul F] [Div F] [LT F]
    [BEq F] [∀ a b : F, Decidable (a < b)] [Float64Conv F]
    (task : TaskInfo F) (cluster : ClusterInfo F) (cycleState : CycleState F)
    (cap : Capacity F) (t : totals F) (hc : cluster.Capacity = some cap)
    (h : HoldsTotals cycleState t) :
    Score task cluster cycleState =
      some (if ((dimensionScores cap task t).foldl addScore (0, 0)).2 = 0 then plugin.MaxScore
        else Int.tdiv ((dimensionScores cap task t).foldl addScore (0, 0)).1
          ((dimensionScores cap task t).foldl addScore (0, 0)).2) := by
  have hres := fun res a => resourceScores_holds cap res cycleState t h a
  obtain ⟨h1, _, _, _, _, _⟩ := h
  unfold Score dimensionScores countDimension
  simp only [hc, h1]
  cases cap.Count with
  | none =>
    cases task.Resources with
    | none => simp [List.reduceOption]
    | some res => simp [List.reduceOption, hres]
  | some c =>
    cases task.Resources with
    | none => simp [List.reduceOption]
    | some res => simp [List.reduceOption, hres]

theorem foldl_addScore {l : List Int} :
    ∀ (acc : Int × Int),
      (∀ x ∈ l, -1152921504606846976 ≤ x ∧ x ≤ 1152921504606846976) →
      0 ≤ acc.2 → acc.2 + l.length < 9223372036854775808 →
      -9223372036854775808 ≤ acc.1 - 1152921504606846976 * l.length →
      acc.1 + 1152921504606846976 * l.length < 9223372036854775808 →
      l.foldl addScore acc = (acc.1 + l.sum, acc.2 + l.length) := by
  induction l with
  | nil => intro acc _ _ _ _ _; simp
  | cons x rest ih =>
    intro acc hb h0 h1 h2 h3
    have hx := hb x (List.mem_cons_self x rest)
    simp only [List.length_cons, Nat.cast_add, Nat.cast_one] at h1 h2 h3
    have e1 : wrapInt64 (acc.1 + x) = acc.1 + x := wrapInt64_of_range _ (by omega) (by omega)
    have e2 : wrapInt64 (acc.2 + 1) = acc.2 + 1 := wrapInt64_of_range _ (by omega) (by omega)
    simp only [List.foldl_cons, addScore, e1, e2]
    rw [ih (acc.1 + x, acc.2 + 1) (fun y hy => hb y (List.mem_cons_of_mem x hy))
      (by simp only; omega) (by simp only; omega) (by simp only; omega) (by simp only; omega)]
    simp only [List.sum_cons, List.length_cons, Nat.cast_add, Nat.cast_one, Prod.mk.injEq]
    omega

theorem dimensionScores_length_le {F : Type} [Zero F] [Add F] [Sub F] [Mul F] [Div F] [LT F]
    [BEq F] [∀ a b : F, Decidable (a < b)] [Float64Conv F]
    (cap : Capacity F) (task : TaskInfo F) (t : totals F) :
    (dimensionScores cap task t).length ≤ 5 := by
  unfold dimensionScores
  refine le_trans (List.reduceOption_length_le _) ?_
  cases task.Resources with
  | none => simp
  | some res => simp

theorem Score_eq_mean {F : Type} [Zero F] [Add F] [Sub F] [Mul F] [Div F] [LT F]
    [BEq F] [∀ a b : F, Decidable (a < b)] [Float64Conv F]
    (task : TaskInfo F) (cluster : ClusterInfo F) (cycleState : CycleState F)
    (cap : Capacity F) (t : totals F) (hc : cluster.Capacity = some cap)
    (h : HoldsTotals cycleState t)
    (hb : ∀ x ∈ dimensionScores cap task t,
      -1152921504606846976 ≤ x ∧ x ≤ 1152921504606846976) :
    Score task cluster cycleState = some (truncatedMean (dimensionScores cap task t)) := by
  have hlen := dimensionScores_length_le cap task t
  rw [Score_holds task cluster cycleState cap t hc h,
    foldl_addScore (0, 0) hb (le_refl 0) (by simp only; omega) (by simp only; omega)
      (by simp only; omega)]
  unfold truncatedMean plugin.MaxScore
  simp only [zero_add]
  by_cases hl : (dimensionScores cap task t).length = 0
  · simp [hl]
  · have : ((dimensionScores cap task t).length : Int) ≠ 0 := by omega
    simp [hl, this]

theorem Score_no_dimension {F : Type} [Zero F] [Add F] [Sub F] [Mul F] [Div F] [LT F]
    [BEq F] [∀ a b : F, Decidable (a < b)] [Float64Conv F]
    (task : TaskInfo F) (cluster : ClusterInfo F) (cycleState : CycleState F)
    (cap : Capacity F) (t : totals F) (hc : cluster.Capacity = some cap)
    (hd : dimensionScores cap task t = []) :
    Score task cluster cycleState = some 100 := by
  unfold dimensionScores countDimension at hd
  unfold Score
  simp only [hc]
  cases hcount : cap.Count with
  | some c => simp [hcount, List.reduceOption] at hd
  | none =>
    cases hr : task.Resources with
    | none => simp [plugin.MaxScore]
    | some res =>
      simp only [hcount, hr, Option.map_none', List.reduceOption_cons_of_none] at hd
      unfold cpuDimension ramDimension diskDimension gpuDimension at hd
      unfold resourceScores
      cases hcpu : cap.CPUCores <;> cases hram : cap.RamGB <;> cases hdisk : cap.DiskGB <;>
        cases hg : cap.GPUCapacity <;> cases hgpu : res.GPU <;>
        simp [-not_lt, hcpu, hram, hdisk, hg, hgpu, List.reduceOption] at hd <;>
        simp [-not_lt, hd, hcpu, hram, hdisk, hg, hgpu, plugin.MaxScore]

theorem Filter_accept_holds {F : Type} [Zero F] [Add F] [LT F] [∀ a b : F, Decidable (a < b)]
    (d : data F) (task : TaskInfo F) (cluster : ClusterInfo F) (cycleState : CycleState F)
    (cap : Capacity F) (hc : cluster.Capacity = some cap)
    (hacc : (Filter d task cluster cycleState).1 = none) :
    (Filter d task cluster cycleState).2 =
      deposit cycleState (totals.of (ListTasks d cluster.ID)) := by
  unfold Filter at hacc ⊢
  rw [hc] at hacc ⊢
  simp only at hacc ⊢
  cases he : NewAggregate (errs cap task (totals.of (ListTasks d cluster.ID))) with
  | none => rfl
  | some err =>
    rw [he] at hacc
    cases hacc

/-- C18 (amended): `ClusterCapacity.Score` returns 100 when the capacity of the cluster is
null or when no dimension is evaluated; otherwise, on a cycle state that holds the totals
`t` (as the cycle state left by an accepting `Filter` does, for the tasks assigned to the
cluster), it returns the integer-truncated arithmetic mean of `dimensionScores`: the
least-requested scores of Count when its capacity is non-null, of CPU, RAM and disk when
the capacity is non-null and the request of the task is positive, and of GPU when the GPU
capacity is non-null and the task carries a GPU request, whatever its count. The scores
are taken to be of a size whose sum fits a Go int64. -/
theorem Score_mean {F : Type} [Zero F] [Add F] [Sub F] [Mul F] [Div F] [LT F]
    [BEq F] [∀ a b : F, Decidable (a < b)] [Float64Conv F]
    (task : TaskInfo F) (cluster : ClusterInfo F) (cycleState : CycleState F) :
    (cluster.Capacity = none → Score task cluster cycleState = some 100) ∧
    (∀ (cap : Capacity F) (t : totals F), cluster.Capacity = some cap →
      dimensionScores cap task t = [] → Score task cluster cycleState = some 100) ∧
    (∀ (cap : Capacity F) (t : totals F), cluster.Capacity = some cap →
      HoldsTotals cycleState t →
      (∀ x ∈ dimensionScores cap task t,
        -1152921504606846976 ≤ x ∧ x ≤ 1152921504606846976) →
      Score task cluster cycleState = some (truncatedMean (dimensionScores cap task t))) ∧
    (∀ (d : data F) (cap : Capacity F) (cycleState0 : CycleState F),
      cluster.Capacity = some cap → (Filter d task cluster cycleState0).1 = none →
      HoldsTotals (Filter d task cluster cycleState0).2 (totals.of (ListTasks d cluster.ID))) := by
  refine ⟨?_, ?_, ?_, ?_⟩
  · intro hc
    unfold Score
    rw [hc]
    rfl
  · intro cap t hc hd
    exact Score_no_dimension task cluster cycleState cap t hc hd
  · intro cap t hc h hb
    exact Score_eq_mean task cluster cycleState cap t hc h hb
  · intro d cap cycleState0 hc hacc
    rw [Filter_accept_holds d task cluster cycleState0 cap hc hacc]
    exact deposit_holds _ _

theorem leastRequestedScore_eval (requested capacity : ℚ) (hc : 0 < capacity)
    (hr : requested ≤ capacity) :
    leastRequestedScore requested capacity = ⌊(capacity - requested) / capacity * 100⌋ := by
  rw [leastRequestedScore_formula requested capacity (by
    push_neg
    exact ⟨ne_of_gt hc, hr⟩)]
  have h0 : 0 ≤ (capacity - requested) / capacity * 100 :=
    mul_nonneg (div_nonneg (sub_nonneg.mpr hr) (le_of_lt hc)) (by norm_num)
  simp [h0]

theorem scenario_totals : totals.of (ListTasks scenarioData "cluster-01") =
    { totalCount := 2, totalCPUCores := 2, totalRamGB := 4, totalDiskGB := 20,
      totalGPUCount := 0, totalGPU := ∅ } := by
  rw [scenario_list]
  simp only [totals.of, List.foldl, totals.step, totals.init, smallTask]
  norm_num [wrapInt64]

theorem scenario_dimensions :
    dimensionScores scenarioCapacity (smallTask "task-0003" "")
      (totals.of (ListTasks scenarioData "cluster-01")) = [70, 70, 70, 70] := by
  rw [scenario_totals]
  simp only [dimensionScores, countDimension, cpuDimension, ramDimension, diskDimension,
    gpuDimension, scenarioCapacity, smallTask, Option.map_some', Option.some_bind,
    Option.none_bind, List.reduceOption_cons_of_some, List.reduceOption_cons_of_none,
    List.reduceOption_nil, Float64Conv.ofInt]
  norm_num [wrapInt64]
  refine ⟨?_, ?_, ?_⟩ <;>
    (rw [leastRequestedScore_eval _ _ (by norm_num) (by norm_num)]; norm_num)

theorem Score_mean_witness :
    Score (smallTask "task-0003" "") scenarioCluster
      (Filter scenarioData (smallTask "task-0003" "") scenarioCluster ∅).2 = some 70 := by
  have h := Score_mean (smallTask "task-0003" "") scenarioCluster
    (Filter scenarioData (smallTask "task-0003" "") scenarioCluster ∅).2
  have hacc : (Filter scenarioData (smallTask "task-0003" "") scenarioCluster ∅).1 = none := by
    have := Filter_accepts_small
    cases hf : (Filter scenarioData (smallTask "task-0003" "") scenarioCluster ∅).1 with
    | none => rfl
    | some e => rw [hf] at this; cases this
  have hholds := (Score_mean (smallTask "task-0003" "") scenarioCluster ∅).2.2.2
    scenarioData scenarioCapacity ∅ rfl hacc
  rw [h.2.2.1 scenarioCapacity _ rfl hholds (by
    rw [show scenarioCluster.ID = "cluster-01" from rfl, scenario_dimensions]
    decide)]
  rw [show scenarioCluster.ID = "cluster-01" from rfl, scenario_dimensions]
  rfl

theorem halfGPU_list : ListTasks halfGPUData "cluster-01" =
    [gpuTask "task-exist-01" "cluster-01" "" 5] := by
  decide

theorem halfGPU_totals : totals.of (ListTasks halfGPUData "cluster-01") =
    { totalCount := 1, totalCPUCores := 0, totalRamGB := 0, totalDiskGB := 0,
      totalGPUCount := 5, totalGPU := ∅ } := by
  rw [halfGPU_list]
  simp only [totals.of, List.foldl, totals.step, totals.init, gpuTask]
  norm_num [wrapInt64]

theorem halfGPU_accepts :
    (Filter halfGPUData zeroGPUCandidate typedGPUCluster ∅).1 = none := by
  rw [Filter_eq_none_iff_not_isSome,
    Filter_isSome_iff halfGPUData zeroGPUCandidate typedGPUCluster ∅ typedGPUCapacity rfl,
    capacityExceeded_split typedGPUCapacity _ zeroGPUCandidate _ _ _ rfl rfl rfl, not_or,
    not_gpuRuleViolated_iff, show typedGPUCluster.ID = "cluster-01" from rfl, halfGPU_list]
  refine ⟨?_, ?_, fun h => absurd rfl h⟩
  · simp [capacityExceeded, typedGPUCapacity]
  · unfold occupiedGPUCount sumGPUCountCapacity
    rw [typedGPU_values,
      show gpuRequests [gpuTask "task-exist-01" "cluster-01" "" 5] =
        [{ Count := 5, Type_ := "" }] from rfl]
    norm_num

/-- C18 (counterexample): on a cluster whose only capacity is ten GPUs, five of them in
use, a candidate that carries a GPU request for zero GPUs is accepted by `Filter` and
scored 50 by `Score`, although no dimension has both a non-null capacity and a positive
request, for which the claim gives 100. -/
theorem Score_zero_gpu_request :
    (Filter halfGPUData zeroGPUCandidate typedGPUCluster ∅).1 = none ∧
    Score zeroGPUCandidate typedGPUCluster
      (Filter halfGPUData zeroGPUCandidate typedGPUCluster ∅).2 = some 50 ∧
    claimedDimensionScores typedGPUCapacity zeroGPUCandidate
      (totals.of (ListTasks halfGPUData typedGPUCluster.ID)) = [] ∧
    truncatedMean (claimedDimensionScores typedGPUCapacity zeroGPUCandidate
      (totals.of (ListTasks halfGPUData typedGPUCluster.ID))) = 100 := by
  have hclaimed : claimedDimensionScores typedGPUCapacity zeroGPUCandidate
      (totals.of (ListTasks halfGPUData typedGPUCluster.ID)) = [] := by
    simp [claimedDimensionScores, countDimension, cpuDimension, ramDimension, diskDimension,
      claimedGPUDimension, typedGPUCapacity, zeroGPUCandidate, gpuTask, List.reduceOption]
  have hdims : dimensionScores typedGPUCapacity zeroGPUCandidate
      (totals.of (ListTasks halfGPUData "cluster-01")) = [50] := by
    rw [halfGPU_totals]
    simp only [dimensionScores, countDimension, cpuDimension, ramDimension, diskDimension,
      gpuDimension, gpuRequestScore, sumGPUCountCapacity, typedGPUCapacity, zeroGPUCandidate,
      gpuTask, typedGPU_values, Option.map_some', Option.map_none', Option.some_bind,
      Option.none_bind, List.reduceOption_cons_of_some, List.reduceOption_cons_of_none,
      List.reduceOption_nil, List.foldl, if_true]
    norm_num
    rw [leastRequestedScore_eval _ _ (by norm_num) (by norm_num)]
    norm_num
  refine ⟨halfGPU_accepts, ?_, hclaimed, ?_⟩
  · rw [Filter_accept_holds halfGPUData zeroGPUCandidate typedGPUCluster ∅ typedGPUCapacity rfl
        halfGPU_accepts,
      Score_eq_mean zeroGPUCandidate typedGPUCluster _ typedGPUCapacity _ rfl
        (deposit_holds _ _) (by
          rw [show typedGPUCluster.ID = "cluster-01" from rfl, hdims]
          decide),
      show typedGPUCluster.ID = "cluster-01" from rfl, hdims]
    rfl
  · rw [hclaimed]
    rfl

end clustercapacity

/-! ## Theorems: isFinished, Less and MatchTask, Options.Validate -/

theorem isFinished_eq_false_iff (state : String) :
    isFinished state = false ↔
      state = "QUEUED" ∨ state = "INITIALIZING" ∨ state = "RUNNING" ∨ state = "CANCELING" := by
  simp only [isFinished, nonFinishedStates, consts.TaskQueued, consts.TaskInitializing,
    consts.TaskRunning, consts.TaskCanceling, List.any_cons, List.any_nil, Bool.or_false,
    Bool.not_eq_false', Bool.or_eq_true, beq_iff_eq]

/-- C29: `isFinished` is false exactly for the four states QUEUED, INITIALIZING, RUNNING
and CANCELING and true for every other string, in particular for COMPLETE, SYSTEM_ERROR,
EXECUTOR_ERROR and CANCELED. -/
theorem isFinished_partition (state : String) :
    (isFinished state = false ↔
      state = "QUEUED" ∨ state = "INITIALIZING" ∨ state = "RUNNING" ∨ state = "CANCELING") ∧
    (isFinished state = true ↔
      ¬ (state = "QUEUED" ∨ state = "INITIALIZING" ∨ state = "RUNNING" ∨
        state = "CANCELING")) ∧
    isFinished consts.TaskComplete = true ∧ isFinished consts.TaskSystemError = true ∧
    isFinished consts.TaskExecutorError = true ∧ isFinished consts.TaskCanceled = true ∧
    consts.TaskComplete = "COMPLETE" ∧ consts.TaskSystemError = "SYSTEM_ERROR" ∧
    consts.TaskExecutorError = "EXECUTOR_ERROR" ∧ consts.TaskCanceled = "CANCELED" := by
  have h := isFinished_eq_false_iff state
  refine ⟨h, ?_, by decide, by decide, by decide, by decide, rfl, rfl, rfl, rfl⟩
  rw [← h]
  cases isFinished state <;> simp

theorem matchingBoosts_cons {F : Type} (ep : ExtraPriorityInfo)
    (rest : List ExtraPriorityInfo) (task : TaskInfo F) :
    matchingBoosts (ep :: rest) task =
      if ep.MatchTask task = true then ep.ExtraPriorityValue :: matchingBoosts rest task
      else matchingBoosts rest task := by
  unfold matchingBoosts
  by_cases hm : ep.MatchTask task = true
  · simp [List.filter_cons, hm]
  · simp [List.filter_cons, hm]

theorem effectivePriority_fold {F : Type} (eps : List ExtraPriorityInfo) (task : TaskInfo F)
    (value : Int)
    (hfit : ∀ k : Nat,
      -9223372036854775808 ≤ value + (matchingBoosts (eps.take k) task).sum ∧
      value + (matchingBoosts (eps.take k) task).sum < 9223372036854775808) :
    eps.foldl (fun value ep =>
        if ep.MatchTask task then wrapInt64 (value + ep.ExtraPriorityValue) else value) value =
      value + (matchingBoosts eps task).sum := by
  induction eps generalizing value with
  | nil => simp [matchingBoosts]
  | cons ep rest ih =>
    have h1 := hfit 1
    simp only [List.take_succ_cons, List.take_zero, matchingBoosts_cons] at h1
    simp only [List.foldl_cons, matchingBoosts_cons]
    by_cases hm : ep.MatchTask task = true
    · simp only [hm, if_true, matchingBoosts, List.filter_nil, List.map_nil, List.sum_cons,
        List.sum_nil, add_zero] at h1
      rw [if_pos hm, if_pos hm, wrapInt64_of_range _ h1.1 h1.2, ih]
      · simp only [List.sum_cons]
        omega
      · intro k
        have hk := hfit (k + 1)
        simp only [List.take_succ_cons, matchingBoosts_cons, if_pos hm, List.sum_cons] at hk
        omega
    · rw [if_neg hm, if_neg hm, ih]
      intro k
      have hk := hfit (k + 1)
      simp only [List.take_succ_cons, matchingBoosts_cons, if_neg hm] at hk
      exact hk

theorem effectivePriority_eq_sum {F : Type} (eps : List ExtraPriorityInfo) (task : TaskInfo F)
    (hfit : BoostsFit eps task) :
    effectivePriority eps task = task.PriorityValue + (matchingBoosts eps task).sum :=
  effectivePriority_fold eps task task.PriorityValue hfit

theorem wrapInt64_range (x : Int) :
    -9223372036854775808 ≤ wrapInt64 x ∧ wrapInt64 x < 9223372036854775808 := by
  unfold wrapInt64
  omega

theorem effectivePriority_fold_wrap {F : Type} (eps : List ExtraPriorityInfo)
    (task : TaskInfo F) (value : Int) (h1 : -9223372036854775808 ≤ value)
    (h2 : value < 9223372036854775808) :
    eps.foldl (fun value ep =>
        if ep.MatchTask task then wrapInt64 (value + ep.ExtraPriorityValue) else value) value =
      wrapInt64 (value + (matchingBoosts eps task).sum) := by
  induction eps generalizing value with
  | nil =>
    simp only [List.foldl_nil, matchingBoosts, List.filter_nil, List.map_nil, List.sum_nil,
      add_zero]
    exact (wrapInt64_of_range value h1 h2).symm
  | cons ep rest ih =>
    simp only [List.foldl_cons, matchingBoosts_cons]
    by_cases hm : ep.MatchTask task = true
    · rw [if_pos hm, if_pos hm, ih _ (wrapInt64_range _).1 (wrapInt64_range _).2,
        wrapInt64_add_left, List.sum_cons, add_assoc]
    · rw [if_neg hm, if_neg hm, ih _ h1 h2]

theorem effectivePriority_eq_wrap {F : Type} (eps : List ExtraPriorityInfo)
    (task : TaskInfo F) (h1 : -9223372036854775808 ≤ task.PriorityValue)
    (h2 : task.PriorityValue < 9223372036854775808) :
    effectivePriority eps task =
      wrapInt64 (task.PriorityValue + (matchingBoosts eps task).sum) :=
  effectivePriority_fold_wrap eps task task.PriorityValue h1 h2

/-- C21 (counterexample): with a rule that gives the tasks of account-01 a boost of 100,
a task of that account whose `PriorityValue` is the largest Go int has, by the formula of
the claim, a greater effective priority than a task with `PriorityValue` 0 and no boost;
yet `Less` is false for the pair and true for the swapped pair: the addition of the boost
wraps, and the task is sorted last. -/
theorem Less_wraps_at_max_int :
    maxPriorityTask.PriorityValue + (matchingBoosts accountBoost maxPriorityTask).sum >
      (bareTask "task-02" consts.TaskQueued).PriorityValue +
        (matchingBoosts accountBoost (bareTask "task-02" consts.TaskQueued)).sum ∧
    prioritysort.Less accountBoost maxPriorityTask (bareTask "task-02" consts.TaskQueued)
      = false ∧
    prioritysort.Less accountBoost (bareTask "task-02" consts.TaskQueued) maxPriorityTask
      = true := by
  decide

/-- C21 (amended): for every snapshot of extra priorities and all tasks a and b (whose
`PriorityValue` is a Go int), `Less a b` holds exactly when eff(a) > eff(b), or
eff(a) = eff(b) and a was created strictly before b, where eff(t) is `PriorityValue` plus
the sum of `ExtraPriorityValue` over the rules that match t, reduced to the range of a
64-bit Go int by two's complement wrap-around. When the two sums lie within that range,
eff(t) is the sum itself. -/
theorem Less_iff_effective {F : Type} (eps : List ExtraPriorityInfo) (a b : TaskInfo F)
    (ha : -9223372036854775808 ≤ a.PriorityValue ∧ a.PriorityValue < 9223372036854775808)
    (hb : -9223372036854775808 ≤ b.PriorityValue ∧ b.PriorityValue < 9223372036854775808) :
    (prioritysort.Less eps a b = true ↔
      wrapInt64 (a.PriorityValue + (matchingBoosts eps a).sum) >
        wrapInt64 (b.PriorityValue + (matchingBoosts eps b).sum) ∨
      (wrapInt64 (a.PriorityValue + (matchingBoosts eps a).sum) =
          wrapInt64 (b.PriorityValue + (matchingBoosts eps b).sum) ∧
        a.CreationTime < b.CreationTime)) ∧
    (-9223372036854775808 ≤ a.PriorityValue + (matchingBoosts eps a).sum →
      a.PriorityValue + (matchingBoosts eps a).sum < 9223372036854775808 →
      -9223372036854775808 ≤ b.PriorityValue + (matchingBoosts eps b).sum →
      b.PriorityValue + (matchingBoosts eps b).sum < 9223372036854775808 →
      (prioritysort.Less eps a b = true ↔
        a.PriorityValue + (matchingBoosts eps a).sum >
          b.PriorityValue + (matchingBoosts eps b).sum ∨
        (a.PriorityValue + (matchingBoosts eps a).sum =
            b.PriorityValue + (matchingBoosts eps b).sum ∧
          a.CreationTime < b.CreationTime))) := by
  have key : prioritysort.Less eps a b = true ↔
      wrapInt64 (a.PriorityValue + (matchingBoosts eps a).sum) >
        wrapInt64 (b.PriorityValue + (matchingBoosts eps b).sum) ∨
      (wrapInt64 (a.PriorityValue + (matchingBoosts eps a).sum) =
          wrapInt64 (b.PriorityValue + (matchingBoosts eps b).sum) ∧
        a.CreationTime < b.CreationTime) := by
    have hfold : ∀ (l : List ExtraPriorityInfo) (v : Int × Int),
        l.foldl (prioritysort.valuesStep a b) v =
          (l.foldl (fun value ep =>
              if ep.MatchTask a then wrapInt64 (value + ep.ExtraPriorityValue) else value)
            v.1,
           l.foldl (fun value ep =>
              if ep.MatchTask b then wrapInt64 (value + ep.ExtraPriorityValue) else value)
            v.2) := by
      intro l
      induction l with
      | nil => intro v; rfl
      | cons ep rest ih =>
        intro v
        simp only [List.foldl_cons]
        rw [ih]
        rfl
    unfold prioritysort.Less
    rw [hfold, effectivePriority_fold_wrap eps a _ ha.1 ha.2,
      effectivePriority_fold_wrap eps b _ hb.1 hb.2]
    simp only
    split
    · rename_i h
      simp only [decide_eq_true_eq]
      constructor
      · intro ht
        exact Or.inr ⟨h, ht⟩
      · rintro (hgt | ⟨_, ht⟩)
        · omega
        · exact ht
    · rename_i h
      simp only [decide_eq_true_eq]
      constructor
      · intro hgt
        exact Or.inl hgt
      · rintro (hgt | ⟨heq, _⟩)
        · exact hgt
        · exact absurd heq h
  refine ⟨key, ?_⟩
  intro a1 a2 b1 b2
  rw [key, wrapInt64_of_range _ a1 a2, wrapInt64_of_range _ b1 b2]

theorem Less_iff_effective_witness :
    prioritysort.Less accountBoost (accountTask "task-01" "" "account-01" "user-01")
      (bareTask "task-02" consts.TaskQueued) = true :=
  ((Less_iff_effective accountBoost (accountTask "task-01" "" "account-01" "user-01")
    (bareTask "task-02" consts.TaskQueued) (by decide) (by decide)).2 (by decide)
    (by decide) (by decide) (by decide)).mpr (Or.inl (by decide))

theorem MatchTask_iff {F : Type} (e : ExtraPriorityInfo) (task : TaskInfo F) (b : BioosInfo)
    (hb : task.BioosInfo = some b) :
    e.MatchTask task = true ↔
      (e.AccountID ≠ "" ∧ e.AccountID = b.AccountID ∧
        (e.UserID = "" ∨ e.UserID = b.UserID)) ∨
      ((e.AccountID = "" ∨ e.AccountID ≠ b.AccountID) ∧
        ((e.SubmissionID ≠ "" ∧ e.SubmissionID = b.SubmissionID) ∨
         (e.RunID ≠ "" ∧ e.RunID = b.RunID))) := by
  unfold ExtraPriorityInfo.MatchTask
  rw [hb]
  simp only
  by_cases h1 : e.AccountID ≠ "" ∧ e.AccountID = b.AccountID
  · rw [if_pos h1]
    simp only [decide_eq_true_eq]
    constructor
    · intro h
      exact Or.inl ⟨h1.1, h1.2, h⟩
    · rintro (⟨_, _, h⟩ | ⟨h, _⟩)
      · exact h
      · rcases h with h | h
        · exact absurd h h1.1
        · exact absurd h1.2 h
  · rw [if_neg h1]
    have h1' : e.AccountID = "" ∨ e.AccountID ≠ b.AccountID := by
      by_cases h : e.AccountID = ""
      · exact Or.inl h
      · exact Or.inr (fun h2 => h1 ⟨h, h2⟩)
    by_cases h2 : e.SubmissionID ≠ "" ∧ e.SubmissionID = b.SubmissionID
    · rw [if_pos h2]
      simp only [true_iff]
      exact Or.inr ⟨h1', Or.inl h2⟩
    · rw [if_neg h2]
      by_cases h3 : e.RunID ≠ "" ∧ e.RunID = b.RunID
      · rw [if_pos h3]
        simp only [true_iff]
        exact Or.inr ⟨h1', Or.inr h3⟩
      · rw [if_neg h3]
        simp only [Bool.false_eq_true, false_iff]
        rintro (⟨h, h', _⟩ | ⟨_, h | h⟩)
        · exact h1 ⟨h, h'⟩
        · exact h2 h
        · exact h3 h

/-- C22: for a rule e and a task with BioosInfo, `MatchTask` is true exactly when
AccountID of the rule is non-empty and equal to that of the task and UserID of the rule
is empty or equal, or the account clause does not apply (AccountID empty or different)
and SubmissionID is non-empty and equal or RunID is non-empty and equal. A rule whose
AccountID matches but whose non-empty UserID differs never matches, whatever its
SubmissionID and RunID; a nil rule, a nil task and a task without BioosInfo never match. -/
theorem MatchTask_spec {F : Type} (e : ExtraPriorityInfo) (task : TaskInfo F) :
    (∀ b, task.BioosInfo = some b →
      (e.MatchTask task = true ↔
        (e.AccountID ≠ "" ∧ e.AccountID = b.AccountID ∧
          (e.UserID = "" ∨ e.UserID = b.UserID)) ∨
        ((e.AccountID = "" ∨ e.AccountID ≠ b.AccountID) ∧
          ((e.SubmissionID ≠ "" ∧ e.SubmissionID = b.SubmissionID) ∨
           (e.RunID ≠ "" ∧ e.RunID = b.RunID))))) ∧
    (∀ b, task.BioosInfo = some b → e.AccountID ≠ "" → e.AccountID = b.AccountID →
      e.UserID ≠ "" → e.UserID ≠ b.UserID → e.MatchTask task = false) ∧
    (task.BioosInfo = none → e.MatchTask task = false) ∧
    ExtraPriorityInfo.MatchTaskPtr none (some task) = false ∧
    ExtraPriorityInfo.MatchTaskPtr (some e) (none : Option (TaskInfo F)) = false ∧
    ExtraPriorityInfo.MatchTaskPtr (some e) (some task) = e.MatchTask task := by
  refine ⟨fun b hb => MatchTask_iff e task b hb, ?_, ?_, rfl, rfl, rfl⟩
  · intro b hb h1 h2 h3 h4
    cases hm : e.MatchTask task with
    | false => rfl
    | true =>
      exfalso
      rcases (MatchTask_iff e task b hb).mp hm with ⟨_, _, h | h⟩ | ⟨h | h, _⟩
      · exact h3 h
      · exact h4 h
      · exact h1 h
      · exact h h2
  · intro hb
    unfold ExtraPriorityInfo.MatchTask
    rw [hb]

theorem MatchTask_spec_witness :
    ExtraPriorityInfo.MatchTask
      { AccountID := "account-01", UserID := "user-02", SubmissionID := "", RunID := "run-01",
        ExtraPriorityValue := 100 }
      ({ accountTask "task-01" "" "account-01" "user-01" with
          BioosInfo := some { AccountID := "account-01", UserID := "user-01",
                              SubmissionID := "", RunID := "run-01" } } : TaskInfo ℚ) = false :=
  (MatchTask_spec _ _).2.1 _ rfl (by decide) rfl (by decide) (by decide)

theorem Validate_isSome_iff {F : Type} (o : Options) :
    (Options.Validate o : Option (GoError F)).isSome = true ↔ ¬ o.Valid := by
  unfold Options.Validate cache.Options.Validate controller.Options.Validate Options.Valid
  simp only
  by_cases h1 : o.Controller.ClusterRescheduleTimeout < o.Controller.Period
  · simp only [h1, if_true, Option.isSome_some, true_iff]
    omega
  · simp only [h1, if_false]
    by_cases h2 : o.Controller.ClusterRescheduleTimeout < o.Cache.SyncPeriod
    · simp only [h2, if_true, Option.isSome_some, true_iff]
      omega
    · simp only [h2, if_false]
      by_cases h3 : o.SchedulePeriod < o.Cache.SyncPeriod
      · simp only [h3, if_true, Option.isSome_some, true_iff]
        omega
      · simp only [h3, if_false]
        by_cases h4 : o.ClusterNotReadyTimeout < o.Cache.SyncPeriod
        · simp only [h4, if_true, Option.isSome_some, true_iff]
          omega
        · simp only [h4, if_false, Option.isSome_none, Bool.false_eq_true, false_iff,
            not_not]
          omega

/-- C27: `Options.Validate` of the scheduler returns an error exactly when one of the four
constraints is violated: ClusterRescheduleTimeout ≥ Controller.Period, SchedulePeriod ≥
Cache.SyncPeriod, ClusterNotReadyTimeout ≥ Cache.SyncPeriod, ClusterRescheduleTimeout ≥
Cache.SyncPeriod; equality is accepted in each, and the default options are valid. -/
theorem Validate_error_iff {F : Type} (o : Options) :
    ((Options.Validate o : Option (GoError F)).isSome = true ↔
      ¬ (o.Controller.ClusterRescheduleTimeout ≥ o.Controller.Period ∧
         o.SchedulePeriod ≥ o.Cache.SyncPeriod ∧
         o.ClusterNotReadyTimeout ≥ o.Cache.SyncPeriod ∧
         o.Controller.ClusterRescheduleTimeout ≥ o.Cache.SyncPeriod)) ∧
    (o.Controller.ClusterRescheduleTimeout = o.Controller.Period →
      o.SchedulePeriod = o.Cache.SyncPeriod →
      o.ClusterNotReadyTimeout = o.Cache.SyncPeriod →
      o.Controller.ClusterRescheduleTimeout = o.Cache.SyncPeriod →
      (Options.Validate o : Option (GoError F)) = none) ∧
    (Options.Validate NewOptions : Option (GoError F)) = none := by
  have key : (Options.Validate o : Option (GoError F)).isSome = true ↔ ¬ o.Valid :=
    Validate_isSome_iff o
  refine ⟨key, ?_, rfl⟩
  intro h1 h2 h3 h4
  cases hv : (Options.Validate o : Option (GoError F)) with
  | none => rfl
  | some e =>
    exfalso
    rw [hv] at key
    exact key.mp rfl ⟨by omega, by omega, by omega, by omega⟩

theorem Validate_error_iff_witness :
    (Options.Validate equalOptions : Option (GoError ℚ)) = none :=
  (Validate_error_iff equalOptions).2.1 rfl rfl rfl rfl

/-! ## Theorems: initPluginsGroup -/

theorem registry_eq_none_iff {F : Type} [Zero F] [Add F] [Sub F] [Mul F] [Div F] [LT F]
    [LE F] [BEq F] [∀ a b : F, Decidable (a < b)] [∀ a b : F, Decidable (a ≤ b)]
    [Float64Conv F] (pluginName : String) :
    (registry pluginName : Option (Factory F)) = none ↔ pluginName ∉ registeredNames := by
  unfold registry registeredNames
  simp only [List.mem_cons, List.mem_singleton, List.not_mem_nil, or_false]
  split_ifs with h1 h2 h3 h4 <;> simp [*]

theorem initPluginsStep_ok {F : Type} [Zero F] [Add F] [Sub F] [Mul F] [Div F] [LT F]
    [LE F] [BEq F] [∀ a b : F, Decidable (a < b)] [∀ a b : F, Decidable (a ≤ b)]
    [Float64Conv F] (cache : Cache F) (plugins : pluginsGroup F) (pluginName : String)
    (h : pluginName ∈ registeredNames) :
    ∃ p, configuredPlugins cache [pluginName] = [p] ∧
      initPluginsStep cache plugins pluginName = Except.ok (addPlugin plugins p) := by
  unfold registeredNames at h
  simp only [List.mem_cons, List.mem_singleton, List.not_mem_nil, or_false] at h
  rcases h with h | h | h | h <;> subst h <;>
    exact ⟨_, rfl, rfl⟩

theorem initPluginsStep_error {F : Type} [Zero F] [Add F] [Sub F] [Mul F] [Div F] [LT F]
    [LE F] [BEq F] [∀ a b : F, Decidable (a < b)] [∀ a b : F, Decidable (a ≤ b)]
    [Float64Conv F] (cache : Cache F) (plugins : pluginsGroup F)
    (pluginName : String) (h : pluginName ∉ registeredNames) :
    configuredPlugins cache [pluginName] = [] ∧
    initPluginsStep cache plugins pluginName =
      Except.error (GoError.errorf "invalid plugin name: %s" [FmtArg.str pluginName]) := by
  have hr : (registry pluginName : Option (Factory F)) = none :=
    (registry_eq_none_iff pluginName).mpr h
  constructor
  · simp [configuredPlugins, hr]
  · simp [initPluginsStep, hr]

theorem configuredPlugins_cons {F : Type} [Zero F] [Add F] [Sub F] [Mul F] [Div F] [LT F]
    [LE F] [BEq F] [∀ a b : F, Decidable (a < b)] [∀ a b : F, Decidable (a ≤ b)]
    [Float64Conv F] (cache : Cache F) (pluginName : String) (rest : List String) :
    configuredPlugins cache (pluginName :: rest) =
      configuredPlugins cache [pluginName] ++ configuredPlugins cache rest := by
  unfold configuredPlugins
  rw [← List.filterMap_append]
  rfl

theorem initPluginsFrom_ok {F : Type} [Zero F] [Add F] [Sub F] [Mul F] [Div F] [LT F]
    [LE F] [BEq F] [∀ a b : F, Decidable (a < b)] [∀ a b : F, Decidable (a ≤ b)]
    [Float64Conv F] (cache : Cache F) (names : List String) (plugins : pluginsGroup F)
    (h : ∀ pluginName ∈ names, pluginName ∈ registeredNames) :
    initPluginsFrom cache names plugins =
      Except.ok ((configuredPlugins cache names).foldl addPlugin plugins) := by
  induction names generalizing plugins with
  | nil => rfl
  | cons pluginName rest ih =>
    obtain ⟨p, hp, hstep⟩ := initPluginsStep_ok cache plugins pluginName
      (h pluginName (List.mem_cons_self _ _))
    rw [configuredPlugins_cons, hp]
    simp only [initPluginsFrom, hstep, List.singleton_append, List.foldl_cons]
    exact ih _ (fun n hn => h n (List.mem_cons_of_mem _ hn))

theorem initPluginsFrom_error {F : Type} [Zero F] [Add F] [Sub F] [Mul F] [Div F] [LT F]
    [LE F] [BEq F] [∀ a b : F, Decidable (a < b)] [∀ a b : F, Decidable (a ≤ b)]
    [Float64Conv F] (cache : Cache F) (names : List String) (plugins : pluginsGroup F)
    (h : ∃ pluginName ∈ names, pluginName ∉ registeredNames) :
    ∃ err, initPluginsFrom cache names plugins = Except.error err := by
  induction names generalizing plugins with
  | nil =>
    obtain ⟨n, hn, _⟩ := h
    cases hn
  | cons pluginName rest ih =>
    by_cases hreg : pluginName ∈ registeredNames
    · obtain ⟨p, _, hstep⟩ := initPluginsStep_ok cache plugins pluginName hreg
      simp only [initPluginsFrom, hstep]
      apply ih
      obtain ⟨n, hn, hnot⟩ := h
      rcases List.mem_cons.mp hn with heq | hmem
      · subst heq
        exact absurd hreg hnot
      · exact ⟨n, hmem, hnot⟩
    · obtain ⟨_, hstep⟩ := initPluginsStep_error cache plugins pluginName hreg
      simp only [initPluginsFrom, hstep]
      exact ⟨_, rfl⟩

theorem foldl_addPlugin {F : Type} (ps : List (Plugin F)) (plugins : pluginsGroup F) :
    (ps.foldl addPlugin plugins).globalFilters =
      plugins.globalFilters ++ ps.filterMap (fun p => p.globalFilter) ∧
    (ps.foldl addPlugin plugins).filters =
      plugins.filters ++ ps.filterMap (fun p => p.filter) ∧
    (ps.foldl addPlugin plugins).scores =
      plugins.scores ++ ps.filterMap (fun p => p.score) ∧
    (ps.foldl addPlugin plugins).sort =
      ((ps.filterMap (fun p => p.sort)).getLast?).orElse (fun _ => plugins.sort) := by
  induction ps generalizing plugins with
  | nil => simp
  | cons p rest ih =>
    obtain ⟨h1, h2, h3, h4⟩ := ih (addPlugin plugins p)
    simp only [List.foldl_cons, h1, h2, h3, h4]
    refine ⟨?_, ?_, ?_, ?_⟩
    · cases hg : p.globalFilter <;> simp [addPlugin, hg, List.filterMap_cons]
    · cases hg : p.filter <;> simp [addPlugin, hg, List.filterMap_cons]
    · cases hg : p.score <;> simp [addPlugin, hg, List.filterMap_cons]
    · cases hg : p.sort with
      | none => simp [addPlugin, hg, List.filterMap_cons]
      | some s =>
        simp only [addPlugin, hg, List.filterMap_cons, List.getLast?_cons]
        cases hl : (List.filterMap (fun p => p.sort) rest).getLast? with
        | none => simp
        | some s2 => simp

theorem configuredPlugins_names {F : Type} [Zero F] [Add F] [Sub F] [Mul F] [Div F] [LT F]
    [LE F] [BEq F] [∀ a b : F, Decidable (a < b)] [∀ a b : F, Decidable (a ≤ b)]
    [Float64Conv F] (cache : Cache F) (names : List String) :
    ((configuredPlugins cache names).filterMap (fun p => p.globalFilter)).map
        (fun p => p.Name) =
      names.filter (fun n => decide (n = resourcequota.Name)) ∧
    ((configuredPlugins cache names).filterMap (fun p => p.filter)).map (fun p => p.Name) =
      names.filter (fun n => decide (n = clustercapacity.Name ∨ n = clusterlimit.Name)) ∧
    ((configuredPlugins cache names).filterMap (fun p => p.score)).map (fun p => p.Name) =
      names.filter (fun n => decide (n = clustercapacity.Name)) ∧
    ((configuredPlugins cache names).filterMap (fun p => p.sort)).map (fun p => p.Name) =
      names.filter (fun n => decide (n = prioritysort.Name)) := by
  induction names with
  | nil => exact ⟨rfl, rfl, rfl, rfl⟩
  | cons n rest ih =>
    obtain ⟨h1, h2, h3, h4⟩ := ih
    rw [configuredPlugins_cons]
    simp only [List.filterMap_append, List.map_append, h1, h2, h3, h4]
    have hsingle : ∀ (P : String → Bool) (l : List String),
        List.filter P (n :: l) = List.filter P [n] ++ List.filter P l := by
      intro P l
      rw [← List.filter_append]
      rfl
    rw [hsingle _ rest, hsingle _ rest, hsingle _ rest, hsingle _ rest]
    by_cases hreg : n ∈ registeredNames
    · unfold registeredNames at hreg
      simp only [List.mem_cons, List.mem_singleton, List.not_mem_nil, or_false] at hreg
      rcases hreg with h | h | h | h <;> subst h <;> exact ⟨rfl, rfl, rfl, rfl⟩
    · rw [(initPluginsStep_error cache
        { sort := none, globalFilters := [], filters := [], scores := [] } n hreg).1]
      unfold registeredNames at hreg
      simp only [List.mem_cons, List.mem_singleton, List.not_mem_nil, or_false, not_or] at hreg
      obtain ⟨n1, n2, n3, n4⟩ := hreg
      simp [List.filter_cons, n1, n2, n3, n4]

/-- C28: `initPluginsGroup` returns an error exactly when a configured name is not one of
the four registered names; when all names are registered it returns a group whose
globalFilters, filters and scores hold the configured plugins that have the capability,
one entry per configured occurrence and in configuration order (ResourceQuota is the
global filter, ClusterCapacity and ClusterLimit are the filters, ClusterCapacity is the
score plugin), and whose sort plugin is the last configured PrioritySort. -/
theorem initPluginsGroup_spec {F : Type} [Zero F] [Add F] [Sub F] [Mul F] [Div F] [LT F]
    [LE F] [BEq F] [∀ a b : F, Decidable (a < b)] [∀ a b : F, Decidable (a ≤ b)]
    [Float64Conv F] (opts : Options) (cache : Cache F) :
    ((∃ err, initPluginsGroup opts cache = Except.error err) ↔
      ∃ pluginName ∈ opts.Plugins, pluginName ∉ registeredNames) ∧
    registeredNames = ["PrioritySort", "ResourceQuota", "ClusterLimit", "ClusterCapacity"] ∧
    ((∀ pluginName ∈ opts.Plugins, pluginName ∈ registeredNames) →
      ∃ g, initPluginsGroup opts cache = Except.ok g ∧
        g.globalFilters =
          (configuredPlugins cache opts.Plugins).filterMap (fun p => p.globalFilter) ∧
        g.filters = (configuredPlugins cache opts.Plugins).filterMap (fun p => p.filter) ∧
        g.scores = (configuredPlugins cache opts.Plugins).filterMap (fun p => p.score) ∧
        g.sort = ((configuredPlugins cache opts.Plugins).filterMap (fun p => p.sort)).getLast? ∧
        g.globalFilters.map (fun p => p.Name) =
          opts.Plugins.filter (fun n => decide (n = "ResourceQuota")) ∧
        g.filters.map (fun p => p.Name) =
          opts.Plugins.filter (fun n => decide (n = "ClusterCapacity" ∨ n = "ClusterLimit")) ∧
        g.scores.map (fun p => p.Name) =
          opts.Plugins.filter (fun n => decide (n = "ClusterCapacity")) ∧
        g.sort.map (fun p => p.Name) =
          (opts.Plugins.filter (fun n => decide (n = "PrioritySort"))).getLast?) := by
  refine ⟨?_, rfl, ?_⟩
  · constructor
    · rintro ⟨err, herr⟩
      by_contra hcon
      push_neg at hcon
      unfold initPluginsGroup at herr
      rw [initPluginsFrom_ok cache opts.Plugins _ hcon] at herr
      cases herr
    · intro h
      exact initPluginsFrom_error cache opts.Plugins _ h
  · intro h
    obtain ⟨f1, f2, f3, f4⟩ := foldl_addPlugin (configuredPlugins cache opts.Plugins)
      { sort := none, globalFilters := [], filters := [], scores := [] }
    obtain ⟨n1, n2, n3, n4⟩ := configuredPlugins_names cache opts.Plugins
    simp only [List.nil_append] at f1 f2 f3
    have f4' : (List.foldl addPlugin
        { sort := none, globalFilters := [], filters := [], scores := [] }
        (configuredPlugins cache opts.Plugins)).sort =
        ((configuredPlugins cache opts.Plugins).filterMap (fun p => p.sort)).getLast? := by
      rw [f4]
      cases ((configuredPlugins cache opts.Plugins).filterMap (fun p => p.sort)).getLast? <;> rfl
    refine ⟨_, initPluginsFrom_ok cache opts.Plugins _ h, f1, f2, f3, f4', ?_, ?_, ?_, ?_⟩
    · rw [f1]; exact n1
    · rw [f2]; exact n2
    · rw [f3]; exact n3
    · rw [f4', ← List.getLast?_map, n4]
      rfl

theorem initPluginsGroup_spec_witness :
    ∃ g, initPluginsGroup NewOptions testCache = Except.ok g ∧
      g.globalFilters.map (fun p => p.Name) = ["ResourceQuota"] ∧
      g.filters.map (fun p => p.Name) = ["ClusterCapacity", "ClusterLimit"] ∧
      g.scores.map (fun p => p.Name) = ["ClusterCapacity"] ∧
      g.sort.map (fun p => p.Name) = some "PrioritySort" := by
  obtain ⟨g, hg, _, _, _, _, h1, h2, h3, h4⟩ :=
    (initPluginsGroup_spec NewOptions testCache).2.2 (by decide)
  exact ⟨g, hg, h1, h2, h3, h4⟩

/-! ## Theorems: getQuota -/

namespace controller

theorem limitErrors_eq {F : Type} [LT F] [LE F] [∀ a b : F, Decidable (a < b)]
    [∀ a b : F, Decidable (a ≤ b)] (task : TaskInfo F) (clusters : List (ClusterInfo F))
    (errs : List (GoError F)) :
    limitErrors task clusters errs =
      if rejectedEverywhere task clusters = true then
        some (errs ++ clusterErrors task clusters)
      else none := by
  induction clusters generalizing errs with
  | nil => simp [limitErrors, rejectedEverywhere, clusterErrors]
  | cons cluster rest ih =>
    unfold limitErrors
    cases hr : utils.ResourcesMeetLimits task.Resources cluster.Limits with
    | none => simp [rejectedEverywhere, hr]
    | some err =>
      simp only [ih]
      by_cases hrest : rejectedEverywhere task rest = true
      · have : rejectedEverywhere task (cluster :: rest) = true := by
          unfold rejectedEverywhere at hrest ⊢
          simp [hr, hrest]
        simp [hrest, this, clusterErrors, hr]
      · have : ¬ rejectedEverywhere task (cluster :: rest) = true := by
          unfold rejectedEverywhere at hrest ⊢
          simp only [List.all_cons, Bool.and_eq_true, not_and]
          intro _
          exact hrest
        simp [hrest, this]

theorem clusterErrors_wrapped {F : Type} [LT F] [LE F] [∀ a b : F, Decidable (a < b)]
    [∀ a b : F, Decidable (a ≤ b)] (task : TaskInfo F) (clusters : List (ClusterInfo F)) :
    ∀ e ∈ clusterErrors task clusters,
      ∃ id inner, e = GoError.wrapf "cluster[%s]: %w" [FmtArg.str id] inner := by
  intro e he
  unfold clusterErrors at he
  simp only [List.mem_filterMap, Option.map_eq_some'] at he
  obtain ⟨cluster, _, err, _, rfl⟩ := he
  exact ⟨cluster.ID, err, rfl⟩

theorem clusterErrors_ne_nil {F : Type} [LT F] [LE F] [∀ a b : F, Decidable (a < b)]
    [∀ a b : F, Decidable (a ≤ b)] (task : TaskInfo F) (clusters : List (ClusterInfo F))
    (hne : clusters ≠ []) (hrej : rejectedEverywhere task clusters = true) :
    clusterErrors task clusters ≠ [] := by
  cases clusters with
  | nil => exact absurd rfl hne
  | cons cluster rest =>
    unfold rejectedEverywhere at hrej
    simp only [List.all_cons, Bool.and_eq_true] at hrej
    unfold clusterErrors
    cases hr : utils.ResourcesMeetLimits task.Resources cluster.Limits with
    | none => simp [hr] at hrej
    | some err => simp [List.filterMap_cons, hr]

theorem taskMeetLimits_eq {F : Type} [LT F] [LE F] [∀ a b : F, Decidable (a < b)]
    [∀ a b : F, Decidable (a ≤ b)] (errorText : GoError F → String) (task : TaskInfo F)
    (clusters : List (ClusterInfo F)) (hne : clusters ≠ []) :
    taskMeetLimits errorText task clusters =
      if rejectedEverywhere task clusters = true then
        some (errorText (GoError.aggregate (clusterErrors task clusters)))
      else some "" := by
  unfold taskMeetLimits
  rw [limitErrors_eq]
  by_cases hrej : rejectedEverywhere task clusters = true
  · have hnil := clusterErrors_ne_nil task clusters hne hrej
    simp only [hrej, if_true, List.nil_append]
    cases hc : clusterErrors task clusters with
    | nil => exact absurd hc hnil
    | cons e es => rfl
  · simp [hrej]

theorem markStep_spec {F : Type} [LT F] [LE F] [∀ a b : F, Decidable (a < b)]
    [∀ a b : F, Decidable (a ≤ b)] (errorText : GoError F → String) (env : Env F)
    (htext : ∀ errs : List (GoError F), errs ≠ [] →
      (∀ e ∈ errs, ∃ id inner, e = GoError.wrapf "cluster[%s]: %w" [FmtArg.str id] inner) →
      errorText (GoError.aggregate errs) ≠ "")
    (hne : env.clusters ≠ [])
    (acc : List (GoError F) × World F) (task : TaskInfo F) (hp : acc.2.panicked = false) :
    (markStep errorText env acc task).2.events =
      acc.2.events ++ (tasksToFail env.clusters [task]).map (failEvent errorText env.clusters) ∧
    (markStep errorText env acc task).2.panicked = false := by
  unfold markStep tasksToFail
  simp only [hp, Bool.false_eq_true, if_false]
  by_cases hq : task.State = consts.TaskQueued
  · simp only [hq, ne_eq, not_true_eq_false, if_false, taskMeetLimits_eq errorText task _ hne]
    by_cases hrej : rejectedEverywhere task env.clusters = true
    · have hmsg := htext _ (clusterErrors_ne_nil task env.clusters hne hrej)
        (clusterErrors_wrapped task env.clusters)
      simp only [hrej, if_true, hmsg, if_false]
      have hfilter : List.filter (fun task => decide (task.State = consts.TaskQueued) &&
          !env.clusters.isEmpty && rejectedEverywhere task env.clusters) [task] = [task] := by
        simp [List.filter_cons, hq, hne, hrej]
      rw [hfilter]
      cases hr : (callUpdateTask env acc.2 task.ID (some consts.TaskSystemError) none
          (some ("no cluster limits match task resources: " ++
            errorText (GoError.aggregate (clusterErrors task env.clusters))))).1 with
      | none => exact ⟨rfl, hp⟩
      | some err => exact ⟨rfl, hp⟩
    · have hfilter : List.filter (fun task => decide (task.State = consts.TaskQueued) &&
          !env.clusters.isEmpty && rejectedEverywhere task env.clusters) [task] = [] := by
        simp [List.filter_cons, hrej]
      rw [hfilter]
      simp [hrej, hp]
  · have hfilter : List.filter (fun task => decide (task.State = consts.TaskQueued) &&
        !env.clusters.isEmpty && rejectedEverywhere task env.clusters) [task] = [] := by
      simp [List.filter_cons, hq]
    rw [hfilter]
    simp [hq, hp]

theorem markFold_spec {F : Type} [LT F] [LE F] [∀ a b : F, Decidable (a < b)]
    [∀ a b : F, Decidable (a ≤ b)] (errorText : GoError F → String) (env : Env F)
    (htext : ∀ errs : List (GoError F), errs ≠ [] →
      (∀ e ∈ errs, ∃ id inner, e = GoError.wrapf "cluster[%s]: %w" [FmtArg.str id] inner) →
      errorText (GoError.aggregate errs) ≠ "")
    (hne : env.clusters ≠ [])
    (tasks : List (TaskInfo F)) (acc : List (GoError F) × World F)
    (hp : acc.2.panicked = false) :
    (tasks.foldl (markStep errorText env) acc).2.events =
      acc.2.events ++ (tasksToFail env.clusters tasks).map (failEvent errorText env.clusters) ∧
    (tasks.foldl (markStep errorText env) acc).2.panicked = false := by
  induction tasks generalizing acc with
  | nil => simp [tasksToFail, hp]
  | cons task rest ih =>
    obtain ⟨h1, h2⟩ := markStep_spec errorText env htext hne acc task hp
    obtain ⟨h3, h4⟩ := ih (markStep errorText env acc task) h2
    simp only [List.foldl_cons]
    refine ⟨?_, h4⟩
    rw [h3, h1, List.append_assoc, ← List.map_append]
    unfold tasksToFail
    rw [← List.filter_append]
    rfl

end controller

namespace controller

theorem failEvent_message {F : Type} [LT F] [LE F] [∀ a b : F, Decidable (a < b)]
    [∀ a b : F, Decidable (a ≤ b)] (errorText : GoError F → String)
    (clusters : List (ClusterInfo F)) (task : TaskInfo F) :
    ∃ msg, msg ≠ "" ∧
      failEvent errorText clusters task =
        Event.UpdateTask task.ID (some "SYSTEM_ERROR") none (some msg) := by
  refine ⟨_, ?_, rfl⟩
  intro h
  have hlen := congrArg String.length h
  rw [String.length_append] at hlen
  have h40 : ("no cluster limits match task resources: " : String).length = 40 := by decide
  rw [h40] at hlen
  simp at hlen

theorem mem_tasksToFail {F : Type} [LT F] [LE F] [∀ a b : F, Decidable (a < b)]
    [∀ a b : F, Decidable (a ≤ b)] (clusters : List (ClusterInfo F))
    (tasks : List (TaskInfo F)) (task : TaskInfo F) :
    task ∈ tasksToFail clusters tasks ↔
      task ∈ tasks ∧ task.State = consts.TaskQueued ∧ clusters ≠ [] ∧
      ∀ cluster ∈ clusters,
        (utils.ResourcesMeetLimits task.Resources cluster.Limits).isSome = true := by
  unfold tasksToFail rejectedEverywhere
  simp only [List.mem_filter, Bool.and_eq_true, decide_eq_true_eq, Bool.not_eq_true',
    List.isEmpty_eq_false, List.all_eq_true, ne_eq, and_assoc]

/-- C24: `markTasksFailedNotMeetLimits` issues, for the tasks of the bucket of unscheduled
tasks in list order, the update (id, SYSTEM_ERROR, cluster unchanged, non-empty message)
exactly for those in state QUEUED whose resources `ResourcesMeetLimits` rejects against
the limits of every cluster of a non-empty cluster list, which is the test that
`ClusterLimit.Filter` applies; it issues no other call, and with no cluster it does
nothing. The text of the aggregated cluster errors is taken to be non-empty. -/
theorem markTasksFailedNotMeetLimits_spec {F : Type} [LT F] [LE F]
    [∀ a b : F, Decidable (a < b)] [∀ a b : F, Decidable (a ≤ b)]
    (errorText : GoError F → String) (env : Env F) (w : World F)
    (htext : ∀ errs : List (GoError F), errs ≠ [] →
      (∀ e ∈ errs, ∃ id inner, e = GoError.wrapf "cluster[%s]: %w" [FmtArg.str id] inner) →
      errorText (GoError.aggregate errs) ≠ "")
    (hp : w.panicked = false) :
    (markTasksFailedNotMeetLimits errorText env w).2.events =
      w.events ++ (tasksToFail env.clusters (ListTasks w.data "")).map
        (failEvent errorText env.clusters) ∧
    (markTasksFailedNotMeetLimits errorText env w).2.panicked = false ∧
    (∀ task, task ∈ tasksToFail env.clusters (ListTasks w.data "") ↔
      task ∈ ListTasks w.data "" ∧ task.State = consts.TaskQueued ∧ env.clusters ≠ [] ∧
      ∀ cluster ∈ env.clusters,
        (utils.ResourcesMeetLimits task.Resources cluster.Limits).isSome = true) ∧
    (∀ task, ∃ msg, msg ≠ "" ∧
      failEvent errorText env.clusters task =
        Event.UpdateTask task.ID (some "SYSTEM_ERROR") none (some msg)) ∧
    (env.clusters = [] → markTasksFailedNotMeetLimits errorText env w = (none, w)) ∧
    (∀ (d : data F) (task : TaskInfo F) (cluster : ClusterInfo F) (cycleState : CycleState F),
      (clusterlimit.Filter d task cluster cycleState).1 =
        utils.ResourcesMeetLimits task.Resources cluster.Limits) := by
  refine ⟨?_, ?_, fun task => mem_tasksToFail _ _ task,
    fun task => failEvent_message errorText env.clusters task, ?_, fun _ _ _ _ => rfl⟩
  · unfold markTasksFailedNotMeetLimits
    by_cases hne : env.clusters = []
    · simp [hne, tasksToFail]
    · have hlen : env.clusters.length ≠ 0 := by
        intro h
        exact hne (List.length_eq_zero.mp h)
      simp only [hlen, if_false]
      exact (markFold_spec errorText env htext hne (ListTasks w.data "") ([], w) hp).1
  · unfold markTasksFailedNotMeetLimits
    by_cases hne : env.clusters = []
    · simp [hne, hp]
    · have hlen : env.clusters.length ≠ 0 := by
        intro h
        exact hne (List.length_eq_zero.mp h)
      simp only [hlen, if_false]
      exact (markFold_spec errorText env htext hne (ListTasks w.data "") ([], w) hp).2
  · intro hne
    unfold markTasksFailedNotMeetLimits
    simp [hne]

theorem markTasksFailedNotMeetLimits_spec_witness :
    (markTasksFailedNotMeetLimits rejectedText markEnv markWorld).2.events =
      [Event.UpdateTask "task-0000" (some "SYSTEM_ERROR") none
        (some "no cluster limits match task resources: rejected")] := by
  have h := (markTasksFailedNotMeetLimits_spec rejectedText markEnv markWorld
    (fun _ _ _ => by simp [rejectedText]) rfl).1
  rw [h]
  have hl : ListTasks markWorld.data "" = [limitTask] := by decide
  have hf : tasksToFail markEnv.clusters [limitTask] = [limitTask] := by
    unfold tasksToFail rejectedEverywhere
    simp [markEnv, limitTask, utils.ResourcesMeetLimits, utils.limitErrs, NewAggregate,
      consts.TaskQueued]
    norm_num
  rw [hl, hf]
  rfl

end controller

theorem mem_ListTasks_inv {F : Type} (d : data F) (h : IndexInv d) (c : String)
    (t : TaskInfo F) :
    t ∈ ListTasks d c ↔ ∃ id, d.tasks.lookup id = some t ∧ t.ClusterID = c := by
  rw [mem_ListTasks]
  constructor
  · rintro ⟨id, hb, hl⟩
    obtain ⟨t', hl', hc⟩ := (h.1 c id).mp hb
    rw [hl] at hl'
    cases hl'
    exact ⟨id, hl, hc⟩
  · rintro ⟨id, hl, hc⟩
    exact ⟨id, (h.1 c id).mpr ⟨t, hl, hc⟩, hl⟩

namespace controller

theorem shrinks_refl {F : Type} (d : data F) (ids : List String) : Shrinks d d ids :=
  ⟨id, id, fun _ _ => rfl, fun _ _ h _ => h⟩

theorem shrinks_trans {F : Type} (d d' d'' : data F) (ids ids' : List String)
    (h1 : Shrinks d d' ids) (h2 : Shrinks d' d'' ids') : Shrinks d d'' (ids ++ ids') := by
  obtain ⟨a1, a2, a3, a4⟩ := h1
  obtain ⟨b1, b2, b3, b4⟩ := h2
  refine ⟨fun h => b1 (a1 h), fun h => b2 (a2 h), ?_, ?_⟩
  · intro id hid
    simp only [List.mem_append, not_or] at hid
    rw [b3 id hid.2, a3 id hid.1]
  · intro id t hl hc
    exact a4 id t (b4 id t hl hc) hc

theorem shrinks_deleteTask {F : Type} (d : data F) (id : String) :
    Shrinks d (d.deleteTask id) [id] := by
  refine ⟨fun h => indexInv_deleteTask d h id, fun h => keysMatch_deleteTask d h id, ?_, ?_⟩
  · intro id' hid
    simp only [List.mem_singleton] at hid
    rw [lookup_deleteTask, if_neg hid]
  · intro id' t hl _
    rw [lookup_deleteTask] at hl
    by_cases hid : id' = id
    · simp [hid] at hl
    · simpa [hid] using hl

theorem shrinks_requeue {F : Type} (d : data F) (id : String) (state : Option String) :
    Shrinks d (d.updateTask id state (some "")) [id] := by
  refine ⟨fun h => indexInv_updateTask d h id _ _, fun h => keysMatch_updateTask d h id _ _,
    ?_, ?_⟩
  · intro id' hid
    simp only [List.mem_singleton] at hid
    exact lookup_updateTask_ne d id id' _ _ hid
  · intro id' t hl hc
    by_cases hid : id' = id
    · subst hid
      rw [lookup_updateTask_self] at hl
      cases ho : d.tasks.lookup id' with
      | none => simp [ho] at hl
      | some oldTask =>
        simp only [ho, Option.map_some', Option.some.injEq] at hl
        subst hl
        exact absurd rfl hc
    · rw [lookup_updateTask_ne d id id' _ _ hid] at hl
      exact hl

theorem rescheduleTask_spec {F : Type} (env : Env F) (w : World F) (task : TaskInfo F) :
    (rescheduleTask env w task).2.events = w.events ++ [rescheduleEvent task] ∧
    (rescheduleTask env w task).2.panicked = w.panicked ∧
    Shrinks w.data (rescheduleTask env w task).2.data [task.ID] := by
  unfold rescheduleTask rescheduleEvent
  by_cases hs : task.State = consts.TaskCanceling
  · simp only [hs, if_true]
    refine ⟨rfl, rfl, ?_⟩
    unfold callUpdateTask UpdateTask
    simp only
    cases env.upstream w.updates
        (updateTaskRequest task.ID (some consts.TaskCanceled) none none) with
    | some err => exact shrinks_refl _ _
    | none =>
      have hfin : isFinished consts.TaskCanceled = true := by decide
      simp only [hfin, if_true]
      exact shrinks_deleteTask _ _
  · simp only [hs, if_false]
    refine ⟨rfl, rfl, ?_⟩
    unfold callUpdateTask UpdateTask
    simp only
    cases env.upstream w.updates
        (updateTaskRequest task.ID (some consts.TaskQueued) (some "") none) with
    | some err => exact shrinks_refl _ _
    | none =>
      have hfin : isFinished consts.TaskQueued = false := by decide
      simp only [hfin, Bool.false_eq_true, if_false]
      exact shrinks_requeue _ _ _

theorem rescheduleStep_spec {F : Type} (env : Env F) (acc : List (GoError F) × World F)
    (task : TaskInfo F) :
    (rescheduleStep env acc task).2.events = acc.2.events ++ [rescheduleEvent task] ∧
    (rescheduleStep env acc task).2.panicked = acc.2.panicked ∧
    Shrinks acc.2.data (rescheduleStep env acc task).2.data [task.ID] := by
  have h := rescheduleTask_spec env acc.2 task
  unfold rescheduleStep
  cases hr : (rescheduleTask env acc.2 task).1 with
  | none => simpa [hr] using h
  | some err => simpa [hr] using h

theorem rescheduleInner_spec {F : Type} (env : Env F) (tasks : List (TaskInfo F))
    (acc : List (GoError F) × World F) :
    (tasks.foldl (rescheduleStep env) acc).2.events =
      acc.2.events ++ tasks.map rescheduleEvent ∧
    (tasks.foldl (rescheduleStep env) acc).2.panicked = acc.2.panicked ∧
    Shrinks acc.2.data (tasks.foldl (rescheduleStep env) acc).2.data
      (tasks.map (fun task => task.ID)) := by
  induction tasks generalizing acc with
  | nil => exact ⟨by simp, rfl, shrinks_refl _ _⟩
  | cons task rest ih =>
    obtain ⟨h1, h2, h3⟩ := rescheduleStep_spec env acc task
    obtain ⟨h4, h5, h6⟩ := ih (rescheduleStep env acc task)
    simp only [List.foldl_cons, List.map_cons]
    refine ⟨?_, ?_, ?_⟩
    · rw [h4, h1, List.append_assoc]
      rfl
    · rw [h5, h2]
    · exact shrinks_trans _ _ _ [task.ID] _ h3 h6

end controller

namespace controller

theorem rescheduleOuter_spec {F : Type} (env : Env F) (d0 : data F) (hI0 : IndexInv d0)
    (cs : List String) :
    ∀ (visited : List String) (acc : List (GoError F) × World F),
      "" ∉ cs → IndexInv acc.2.data → KeysMatch acc.2.data →
      (∀ id t, acc.2.data.tasks.lookup id = some t → t.ClusterID ≠ "" →
        d0.tasks.lookup id = some t) →
      (∀ id t, d0.tasks.lookup id = some t → t.ClusterID ∉ visited →
        acc.2.data.tasks.lookup id = some t) →
      ∃ evs, (cs.foldl (rescheduleCluster env) acc).2.events = acc.2.events ++ evs ∧
        (cs.foldl (rescheduleCluster env) acc).2.panicked = acc.2.panicked ∧
        (∀ e ∈ evs, ∃ c ∈ cs, ∃ t ∈ ListTasks d0 c, e = rescheduleEvent t) ∧
        (∀ c ∈ cs, c ∉ visited → ∀ t ∈ ListTasks d0 c, rescheduleEvent t ∈ evs) := by
  induction cs with
  | nil =>
    intro visited acc _ _ _ _ _
    exact ⟨[], by simp, rfl, by simp, by simp⟩
  | cons c rest ih =>
    intro visited acc hempty hI hK hJ hU
    have hc : c ≠ "" := fun h => hempty (by simp [h])
    have hrest : "" ∉ rest := fun h => hempty (List.mem_cons_of_mem _ h)
    obtain ⟨e1, p1, s1, s2, s3, s4⟩ :=
      rescheduleInner_spec env (ListTasks acc.2.data c) acc
    have hJ' : ∀ id t,
        ((ListTasks acc.2.data c).foldl (rescheduleStep env) acc).2.data.tasks.lookup id =
          some t → t.ClusterID ≠ "" → d0.tasks.lookup id = some t :=
      fun id t hl hne => hJ id t (s4 id t hl hne) hne
    have hU' : ∀ id t, d0.tasks.lookup id = some t → t.ClusterID ∉ c :: visited →
        ((ListTasks acc.2.data c).foldl (rescheduleStep env) acc).2.data.tasks.lookup id =
          some t := by
      intro id t hl hnot
      simp only [List.mem_cons, not_or] at hnot
      have hacc := hU id t hl hnot.2
      rw [s3 id ?_]
      · exact hacc
      · intro hmem
        simp only [List.mem_map] at hmem
        obtain ⟨t1, ht1, hid⟩ := hmem
        obtain ⟨id1, hl1, hc1⟩ := (mem_ListTasks_inv _ hI c t1).mp ht1
        have hk := hK id1 t1 hl1
        rw [hid] at hk
        subst hk
        rw [hacc] at hl1
        cases hl1
        exact hnot.1 hc1
    obtain ⟨evs, h1, h2, h3, h4⟩ := ih (c :: visited) _ hrest (s1 hI) (s2 hK) hJ' hU'
    refine ⟨(ListTasks acc.2.data c).map rescheduleEvent ++ evs, ?_, ?_, ?_, ?_⟩
    · simp only [List.foldl_cons, rescheduleCluster]
      rw [h1, e1, List.append_assoc]
    · simp only [List.foldl_cons, rescheduleCluster]
      rw [h2, p1]
    · intro e he
      rcases List.mem_append.mp he with he | he
      · simp only [List.mem_map] at he
        obtain ⟨t1, ht1, rfl⟩ := he
        obtain ⟨id1, hl1, hc1⟩ := (mem_ListTasks_inv _ hI c t1).mp ht1
        have hd0 := hJ id1 t1 hl1 (by rw [hc1]; exact hc)
        exact ⟨c, List.mem_cons_self _ _, t1,
          (mem_ListTasks_inv d0 hI0 c t1).mpr ⟨id1, hd0, hc1⟩, rfl⟩
      · obtain ⟨c', hc', t, ht, rfl⟩ := h3 e he
        exact ⟨c', List.mem_cons_of_mem _ hc', t, ht, rfl⟩
    · intro c' hc' hnv t ht
      by_cases heq : c' = c
      · subst heq
        obtain ⟨id, hl, hcl⟩ := (mem_ListTasks_inv d0 hI0 c' t).mp ht
        have hacc := hU id t hl (by rw [hcl]; exact hnv)
        apply List.mem_append_left
        exact List.mem_map.mpr ⟨t, (mem_ListTasks_inv _ hI c' t).mpr ⟨id, hacc, hcl⟩, rfl⟩
      · have hin : c' ∈ rest := by
          rcases List.mem_cons.mp hc' with h | h
          · exact absurd h heq
          · exact h
        apply List.mem_append_right
        exact h4 c' hin (by simp [heq, hnv]) t ht

theorem mem_ListTaskClusterIDs {F : Type} (d : data F) (clusterID : String) :
    clusterID ∈ ListTaskClusterIDs d ↔ clusterID ∈ d.clusterIndexer ∧ clusterID ≠ "" := by
  unfold ListTaskClusterIDs
  simp [List.mem_filter, AList.mem_keys]

theorem mem_shouldRescheduleClusters {F : Type} (c : Controller) (env : Env F) (d : data F)
    (clusterID : String) :
    clusterID ∈ shouldRescheduleClusters c env (ListTaskClusterIDs d) ↔
      (∃ cluster ∈ env.clusters, cluster.ID = clusterID ∧
        timeSince env.now cluster.HeartbeatTimestamp > c.clusterRescheduleTimeout) ∨
      (clusterID ∈ d.clusterIndexer ∧ clusterID ≠ "" ∧
        ∀ cluster ∈ env.clusters, cluster.ID ≠ clusterID) := by
  unfold shouldRescheduleClusters
  simp only [List.mem_append, List.mem_map, List.mem_filter, decide_eq_true_eq,
    mem_ListTaskClusterIDs, not_exists, not_and]
  constructor
  · rintro (⟨cluster, ⟨hm, hs⟩, rfl⟩ | ⟨⟨h1, h2⟩, h3⟩)
    · exact Or.inl ⟨cluster, hm, rfl, hs⟩
    · exact Or.inr ⟨h1, h2, h3⟩
  · rintro (⟨cluster, hm, rfl, hs⟩ | ⟨h1, h2, h3⟩)
    · exact Or.inl ⟨cluster, ⟨hm, hs⟩, rfl⟩
    · exact Or.inr ⟨⟨h1, h2⟩, h3⟩

theorem rescheduleTasks_events {F : Type} (c : Controller) (env : Env F) (w : World F)
    (hI : IndexInv w.data) (hK : KeysMatch w.data)
    (hids : ∀ cluster ∈ env.clusters, cluster.ID ≠ "") :
    ∃ evs, (rescheduleTasks c env w).2.events = w.events ++ evs ∧
      (rescheduleTasks c env w).2.panicked = w.panicked ∧
      (∀ e, e ∈ evs ↔
        ∃ clusterID ∈ shouldRescheduleClusters c env (ListTaskClusterIDs w.data),
          ∃ t ∈ ListTasks w.data clusterID, e = rescheduleEvent t) ∧
      (∀ clusterID, clusterID ∉ shouldRescheduleClusters c env (ListTaskClusterIDs w.data) →
        ∀ t ∈ ListTasks w.data clusterID, ∀ state cluster message,
          Event.UpdateTask t.ID state cluster message ∉ evs) := by
  have hempty : "" ∉ shouldRescheduleClusters c env (ListTaskClusterIDs w.data) := by
    rw [mem_shouldRescheduleClusters]
    rintro (⟨cluster, hm, hid, _⟩ | ⟨_, h, _⟩)
    · exact hids cluster hm hid
    · exact h rfl
  obtain ⟨evs, h1, h2, h3, h4⟩ := rescheduleOuter_spec env w.data hI
    (shouldRescheduleClusters c env (ListTaskClusterIDs w.data)) [] ([], w) hempty hI hK
    (fun _ _ h _ => h) (fun _ _ h _ => h)
  have hiff : ∀ e, e ∈ evs ↔
      ∃ clusterID ∈ shouldRescheduleClusters c env (ListTaskClusterIDs w.data),
        ∃ t ∈ ListTasks w.data clusterID, e = rescheduleEvent t := by
    intro e
    constructor
    · exact h3 e
    · rintro ⟨clusterID, hc, t, ht, rfl⟩
      exact h4 clusterID hc (by simp) t ht
  refine ⟨evs, h1, h2, hiff, ?_⟩
  intro clusterID hnot t ht state cluster message hmem
  obtain ⟨c1, hc1, t1, ht1, he⟩ := (hiff _).mp hmem
  obtain ⟨id, hl, hcl⟩ := (mem_ListTasks_inv _ hI clusterID t).mp ht
  obtain ⟨id1, hl1, hcl1⟩ := (mem_ListTasks_inv _ hI c1 t1).mp ht1
  have hid : t.ID = t1.ID := by
    unfold rescheduleEvent at he
    split at he
    · simp only [Event.UpdateTask.injEq] at he
      exact he.1
    · simp only [Event.UpdateTask.injEq] at he
      exact he.1
  have k := hK id t hl
  have k1 := hK id1 t1 hl1
  have hsame : id1 = id := by rw [← k, ← k1, hid]
  subst hsame
  rw [hl] at hl1
  cases hl1
  rw [hcl] at hcl1
  subst hcl1
  exact hnot hc1

end controller

namespace controller

/-- C23: for a task cache that satisfies the index invariant and stores every task under
its own ID, and a cluster snapshot without an empty cluster ID, `rescheduleTasks` issues
updates exactly for the tasks in the buckets of the cluster IDs that are listed with a
heartbeat age strictly greater than `clusterRescheduleTimeout` or are present in the task
index (and not empty) but absent from the cluster list: a task in state CANCELING gets
`UpdateTask(id, CANCELED, nil, nil)`, every other such task gets
`UpdateTask(id, QUEUED, "", nil)`; no other call is made, and the tasks of every other
bucket, the unscheduled tasks included, get no update. -/
theorem rescheduleTasks_spec {F : Type} (c : Controller) (env : Env F) (w : World F)
    (hI : IndexInv w.data) (hK : KeysMatch w.data)
    (hids : ∀ cluster ∈ env.clusters, cluster.ID ≠ "") :
    (∃ evs, (rescheduleTasks c env w).2.events = w.events ++ evs ∧
      (∀ e, e ∈ evs ↔
        ∃ clusterID ∈ shouldRescheduleClusters c env (ListTaskClusterIDs w.data),
          ∃ t ∈ ListTasks w.data clusterID, e = rescheduleEvent t) ∧
      (∀ clusterID, clusterID ∉ shouldRescheduleClusters c env (ListTaskClusterIDs w.data) →
        ∀ t ∈ ListTasks w.data clusterID, ∀ state cluster message,
          Event.UpdateTask t.ID state cluster message ∉ evs) ∧
      (∀ t ∈ ListTasks w.data "", ∀ state cluster message,
          Event.UpdateTask t.ID state cluster message ∉ evs)) ∧
    (∀ clusterID, clusterID ∈ shouldRescheduleClusters c env (ListTaskClusterIDs w.data) ↔
      (∃ cluster ∈ env.clusters, cluster.ID = clusterID ∧
        timeSince env.now cluster.HeartbeatTimestamp > c.clusterRescheduleTimeout) ∨
      (clusterID ∈ w.data.clusterIndexer ∧ clusterID ≠ "" ∧
        ∀ cluster ∈ env.clusters, cluster.ID ≠ clusterID)) ∧
    (∀ t : TaskInfo F, t.State = "CANCELING" →
      rescheduleEvent t = Event.UpdateTask t.ID (some "CANCELED") none none) ∧
    (∀ t : TaskInfo F, t.State ≠ "CANCELING" →
      rescheduleEvent t = Event.UpdateTask t.ID (some "QUEUED") (some "") none) := by
  obtain ⟨evs, h1, _, h3, h4⟩ := rescheduleTasks_events c env w hI hK hids
  refine ⟨⟨evs, h1, h3, h4, ?_⟩, fun clusterID => mem_shouldRescheduleClusters c env w.data clusterID,
    ?_, ?_⟩
  · apply h4 ""
    rw [mem_shouldRescheduleClusters]
    rintro (⟨cluster, hm, hid, _⟩ | ⟨_, h, _⟩)
    · exact hids cluster hm hid
    · exact h rfl
  · intro t ht
    unfold rescheduleEvent
    exact if_pos ht
  · intro t ht
    unfold rescheduleEvent
    exact if_neg ht

theorem rescheduleData_indexInv : IndexInv rescheduleData :=
  indexInv_addTask _ (indexInv_addTask _ (indexInv_addTask _ (indexInv_addTask _
    (indexInv_addTask _ indexInv_empty _ (by decide)) _ (by decide)) _ (by decide)) _
    (by decide)) _ (by decide)

theorem rescheduleData_keysMatch : KeysMatch rescheduleData :=
  keysMatch_addTask _ (keysMatch_addTask _ (keysMatch_addTask _ (keysMatch_addTask _
    (keysMatch_addTask _ keysMatch_empty _) _) _) _) _

theorem rescheduleTasks_spec_witness :
    ∃ evs, (rescheduleTasks testController rescheduleEnv rescheduleWorld).2.events =
        [] ++ evs ∧
      Event.UpdateTask "task-01" (some "QUEUED") (some "") none ∈ evs ∧
      Event.UpdateTask "task-04" (some "CANCELED") none none ∈ evs ∧
      Event.UpdateTask "task-05" (some "QUEUED") (some "") none ∉ evs := by
  obtain ⟨⟨evs, h1, h2, h3, _⟩, _⟩ :=
    rescheduleTasks_spec testController rescheduleEnv rescheduleWorld rescheduleData_indexInv
      rescheduleData_keysMatch (by decide)
  refine ⟨evs, h1, ?_, ?_, ?_⟩
  · exact (h2 _).mpr ⟨"cluster-too-old", by decide,
      assignedTask "task-01" consts.TaskRunning "cluster-too-old", by decide, rfl⟩
  · exact (h2 _).mpr ⟨"cluster-deleted", by decide,
      assignedTask "task-04" consts.TaskCanceling "cluster-deleted", by decide, rfl⟩
  · exact h3 "cluster-normal" (by decide)
      (assignedTask "task-05" consts.TaskRunning "cluster-normal") (by decide) _ _ _

end controller

/-! ## Theorems: the task resync -/

theorem listTasksFrom_mono {F : Type} (client : vetesclient.Client F) (view : String)
    (pageSize : Int) (fuel : Nat) :
    ∀ (pageToken : String) (res : List (clientmodels.Task F))
      (r : Except (GoError F) (List (clientmodels.Task F))) (more : Nat),
      listTasksFrom client view pageSize fuel pageToken res = some r →
      listTasksFrom client view pageSize (fuel + more) pageToken res = some r := by
  induction fuel with
  | zero =>
    intro pageToken res r more h
    simp [listTasksFrom] at h
  | succ n ih =>
    intro pageToken res r more h
    have hn : n + 1 + more = (n + more) + 1 := by omega
    rw [hn]
    unfold listTasksFrom at h ⊢
    cases hr : client.ListTasks
        { State := nonFinishedStates, View := view, PageSize := pageSize,
          PageToken := pageToken } with
    | error err =>
      simp only [hr] at h ⊢
      exact h
    | ok resp =>
      simp only [hr] at h ⊢
      by_cases ht : resp.NextPageToken = ""
      · simp only [ht, if_true] at h ⊢
        exact h
      · simp only [ht, if_false] at h ⊢
        exact ih _ _ _ _ h

/-- Once the listing has ended within `fuel` pages, a larger bound gives the same
outcome of `syncTasks`. -/
theorem syncTasks_mono {F : Type} (timeParse : String → Int × Option (GoError F))
    (fuel more : Nat) (i : taskCacheImpl F) (r : Option (GoError F) × taskCacheImpl F)
    (h : syncTasks timeParse fuel i = some r) :
    syncTasks timeParse (fuel + more) i = some r := by
  unfold syncTasks at h ⊢
  cases hl : listTasks fuel i.vetesClient consts.MinimalView consts.MaximumPageSize with
  | none => simp [hl] at h
  | some res =>
    have hm : listTasks (fuel + more) i.vetesClient consts.MinimalView consts.MaximumPageSize
        = some res := listTasksFrom_mono _ _ _ _ _ _ _ _ hl
    rw [hm]
    rw [hl] at h
    exact h

namespace clustercapacity

theorem Filter_fst_indep {F : Type} [Zero F] [Add F] [LT F] [∀ a b : F, Decidable (a < b)]
    (d : data F) (task : TaskInfo F) (cluster : ClusterInfo F) (cs cs' : CycleState F) :
    (Filter d task cluster cs).1 = (Filter d task cluster cs').1 := by
  unfold Filter
  cases cluster.Capacity with
  | none => rfl
  | some cap =>
    simp only
    cases NewAggregate (errs cap task (totals.of (ListTasks d cluster.ID))) with
    | none => rfl
    | some err => rfl

theorem scenario_accepts (cs : CycleState ℚ) :
    (Filter scenarioData (smallTask "task-0003" "") scenarioCluster cs).1 = none := by
  rw [Filter_fst_indep scenarioData _ scenarioCluster cs ∅]
  have h := Filter_accepts_small
  cases hf : (Filter scenarioData (smallTask "task-0003" "") scenarioCluster ∅).1 with
  | none => rfl
  | some e => rw [hf] at h; cases h

theorem idle_list : ListTasks scenarioData "cluster-02" = [] := by decide

theorem idle_totals : totals.of (ListTasks scenarioData "cluster-02") =
    { totalCount := 0, totalCPUCores := 0, totalRamGB := 0, totalDiskGB := 0,
      totalGPUCount := 0, totalGPU := ∅ } := by
  rw [idle_list]
  rfl

theorem idle_accepts (cs : CycleState ℚ) :
    (Filter scenarioData (smallTask "task-0003" "") idleCluster cs).1 = none := by
  have h := Filter_isSome_iff scenarioData (smallTask "task-0003" "") idleCluster cs
    scenarioCapacity rfl
  cases hs : (Filter scenarioData (smallTask "task-0003" "") idleCluster cs).1 with
  | none => rfl
  | some e =>
    exfalso
    have hex := h.mp (by rw [hs]; rfl)
    rw [show idleCluster.ID = "cluster-02" from rfl, idle_list] at hex
    unfold capacityExceeded at hex
    simp [scenarioCapacity, smallTask, occupiedCount, occupiedCPUCores, occupiedRamGB,
      occupiedDiskGB, wrapInt64] at hex
    norm_num at hex

theorem idle_dimensions :
    dimensionScores scenarioCapacity (smallTask "task-0003" "")
      (totals.of (ListTasks scenarioData "cluster-02")) = [90, 90, 90, 90] := by
  rw [idle_totals]
  simp only [dimensionScores, countDimension, cpuDimension, ramDimension, diskDimension,
    gpuDimension, scenarioCapacity, smallTask, Option.map_some', Option.some_bind,
    Option.none_bind, List.reduceOption_cons_of_some, List.reduceOption_cons_of_none,
    List.reduceOption_nil, Float64Conv.ofInt]
  norm_num [wrapInt64]
  refine ⟨?_, ?_, ?_⟩ <;>
    (rw [leastRequestedScore_eval _ _ (by norm_num) (by norm_num)]; norm_num)

end clustercapacity

theorem filterStep_single_accept {F : Type} (f : FilterPlugin F) (d : data F)
    (task : TaskInfo F) (acc : filterState F) (cluster : ClusterInfo F)
    (h : (f.Filter d task cluster acc.cycleState).1 = none) :
    filterStep [f] d task acc cluster =
      { availableClusters := acc.availableClusters ++ [cluster]
        pluginNameWithErrors := acc.pluginNameWithErrors
        cycleState := (f.Filter d task cluster acc.cycleState).2
        events := acc.events ++ [Event.Filter f.Name task cluster] } := by
  unfold filterStep
  rw [runFilters_cons_none _ _ _ _ _ _ h]
  simp [runFilters]

theorem filter_pair_accept {F : Type} (f : FilterPlugin F) (d : data F) (task : TaskInfo F)
    (c1 c2 : ClusterInfo F) (cs : CycleState F)
    (h1 : (f.Filter d task c1 cs).1 = none)
    (h2 : (f.Filter d task c2 (f.Filter d task c1 cs).2).1 = none) :
    filterAvailableClusters [f] d task [c1, c2] cs =
      { availableClusters := [c1, c2]
        pluginNameWithErrors := ∅
        cycleState := (f.Filter d task c2 (f.Filter d task c1 cs).2).2
        events := [Event.Filter f.Name task c1, Event.Filter f.Name task c2] } := by
  unfold filterAvailableClusters
  simp only [List.foldl]
  rw [filterStep_single_accept f d task _ c1 h1, filterStep_single_accept f d task _ c2 h2]
  rfl

/-- The filter stage on the busy and the idle cluster: both are accepted, and the cycle
state it leaves holds the totals of the idle cluster, the last one accepted. -/
theorem pair_filter :
    filterAvailableClusters capacityPlugins.filters scenarioData (smallTask "task-0003" "")
      [scenarioCluster, idleCluster] ∅ =
      { availableClusters := [scenarioCluster, idleCluster]
        pluginNameWithErrors := ∅
        cycleState := clustercapacity.deposit
          (clustercapacity.deposit ∅
            (clustercapacity.totals.of (ListTasks scenarioData "cluster-01")))
          (clustercapacity.totals.of (ListTasks scenarioData "cluster-02"))
        events := [Event.Filter "ClusterCapacity" (smallTask "task-0003" "") scenarioCluster,
          Event.Filter "ClusterCapacity" (smallTask "task-0003" "") idleCluster] } := by
  have h1 := clustercapacity.scenario_accepts ∅
  have h2 := clustercapacity.idle_accepts
    (clustercapacity.Filter scenarioData (smallTask "task-0003" "") scenarioCluster ∅).2
  have e1 := clustercapacity.Filter_accept_holds scenarioData (smallTask "task-0003" "")
    scenarioCluster ∅ scenarioCapacity rfl h1
  have e2 := clustercapacity.Filter_accept_holds scenarioData (smallTask "task-0003" "")
    idleCluster _ scenarioCapacity rfl h2
  rw [show capacityPlugins.filters =
      [{ Name := clustercapacity.Name, Filter := clustercapacity.Filter }] from rfl,
    filter_pair_accept _ _ _ _ _ _ h1 h2]
  rw [e2, e1]
  rfl

theorem scores_pair {F : Type} (sp : ScorePlugin F) (d : data F) (task : TaskInfo F)
    (c1 c2 : ClusterInfo F) (cs : CycleState F)
    (hcs : ∀ c cs', (sp.Score d task c cs').2 = cs') :
    (getClusterWithScores [sp] d task [c1, c2] cs).clusterWithScores =
      [{ clusterID := c1.ID, score := clampScore (sp.Score d task c1 cs).1 },
       { clusterID := c2.ID, score := clampScore (sp.Score d task c2 cs).1 }] := by
  unfold getClusterWithScores
  rw [scoreFold_eq _ _ _ _ _ (by simp)]
  simp [scoredFrom, combinedScore, clampedValues, sumScores, hcs]

theorem scheduleTask_last_call {F : Type} (s : Scheduler F) (env : Env F) (w : World F)
    (task : TaskInfo F) (clusters : List (ClusterInfo F)) (fr : filterState F)
    (scored : List clusterWithScore) (id : String)
    (hg : s.plugins.globalFilters = [])
    (hfr : filterAvailableClusters s.plugins.filters w.data task clusters ∅ = fr)
    (hne : fr.availableClusters.length ≠ 0)
    (hsr : (getClusterWithScores s.plugins.scores w.data task fr.availableClusters
      fr.cycleState).clusterWithScores = scored)
    (hmax : getMaxScoreClusterID scored (env.intn w.draws) = some id) :
    (scheduleTask s env w task clusters).events.getLast? =
      some (Event.UpdateTask task.ID none (some id) none) := by
  unfold scheduleTask
  rw [hg]
  simp only [runGlobalFilters]
  rw [hfr]
  simp only [if_neg hne]
  rw [hsr, hmax]
  simp [callUpdateTask]

theorem shared_state_score (c : ClusterInfo ℚ) (hc : c.Capacity = some scenarioCapacity) :
    clustercapacity.Score (smallTask "task-0003" "") c
      (clustercapacity.deposit
        (clustercapacity.deposit ∅
          (clustercapacity.totals.of (ListTasks scenarioData "cluster-01")))
        (clustercapacity.totals.of (ListTasks scenarioData "cluster-02"))) = some 90 := by
  rw [clustercapacity.Score_eq_mean (smallTask "task-0003" "") c _ scenarioCapacity
      (clustercapacity.totals.of (ListTasks scenarioData "cluster-02")) hc
      (clustercapacity.deposit_holds _ _) (by
        rw [clustercapacity.idle_dimensions]
        decide),
    clustercapacity.idle_dimensions]
  rfl

theorem pair_scores :
    (getClusterWithScores capacityPlugins.scores scenarioData (smallTask "task-0003" "")
      [scenarioCluster, idleCluster]
      (clustercapacity.deposit
        (clustercapacity.deposit ∅
          (clustercapacity.totals.of (ListTasks scenarioData "cluster-01")))
        (clustercapacity.totals.of (ListTasks scenarioData "cluster-02")))).clusterWithScores =
      [{ clusterID := "cluster-01", score := 90 }, { clusterID := "cluster-02", score := 90 }] := by
  rw [show capacityPlugins.scores =
      [{ Name := clustercapacity.Name
         Score := fun _d task cluster cycleState =>
           ((clustercapacity.Score task cluster cycleState).getD 0, cycleState) }] from rfl,
    scores_pair _ _ _ _ _ _ (fun _ _ => rfl)]
  simp only [shared_state_score scenarioCluster rfl, shared_state_score idleCluster rfl]
  rfl

/-- C30: with ClusterCapacity as the only Filter and the only Score plugin, a busy cluster
(two of ten slots, two of ten cores, 4 of 20 GB of RAM and 20 of 100 GB of disk occupied)
listed before an idle cluster of the same capacity, and a candidate of one core, 2 GB of
RAM and 10 GB of disk: `Filter` accepts both clusters and the cycle state it leaves holds
the totals of the idle cluster, the last one accepted; `Score` then gives the busy
cluster 90, the score of the idle one, where the least-requested score recomputed from
the totals of its own tasks is 70; the two clusters tie and `scheduleTask` assigns the
candidate to the busy cluster when the draw is 0. -/
theorem capacity_score_reads_last_totals :
    initPluginsGroup capacityOptions testCache = Except.ok capacityPlugins ∧
    (filterAvailableClusters capacityPlugins.filters scenarioData (smallTask "task-0003" "")
      [scenarioCluster, idleCluster] ∅).availableClusters = [scenarioCluster, idleCluster] ∧
    clustercapacity.Score (smallTask "task-0003" "") scenarioCluster
      (filterAvailableClusters capacityPlugins.filters scenarioData (smallTask "task-0003" "")
        [scenarioCluster, idleCluster] ∅).cycleState = some 90 ∧
    clustercapacity.truncatedMean
      (clustercapacity.dimensionScores scenarioCapacity (smallTask "task-0003" "")
        (clustercapacity.totals.of (ListTasks scenarioData scenarioCluster.ID))) = 70 ∧
    (getClusterWithScores capacityPlugins.scores scenarioData (smallTask "task-0003" "")
      (filterAvailableClusters capacityPlugins.filters scenarioData (smallTask "task-0003" "")
        [scenarioCluster, idleCluster] ∅).availableClusters
      (filterAvailableClusters capacityPlugins.filters scenarioData (smallTask "task-0003" "")
        [scenarioCluster, idleCluster] ∅).cycleState).clusterWithScores =
      [{ clusterID := "cluster-01", score := 90 }, { clusterID := "cluster-02", score := 90 }] ∧
    (scheduleTask capacityScheduler pairEnv pairWorld (smallTask "task-0003" "")
      [scenarioCluster, idleCluster]).events.getLast? =
      some (Event.UpdateTask "task-0003" none (some "cluster-01") none) := by
  refine ⟨rfl, ?_, ?_, ?_, ?_, ?_⟩
  · rw [pair_filter]
  · rw [pair_filter]
    exact shared_state_score scenarioCluster rfl
  · rw [show scenarioCluster.ID = "cluster-01" from rfl, clustercapacity.scenario_dimensions]
    rfl
  · rw [pair_filter]
    exact pair_scores
  · exact scheduleTask_last_call capacityScheduler pairEnv pairWorld (smallTask "task-0003" "")
      [scenarioCluster, idleCluster] _ _ "cluster-01" rfl pair_filter (by decide) pair_scores
      (by decide)

/-! ## Theorems: the random draw of scheduleTask -/

theorem getClusterWithScores_ne_nil {F : Type} (scores : List (ScorePlugin F)) (d : data F)
    (task : TaskInfo F) (available : List (ClusterInfo F)) (cs : CycleState F)
    (hne : available ≠ []) :
    (getClusterWithScores scores d task available cs).clusterWithScores ≠ [] := by
  obtain ⟨_, hids⟩ := getClusterWithScores_spec scores d task available cs
  intro h
  rw [h] at hids
  simp at hids
  exact hne hids

theorem maxItemsOf_ne_nil (clusterWithScores : List clusterWithScore)
    (hne : clusterWithScores ≠ []) : maxItemsOf clusterWithScores ≠ [] := by
  cases clusterWithScores with
  | nil => exact absurd rfl hne
  | cons item rest => exact (maxItemsOf_inv item rest).1

theorem scheduleTask_panicked {F : Type} (s : Scheduler F) (env : Env F) (w : World F)
    (task : TaskInfo F) (clusters : List (ClusterInfo F)) :
    (scheduleTask s env w task clusters).panicked = w.panicked := by
  unfold scheduleTask
  cases hg : (runGlobalFilters w.data task s.plugins.globalFilters ∅).1 with
  | some p => simp [hg]
  | none =>
    by_cases hlen : (filterAvailableClusters s.plugins.filters w.data task clusters
        (runGlobalFilters w.data task s.plugins.globalFilters ∅).2.1).availableClusters.length = 0
    · simp [hg, hlen]
    · have hne : (filterAvailableClusters s.plugins.filters w.data task clusters
          (runGlobalFilters w.data task s.plugins.globalFilters ∅).2.1).availableClusters ≠ [] :=
        fun h => hlen (by rw [h]; rfl)
      obtain ⟨e, _, hmax, _⟩ := getMaxScoreClusterID_mem_max _ (env.intn w.draws)
        (getClusterWithScores_ne_nil s.plugins.scores w.data task _
          (filterAvailableClusters s.plugins.filters w.data task clusters
            (runGlobalFilters w.data task s.plugins.globalFilters ∅).2.1).cycleState hne)
      simp only [hg, hlen, if_false, hmax, callUpdateTask]

/-- C40: `scheduleTask` hands `getMaxScoreClusterID` a non-empty list: past the test
`len(availableClusters) == 0` the list that `getClusterWithScores` returns has one entry
per available cluster; for every non-empty input the candidate list `maxItems` is
non-empty, so `rand.Intn` is called with a positive bound, the index it returns is within
the list and `getMaxScoreClusterID` returns an ID; hence `scheduleTask` never panics. -/
theorem scheduleTask_draw_in_range {F : Type} (s : Scheduler F) (env : Env F) (w : World F)
    (task : TaskInfo F) (clusters : List (ClusterInfo F)) :
    (∀ (cs : CycleState F) (available : List (ClusterInfo F)), available.length ≠ 0 →
      (getClusterWithScores s.plugins.scores w.data task available cs).clusterWithScores.length
        = available.length ∧
      (getClusterWithScores s.plugins.scores w.data task available cs).clusterWithScores ≠ []) ∧
    (∀ (clusterWithScores : List clusterWithScore) (r : Nat), clusterWithScores ≠ [] →
      0 < (maxItemsOf clusterWithScores).length ∧
      r % (maxItemsOf clusterWithScores).length < (maxItemsOf clusterWithScores).length ∧
      ∃ e ∈ clusterWithScores, getMaxScoreClusterID clusterWithScores r = some e.clusterID) ∧
    (scheduleTask s env w task clusters).panicked = w.panicked := by
  refine ⟨?_, ?_, scheduleTask_panicked s env w task clusters⟩
  · intro cs available hne
    have hne' : available ≠ [] := fun h => hne (by rw [h]; rfl)
    refine ⟨?_, getClusterWithScores_ne_nil _ _ _ _ _ hne'⟩
    obtain ⟨_, hids⟩ := getClusterWithScores_spec s.plugins.scores w.data task available cs
    have := congrArg List.length hids
    simpa using this
  · intro l r hne
    have hpos : 0 < (maxItemsOf l).length := List.length_pos.mpr (maxItemsOf_ne_nil l hne)
    obtain ⟨e, he, hmax, _⟩ := getMaxScoreClusterID_mem_max l r hne
    exact ⟨hpos, Nat.mod_lt _ hpos, e, he, hmax⟩

theorem scheduleTask_draw_in_range_witness :
    (getClusterWithScores testScheduler.plugins.scores testWorld.data
      (bareTask "task-01" consts.TaskQueued) [bareCluster "cluster-01" 0] ∅).clusterWithScores
      ≠ [] ∧
    0 < (maxItemsOf [clusterWithScore.mk "cluster-01" 10]).length ∧
    (scheduleTask testScheduler testEnv testWorld (bareTask "task-01" consts.TaskQueued)
      [bareCluster "cluster-01" 0]).panicked = false :=
  ⟨((scheduleTask_draw_in_range testScheduler testEnv testWorld
      (bareTask "task-01" consts.TaskQueued) [bareCluster "cluster-01" 0]).1 ∅
      [bareCluster "cluster-01" 0] (by decide)).2,
   ((scheduleTask_draw_in_range testScheduler testEnv testWorld
      (bareTask "task-01" consts.TaskQueued) [bareCluster "cluster-01" 0]).2.1
      [clusterWithScore.mk "cluster-01" 10] 0 (by simp)).1,
   (scheduleTask_draw_in_range testScheduler testEnv testWorld
      (bareTask "task-01" consts.TaskQueued) [bareCluster "cluster-01" 0]).2.2⟩

/-! ## Theorems: a plugin list without a Sort plugin -/

theorem initPluginsGroup_sort {F : Type} [Zero F] [Add F] [Sub F] [Mul F] [Div F] [LT F]
    [LE F] [BEq F] [∀ a b : F, Decidable (a < b)] [∀ a b : F, Decidable (a ≤ b)]
    [Float64Conv F] (opts : Options) (cache : Cache F)
    (h : ∀ pluginName ∈ opts.Plugins, pluginName ∈ registeredNames) :
    ∃ g, initPluginsGroup opts cache = Except.ok g ∧
      (g.sort.isSome = true ↔ prioritysort.Name ∈ opts.Plugins) := by
  refine ⟨_, initPluginsFrom_ok cache opts.Plugins _ h, ?_⟩
  obtain ⟨_, _, _, h4⟩ := foldl_addPlugin (configuredPlugins cache opts.Plugins)
    { sort := none, globalFilters := [], filters := [], scores := [] }
  obtain ⟨_, _, _, hn⟩ := configuredPlugins_names cache opts.Plugins
  rw [h4]
  have hlen := congrArg List.length hn
  rw [List.length_map] at hlen
  cases hl : (configuredPlugins cache opts.Plugins).filterMap (fun p => p.sort) with
  | nil =>
    rw [hl] at hlen
    have hnil : opts.Plugins.filter (fun n => decide (n = prioritysort.Name)) = [] :=
      List.length_eq_zero.mp hlen.symm
    simp only [List.getLast?_nil, Option.orElse, Option.isSome_none, Bool.false_eq_true,
      false_iff]
    intro hmem
    have : prioritysort.Name ∈ opts.Plugins.filter (fun n => decide (n = prioritysort.Name)) :=
      List.mem_filter.mpr ⟨hmem, by simp⟩
    rw [hnil] at this
    cases this
  | cons p rest =>
    rw [hl] at hlen
    have hne : opts.Plugins.filter (fun n => decide (n = prioritysort.Name)) ≠ [] := by
      intro h0
      rw [h0] at hlen
      cases hlen
    obtain ⟨n, hn'⟩ := List.exists_mem_of_ne_nil _ hne
    have hmem := List.mem_filter.mp hn'
    have hname : n = prioritysort.Name := by simpa using hmem.2
    rw [List.getLast?_cons]
    simp only [Option.orElse, Option.isSome_some, true_iff]
    rw [← hname]
    exact hmem.1

theorem scheduleTasks_panics_without_sort {F : Type} (s : Scheduler F) (env : Env F)
    (w : World F) (hsort : s.plugins.sort = none)
    (hq : 2 ≤ (queuedTasks (ListTasks w.data "")).length)
    (hready : readyClusters s env ≠ []) :
    (scheduleTasks s env w).panicked = true := by
  obtain ⟨_, hc2⟩ := collect_spec env (ListTasks w.data "") (w, [])
  simp only [List.nil_append] at hc2
  have hlen : ((ListTasks w.data "").foldl (collectStep env) (w, [])).2.length ≠ 0 := by
    rw [hc2]
    omega
  have hr : (readyClusters s env).length ≠ 0 := fun h => hready (List.length_eq_zero.mp h)
  have hs : sortTasks s.plugins.sort env
      ((ListTasks w.data "").foldl (collectStep env) (w, [])).2 = none := by
    unfold sortTasks
    rw [hc2, hsort]
    have : ¬ (queuedTasks (ListTasks w.data "")).length < 2 := by omega
    simp only [this, if_false]
  unfold scheduleTasks
  simp only [hlen, hr, if_false, hs]

/-- C39: the plugin list [ClusterCapacity] passes `Validate` and `initPluginsGroup`, and
the plugin group of the scheduler built from it has no Sort plugin; in a tick of this
scheduler with two queued unscheduled tasks and one ready cluster, the comparison that
`sort.Slice` calls dereferences the nil plugin: the tick panics. -/
theorem scheduleTasks_without_sort_panics :
    (Options.Validate capacityOptions : Option (GoError ℚ)) = none ∧
    NewScheduler capacityOptions testCache = Except.ok sortlessScheduler ∧
    sortlessScheduler.plugins.sort.isNone = true ∧
    queuedTasks (ListTasks testWorld.data "") =
      [bareTask "task-02" consts.TaskQueued, bareTask "task-01" consts.TaskQueued] ∧
    readyClusters sortlessScheduler testEnv = [bareCluster "cluster-01" 7200000000000] ∧
    (scheduleTasks sortlessScheduler testEnv testWorld).panicked = true := by
  have hready : readyClusters sortlessScheduler testEnv =
      [bareCluster "cluster-01" 7200000000000] := rfl
  refine ⟨rfl, rfl, rfl, by decide, hready, ?_⟩
  exact scheduleTasks_panics_without_sort sortlessScheduler testEnv testWorld rfl
    (by decide) (by rw [hready]; exact List.cons_ne_nil _ _)

/-! ## Theorems: the two heartbeat timeouts -/

theorem Validate_none_valid {F : Type} (o : Options)
    (hv : (Options.Validate o : Option (GoError F)) = none) : o.Valid := by
  have key : (Options.Validate o : Option (GoError F)).isSome = true ↔ ¬ o.Valid :=
    Validate_isSome_iff o
  rw [hv] at key
  by_contra h
  have := key.mpr h
  cases this

/-- C38 (counterexample): options with a reschedule timeout of one minute and a not-ready
timeout of ten minutes pass `Validate`; a cluster whose heartbeat is five minutes old is
then ready for the scheduler and its ID is among the clusters to reschedule. -/
theorem Validate_accepts_skewed_timeouts :
    (Options.Validate skewedOptions : Option (GoError ℚ)) = none ∧
    skewedOptions.Controller.ClusterRescheduleTimeout < skewedOptions.ClusterNotReadyTimeout ∧
    (∃ g, NewScheduler skewedOptions testCache = Except.ok g ∧
      bareCluster "cluster-01" 6900000000000 ∈ readyClusters g agedEnv) ∧
    "cluster-01" ∈ controller.shouldRescheduleClusters
      (controller.Init skewedOptions.Controller) agedEnv [] := by
  refine ⟨rfl, by decide, ⟨_, rfl, ?_⟩, by decide⟩
  rw [mem_readyClusters]
  exact ⟨by simp [agedEnv], by decide⟩

/-- C38 (amended): options accepted by `Validate` satisfy ClusterRescheduleTimeout ≥
Controller.Period, ClusterRescheduleTimeout ≥ Cache.SyncPeriod, ClusterNotReadyTimeout ≥
Cache.SyncPeriod and SchedulePeriod ≥ Cache.SyncPeriod; the two timeouts are not compared
with each other. When ClusterRescheduleTimeout ≥ ClusterNotReadyTimeout, as for the
default options, no heartbeat age is at once within the not-ready timeout of the
scheduler and beyond the reschedule timeout of the controller; when it is smaller, every
age between the two is both. -/
theorem Validate_timeouts {F : Type} (o : Options)
    (hv : (Options.Validate o : Option (GoError F)) = none) :
    (o.Controller.ClusterRescheduleTimeout ≥ o.Controller.Period ∧
      o.Controller.ClusterRescheduleTimeout ≥ o.Cache.SyncPeriod ∧
      o.ClusterNotReadyTimeout ≥ o.Cache.SyncPeriod ∧
      o.SchedulePeriod ≥ o.Cache.SyncPeriod) ∧
    (o.Controller.ClusterRescheduleTimeout ≥ o.ClusterNotReadyTimeout →
      ∀ (g : pluginsGroup F) (env : Env F) (cluster : ClusterInfo F),
        ¬ (cluster ∈ readyClusters
              { plugins := g, clusterNotReadyTimeout := o.ClusterNotReadyTimeout } env ∧
           timeSince env.now cluster.HeartbeatTimestamp >
              (controller.Init o.Controller).clusterRescheduleTimeout)) ∧
    (o.Controller.ClusterRescheduleTimeout < o.ClusterNotReadyTimeout →
      ∀ (g : pluginsGroup F) (env : Env F) (cluster : ClusterInfo F) (ids : List String),
        cluster ∈ env.clusters →
        o.Controller.ClusterRescheduleTimeout < timeSince env.now cluster.HeartbeatTimestamp →
        timeSince env.now cluster.HeartbeatTimestamp ≤ o.ClusterNotReadyTimeout →
        cluster ∈ readyClusters
            { plugins := g, clusterNotReadyTimeout := o.ClusterNotReadyTimeout } env ∧
          cluster.ID ∈ controller.shouldRescheduleClusters (controller.Init o.Controller)
            env ids) ∧
    NewOptions.Controller.ClusterRescheduleTimeout ≥ NewOptions.ClusterNotReadyTimeout := by
  obtain ⟨h1, h2, h3, h4⟩ := Validate_none_valid o hv
  refine ⟨⟨h1, h4, h3, h2⟩, ?_, ?_, by decide⟩
  · intro hge g env cluster ⟨hr, hd⟩
    rw [mem_readyClusters] at hr
    have hr2 := hr.2
    simp only [controller.Init] at hd
    simp only at hr2
    omega
  · intro _ g env cluster ids hm hgt hle
    refine ⟨(mem_readyClusters _ env cluster).mpr ⟨hm, hle⟩, ?_⟩
    unfold controller.shouldRescheduleClusters
    refine List.mem_append_left _ (List.mem_map.mpr ⟨cluster, ?_, rfl⟩)
    exact List.mem_filter.mpr ⟨hm, by simpa [controller.Init] using hgt⟩

theorem Validate_timeouts_witness :
    ¬ (bareCluster "cluster-01" 7200000000000 ∈ readyClusters
          { plugins := capacityPlugins,
            clusterNotReadyTimeout := NewOptions.ClusterNotReadyTimeout } testEnv ∧
       timeSince testEnv.now (bareCluster "cluster-01" 7200000000000).HeartbeatTimestamp >
          (controller.Init NewOptions.Controller).clusterRescheduleTimeout) :=
  (Validate_timeouts NewOptions (rfl : (Options.Validate NewOptions : Option (GoError ℚ)) = none)).2.1
    (by decide) capacityPlugins testEnv (bareCluster "cluster-01" 7200000000000)

/-! ## Theorems: the cycle state after ClusterCapacity.Filter -/

namespace clustercapacity

theorem mem_step_totalGPU {F : Type} [Zero F] [Add F] (acc : totals F) (item : TaskInfo F)
    (ty : String) :
    ty ∈ (totals.step acc item).totalGPU ↔
      ty ∈ acc.totalGPU ∨ (ty ≠ "" ∧ ∃ gpu ∈ gpuRequests [item], gpu.Type_ = ty) := by
  unfold totals.step gpuRequests
  cases hr : item.Resources with
  | none => simp [hr]
  | some res =>
    cases hg : res.GPU with
    | none => simp [hr, hg]
    | some gpu =>
      by_cases hty : gpu.Type_ = ""
      · simp only [hr, hg, hty, ne_eq, not_true_eq_false, if_false, List.filterMap_cons,
          List.filterMap_nil, List.mem_singleton, exists_eq_left]
        constructor
        · intro h
          exact Or.inl h
        · rintro (h | ⟨h1, h2⟩)
          · exact h
          · exact absurd h2.symm h1
      · simp only [hr, hg, hty, ne_eq, not_false_eq_true, if_true, List.filterMap_cons,
          List.filterMap_nil, List.mem_singleton, exists_eq_left, AList.mem_insert]
        constructor
        · rintro (h | h)
          · exact Or.inr ⟨by rw [h]; exact hty, h.symm⟩
          · exact Or.inl h
        · rintro (h | ⟨_, h⟩)
          · exact Or.inr h
          · exact Or.inl h.symm

theorem gpuRequests_cons {F : Type} (item : TaskInfo F) (rest : List (TaskInfo F)) :
    gpuRequests (item :: rest) = gpuRequests [item] ++ gpuRequests rest := by
  unfold gpuRequests
  rw [← List.filterMap_append, ← List.filterMap_append]
  rfl

theorem mem_foldl_totalGPU {F : Type} [Zero F] [Add F] (l : List (TaskInfo F))
    (acc : totals F) (ty : String) :
    ty ∈ (l.foldl totals.step acc).totalGPU ↔
      ty ∈ acc.totalGPU ∨ (ty ≠ "" ∧ ∃ gpu ∈ gpuRequests l, gpu.Type_ = ty) := by
  induction l generalizing acc with
  | nil => simp [gpuRequests]
  | cons item rest ih =>
    simp only [List.foldl_cons]
    rw [gpuRequests_cons item rest, ih, mem_step_totalGPU]
    simp only [List.mem_append]
    constructor
    · rintro ((h | ⟨h1, gpu, h2, h3⟩) | ⟨h1, gpu, h2, h3⟩)
      · exact Or.inl h
      · exact Or.inr ⟨h1, gpu, Or.inl h2, h3⟩
      · exact Or.inr ⟨h1, gpu, Or.inr h2, h3⟩
    · rintro (h | ⟨h1, gpu, h2 | h2, h3⟩)
      · exact Or.inl (Or.inl h)
      · exact Or.inl (Or.inr ⟨h1, gpu, h2, h3⟩)
      · exact Or.inr ⟨h1, gpu, h2, h3⟩

theorem mem_totalGPU_of {F : Type} [Zero F] [Add F] (scheduled : List (TaskInfo F))
    (ty : String) :
    ty ∈ (totals.of scheduled).totalGPU ↔
      ty ≠ "" ∧ ∃ gpu ∈ gpuRequests scheduled, gpu.Type_ = ty := by
  unfold totals.of
  rw [mem_foldl_totalGPU]
  simp [totals.init]

theorem Filter_reject_state {F : Type} [Zero F] [Add F] [LT F] [∀ a b : F, Decidable (a < b)]
    (d : data F) (task : TaskInfo F) (cluster : ClusterInfo F) (cycleState : CycleState F)
    (h : (Filter d task cluster cycleState).1.isSome = true ∨ cluster.Capacity = none) :
    (Filter d task cluster cycleState).2 = cycleState := by
  unfold Filter at h ⊢
  cases hc : cluster.Capacity with
  | none => rfl
  | some cap =>
    rw [hc] at h
    simp only at h ⊢
    cases he : NewAggregate (errs cap task (totals.of (ListTasks d cluster.ID))) with
    | some err => rfl
    | none =>
      rw [he] at h
      rcases h with h | h
      · cases h
      · cases h

theorem lookup_deposit {F : Type} (cycleState : CycleState F) (t : totals F) :
    (deposit cycleState t).lookup "totalCount" = some (CycleValue.int t.totalCount) ∧
    (deposit cycleState t).lookup "totalCPUCore" = some (CycleValue.int t.totalCPUCores) ∧
    (deposit cycleState t).lookup "totalRamGB" = some (CycleValue.float64 t.totalRamGB) ∧
    (deposit cycleState t).lookup "totalDiskGB" = some (CycleValue.float64 t.totalDiskGB) ∧
    (deposit cycleState t).lookup "totalGPUCount" =
      some (CycleValue.float64 t.totalGPUCount) ∧
    (deposit cycleState t).lookup "totalGPU" =
      some (CycleValue.mapStringFloat64 t.totalGPU) ∧
    ∀ key, key ∉ ["totalCount", "totalCPUCore", "totalRamGB", "totalDiskGB", "totalGPUCount",
        "totalGPU"] → (deposit cycleState t).lookup key = cycleState.lookup key := by
  unfold deposit
  refine ⟨?_, ?_, ?_, ?_, ?_, ?_, ?_⟩
  · simp [AList.lookup_insert, AList.lookup_insert_ne, totalCountKey, totalCPUCoreKey,
      totalRamGBKey, totalDiskGBKey, totalGPUCountKey, totalGPUKey]
  · simp [AList.lookup_insert, AList.lookup_insert_ne, totalCountKey, totalCPUCoreKey,
      totalRamGBKey, totalDiskGBKey, totalGPUCountKey, totalGPUKey]
  · simp [AList.lookup_insert, AList.lookup_insert_ne, totalCountKey, totalCPUCoreKey,
      totalRamGBKey, totalDiskGBKey, totalGPUCountKey, totalGPUKey]
  · simp [AList.lookup_insert, AList.lookup_insert_ne, totalCountKey, totalCPUCoreKey,
      totalRamGBKey, totalDiskGBKey, totalGPUCountKey, totalGPUKey]
  · simp [AList.lookup_insert, AList.lookup_insert_ne, totalCountKey, totalCPUCoreKey,
      totalRamGBKey, totalDiskGBKey, totalGPUCountKey, totalGPUKey]
  · simp [AList.lookup_insert, AList.lookup_insert_ne, totalCountKey, totalCPUCoreKey,
      totalRamGBKey, totalDiskGBKey, totalGPUCountKey, totalGPUKey]
  · intro key hkey
    simp only [List.mem_cons, List.mem_singleton, List.not_mem_nil, or_false, not_or] at hkey
    obtain ⟨h1, h2, h3, h4, h5, h6⟩ := hkey
    simp only [totalCountKey, totalCPUCoreKey, totalRamGBKey, totalDiskGBKey,
      totalGPUCountKey, totalGPUKey]
    rw [AList.lookup_insert_ne h6, AList.lookup_insert_ne h5, AList.lookup_insert_ne h4,
      AList.lookup_insert_ne h3, AList.lookup_insert_ne h2, AList.lookup_insert_ne h1]

/-- C34: `ClusterCapacity.Filter` returns the cycle state as it received it when it
rejects and when the capacity of the cluster is null. When it accepts with a non-null
capacity, the cycle state it leaves differs from the one received in exactly the six keys
totalCount, totalCPUCore, totalRamGB, totalDiskGB, totalGPUCount and totalGPU, which hold,
for the tasks assigned to the cluster: their number and the sum of their CPU cores (Go
ints), the sums of their RAM, of their disk and of the counts of all their GPU requests
(float64), and a map whose keys are the GPU types named by a request and whose values are
the sums of the counts of the requests that name the type. -/
theorem Filter_cycleState {F : Type} [Zero F] [Add F] [LT F] [∀ a b : F, Decidable (a < b)]
    (d : data F) (task : TaskInfo F) (cluster : ClusterInfo F) (cycleState : CycleState F) :
    ((Filter d task cluster cycleState).1.isSome = true →
      (Filter d task cluster cycleState).2 = cycleState) ∧
    (cluster.Capacity = none → (Filter d task cluster cycleState).2 = cycleState) ∧
    (∀ cap, cluster.Capacity = some cap → (Filter d task cluster cycleState).1 = none →
      (Filter d task cluster cycleState).2.lookup "totalCount" =
        some (CycleValue.int (occupiedCount (ListTasks d cluster.ID))) ∧
      (Filter d task cluster cycleState).2.lookup "totalCPUCore" =
        some (CycleValue.int (occupiedCPUCores (ListTasks d cluster.ID))) ∧
      (Filter d task cluster cycleState).2.lookup "totalRamGB" =
        some (CycleValue.float64 (occupiedRamGB (ListTasks d cluster.ID))) ∧
      (Filter d task cluster cycleState).2.lookup "totalDiskGB" =
        some (CycleValue.float64 (occupiedDiskGB (ListTasks d cluster.ID))) ∧
      (Filter d task cluster cycleState).2.lookup "totalGPUCount" =
        some (CycleValue.float64 (occupiedGPUCount (ListTasks d cluster.ID))) ∧
      (∃ m, (Filter d task cluster cycleState).2.lookup "totalGPU" =
          some (CycleValue.mapStringFloat64 m) ∧
        (∀ ty, ty ∈ m ↔ ty ≠ "" ∧ ∃ gpu ∈ gpuRequests (ListTasks d cluster.ID),
          gpu.Type_ = ty) ∧
        (∀ ty, ty ≠ "" →
          (m.lookup ty).getD 0 = occupiedGPUOfType (ListTasks d cluster.ID) ty)) ∧
      (∀ key, key ∉ ["totalCount", "totalCPUCore", "totalRamGB", "totalDiskGB",
          "totalGPUCount", "totalGPU"] →
        (Filter d task cluster cycleState).2.lookup key = cycleState.lookup key)) ∧
    (∀ scheduled : List (TaskInfo F),
      ((scheduled.length : Int) < 9223372036854775808 →
        occupiedCount scheduled = scheduled.length) ∧
      (-9223372036854775808 ≤ ((scheduled.filterMap (fun item => item.Resources)).map
            (fun res => res.CPUCores)).sum →
        ((scheduled.filterMap (fun item => item.Resources)).map
            (fun res => res.CPUCores)).sum < 9223372036854775808 →
        occupiedCPUCores scheduled =
          ((scheduled.filterMap (fun item => item.Resources)).map
            (fun res => res.CPUCores)).sum)) := by
  refine ⟨fun h => Filter_reject_state d task cluster cycleState (Or.inl h),
    fun h => Filter_reject_state d task cluster cycleState (Or.inr h), ?_, ?_⟩
  · intro cap hc hacc
    rw [Filter_accept_holds d task cluster cycleState cap hc hacc]
    obtain ⟨h1, h2, h3, h4, h5, h6, h7⟩ :=
      lookup_deposit cycleState (totals.of (ListTasks d cluster.ID))
    obtain ⟨e1, e2, e3, e4, e5, e6⟩ := totals_of_eq (ListTasks d cluster.ID)
    rw [h1, h2, h3, h4, h5, e1, e2, e3, e4, e5]
    exact ⟨rfl, rfl, rfl, rfl, rfl,
      ⟨_, h6, mem_totalGPU_of (ListTasks d cluster.ID), e6⟩, h7⟩
  · intro scheduled
    refine ⟨fun h => ?_, fun h1 h2 => ?_⟩
    · unfold occupiedCount
      exact wrapInt64_of_range _ (by omega) h
    · unfold occupiedCPUCores
      exact wrapInt64_of_range _ h1 h2

theorem Filter_cycleState_witness :
    (Filter scenarioData (smallTask "task-0003" "") scenarioCluster ∅).2.lookup "totalCount" =
      some (CycleValue.int 2) ∧
    (Filter scenarioData (smallTask "task-0003" "") scenarioCluster ∅).2.lookup "other" =
      none := by
  obtain ⟨h1, _, _, _, _, _, h7⟩ :=
    (Filter_cycleState scenarioData (smallTask "task-0003" "") scenarioCluster ∅).2.2.1
      scenarioCapacity rfl (scenario_accepts ∅)
  refine ⟨?_, ?_⟩
  · rw [h1]
    exact congrArg (fun n => some (CycleValue.int n)) (by decide)
  · rw [h7 "other" (by decide)]
    rfl

end clustercapacity

/-! ## Theorems: filterAvailableClusters -/

theorem runFilters_none_iff {F : Type} (d : data F) (task : TaskInfo F)
    (cluster : ClusterInfo F) (fs : List (FilterPlugin F)) (cs : CycleState F) :
    (runFilters d task cluster fs cs).1 = none ↔ acceptsAll d task cluster fs cs := by
  induction fs generalizing cs with
  | nil => simp [runFilters, acceptsAll]
  | cons f rest ih =>
    cases h : (f.Filter d task cluster cs).1 with
    | some err =>
      rw [runFilters_cons_some d task cluster f rest cs err h]
      simp [acceptsAll, h]
    | none =>
      rw [runFilters_cons_none d task cluster f rest cs h]
      simp only [acceptsAll, h, true_and]
      exact ih _

theorem runFilters_accept_calls {F : Type} (d : data F) (task : TaskInfo F)
    (cluster : ClusterInfo F) (fs : List (FilterPlugin F)) (cs : CycleState F)
    (hacc : (runFilters d task cluster fs cs).1 = none) :
    (runFilters d task cluster fs cs).2.2 =
      fs.map (fun f => Event.Filter f.Name task cluster) := by
  induction fs generalizing cs with
  | nil => rfl
  | cons f rest ih =>
    cases h : (f.Filter d task cluster cs).1 with
    | some err =>
      rw [runFilters_cons_some d task cluster f rest cs err h] at hacc
      cases hacc
    | none =>
      rw [runFilters_cons_none d task cluster f rest cs h] at hacc ⊢
      simp only [List.map_cons, List.cons.injEq, true_and]
      exact ih _ hacc

theorem runFilters_first_failure {F : Type} (d : data F) (task : TaskInfo F)
    (cluster : ClusterInfo F) (fs : List (FilterPlugin F)) (cs : CycleState F)
    (name : String) (err : GoError F)
    (hrej : (runFilters d task cluster fs cs).1 = some (name, err)) :
    ∃ pre f post, fs = pre ++ f :: post ∧ acceptsAll d task cluster pre cs ∧
      (f.Filter d task cluster (stateAfter d task cluster pre cs)).1 = some err ∧
      name = f.Name ∧
      (runFilters d task cluster fs cs).2.2 =
        (pre ++ [f]).map (fun f => Event.Filter f.Name task cluster) := by
  induction fs generalizing cs with
  | nil => simp [runFilters] at hrej
  | cons f rest ih =>
    cases h : (f.Filter d task cluster cs).1 with
    | some e =>
      rw [runFilters_cons_some d task cluster f rest cs e h] at hrej ⊢
      simp only [Option.some.injEq, Prod.mk.injEq] at hrej
      obtain ⟨h1, h2⟩ := hrej
      refine ⟨[], f, rest, rfl, trivial, ?_, h1.symm, rfl⟩
      rw [← h2]
      exact h
    | none =>
      rw [runFilters_cons_none d task cluster f rest cs h] at hrej ⊢
      obtain ⟨pre, g, post, h1, h2, h3, h4, h5⟩ := ih _ hrej
      refine ⟨f :: pre, g, post, by rw [h1]; rfl, ⟨h, h2⟩, h3, h4, ?_⟩
      simp only [List.cons_append, List.map_cons, List.cons.injEq, true_and]
      exact h5

theorem filterFold_eq {F : Type} (fs : List (FilterPlugin F)) (d : data F)
    (task : TaskInfo F) (clusters : List (ClusterInfo F)) (acc : filterState F) :
    (clusters.foldl (filterStep fs d task) acc).availableClusters =
      acc.availableClusters ++
        ((clusterStates fs d task clusters acc.cycleState).filter
          (fun v => (runFilters d task v.1 fs v.2).1.isNone)).map (fun v => v.1) ∧
    (clusters.foldl (filterStep fs d task) acc).events =
      acc.events ++ ((clusterStates fs d task clusters acc.cycleState).map
        (fun v => (runFilters d task v.1 fs v.2).2.2)).flatten ∧
    (∀ name, ((clusters.foldl (filterStep fs d task) acc).pluginNameWithErrors.lookup
        name).getD [] =
      (acc.pluginNameWithErrors.lookup name).getD [] ++
        (clusterStates fs d task clusters acc.cycleState).filterMap
          (reasonUnder fs d task name)) := by
  induction clusters generalizing acc with
  | nil => simp [clusterStates]
  | cons c rest ih =>
    obtain ⟨h1, h2, h3⟩ := ih (filterStep fs d task acc c)
    simp only [List.foldl_cons, clusterStates]
    have hcs : (filterStep fs d task acc c).cycleState =
        (runFilters d task c fs acc.cycleState).2.1 := by
      unfold filterStep
      cases h : (runFilters d task c fs acc.cycleState).1 with
      | none => simp [h]
      | some p => simp [h]
    rw [hcs] at h1 h2 h3
    refine ⟨?_, ?_, ?_⟩
    · rw [h1]
      unfold filterStep
      cases h : (runFilters d task c fs acc.cycleState).1 with
      | none => simp [h, List.filter_cons]
      | some p => simp [h, List.filter_cons]
    · rw [h2, filterStep_events]
      simp
    · intro name
      rw [h3 name]
      unfold filterStep reasonUnder
      cases h : (runFilters d task c fs acc.cycleState).1 with
      | none => simp [h, reasonUnder]
      | some p =>
        obtain ⟨failed, err⟩ := p
        by_cases hn : failed = name
        · subst hn
          simp [h, reasonUnder, AList.lookup_insert]
        · have hn' : name ≠ failed := fun h' => hn h'.symm
          simp [h, reasonUnder, AList.lookup_insert_ne hn', hn]

theorem clusterStates_fst {F : Type} (fs : List (FilterPlugin F)) (d : data F)
    (task : TaskInfo F) (clusters : List (ClusterInfo F)) (cs : CycleState F) :
    (clusterStates fs d task clusters cs).map (fun v => v.1) = clusters := by
  induction clusters generalizing cs with
  | nil => rfl
  | cons c rest ih => simp [clusterStates, ih]

/-- C32: `filterAvailableClusters` visits the clusters in input order, each on the cycle
state left by the clusters before it. It returns, in input order, exactly the clusters
for which every Filter, called in registration order, returns no error. For a rejected
cluster the filters are called up to the first one that fails and no further, and one
reason, the error of that filter wrapped with the cluster ID, is appended to the list
recorded under the name of that filter; nothing else is recorded. -/
theorem filterAvailableClusters_spec {F : Type} (fs : List (FilterPlugin F)) (d : data F)
    (task : TaskInfo F) (clusters : List (ClusterInfo F)) (cs : CycleState F) :
    (clusterStates fs d task clusters cs).map (fun v => v.1) = clusters ∧
    (filterAvailableClusters fs d task clusters cs).availableClusters =
      ((clusterStates fs d task clusters cs).filter
        (fun v => (runFilters d task v.1 fs v.2).1.isNone)).map (fun v => v.1) ∧
    (filterAvailableClusters fs d task clusters cs).availableClusters.Sublist clusters ∧
    (∀ name, ((filterAvailableClusters fs d task clusters cs).pluginNameWithErrors.lookup
        name).getD [] =
      (clusterStates fs d task clusters cs).filterMap (reasonUnder fs d task name)) ∧
    (filterAvailableClusters fs d task clusters cs).events =
      ((clusterStates fs d task clusters cs).map
        (fun v => (runFilters d task v.1 fs v.2).2.2)).flatten ∧
    (∀ (cluster : ClusterInfo F) (s : CycleState F),
      ((runFilters d task cluster fs s).1 = none ↔ acceptsAll d task cluster fs s) ∧
      ((runFilters d task cluster fs s).1 = none →
        (runFilters d task cluster fs s).2.2 =
          fs.map (fun f => Event.Filter f.Name task cluster)) ∧
      (∀ name err, (runFilters d task cluster fs s).1 = some (name, err) →
        ∃ pre f post, fs = pre ++ f :: post ∧ acceptsAll d task cluster pre s ∧
          (f.Filter d task cluster (stateAfter d task cluster pre s)).1 = some err ∧
          name = f.Name ∧
          (runFilters d task cluster fs s).2.2 =
            (pre ++ [f]).map (fun f => Event.Filter f.Name task cluster))) := by
  obtain ⟨h1, h2, h3⟩ := filterFold_eq fs d task clusters
    { availableClusters := [], pluginNameWithErrors := ∅, cycleState := cs, events := [] }
  have hav : (filterAvailableClusters fs d task clusters cs).availableClusters =
      ((clusterStates fs d task clusters cs).filter
        (fun v => (runFilters d task v.1 fs v.2).1.isNone)).map (fun v => v.1) := by
    unfold filterAvailableClusters
    rw [h1]
    rfl
  refine ⟨clusterStates_fst fs d task clusters cs, hav, ?_, ?_, ?_, ?_⟩
  · rw [hav]
    have hfil : ((clusterStates fs d task clusters cs).filter
        (fun v => (runFilters d task v.1 fs v.2).1.isNone)).Sublist
        (clusterStates fs d task clusters cs) := List.filter_sublist _
    have hsub := List.Sublist.map (fun v : ClusterInfo F × CycleState F => v.1) hfil
    rw [clusterStates_fst] at hsub
    exact hsub
  · intro name
    unfold filterAvailableClusters
    rw [h3 name]
    simp [AList.lookup_empty]
  · unfold filterAvailableClusters
    rw [h2]
    rfl
  · intro cluster s
    exact ⟨runFilters_none_iff d task cluster fs s,
      runFilters_accept_calls d task cluster fs s,
      runFilters_first_failure d task cluster fs s⟩

theorem filterAvailableClusters_spec_witness :
    (filterAvailableClusters [fakeFilter, fakeFilterFail] testData
      (bareTask "task-0000" consts.TaskQueued)
      [bareCluster "cluster-01" 0, bareCluster "cluster-05" 0] ∅).events =
      [Event.Filter "fakeFilter" (bareTask "task-0000" consts.TaskQueued)
         (bareCluster "cluster-01" 0),
       Event.Filter "fakeFilterFail" (bareTask "task-0000" consts.TaskQueued)
         (bareCluster "cluster-01" 0),
       Event.Filter "fakeFilter" (bareTask "task-0000" consts.TaskQueued)
         (bareCluster "cluster-05" 0)] :=
  (filterAvailableClusters_spec [fakeFilter, fakeFilterFail] testData
    (bareTask "task-0000" consts.TaskQueued)
    [bareCluster "cluster-01" 0, bareCluster "cluster-05" 0] ∅).2.2.2.2.1.trans rfl

/-! ## Theorems: the cycle-state reads of ClusterCapacity.Score -/

theorem configuredPlugins_mem {F : Type} [Zero F] [Add F] [Sub F] [Mul F] [Div F] [LT F]
    [LE F] [BEq F] [∀ a b : F, Decidable (a < b)] [∀ a b : F, Decidable (a ≤ b)]
    [Float64Conv F] (cache : Cache F) (names : List String) (p : Plugin F)
    (hp : p ∈ configuredPlugins cache names) :
    (p.filter = none ∧ p.score = none) ∨
    (p.filter = some { Name := clusterlimit.Name, Filter := clusterlimit.Filter } ∧
      p.score = none) ∨
    (p.filter = some { Name := clustercapacity.Name, Filter := clustercapacity.Filter } ∧
      p.score = some
        { Name := clustercapacity.Name
          Score := fun _d task cluster cycleState =>
            ((clustercapacity.Score task cluster cycleState).getD 0, cycleState) }) := by
  unfold configuredPlugins at hp
  rw [List.mem_filterMap] at hp
  obtain ⟨name, _, h⟩ := hp
  unfold registry at h
  split_ifs at h
  · simp only [Option.some_bind, prioritysort.New, Except.toOption, Option.some.injEq] at h
    subst h
    exact Or.inl ⟨rfl, rfl⟩
  · simp only [Option.some_bind, resourcequota.New, Except.toOption, Option.some.injEq] at h
    subst h
    exact Or.inl ⟨rfl, rfl⟩
  · simp only [Option.some_bind, clusterlimit.New, Except.toOption, Option.some.injEq] at h
    subst h
    exact Or.inr (Or.inl ⟨rfl, rfl⟩)
  · simp only [Option.some_bind, clustercapacity.New, Except.toOption, Option.some.injEq] at h
    subst h
    exact Or.inr (Or.inr ⟨rfl, rfl⟩)
  · simp at h

theorem initPluginsGroup_ok_eq {F : Type} [Zero F] [Add F] [Sub F] [Mul F] [Div F] [LT F]
    [LE F] [BEq F] [∀ a b : F, Decidable (a < b)] [∀ a b : F, Decidable (a ≤ b)]
    [Float64Conv F] (opts : Options) (cache : Cache F) (g : pluginsGroup F)
    (hg : initPluginsGroup opts cache = Except.ok g) :
    g.filters = (configuredPlugins cache opts.Plugins).filterMap (fun p => p.filter) ∧
    g.scores = (configuredPlugins cache opts.Plugins).filterMap (fun p => p.score) := by
  have hreg : ∀ pluginName ∈ opts.Plugins, pluginName ∈ registeredNames := by
    intro n hn
    by_contra hnot
    obtain ⟨err, herr⟩ := initPluginsFrom_error cache opts.Plugins
      { sort := none, globalFilters := [], filters := [], scores := [] } ⟨n, hn, hnot⟩
    unfold initPluginsGroup at hg
    rw [herr] at hg
    cases hg
  have hok := initPluginsFrom_ok cache opts.Plugins
    { sort := none, globalFilters := [], filters := [], scores := [] } hreg
  unfold initPluginsGroup at hg
  rw [hok] at hg
  simp only [Except.ok.injEq] at hg
  obtain ⟨_, f2, f3, _⟩ := foldl_addPlugin (configuredPlugins cache opts.Plugins)
    { sort := none, globalFilters := [], filters := [], scores := [] }
  rw [← hg, f2, f3]
  exact ⟨rfl, rfl⟩

theorem registry_group_plugins {F : Type} [Zero F] [Add F] [Sub F] [Mul F] [Div F] [LT F]
    [LE F] [BEq F] [∀ a b : F, Decidable (a < b)] [∀ a b : F, Decidable (a ≤ b)]
    [Float64Conv F] (opts : Options) (cache : Cache F) (g : pluginsGroup F)
    (hg : initPluginsGroup opts cache = Except.ok g) :
    (∀ f ∈ g.filters,
      f = { Name := clusterlimit.Name, Filter := clusterlimit.Filter } ∨
      f = { Name := clustercapacity.Name, Filter := clustercapacity.Filter }) ∧
    (∀ sp ∈ g.scores,
      sp = { Name := clustercapacity.Name
             Score := fun _d task cluster cycleState =>
               ((clustercapacity.Score task cluster cycleState).getD 0, cycleState) }) ∧
    (g.scores ≠ [] →
      ({ Name := clustercapacity.Name, Filter := clustercapacity.Filter } : FilterPlugin F)
        ∈ g.filters) := by
  obtain ⟨hf, hs⟩ := initPluginsGroup_ok_eq opts cache g hg
  refine ⟨?_, ?_, ?_⟩
  · intro f hfm
    rw [hf, List.mem_filterMap] at hfm
    obtain ⟨p, hp, hpf⟩ := hfm
    rcases configuredPlugins_mem cache opts.Plugins p hp with h | h | h
    · rw [h.1] at hpf
      cases hpf
    · rw [h.1] at hpf
      exact Or.inl (Option.some.inj hpf).symm
    · rw [h.1] at hpf
      exact Or.inr (Option.some.inj hpf).symm
  · intro sp hsm
    rw [hs, List.mem_filterMap] at hsm
    obtain ⟨p, hp, hps⟩ := hsm
    rcases configuredPlugins_mem cache opts.Plugins p hp with h | h | h
    · rw [h.2] at hps
      cases hps
    · rw [h.2] at hps
      cases hps
    · rw [h.2] at hps
      exact (Option.some.inj hps).symm
  · intro hne
    obtain ⟨sp, hsm⟩ := List.exists_mem_of_ne_nil _ hne
    rw [hs, List.mem_filterMap] at hsm
    obtain ⟨p, hp, hps⟩ := hsm
    rw [hf, List.mem_filterMap]
    rcases configuredPlugins_mem cache opts.Plugins p hp with h | h | h
    · rw [h.2] at hps
      cases hps
    · rw [h.2] at hps
      cases hps
    · exact ⟨p, hp, h.1⟩

namespace clustercapacity

theorem Filter_keeps_totals {F : Type} [Zero F] [Add F] [LT F] [∀ a b : F, Decidable (a < b)]
    (d : data F) (task : TaskInfo F) (cluster : ClusterInfo F) (cs : CycleState F)
    (h : HasTotals cs) : HasTotals (Filter d task cluster cs).2 := by
  unfold Filter
  cases cluster.Capacity with
  | none => exact h
  | some cap =>
    simp only
    cases NewAggregate (errs cap task (totals.of (ListTasks d cluster.ID))) with
    | some err => exact h
    | none => exact ⟨_, deposit_holds _ _⟩

theorem Score_isSome {F : Type} [Zero F] [Add F] [Sub F] [Mul F] [Div F] [LT F]
    [BEq F] [∀ a b : F, Decidable (a < b)] [Float64Conv F]
    (task : TaskInfo F) (cluster : ClusterInfo F) (cs : CycleState F)
    (h : cluster.Capacity = none ∨ HasTotals cs) :
    (Score task cluster cs).isSome = true := by
  cases hc : cluster.Capacity with
  | none =>
    unfold Score
    rw [hc]
    rfl
  | some cap =>
    rcases h with h | ⟨t, ht⟩
    · rw [hc] at h
      cases h
    · rw [Score_holds task cluster cs cap t hc ht]
      rfl

end clustercapacity

theorem runFilters_keeps_totals {F : Type} (d : data F) (task : TaskInfo F)
    (cluster : ClusterInfo F) (fs : List (FilterPlugin F)) (cs : CycleState F)
    (hpres : ∀ f ∈ fs, ∀ c s, clustercapacity.HasTotals s →
      clustercapacity.HasTotals (f.Filter d task c s).2)
    (h : clustercapacity.HasTotals cs) :
    clustercapacity.HasTotals (runFilters d task cluster fs cs).2.1 := by
  induction fs generalizing cs with
  | nil => exact h
  | cons f rest ih =>
    have hf := hpres f (List.mem_cons_self _ _) cluster cs h
    cases hr : (f.Filter d task cluster cs).1 with
    | some err =>
      rw [runFilters_cons_some d task cluster f rest cs err hr]
      exact hf
    | none =>
      rw [runFilters_cons_none d task cluster f rest cs hr]
      exact ih _ (fun f' hf' => hpres f' (List.mem_cons_of_mem _ hf')) hf

theorem runFilters_accept_totals {F : Type} [Zero F] [Add F] [LT F]
    [∀ a b : F, Decidable (a < b)] (d : data F) (task : TaskInfo F)
    (cluster : ClusterInfo F) (fs : List (FilterPlugin F)) (cs : CycleState F)
    (cap : Capacity F) (hc : cluster.Capacity = some cap)
    (hpres : ∀ f ∈ fs, ∀ c s, clustercapacity.HasTotals s →
      clustercapacity.HasTotals (f.Filter d task c s).2)
    (hmem : ({ Name := clustercapacity.Name, Filter := clustercapacity.Filter } :
      FilterPlugin F) ∈ fs)
    (hacc : (runFilters d task cluster fs cs).1 = none) :
    clustercapacity.HasTotals (runFilters d task cluster fs cs).2.1 ∧
    ∃ s, (clustercapacity.Filter d task cluster s).1 = none := by
  induction fs generalizing cs with
  | nil => cases hmem
  | cons f rest ih =>
    have hrest : ∀ f' ∈ rest, ∀ c s, clustercapacity.HasTotals s →
        clustercapacity.HasTotals (f'.Filter d task c s).2 :=
      fun f' hf' => hpres f' (List.mem_cons_of_mem _ hf')
    cases hr : (f.Filter d task cluster cs).1 with
    | some err =>
      rw [runFilters_cons_some d task cluster f rest cs err hr] at hacc
      cases hacc
    | none =>
      rw [runFilters_cons_none d task cluster f rest cs hr] at hacc ⊢
      simp only at hacc ⊢
      rcases List.mem_cons.mp hmem with heq | hin
      · subst heq
        simp only at hr
        refine ⟨runFilters_keeps_totals d task cluster rest _ hrest ?_, cs, hr⟩
        rw [clustercapacity.Filter_accept_holds d task cluster cs cap hc hr]
        exact ⟨_, clustercapacity.deposit_holds _ _⟩
      · exact ih _ hrest hin hacc

theorem filterStep_cycleState {F : Type} (fs : List (FilterPlugin F)) (d : data F)
    (task : TaskInfo F) (acc : filterState F) (c : ClusterInfo F) :
    (filterStep fs d task acc c).cycleState = (runFilters d task c fs acc.cycleState).2.1 := by
  unfold filterStep
  cases h : (runFilters d task c fs acc.cycleState).1 with
  | none => simp [h]
  | some p => simp [h]

theorem filterFold_totals {F : Type} [Zero F] [Add F] [LT F]
    [∀ a b : F, Decidable (a < b)] (fs : List (FilterPlugin F)) (d : data F)
    (task : TaskInfo F) (clusters : List (ClusterInfo F)) (acc : filterState F)
    (hpres : ∀ f ∈ fs, ∀ c s, clustercapacity.HasTotals s →
      clustercapacity.HasTotals (f.Filter d task c s).2)
    (hmem : ({ Name := clustercapacity.Name, Filter := clustercapacity.Filter } :
      FilterPlugin F) ∈ fs) :
    (clustercapacity.HasTotals acc.cycleState →
      clustercapacity.HasTotals (clusters.foldl (filterStep fs d task) acc).cycleState) ∧
    (∀ c ∈ (clusters.foldl (filterStep fs d task) acc).availableClusters,
      c ∈ acc.availableClusters ∨ c.Capacity = none ∨
        (clustercapacity.HasTotals (clusters.foldl (filterStep fs d task) acc).cycleState ∧
          ∃ s, (clustercapacity.Filter d task c s).1 = none)) := by
  induction clusters generalizing acc with
  | nil => exact ⟨fun h => h, fun c hc => Or.inl hc⟩
  | cons c0 rest ih =>
    obtain ⟨h1, h2⟩ := ih (filterStep fs d task acc c0)
    simp only [List.foldl_cons]
    refine ⟨?_, ?_⟩
    · intro h
      apply h1
      rw [filterStep_cycleState]
      exact runFilters_keeps_totals d task c0 fs _ hpres h
    · intro c hc
      rcases h2 c hc with h | h | h
      · rcases (filterStep_available fs d task acc c0 c).mp h with h' | ⟨h', hrun⟩
        · exact Or.inl h'
        · subst h'
          cases hcap : c.Capacity with
          | none => exact Or.inr (Or.inl rfl)
          | some cap =>
            obtain ⟨ht, hs⟩ := runFilters_accept_totals d task c fs acc.cycleState cap hcap
              hpres hmem hrun
            refine Or.inr (Or.inr ⟨?_, hs⟩)
            apply h1
            rw [filterStep_cycleState]
            exact ht
      · exact Or.inr (Or.inl h)
      · exact Or.inr (Or.inr h)

theorem pluginScoreCalls_events {F : Type} (d : data F) (task : TaskInfo F)
    (cluster : ClusterInfo F) (scores : List (ScorePlugin F)) (valueSum : Int)
    (cs : CycleState F) :
    (sumScores d task cluster scores valueSum cs).2.2 =
      (pluginScoreCalls d task cluster scores cs).map
        (fun call => Event.Score call.1 task call.2.1) := by
  induction scores generalizing valueSum cs with
  | nil => rfl
  | cons sp rest ih =>
    unfold sumScores pluginScoreCalls
    simp only [List.map_cons, List.cons.injEq, true_and]
    exact ih _ _

theorem scoreCalls_events {F : Type} (scores : List (ScorePlugin F)) (d : data F)
    (task : TaskInfo F) (clusters : List (ClusterInfo F)) (acc : scoreState F) :
    (clusters.foldl (scoreStep scores d task) acc).events =
      acc.events ++ (scoreCalls scores d task clusters acc.cycleState).map
        (fun call => Event.Score call.1 task call.2.1) := by
  induction clusters generalizing acc with
  | nil => simp [scoreCalls]
  | cons c rest ih =>
    simp only [List.foldl_cons]
    rw [ih]
    simp only [scoreStep, scoreCalls, List.map_append, pluginScoreCalls_events,
      List.append_assoc]

theorem pluginScoreCalls_state {F : Type} (d : data F) (task : TaskInfo F)
    (cluster : ClusterInfo F) (scores : List (ScorePlugin F)) (valueSum : Int)
    (cs : CycleState F)
    (hkeep : ∀ sp ∈ scores, ∀ c s, (sp.Score d task c s).2 = s) :
    (sumScores d task cluster scores valueSum cs).2.1 = cs ∧
    ∀ call ∈ pluginScoreCalls d task cluster scores cs,
      call.2.1 = cluster ∧ call.2.2 = cs ∧ ∃ sp ∈ scores, sp.Name = call.1 := by
  induction scores generalizing valueSum cs with
  | nil => exact ⟨rfl, fun call h => by cases h⟩
  | cons sp rest ih =>
    have hsp := hkeep sp (List.mem_cons_self _ _) cluster cs
    have hrest : ∀ sp' ∈ rest, ∀ c s, (sp'.Score d task c s).2 = s :=
      fun sp' h => hkeep sp' (List.mem_cons_of_mem _ h)
    unfold sumScores pluginScoreCalls
    simp only [hsp]
    obtain ⟨h1, h2⟩ := ih (wrapInt64 (valueSum +
      (if (if (sp.Score d task cluster cs).1 < plugin.MinScore then plugin.MinScore
            else (sp.Score d task cluster cs).1) > plugin.MaxScore then plugin.MaxScore
        else (if (sp.Score d task cluster cs).1 < plugin.MinScore then plugin.MinScore
            else (sp.Score d task cluster cs).1)))) cs hrest
    refine ⟨h1, ?_⟩
    intro call hcall
    rcases List.mem_cons.mp hcall with h | h
    · subst h
      exact ⟨rfl, rfl, sp, List.mem_cons_self _ _, rfl⟩
    · obtain ⟨a, b, sp', hm, hn⟩ := h2 call h
      exact ⟨a, b, sp', List.mem_cons_of_mem _ hm, hn⟩

theorem scoreCalls_state {F : Type} (scores : List (ScorePlugin F)) (d : data F)
    (task : TaskInfo F) (clusters : List (ClusterInfo F)) (cs : CycleState F)
    (hkeep : ∀ sp ∈ scores, ∀ c s, (sp.Score d task c s).2 = s) :
    ∀ call ∈ scoreCalls scores d task clusters cs,
      call.2.1 ∈ clusters ∧ call.2.2 = cs ∧ ∃ sp ∈ scores, sp.Name = call.1 := by
  induction clusters with
  | nil => exact fun call h => by cases h
  | cons c rest ih =>
    intro call hcall
    obtain ⟨h1, h2⟩ := pluginScoreCalls_state d task c scores 0 cs hkeep
    unfold scoreCalls at hcall
    rw [h1] at hcall
    rcases List.mem_append.mp hcall with h | h
    · obtain ⟨a, b, e⟩ := h2 call h
      exact ⟨by rw [a]; exact List.mem_cons_self _ _, b, e⟩
    · obtain ⟨a, b, e⟩ := ih call h
      exact ⟨List.mem_cons_of_mem _ a, b, e⟩

/-- C36: in a scheduling attempt with a plugin group that `initPluginsGroup` has built,
every Score call that `getClusterWithScores` makes after `filterAvailableClusters` is a
call of ClusterCapacity.Score on an available cluster; when the capacity of that cluster
is non-null, ClusterCapacity.Filter has returned no error for it in the same attempt and
the cycle state handed to `Score` holds the six totals keys with the dynamic types that
`Score` asserts, so that no read of the cycle state fails and `Score` returns a value
(with a null capacity it returns without reading the cycle state). -/
theorem Score_reads_safe {F : Type} [Zero F] [Add F] [Sub F] [Mul F] [Div F] [LT F]
    [LE F] [BEq F] [∀ a b : F, Decidable (a < b)] [∀ a b : F, Decidable (a ≤ b)]
    [Float64Conv F] (opts : Options) (cache : Cache F) (g : pluginsGroup F)
    (hg : initPluginsGroup opts cache = Except.ok g)
    (d : data F) (task : TaskInfo F) (clusters : List (ClusterInfo F)) (cs0 : CycleState F) :
    (getClusterWithScores g.scores d task
        (filterAvailableClusters g.filters d task clusters cs0).availableClusters
        (filterAvailableClusters g.filters d task clusters cs0).cycleState).events =
      (scoreCalls g.scores d task
        (filterAvailableClusters g.filters d task clusters cs0).availableClusters
        (filterAvailableClusters g.filters d task clusters cs0).cycleState).map
        (fun call => Event.Score call.1 task call.2.1) ∧
    ∀ call ∈ scoreCalls g.scores d task
        (filterAvailableClusters g.filters d task clusters cs0).availableClusters
        (filterAvailableClusters g.filters d task clusters cs0).cycleState,
      call.1 = "ClusterCapacity" ∧
      call.2.1 ∈ (filterAvailableClusters g.filters d task clusters cs0).availableClusters ∧
      (∀ cap, call.2.1.Capacity = some cap →
        (∃ s, (clustercapacity.Filter d task call.2.1 s).1 = none) ∧
        ∃ t : clustercapacity.totals F,
          clustercapacity.cycleInt call.2.2 "totalCount" = some t.totalCount ∧
          clustercapacity.cycleInt call.2.2 "totalCPUCore" = some t.totalCPUCores ∧
          clustercapacity.cycleFloat64 call.2.2 "totalRamGB" = some t.totalRamGB ∧
          clustercapacity.cycleFloat64 call.2.2 "totalDiskGB" = some t.totalDiskGB ∧
          clustercapacity.cycleFloat64 call.2.2 "totalGPUCount" = some t.totalGPUCount ∧
          clustercapacity.cycleMap call.2.2 "totalGPU" = some t.totalGPU) ∧
      (clustercapacity.Score task call.2.1 call.2.2).isSome = true := by
  obtain ⟨hfil, hsc, hcapmem⟩ := registry_group_plugins opts cache g hg
  have hkeep : ∀ sp ∈ g.scores, ∀ c s, (sp.Score d task c s).2 = s := by
    intro sp hsp c s
    rw [hsc sp hsp]
  have hpres : ∀ f ∈ g.filters, ∀ c s, clustercapacity.HasTotals s →
      clustercapacity.HasTotals (f.Filter d task c s).2 := by
    intro f hf c s hs
    rcases hfil f hf with h | h
    · rw [h]
      exact hs
    · rw [h]
      exact clustercapacity.Filter_keeps_totals d task c s hs
  refine ⟨?_, ?_⟩
  · unfold getClusterWithScores
    rw [scoreCalls_events]
    rfl
  · intro call hcall
    obtain ⟨hav, hst, sp, hsp, hname⟩ := scoreCalls_state g.scores d task _ _ hkeep call hcall
    have hne : g.scores ≠ [] := List.ne_nil_of_mem hsp
    have hmem := hcapmem hne
    obtain ⟨_, htot⟩ := filterFold_totals g.filters d task clusters
      { availableClusters := [], pluginNameWithErrors := ∅, cycleState := cs0, events := [] }
      hpres hmem
    have hcase := htot call.2.1 hav
    have hcap : ∀ cap, call.2.1.Capacity = some cap →
        (∃ s, (clustercapacity.Filter d task call.2.1 s).1 = none) ∧
        clustercapacity.HasTotals call.2.2 := by
      intro cap hc
      rcases hcase with h | h | ⟨h1, h2⟩
      · cases h
      · rw [hc] at h
        cases h
      · rw [hst]
        exact ⟨h2, h1⟩
    refine ⟨?_, hav, ?_, ?_⟩
    · rw [← hname, hsc sp hsp]
      rfl
    · intro cap hc
      exact hcap cap hc
    · apply clustercapacity.Score_isSome
      cases hc : call.2.1.Capacity with
      | none => exact Or.inl rfl
      | some cap => exact Or.inr (hcap cap hc).2

theorem Score_reads_safe_witness :
    (clustercapacity.Score (smallTask "task-0003" "") scenarioCluster
      (filterAvailableClusters capacityPlugins.filters scenarioData
        (smallTask "task-0003" "") [scenarioCluster, idleCluster] ∅).cycleState).isSome
      = true := by
  have hcall : (("ClusterCapacity", scenarioCluster,
      (filterAvailableClusters capacityPlugins.filters scenarioData
        (smallTask "task-0003" "") [scenarioCluster, idleCluster] ∅).cycleState) :
        String × ClusterInfo ℚ × CycleState ℚ) ∈
      scoreCalls capacityPlugins.scores scenarioData (smallTask "task-0003" "")
        (filterAvailableClusters capacityPlugins.filters scenarioData
          (smallTask "task-0003" "") [scenarioCluster, idleCluster] ∅).availableClusters
        (filterAvailableClusters capacityPlugins.filters scenarioData
          (smallTask "task-0003" "") [scenarioCluster, idleCluster] ∅).cycleState := by
    rw [pair_filter]
    exact List.mem_cons_self _ _
  exact ((Score_reads_safe capacityOptions testCache capacityPlugins rfl scenarioData
    (smallTask "task-0003" "") [scenarioCluster, idleCluster] ∅).2 _ hcall).2.2.2

/-! ## Theorems: the order in which a tick schedules the tasks -/

theorem prioritysort_strictWeakOrder {F : Type} (eps : List ExtraPriorityInfo) :
    StrictWeakOrder (prioritysort.Less eps : TaskInfo F → TaskInfo F → Bool) := by
  have hf : ∀ a b : TaskInfo F,
      prioritysort.Less eps a b = false ↔ ¬ (prioritysort.Less eps a b = true) := by
    intro a b
    cases prioritysort.Less eps a b <;> simp
  refine ⟨?_, ?_, ?_⟩
  · intro a
    rw [hf, prioritysort.Less_iff]
    omega
  · intro a b c h1 h2
    rw [prioritysort.Less_iff] at h1 h2 ⊢
    omega
  · intro a b c h1 h2
    rw [hf, prioritysort.Less_iff] at h1 h2 ⊢
    omega

theorem collect_panicked {F : Type} (env : Env F) (tasks : List (TaskInfo F))
    (acc : World F × List (TaskInfo F)) :
    (tasks.foldl (collectStep env) acc).1.panicked = acc.1.panicked := by
  induction tasks generalizing acc with
  | nil => rfl
  | cons task rest ih =>
    simp only [List.foldl_cons]
    rw [ih]
    unfold collectStep
    split
    · rfl
    · split <;> rfl

theorem scheduleLoop_unguarded {F : Type} (s : Scheduler F) (env : Env F)
    (clusters : List (ClusterInfo F)) (sorted : List (TaskInfo F)) (w : World F)
    (hp : w.panicked = false) :
    sorted.foldl
        (fun w' task => if w'.panicked then w' else scheduleTask s env w' task clusters) w =
      sorted.foldl (fun w' task => scheduleTask s env w' task clusters) w := by
  induction sorted generalizing w with
  | nil => rfl
  | cons task rest ih =>
    simp only [List.foldl_cons, hp, Bool.false_eq_true, if_false]
    exact ih _ (by rw [scheduleTask_panicked]; exact hp)

theorem ListTasks_nodup {F : Type} (d : data F) (hkeys : KeysMatch d) (c : String) :
    (ListTasks d c).Nodup := by
  unfold ListTasks
  cases d.clusterIndexer.lookup c with
  | none => exact List.nodup_nil
  | some ids =>
    simp only
    split
    · exact List.nodup_nil
    · refine List.Nodup.filterMap ?_ ids.nodupKeys
      intro id id' t h h'
      have h1 := hkeys id t (Option.mem_def.mp h)
      have h2 := hkeys id' t (Option.mem_def.mp h')
      rw [← h1, ← h2]

theorem sortTasks_spec {F : Type} (p : SortPlugin F) (env : Env F)
    (queued : List (TaskInfo F)) (hweak : StrictWeakOrder p.Less)
    (hslice : ∀ (less : TaskInfo F → TaskInfo F → Bool) (l : List (TaskInfo F)),
      StrictWeakOrder less →
      (env.sortSlice less l).Perm l ∧
        (env.sortSlice less l).Pairwise (fun a b => less b a = false)) :
    ∃ sorted ev, sortTasks (some p) env queued = some (sorted, ev) ∧
      sorted.Perm queued ∧ sorted.Pairwise (fun a b => p.Less b a = false) := by
  unfold sortTasks
  by_cases h2 : queued.length < 2
  · refine ⟨queued, [], by simp [h2], List.Perm.refl _, ?_⟩
    cases queued with
    | nil => exact List.Pairwise.nil
    | cons a rest =>
      cases rest with
      | nil => exact List.pairwise_singleton _ _
      | cons b rest' =>
        simp only [List.length_cons] at h2
        omega
  · obtain ⟨h1, h3⟩ := hslice p.Less queued hweak
    exact ⟨env.sortSlice p.Less queued, [Event.Less p.Name queued], by simp [h2], h1, h3⟩

/-- C33: in a tick with at least one ready cluster, a Sort plugin whose `Less` is a
strict comparison that describes a transitive ordering (as the `Less` of PrioritySort
does for every snapshot of extra priorities), and a `sort.Slice` that meets its contract,
`scheduleTasks` runs `scheduleTask` once for each element of a list `sorted`, in list
order: `sorted` is a rearrangement of the unscheduled tasks in state QUEUED (each of them
once, and no other task) in which no task stands after a task that it is `Less` than. -/
theorem scheduleTasks_sorted {F : Type} (s : Scheduler F) (env : Env F) (w : World F)
    (p : SortPlugin F) (hsort : s.plugins.sort = some p) (hweak : StrictWeakOrder p.Less)
    (hslice : ∀ (less : TaskInfo F → TaskInfo F → Bool) (l : List (TaskInfo F)),
      StrictWeakOrder less →
      (env.sortSlice less l).Perm l ∧
        (env.sortSlice less l).Pairwise (fun a b => less b a = false))
    (hready : readyClusters s env ≠ []) (hp : w.panicked = false) :
    (∃ sorted : List (TaskInfo F),
      sorted.Perm (queuedTasks (ListTasks w.data "")) ∧
      sorted.Pairwise (fun a b => p.Less b a = false) ∧
      (KeysMatch w.data → sorted.Nodup) ∧
      scheduleTasks s env w =
        sorted.foldl (fun w' task => scheduleTask s env w' task (readyClusters s env))
          (loopStart s env w)) ∧
    (∀ t, t ∈ queuedTasks (ListTasks w.data "") ↔
      t ∈ ListTasks w.data "" ∧ t.State = "QUEUED") ∧
    (∀ eps : List ExtraPriorityInfo,
      StrictWeakOrder (prioritysort.Less eps : TaskInfo F → TaskInfo F → Bool)) := by
  refine ⟨?_, fun t => by simp [queuedTasks, consts.TaskQueued],
    fun eps => prioritysort_strictWeakOrder eps⟩
  obtain ⟨_, hc2⟩ := collect_spec env (ListTasks w.data "") (w, [])
  simp only [List.nil_append] at hc2
  have hcp := collect_panicked env (ListTasks w.data "") (w, [])
  obtain ⟨sorted, ev, hs, hperm, hpair⟩ := sortTasks_spec p env
    (queuedTasks (ListTasks w.data "")) hweak hslice
  have hnd : KeysMatch w.data → sorted.Nodup := fun hk =>
    (List.Perm.nodup_iff hperm).mpr ((ListTasks_nodup w.data hk "").filter _)
  have hr : (readyClusters s env).length ≠ 0 := fun h => hready (List.length_eq_zero.mp h)
  refine ⟨sorted, hperm, hpair, hnd, ?_⟩
  unfold scheduleTasks loopStart
  simp only [hc2, hsort, hs, hr, if_false]
  by_cases hlen : (queuedTasks (ListTasks w.data "")).length = 0
  · have hnil : sorted = [] := by
      have := hperm.length_eq
      rw [hlen] at this
      exact List.length_eq_zero.mp this
    subst hnil
    have hev : ev = [] := by
      unfold sortTasks at hs
      simp only [hlen, Nat.ofNat_pos, if_true, Option.some.injEq, Prod.mk.injEq] at hs
      exact hs.2.symm
    subst hev
    simp [hlen]
  · simp only [hlen, if_false]
    exact scheduleLoop_unguarded s env _ sorted _ (by simpa using hcp.trans hp)

theorem insertionSort_contract {T : Type} (less : T → T → Bool) (l : List T)
    (hw : StrictWeakOrder less) :
    (l.insertionSort (fun a b => less b a = false)).Perm l ∧
      (l.insertionSort (fun a b => less b a = false)).Pairwise
        (fun a b => less b a = false) := by
  obtain ⟨hirr, htr, hneg⟩ := hw
  haveI : IsTotal T (fun a b => less b a = false) := ⟨by
    intro a b
    cases h1 : less b a with
    | false => exact Or.inl rfl
    | true =>
      cases h2 : less a b with
      | false => exact Or.inr rfl
      | true =>
        have := htr a b a h2 h1
        rw [hirr a] at this
        cases this⟩
  haveI : IsTrans T (fun a b => less b a = false) := ⟨fun a b c h1 h2 => hneg c b a h2 h1⟩
  exact ⟨List.perm_insertionSort _ l, List.sorted_insertionSort _ l⟩

theorem scheduleTasks_sorted_witness :
    ∃ sorted : List (TaskInfo ℚ),
      sorted.Perm (queuedTasks (ListTasks testWorld.data "")) ∧
      sorted.Pairwise (fun a b => prioritysort.Less [] b a = false) ∧
      scheduleTasks sortingScheduler sortingEnv testWorld =
        sorted.foldl
          (fun w' task => scheduleTask sortingScheduler sortingEnv w' task
            (readyClusters sortingScheduler sortingEnv))
          (loopStart sortingScheduler sortingEnv testWorld) := by
  obtain ⟨⟨sorted, h1, h2, _, h4⟩, _⟩ :=
    scheduleTasks_sorted sortingScheduler sortingEnv testWorld
      { Name := prioritysort.Name, Less := prioritysort.Less [] } rfl
      (prioritysort_strictWeakOrder [])
      (fun less l hw => insertionSort_contract less l hw)
      (by
        rw [show readyClusters sortingScheduler sortingEnv =
          [bareCluster "cluster-01" 7200000000000] from rfl]
        exact List.cons_ne_nil _ _)
      rfl
  exact ⟨sorted, h1, h2, h4⟩

/-! ## Theorems: updateTask replaces the entity -/

theorem represents_deref {F : Type} (hd : heapData F) (d : data F) (h : Represents hd d)
    (id : String) (oldTask : TaskInfo F) (hl : d.tasks.lookup id = some oldTask) :
    ∃ p, hd.tasks.lookup id = some p ∧ p < hd.heap.length ∧ hd.heap[p]? = some oldTask := by
  obtain ⟨_, h2, h3⟩ := h
  have := h3 id
  rw [hl] at this
  cases hp : hd.tasks.lookup id with
  | none => simp [hp] at this
  | some p =>
    rw [hp] at this
    exact ⟨p, rfl, h2 id p hp, by simpa using this⟩

theorem represents_store {F : Type} (hd : heapData F) (d : data F) (h : Represents hd d)
    (id : String) (newTask : TaskInfo F) (ci : GoMap String (GoMap String Unit)) :
    Represents
      { heap := hd.heap ++ [newTask], tasks := hd.tasks.insert id hd.heap.length,
        clusterIndexer := ci }
      { tasks := d.tasks.insert id newTask, clusterIndexer := ci } := by
  obtain ⟨_, h2, h3⟩ := h
  refine ⟨rfl, ?_, ?_⟩
  · intro id' p hp
    simp only [List.length_append, List.length_singleton]
    by_cases hid : id' = id
    · subst hid
      simp only [AList.lookup_insert, Option.some.injEq] at hp
      omega
    · simp only [AList.lookup_insert_ne hid] at hp
      have := h2 id' p hp
      omega
  · intro id'
    by_cases hid : id' = id
    · subst hid
      simp [AList.lookup_insert]
    · simp only [AList.lookup_insert_ne hid]
      rw [← h3 id']
      cases hp : hd.tasks.lookup id' with
      | none => rfl
      | some p =>
        have hlt := h2 id' p hp
        simp only [Option.some_bind]
        exact List.getElem?_append_left hlt

theorem heap_updateTask_refines {F : Type} (hd : heapData F) (d : data F)
    (h : Represents hd d) (id : String) (state clusterID : Option String) :
    ∃ hd', hd.updateTask id state clusterID = some hd' ∧
      Represents hd' (d.updateTask id state clusterID) ∧
      (∀ p, p < hd.heap.length → hd'.heap[p]? = hd.heap[p]?) ∧
      (∀ id', id' ≠ id → hd'.tasks.lookup id' = hd.tasks.lookup id') ∧
      (id ∈ hd.tasks → hd'.tasks.lookup id = some hd.heap.length) ∧
      (id ∉ hd.tasks → hd' = hd) := by
  cases hl : d.tasks.lookup id with
  | none =>
    have hnone : hd.tasks.lookup id = none := by
      have := h.2.2 id
      rw [hl] at this
      cases hp : hd.tasks.lookup id with
      | none => rfl
      | some p =>
        rw [hp] at this
        have hlt := h.2.1 id p hp
        simp only [Option.some_bind] at this
        rw [List.getElem?_eq_getElem hlt] at this
        cases this
    refine ⟨hd, by simp [heapData.updateTask, hnone], ?_, fun _ _ => rfl, fun _ _ => rfl,
      ?_, fun _ => rfl⟩
    · simp only [data.updateTask, hl]
      exact h
    · intro hmem
      exact absurd hmem (AList.lookup_eq_none.mp hnone)
  | some oldTask =>
    obtain ⟨p, hp, hlt, hget⟩ := represents_deref hd d h id oldTask hl
    have hmem : id ∈ hd.tasks := by
      rw [← AList.lookup_isSome, hp]
      rfl
    unfold heapData.updateTask data.updateTask
    simp only [hp, hget, hl]
    rw [← h.1]
    cases state <;> cases clusterID <;> dsimp only <;> (try split_ifs) <;>
      (refine ⟨_, rfl, represents_store hd d h id _ _, ?_, ?_, ?_, ?_⟩
       · intro q hq
         exact List.getElem?_append_left hq
       · intro id' hid
         simp only [AList.lookup_insert_ne hid]
       · intro _
         simp only [AList.lookup_insert]
       · intro hnot
         exact absurd hmem hnot)

theorem heap_ListTasks_valid {F : Type} (hd : heapData F) (d : data F)
    (h : Represents hd d) (c : String) : ∀ p ∈ hd.ListTasks c, p < hd.heap.length := by
  intro p hp
  unfold heapData.ListTasks at hp
  cases hl : hd.clusterIndexer.lookup c with
  | none => simp [hl] at hp
  | some ids =>
    simp only [hl] at hp
    split at hp
    · cases hp
    · rw [List.mem_filterMap] at hp
      obtain ⟨id, _, hlook⟩ := hp
      exact h.2.1 id p hlook

theorem heap_ListTasks_deref {F : Type} (hd : heapData F) (d : data F)
    (h : Represents hd d) (c : String) :
    (hd.ListTasks c).filterMap (fun p => hd.heap[p]?) = ListTasks d c := by
  unfold heapData.ListTasks ListTasks
  rw [h.1]
  cases d.clusterIndexer.lookup c with
  | none => rfl
  | some ids =>
    simp only
    split
    · rfl
    · rw [List.filterMap_filterMap]
      congr 1
      funext id
      exact h.2.2 id

theorem updateTask_absent {F : Type} (d : data F) (id : String)
    (state clusterID : Option String) (h : d.tasks.lookup id = none) :
    d.updateTask id state clusterID = d := by
  unfold data.updateTask
  rw [h]

/-- C35: `data.updateTask` stores under `id` an entity that equals the old one in every
field except State and ClusterID, which take the provided value when one is provided; it
leaves the entry of every other ID as it is, and for an ID that is not cached it changes
nothing. On the heap the stored entity is a newly allocated one: every entity that
existed before is unchanged and every other ID keeps its pointer, so the pointers that
`ListTasks` returned before the update still show the tasks as they were before it. -/
theorem updateTask_copy_on_write {F : Type} (hd : heapData F) (d : data F)
    (hrep : Represents hd d) (id : String) (state clusterID : Option String) :
    (∀ old, d.tasks.lookup id = some old →
      (d.updateTask id state clusterID).tasks.lookup id =
        some { ID := old.ID, State := state.getD old.State,
               ClusterID := clusterID.getD old.ClusterID, CreationTime := old.CreationTime,
               Resources := old.Resources, BioosInfo := old.BioosInfo,
               PriorityValue := old.PriorityValue }) ∧
    (∀ id', id' ≠ id →
      (d.updateTask id state clusterID).tasks.lookup id' = d.tasks.lookup id') ∧
    (d.tasks.lookup id = none → d.updateTask id state clusterID = d) ∧
    ∃ hd', hd.updateTask id state clusterID = some hd' ∧
      Represents hd' (d.updateTask id state clusterID) ∧
      (∀ p, p < hd.heap.length → hd'.heap[p]? = hd.heap[p]?) ∧
      (∀ c, (hd.ListTasks c).filterMap (fun p => hd'.heap[p]?) = ListTasks d c) ∧
      (∀ id', id' ≠ id → hd'.tasks.lookup id' = hd.tasks.lookup id') ∧
      (id ∈ hd.tasks → hd'.tasks.lookup id = some hd.heap.length) ∧
      (id ∉ hd.tasks → hd' = hd) := by
  refine ⟨?_, fun id' hid => lookup_updateTask_ne d id id' state clusterID hid,
    updateTask_absent d id state clusterID, ?_⟩
  · intro old hold
    rw [lookup_updateTask_self, hold]
    rfl
  · obtain ⟨hd', h1, h2, h3, h4, h5, h6⟩ := heap_updateTask_refines hd d hrep id state clusterID
    refine ⟨hd', h1, h2, h3, ?_, h4, h5, h6⟩
    intro c
    rw [← heap_ListTasks_deref hd d hrep c]
    apply List.filterMap_congr
    intro p hp
    exact h3 p (heap_ListTasks_valid hd d hrep c p hp)

theorem runningHeap_represents : Represents runningHeap runningData := by
  refine ⟨rfl, ?_, ?_⟩
  · intro id p hp
    have hp' : (AList.insert "task-0001" 0 (∅ : GoMap String Nat)).lookup id = some p := hp
    by_cases hid : id = "task-0001"
    · subst hid
      rw [AList.lookup_insert] at hp'
      cases hp'
      exact Nat.zero_lt_one
    · rw [AList.lookup_insert_ne hid, AList.lookup_empty] at hp'
      cases hp'
  · intro id
    by_cases hid : id = "task-0001"
    · subst hid
      rfl
    · show ((AList.insert "task-0001" 0 (∅ : GoMap String Nat)).lookup id).bind
          (fun p => [runningTask][p]?) =
        (AList.insert "task-0001" runningTask (∅ : GoMap String (TaskInfo ℚ))).lookup id
      rw [AList.lookup_insert_ne hid, AList.lookup_insert_ne hid]
      rfl

theorem updateTask_copy_on_write_witness :
    ∃ hd', runningHeap.updateTask "task-0001" (some "QUEUED") (some "") = some hd' ∧
      (runningHeap.ListTasks "cluster-01").filterMap (fun p => hd'.heap[p]?) =
        ListTasks runningData "cluster-01" ∧
      hd'.tasks.lookup "task-0001" = some 1 := by
  obtain ⟨_, _, _, hd', h1, _, _, h4, _, h6, _⟩ :=
    updateTask_copy_on_write runningHeap runningData runningHeap_represents "task-0001"
      (some "QUEUED") (some "")
  exact ⟨hd', h1, h4 "cluster-01", h6 (by decide)⟩

/-! ## Theorems: the task cache after an assignment -/

theorem lookup_indexRemove_ne (ci : GoMap String (GoMap String Unit)) (c id c' : String)
    (h : c' ≠ c) : (indexRemove ci c id).lookup c' = ci.lookup c' := by
  unfold indexRemove
  cases hl : ci.lookup c with
  | none => simp [hl, AList.lookup_erase_ne h]
  | some ids =>
    simp only [hl, AList.lookup_insert]
    split
    · rw [AList.lookup_erase_ne h, AList.lookup_insert_ne h]
    · rw [AList.lookup_insert_ne h]

theorem lookup_indexAdd_ne (ci : GoMap String (GoMap String Unit)) (c id c' : String)
    (h : c' ≠ c) : (indexAdd ci c id).lookup c' = ci.lookup c' := by
  unfold indexAdd
  cases hl : ci.lookup c with
  | none => simp [hl, AList.lookup_insert, AList.lookup_insert_ne h]
  | some ids => simp [hl, AList.lookup_insert_ne h]

theorem lookup_indexAdd_self (ci : GoMap String (GoMap String Unit)) (c id : String) :
    (indexAdd ci c id).lookup c = some (AList.insert id () ((ci.lookup c).getD ∅)) := by
  unfold indexAdd
  cases hl : ci.lookup c with
  | none => simp [hl, AList.lookup_insert]
  | some ids => simp [hl, AList.lookup_insert]

theorem bucket_filterMap_eq {F : Type} (d : data F) (c : String) :
    ListTasks d c =
      ((d.clusterIndexer.lookup c).getD ∅).keys.filterMap (fun id => d.tasks.lookup id) := by
  unfold ListTasks
  cases hl : d.clusterIndexer.lookup c with
  | none => rfl
  | some ids =>
    simp only [Option.getD_some]
    split
    · rename_i hlen
      have : ids.keys = [] := by
        have h0 : ids.entries = [] := List.length_eq_zero.mp hlen
        simp [AList.keys, h0]
      rw [this]
      rfl
    · rfl

theorem not_mem_bucket {F : Type} (d : data F) (hI : IndexInv d) (id x : String)
    (t : TaskInfo F) (hl : d.tasks.lookup id = some t) (hne : t.ClusterID ≠ x) :
    id ∉ (d.clusterIndexer.lookup x).getD ∅ := by
  intro hmem
  cases hb : d.clusterIndexer.lookup x with
  | none =>
    rw [hb] at hmem
    exact absurd hmem (AList.not_mem_empty _)
  | some ids =>
    rw [hb] at hmem
    obtain ⟨t', ht', hc⟩ := (hI.1 x id).mp ⟨ids, hb, hmem⟩
    rw [hl] at ht'
    cases ht'
    exact hne hc

theorem ListTasks_move_target {F : Type} (d : data F) (hI : IndexInv d) (id c : String)
    (t : TaskInfo F) (hl : d.tasks.lookup id = some t) (hne : t.ClusterID ≠ c) :
    ListTasks (d.updateTask id none (some c)) c =
      updatedTask t none (some c) :: ListTasks d c := by
  have hnot := not_mem_bucket d hI id c t hl hne
  rw [bucket_filterMap_eq, bucket_filterMap_eq d c]
  unfold data.updateTask
  simp only [hl, hne, ne_eq, not_false_eq_true, if_true]
  rw [lookup_indexAdd_self, lookup_indexRemove_ne _ _ _ _ (Ne.symm hne)]
  simp only [Option.getD_some, AList.keys_insert]
  rw [List.erase_of_not_mem (by rw [← AList.mem_keys]; exact hnot)]
  simp only [List.filterMap_cons, AList.lookup_insert]
  congr 1
  apply List.filterMap_congr
  intro k hk
  have hkne : k ≠ id := by
    intro h
    rw [h] at hk
    exact hnot (AList.mem_keys.mpr hk)
  rw [AList.lookup_insert_ne hkne]

theorem ListTasks_move_other {F : Type} (d : data F) (hI : IndexInv d) (id c x : String)
    (t : TaskInfo F) (hl : d.tasks.lookup id = some t) (hxc : x ≠ c)
    (hxt : x ≠ t.ClusterID) :
    ListTasks (d.updateTask id none (some c)) x = ListTasks d x := by
  have hnot := not_mem_bucket d hI id x t hl (Ne.symm hxt)
  rw [bucket_filterMap_eq, bucket_filterMap_eq d x]
  unfold data.updateTask
  simp only [hl]
  split
  · simp only
    rw [lookup_indexAdd_ne _ _ _ _ hxc, lookup_indexRemove_ne _ _ _ _ hxt]
    apply List.filterMap_congr
    intro k hk
    have hkne : k ≠ id := by
      intro h
      rw [h] at hk
      exact hnot (AList.mem_keys.mpr hk)
    rw [AList.lookup_insert_ne hkne]
  · simp only
    apply List.filterMap_congr
    intro k hk
    have hkne : k ≠ id := by
      intro h
      rw [h] at hk
      exact hnot (AList.mem_keys.mpr hk)
    rw [AList.lookup_insert_ne hkne]

theorem UpdateTask_assign {F : Type} (upstream : UpdateTaskRequest → Option (GoError F))
    (d : data F) (id c : String) :
    (UpdateTask upstream d id none (some c) none).2 =
      if (upstream (updateTaskRequest id none (some c) none)).isSome then d
      else d.updateTask id none (some c) := by
  unfold UpdateTask
  cases upstream (updateTaskRequest id none (some c) none) with
  | some err => rfl
  | none => rfl

theorem scheduleTask_data {F : Type} (s : Scheduler F) (env : Env F) (w : World F)
    (task : TaskInfo F) (clusters : List (ClusterInfo F)) :
    (scheduleTask s env w task clusters).data = w.data ∨
    ∃ c ∈ (filterAvailableClusters s.plugins.filters w.data task clusters
        (runGlobalFilters w.data task s.plugins.globalFilters ∅).2.1).availableClusters,
      (scheduleTask s env w task clusters).data =
        (UpdateTask (env.upstream w.updates) w.data task.ID none (some c.ID) none).2 ∧
      (scheduleTask s env w task clusters).events.getLast? =
        some (Event.UpdateTask task.ID none (some c.ID) none) := by
  unfold scheduleTask
  cases hg : (runGlobalFilters w.data task s.plugins.globalFilters ∅).1 with
  | some p => exact Or.inl (by simp [hg])
  | none =>
    by_cases hlen : (filterAvailableClusters s.plugins.filters w.data task clusters
        (runGlobalFilters w.data task s.plugins.globalFilters ∅).2.1).availableClusters.length = 0
    · exact Or.inl (by simp [hg, hlen])
    · have hne : (filterAvailableClusters s.plugins.filters w.data task clusters
          (runGlobalFilters w.data task s.plugins.globalFilters ∅).2.1).availableClusters ≠ [] :=
        fun h => hlen (by rw [h]; rfl)
      obtain ⟨_, hids⟩ := getClusterWithScores_spec s.plugins.scores w.data task
        (filterAvailableClusters s.plugins.filters w.data task clusters
          (runGlobalFilters w.data task s.plugins.globalFilters ∅).2.1).availableClusters
        (filterAvailableClusters s.plugins.filters w.data task clusters
          (runGlobalFilters w.data task s.plugins.globalFilters ∅).2.1).cycleState
      obtain ⟨e, he, hmax, _⟩ := getMaxScoreClusterID_mem_max _ (env.intn w.draws)
        (getClusterWithScores_ne_nil s.plugins.scores w.data task _
          (filterAvailableClusters s.plugins.filters w.data task clusters
            (runGlobalFilters w.data task s.plugins.globalFilters ∅).2.1).cycleState hne)
      have hid : e.clusterID ∈ (filterAvailableClusters s.plugins.filters w.data task clusters
          (runGlobalFilters w.data task s.plugins.globalFilters ∅).2.1).availableClusters.map
            (fun c => c.ID) := by
        rw [← hids]
        exact List.mem_map.mpr ⟨e, he, rfl⟩
      obtain ⟨c, hc, hcid⟩ := List.mem_map.mp hid
      refine Or.inr ⟨c, hc, ?_, ?_⟩
      · simp only [hg, hlen, if_false, hmax, callUpdateTask, hcid]
      · simp [hg, hlen, hmax, callUpdateTask, hcid]

theorem runFilters_accept_each {F : Type} (d : data F) (task : TaskInfo F)
    (cluster : ClusterInfo F) (fs : List (FilterPlugin F)) (cs : CycleState F)
    (hacc : (runFilters d task cluster fs cs).1 = none) :
    ∀ f ∈ fs, ∃ s, (f.Filter d task cluster s).1 = none := by
  induction fs generalizing cs with
  | nil => exact fun f hf => by cases hf
  | cons f rest ih =>
    cases hr : (f.Filter d task cluster cs).1 with
    | some err =>
      rw [runFilters_cons_some d task cluster f rest cs err hr] at hacc
      cases hacc
    | none =>
      rw [runFilters_cons_none d task cluster f rest cs hr] at hacc
      intro f' hf'
      rcases List.mem_cons.mp hf' with h | h
      · subst h
        exact ⟨cs, hr⟩
      · exact ih _ hacc f' h

theorem cpuSum_cons {F : Type} (t : TaskInfo F) (rest : List (TaskInfo F)) :
    clustercapacity.cpuSum (t :: rest) =
      (match t.Resources with
       | some res => res.CPUCores
       | none => 0) + clustercapacity.cpuSum rest := by
  unfold clustercapacity.cpuSum
  cases h : t.Resources with
  | none => simp [List.filterMap_cons, h]
  | some res => simp [List.filterMap_cons, h]

theorem accepted_bounds {F : Type} [Zero F] [Add F] [LT F] [∀ a b : F, Decidable (a < b)]
    (d : data F) (task : TaskInfo F) (c : ClusterInfo F) (cap : Capacity F)
    (cs : CycleState F) (hc : c.Capacity = some cap)
    (hacc : (clustercapacity.Filter d task c cs).1 = none) :
    (∀ n, cap.Count = some n → n < 9223372036854775807 →
      ((ListTasks d c.ID).length : Int) ≤ n → ((ListTasks d c.ID).length : Int) + 1 ≤ n) ∧
    (∀ k res, cap.CPUCores = some k → task.Resources = some res → 0 < res.CPUCores →
      -9223372036854775808 ≤ clustercapacity.cpuSum (ListTasks d c.ID) →
      clustercapacity.cpuSum (ListTasks d c.ID) + res.CPUCores < 9223372036854775808 →
      clustercapacity.cpuSum (ListTasks d c.ID) + res.CPUCores ≤ k) := by
  have hnot : ¬ clustercapacity.capacityExceeded cap task (ListTasks d c.ID) := by
    intro hex
    have := (clustercapacity.Filter_isSome_iff d task c cs cap hc).mpr hex
    rw [hacc] at this
    cases this
  unfold clustercapacity.capacityExceeded at hnot
  simp only [not_or, not_exists, not_and] at hnot
  obtain ⟨hcount, hres⟩ := hnot
  refine ⟨?_, ?_⟩
  · intro n hn hmax hle
    have h1 := hcount n hn
    unfold clustercapacity.occupiedCount at h1
    rw [wrapInt64_of_range ((ListTasks d c.ID).length : Int) (by omega) (by omega),
      wrapInt64_of_range (((ListTasks d c.ID).length : Int) + 1) (by omega) (by omega)] at h1
    omega
  · intro k res hk hr hpos hlow hhigh
    have h1 := (hres res hr).1 k hk hpos
    unfold clustercapacity.occupiedCPUCores at h1
    have hsum : ((List.filterMap (fun item => item.Resources) (ListTasks d c.ID)).map
        (fun res => res.CPUCores)).sum = clustercapacity.cpuSum (ListTasks d c.ID) := rfl
    rw [hsum, wrapInt64_of_range (clustercapacity.cpuSum (ListTasks d c.ID)) hlow (by omega),
      wrapInt64_of_range _ (by omega) hhigh] at h1
    omega

/-- C37: with ClusterCapacity among the filters, ready clusters with distinct non-empty
IDs, a task cache that satisfies the index invariant and a candidate that is the cached,
unscheduled entry of its ID: for every ready cluster with a non-null Count capacity that
holds at most that many tasks before `scheduleTask`, the same is true after it, and
likewise for the sum of the CPU cores of its tasks and a non-null CPUCores capacity,
whatever the upstream answers to the update. The capacities and sums are taken to be in
the range in which the Go int additions of `Filter` do not wrap. -/
theorem scheduleTask_keeps_capacity {F : Type} [Zero F] [Add F] [LT F]
    [∀ a b : F, Decidable (a < b)] (s : Scheduler F) (env : Env F) (w : World F)
    (task : TaskInfo F) (clusters : List (ClusterInfo F))
    (hfilter : ({ Name := clustercapacity.Name, Filter := clustercapacity.Filter } :
      FilterPlugin F) ∈ s.plugins.filters)
    (hI : IndexInv w.data) (hcached : w.data.tasks.lookup task.ID = some task)
    (hun : task.ClusterID = "")
    (hdistinct : (clusters.map (fun c => c.ID)).Nodup)
    (hids : ∀ c ∈ clusters, c.ID ≠ "") :
    ∀ c ∈ clusters, ∀ cap, c.Capacity = some cap →
      (∀ n, cap.Count = some n → n < 9223372036854775807 →
        ((ListTasks w.data c.ID).length : Int) ≤ n →
        ((ListTasks (scheduleTask s env w task clusters).data c.ID).length : Int) ≤ n) ∧
      (∀ k, cap.CPUCores = some k →
        -9223372036854775808 ≤ clustercapacity.cpuSum (ListTasks w.data c.ID) →
        (∀ res, task.Resources = some res →
          clustercapacity.cpuSum (ListTasks w.data c.ID) + res.CPUCores
            < 9223372036854775808) →
        clustercapacity.cpuSum (ListTasks w.data c.ID) ≤ k →
        clustercapacity.cpuSum (ListTasks (scheduleTask s env w task clusters).data c.ID)
          ≤ k) := by
  intro c hcm cap hcap
  rcases scheduleTask_data s env w task clusters with hd | ⟨c1, hc1, hd, _⟩
  · rw [hd]
    exact ⟨fun _ _ _ h => h, fun _ _ _ _ h => h⟩
  · rw [hd, UpdateTask_assign]
    cases hup : (env.upstream w.updates
        (updateTaskRequest task.ID none (some c1.ID) none)).isSome with
    | true =>
      simp only [if_true]
      exact ⟨fun _ _ _ h => h, fun _ _ _ _ h => h⟩
    | false =>
      simp only [Bool.false_eq_true, if_false]
      have hsub := filterFold_available_sub s.plugins.filters w.data task clusters
        { availableClusters := [], pluginNameWithErrors := ∅,
          cycleState := (runGlobalFilters w.data task s.plugins.globalFilters ∅).2.1,
          events := [] } c1 hc1
      rcases hsub with h | ⟨hc1m, cs, hrun⟩
      · cases h
      · obtain ⟨cs', hacc⟩ := runFilters_accept_each w.data task c1 s.plugins.filters cs hrun
          _ hfilter
        simp only at hacc
        by_cases hid : c.ID = c1.ID
        · have hcc : c = c1 := List.inj_on_of_nodup_map hdistinct hcm hc1m hid
          subst hcc
          have hne : task.ClusterID ≠ c.ID := by
            rw [hun]
            exact Ne.symm (hids c hcm)
          rw [ListTasks_move_target w.data hI task.ID c.ID task hcached hne]
          obtain ⟨hb1, hb2⟩ := accepted_bounds w.data task c cap cs' hcap hacc
          refine ⟨?_, ?_⟩
          · intro n hn hmax hle
            have := hb1 n hn hmax hle
            simp only [List.length_cons, Nat.cast_add, Nat.cast_one]
            exact this
          · intro k hk hlow hhigh hle
            rw [cpuSum_cons]
            have hres : (updatedTask task none (some c.ID)).Resources = task.Resources := rfl
            rw [hres]
            cases hr : task.Resources with
            | none =>
              simp only
              omega
            | some res =>
              simp only
              by_cases hpos : 0 < res.CPUCores
              · have := hb2 k res hk hr hpos hlow (hhigh res hr)
                omega
              · omega
        · have hxt : c.ID ≠ task.ClusterID := by
            rw [hun]
            exact hids c hcm
          rw [ListTasks_move_other w.data hI task.ID c1.ID c.ID task hcached hid hxt]
          exact ⟨fun _ _ _ h => h, fun _ _ _ _ h => h⟩

theorem testData_indexInv : IndexInv testData :=
  indexInv_addTask _ (indexInv_addTask _ (indexInv_addTask _ indexInv_empty _ (by decide)) _
    (by decide)) _ (by decide)

theorem scheduleTask_keeps_capacity_witness :
    ((ListTasks (scheduleTask slotScheduler slotEnv testWorld
      (bareTask "task-02" consts.TaskQueued) [singleSlotCluster]).data
      singleSlotCluster.ID).length : Int) ≤ 1 :=
  ((scheduleTask_keeps_capacity slotScheduler slotEnv testWorld
    (bareTask "task-02" consts.TaskQueued) [singleSlotCluster] (List.mem_cons_self _ _)
    testData_indexInv rfl rfl (by decide)
    (fun c hc => by
      rw [List.mem_singleton] at hc
      rw [hc]
      decide)
    singleSlotCluster (List.mem_cons_self _ _) _ rfl).1 1 rfl (by decide) (by decide))

theorem totalCount_cons {F : Type} [Zero F] [Add F] (t : TaskInfo F)
    (rest : List (TaskInfo F)) :
    (clustercapacity.totals.of (t :: rest)).totalCount =
      wrapInt64 ((clustercapacity.totals.of rest).totalCount + 1) := by
  rw [(clustercapacity.totals_of_eq (t :: rest)).1, (clustercapacity.totals_of_eq rest).1]
  unfold clustercapacity.occupiedCount
  rw [wrapInt64_add_left]
  simp

/-- C31 (counterexample): a tick with two queued tasks and one cluster that has room for
one task. On the cache as it was when the tick began the cluster holds no task and
`Filter` accepts task-01; in the tick task-02 is assigned first, the cache then lists it
under the cluster, and the `Filter` call for task-01 counts it and rejects: task-01 is
not assigned. -/
theorem Filter_counts_assignment_of_tick :
    ListTasks testWorld.data "cluster-01" = [] ∧
    (clustercapacity.Filter testWorld.data (bareTask "task-01" consts.TaskQueued)
      singleSlotCluster ∅).1 = none ∧
    (scheduleTasks slotScheduler slotEnv testWorld).events =
      [Event.UpdateTask "task-canceling" (some consts.TaskCanceled) none none,
       Event.Less "fakeSort"
         [bareTask "task-02" consts.TaskQueued, bareTask "task-01" consts.TaskQueued],
       Event.Filter "ClusterCapacity" (bareTask "task-02" consts.TaskQueued) singleSlotCluster,
       Event.UpdateTask "task-02" none (some "cluster-01") none,
       Event.Filter "ClusterCapacity" (bareTask "task-01" consts.TaskQueued)
         singleSlotCluster] ∧
    ListTasks (scheduleTask slotScheduler slotEnv (loopStart slotScheduler slotEnv testWorld)
      (bareTask "task-02" consts.TaskQueued) [singleSlotCluster]).data "cluster-01" =
      [updatedTask (bareTask "task-02" consts.TaskQueued) none (some "cluster-01")] ∧
    (clustercapacity.Filter
      (scheduleTask slotScheduler slotEnv (loopStart slotScheduler slotEnv testWorld)
        (bareTask "task-02" consts.TaskQueued) [singleSlotCluster]).data
      (bareTask "task-01" consts.TaskQueued) singleSlotCluster ∅).1.isSome = true :=
  ⟨rfl, rfl, rfl, rfl, rfl⟩

/-- C31 (amended): the totals that ClusterCapacity.Filter computes for a cluster are
those of the task cache at the time of the call. `scheduleTask` either leaves the cache
as it is or ends with the update that assigns the candidate to an available cluster; when
the upstream rejects that update the cache is as before, and when it accepts it the
candidate (a cached, unscheduled task) is listed first under its new cluster, so that the
count that `Filter` computes for this cluster for every later task is one higher. -/
theorem Filter_reads_current_cache {F : Type} [Zero F] [Add F] [LT F]
    [∀ a b : F, Decidable (a < b)] (s : Scheduler F) (env : Env F) (w : World F)
    (task : TaskInfo F) (clusters : List (ClusterInfo F))
    (hI : IndexInv w.data) (hcached : w.data.tasks.lookup task.ID = some task)
    (hun : task.ClusterID = "") :
    (∀ (d : data F) (later : TaskInfo F) (c : ClusterInfo F) (cs : CycleState F)
        (cap : Capacity F), c.Capacity = some cap →
      (clustercapacity.Filter d later c cs).1 = none →
      clustercapacity.HoldsTotals (clustercapacity.Filter d later c cs).2
        (clustercapacity.totals.of (ListTasks d c.ID))) ∧
    ((scheduleTask s env w task clusters).data = w.data ∨
      ∃ c ∈ clusters,
        (scheduleTask s env w task clusters).events.getLast? =
          some (Event.UpdateTask task.ID none (some c.ID) none) ∧
        ((env.upstream w.updates (updateTaskRequest task.ID none (some c.ID) none)).isSome
            = true →
          (scheduleTask s env w task clusters).data = w.data) ∧
        (env.upstream w.updates (updateTaskRequest task.ID none (some c.ID) none) = none →
          c.ID ≠ "" →
          ListTasks (scheduleTask s env w task clusters).data c.ID =
            updatedTask task none (some c.ID) :: ListTasks w.data c.ID ∧
          (clustercapacity.totals.of
              (ListTasks (scheduleTask s env w task clusters).data c.ID)).totalCount =
            wrapInt64 ((clustercapacity.totals.of (ListTasks w.data c.ID)).totalCount + 1))) := by
  refine ⟨?_, ?_⟩
  · intro d later c cs cap hc hacc
    rw [clustercapacity.Filter_accept_holds d later c cs cap hc hacc]
    exact clustercapacity.deposit_holds _ _
  · rcases scheduleTask_data s env w task clusters with hd | ⟨c, hc, hd, hev⟩
    · exact Or.inl hd
    · have hcm : c ∈ clusters := by
        rcases filterFold_available_sub s.plugins.filters w.data task clusters
          { availableClusters := [], pluginNameWithErrors := ∅,
            cycleState := (runGlobalFilters w.data task s.plugins.globalFilters ∅).2.1,
            events := [] } c hc with h | h
        · cases h
        · exact h.1
      refine Or.inr ⟨c, hcm, hev, ?_, ?_⟩
      · intro hup
        rw [hd, UpdateTask_assign, hup]
        rfl
      · intro hup hid
        have hne : task.ClusterID ≠ c.ID := by
          rw [hun]
          exact Ne.symm hid
        have hdata : (scheduleTask s env w task clusters).data =
            w.data.updateTask task.ID none (some c.ID) := by
          rw [hd, UpdateTask_assign, hup]
          rfl
        rw [hdata, ListTasks_move_target w.data hI task.ID c.ID task hcached hne]
        exact ⟨rfl, totalCount_cons _ _⟩

theorem Filter_reads_current_cache_witness :
    clustercapacity.HoldsTotals
      (clustercapacity.Filter testWorld.data (bareTask "task-01" consts.TaskQueued)
        singleSlotCluster ∅).2
      (clustercapacity.totals.of (ListTasks testWorld.data singleSlotCluster.ID)) :=
  (Filter_reads_current_cache slotScheduler slotEnv testWorld
    (bareTask "task-02" consts.TaskQueued) [singleSlotCluster] testData_indexInv rfl rfl).1
    testWorld.data (bareTask "task-01" consts.TaskQueued) singleSlotCluster ∅ _ rfl rfl

end TesScheduler
